import Mathlib

/-!
# Arnold renderer back end: caches, attribute bundles and light-filter links

A shallow embedding of `src/GafferArnold/IECoreArnoldPreview/Renderer.cpp`.

Conventions of the embedding.

* An `AtNode *` is an address (`AtNodePtr`); the Arnold universe is an
  association list from addresses to node contents. A null pointer is `none`.
* A node stores the parameters that were set explicitly; a getter on a
  parameter that was never set returns the zero value of its type.
* `float` values are rationals. The code only compares, multiplies and stores
  them.
* `IECore::MurmurHash` is the sequence of the values appended to it, so two
  hashes are equal exactly when the appended sequences are equal.
* `tbb::concurrent_hash_map` and `std::unordered_set` are lists without
  duplicate keys; insertion appends at the end. Calls are sequential.
* External routines (geometry conversion, the linked Arnold version) are the
  fields of `External`.
-/

namespace GafferArnold

/-! ## Association lists -/

/-- Value stored under key `k`, if any. -/
def assocFind {α β : Type} [DecidableEq α] : List (α × β) → α → Option β
  | [], _ => none
  | (k', v) :: rest, k => if k' = k then some v else assocFind rest k

/-- Replaces the value stored under `k`, or appends a new entry when `k` is absent. -/
def assocSet {α β : Type} [DecidableEq α] : List (α × β) → α → β → List (α × β)
  | [], k, v => [(k, v)]
  | (k', v') :: rest, k, v =>
    if k' = k then (k, v) :: rest else (k', v') :: assocSet rest k v

/-- Removes every entry stored under `k`. -/
def assocErase {α β : Type} [DecidableEq α] (l : List (α × β)) (k : α) : List (α × β) :=
  l.filter (fun e => decide (e.1 ≠ k))

/-- Insertion into a `std::unordered_set`: no effect when the element is present. -/
def setInsert {α : Type} [DecidableEq α] (s : List α) (x : α) : List α :=
  if x ∈ s then s else s ++ [x]

/-! ## Arnold nodes -/

/-- Address of a native node. -/
abbrev AtNodePtr := Nat

/-- The `AI_NODE_*` kinds of node entry. -/
inductive NodeEntryType where
  | AI_NODE_SHAPE
  | AI_NODE_CAMERA
  | AI_NODE_LIGHT
  | AI_NODE_SHADER
  | AI_NODE_OPTIONS
  | AI_NODE_OTHER
  deriving DecidableEq, Repr

/-- A parameter value of a native node. -/
inductive ParamValue where
  | byte (v : Nat)
  | int (v : Int)
  | bool (v : Bool)
  | flt (v : ℚ)
  | str (v : String)
  | ptr (v : Option AtNodePtr)
  | strArray (v : List String)
  | ptrArray (v : List (Option AtNodePtr))
  | link (source : AtNodePtr)
  | data (typeName : String)
  | matrix (v : List ℚ)
  | matrixArray (v : List (List ℚ))
  deriving DecidableEq, Repr

/-- A node entry: the class of a node, its kind and its declared parameters. -/
structure AtNodeEntry where
  name : String
  type : NodeEntryType
  params : List String
  deriving DecidableEq, Repr

/-- Contents of a native node. -/
structure AtNode where
  entry : AtNodeEntry
  name : String
  params : List (String × ParamValue)
  userParams : List (String × ParamValue)
  deriving DecidableEq, Repr

/-- The Arnold universe: the options node, the live nodes and the next free address. -/
structure AtUniverse where
  options : AtNode
  nodes : List (AtNodePtr × AtNode)
  next : AtNodePtr
  deriving DecidableEq, Repr

namespace AtNode

def getParam (n : AtNode) (p : String) : Option ParamValue := assocFind n.params p

def setParam (n : AtNode) (p : String) (v : ParamValue) : AtNode :=
  { n with params := assocSet n.params p v }

def resetParam (n : AtNode) (p : String) : AtNode :=
  { n with params := assocErase n.params p, userParams := assocErase n.userParams p }

def getFlt (n : AtNode) (p : String) : ℚ :=
  match n.getParam p with
  | some (.flt v) => v
  | _ => 0

def getStr (n : AtNode) (p : String) : String :=
  match n.getParam p with
  | some (.str v) => v
  | _ => ""

def getPtr (n : AtNode) (p : String) : Option AtNodePtr :=
  match n.getParam p with
  | some (.ptr v) => v
  | _ => none

def getByte (n : AtNode) (p : String) : Nat :=
  match n.getParam p with
  | some (.byte v) => v
  | _ => 0

def getStrArray (n : AtNode) (p : String) : List String :=
  match n.getParam p with
  | some (.strArray v) => v
  | _ => []

/-- Models `AiNodeIs`: the node is of the named class. -/
def is (n : AtNode) (entryName : String) : Bool := decide (n.entry.name = entryName)

/-- Models `AiNodeEntryLookUpParameter( AiNodeGetNodeEntry( node ), p )`. -/
def hasParameter (n : AtNode) (p : String) : Bool := decide (p ∈ n.entry.params)

end AtNode

namespace AtUniverse

def node? (u : AtUniverse) (p : AtNodePtr) : Option AtNode := assocFind u.nodes p

/-- Applies `f` to the node at `p`; nothing happens when no node lives there. -/
def modify (u : AtUniverse) (p : AtNodePtr) (f : AtNode → AtNode) : AtUniverse :=
  match u.node? p with
  | some n => { u with nodes := assocSet u.nodes p (f n) }
  | none => u

/-- Models `AiNode( entry, name, parent )`: a new node at a fresh address. -/
def AiNode (u : AtUniverse) (n : AtNode) : AtNodePtr × AtUniverse :=
  (u.next, { u with nodes := assocSet u.nodes u.next n, next := u.next + 1 })

/-- Models `AiNodeDestroy`. -/
def AiNodeDestroy (u : AtUniverse) (p : AtNodePtr) : AtUniverse :=
  { u with nodes := assocErase u.nodes p }

/-- Models `AiNodeLookUpByName`. -/
def AiNodeLookUpByName (u : AtUniverse) (name : String) : Option AtNodePtr :=
  (u.nodes.find? (fun e => decide (e.2.name = name))).map Prod.fst

end AtUniverse

/-- The two node deleters of `nodeDeleter( renderType )`. -/
inductive NodeDeleter where
  | AiNodeDestroy
  | nullNodeDeleter
  deriving DecidableEq, Repr

/-- Runs a node deleter on a node. -/
def NodeDeleter.run (d : NodeDeleter) (u : AtUniverse) (p : AtNodePtr) : AtUniverse :=
  match d with
  | .AiNodeDestroy => u.AiNodeDestroy p
  | .nullNodeDeleter => u

/-! ## Hashes -/

/-- One value passed to `MurmurHash::append`. -/
inductive HashValue where
  | int (v : Int)
  | flt (v : ℚ)
  | str (v : String)
  | bool (v : Bool)
  | strings (v : List String)
  | object (contentHash : Nat)
  deriving DecidableEq, Repr

/-- A hash is the sequence of values appended to it. -/
abbrev MurmurHash := List HashValue

def HashValue.toString : HashValue → String
  | .int v => "i" ++ ToString.toString v
  | .flt v => "f" ++ ToString.toString v.num ++ "/" ++ ToString.toString v.den
  | .str v => "s" ++ v
  | .bool v => "b" ++ ToString.toString v
  | .strings v => "v" ++ String.intercalate "," v
  | .object h => "o" ++ ToString.toString h

def MurmurHash.toString (h : MurmurHash) : String :=
  String.intercalate ":" (h.map HashValue.toString)


/-! ## Scene objects -/

/-- The run-time types of scene objects the renderer distinguishes. -/
inductive TypeId where
  | InvalidTypeId
  | MeshPrimitive
  | CurvesPrimitive
  | SpherePrimitive
  | ExternalProcedural
  | VDBObject
  | Procedural
  | OtherVisibleRenderable
  | Camera
  | OtherObject
  deriving DecidableEq, Repr

/-- A scene object, reduced to what the renderer inspects. -/
structure Object where
  typeId : TypeId
  /-- Result of `MeshPrimitive::interpolation()`. -/
  interpolation : String
  /-- Result of `ExternalProcedural::getFileName()`. -/
  fileName : String
  /-- Result of `Object::hash()`. -/
  hash : MurmurHash
  deriving DecidableEq, Repr

/-- Models `runTimeCast<const VisibleRenderable>( object )` being non-null. -/
def Object.isVisibleRenderable (o : Object) : Bool :=
  match o.typeId with
  | .MeshPrimitive | .CurvesPrimitive | .SpherePrimitive | .ExternalProcedural
  | .VDBObject | .Procedural | .OtherVisibleRenderable => true
  | _ => false

/-- An abstract shader network, identified by its content hash. -/
structure ShaderNetwork where
  hash : Nat
  deriving DecidableEq, Repr

/-- A compiled shader network: the native nodes it owns, the root last. -/
structure ArnoldShader where
  m_nodes : List AtNodePtr
  deriving DecidableEq, Repr

def ArnoldShader.root (s : ArnoldShader) : Option AtNodePtr := s.m_nodes.getLast?

/-- A `StringVectorData` object: its address and the strings it holds. -/
structure StringVectorData where
  addr : Nat
  readable : List String
  deriving DecidableEq, Repr

/-- Models `AiNodeGetName`. -/
def AiNodeGetName (u : AtUniverse) (p : AtNodePtr) : String :=
  match u.node? p with
  | some n => n.name
  | none => ""

/-- Models `ParameterAlgo::setParameter`: a declared parameter is set, any other
name becomes a user parameter. -/
def ParameterAlgo.setParameter (n : AtNode) (name : String) (v : ParamValue) : AtNode :=
  if n.hasParameter name then n.setParam name v
  else { n with userParams := assocSet n.userParams name v }

/-! ## ArnoldAttributes -/

structure PolyMesh where
  subdivIterations : Int
  subdivAdaptiveError : ℚ
  subdivAdaptiveMetric : String
  subdivAdaptiveSpace : String
  subdivUVSmoothing : String
  subdividePolygons : Bool
  subdivSmoothDerivs : Bool
  deriving DecidableEq, Repr

structure Displacement where
  map : Option ArnoldShader
  height : ℚ
  padding : ℚ
  zeroValue : ℚ
  autoBump : Bool
  deriving DecidableEq, Repr

structure Curves where
  minPixelWidth : ℚ
  thick : Bool
  deriving DecidableEq, Repr

structure Volume where
  volumeGrids : Option (List String)
  velocityGrids : Option (List String)
  velocityScale : Option ℚ
  velocityFPS : Option ℚ
  velocityOutlierThreshold : Option ℚ
  stepSize : Option ℚ
  stepScale : Option ℚ
  deriving DecidableEq, Repr

/-- The attribute bundle built by `ArnoldAttributes::ArnoldAttributes`. -/
structure ArnoldAttributes where
  m_visibility : Nat
  m_sidedness : Nat
  m_shadingFlags : Nat
  m_surfaceShader : Option ArnoldShader
  m_filterMap : Option ArnoldShader
  m_uvRemap : Option ArnoldShader
  m_lightShader : Option ShaderNetwork
  m_lightFilterShader : Option ShaderNetwork
  m_lightFilterShaders : List ArnoldShader
  m_traceSets : Option (List String)
  m_transformType : Option String
  m_stepSize : ℚ
  m_stepScale : ℚ
  m_volumePadding : ℚ
  m_polyMesh : PolyMesh
  m_displacement : Displacement
  m_curves : Curves
  m_volume : Volume
  m_linkedLights : Option StringVectorData
  m_shadowGroup : Option StringVectorData
  m_filteredLights : Option StringVectorData
  m_user : List (String × ParamValue)
  m_sssSetName : Option String
  deriving DecidableEq, Repr

/-- The values of `enum ShadingFlags`. -/
def ReceiveShadows : Nat := 1
def SelfShadows : Nat := 2
def Opaque : Nat := 4
def Matte : Nat := 8

namespace PolyMesh

def hash (self : PolyMesh) (meshInterpolationIsLinear : Bool) (h : MurmurHash) : MurmurHash :=
  if !meshInterpolationIsLinear || self.subdividePolygons then
    h ++ [.int self.subdivIterations, .flt self.subdivAdaptiveError,
          .str self.subdivAdaptiveMetric, .str self.subdivAdaptiveSpace,
          .str self.subdivUVSmoothing, .bool self.subdivSmoothDerivs]
  else h

def apply (self : PolyMesh) (mesh : Object) (node : AtNode) : AtNode :=
  if mesh.interpolation ≠ "linear" || self.subdividePolygons then
    let n := node.setParam "subdiv_iterations" (.byte (self.subdivIterations % 256).toNat)
    let n := n.setParam "subdiv_adaptive_error" (.flt self.subdivAdaptiveError)
    let n := n.setParam "subdiv_adaptive_metric" (.str self.subdivAdaptiveMetric)
    let n := n.setParam "subdiv_adaptive_space" (.str self.subdivAdaptiveSpace)
    let n := n.setParam "subdiv_uv_smoothing" (.str self.subdivUVSmoothing)
    let n := n.setParam "subdiv_smooth_derivs" (.bool self.subdivSmoothDerivs)
    if mesh.interpolation = "linear" then n.setParam "subdiv_type" (.str "linear") else n
  else node

end PolyMesh

namespace Displacement

/-- The root node of the displacement map, when `map && map->root()`. -/
def mapRoot (self : Displacement) : Option AtNodePtr :=
  match self.map with
  | some m => m.root
  | none => none

def hash (self : Displacement) (u : AtUniverse) (h : MurmurHash) : MurmurHash :=
  let h := match self.mapRoot with
    | some r => h ++ [.str (AiNodeGetName u r)]
    | none => h
  h ++ [.flt self.height, .flt self.padding, .flt self.zeroValue, .bool self.autoBump]

def apply (self : Displacement) (node : AtNode) : AtNode :=
  let n := match self.mapRoot with
    | some r => node.setParam "disp_map" (.ptr (some r))
    | none => node.resetParam "disp_map"
  let n := n.setParam "disp_height" (.flt self.height)
  let n := n.setParam "disp_padding" (.flt self.padding)
  let n := n.setParam "disp_zero_value" (.flt self.zeroValue)
  n.setParam "disp_autobump" (.bool self.autoBump)

end Displacement

namespace Curves

def hash (self : Curves) (h : MurmurHash) : MurmurHash :=
  h ++ [.flt self.minPixelWidth, .bool self.thick]

def apply (self : Curves) (node : AtNode) : AtNode :=
  let n := node.setParam "min_pixel_width" (.flt self.minPixelWidth)
  if self.thick then n.setParam "mode" (.str "thick") else n

end Curves

namespace Volume

def hash (self : Volume) (h : MurmurHash) : MurmurHash :=
  let h := match self.volumeGrids with
    | some g => h ++ [.strings g]
    | none => h
  let h := match self.velocityGrids with
    | some g => h ++ [.strings g]
    | none => h
  h ++ [.flt (self.velocityScale.getD 1), .flt (self.velocityFPS.getD 24),
        .flt (self.velocityOutlierThreshold.getD (1 / 1000)),
        .flt (self.stepSize.getD 0), .flt (self.stepScale.getD 1)]

/-- The test `!velocityScale || velocityScale.get() > 0`. -/
def wantsMotion (self : Volume) : Bool :=
  match self.velocityScale with
  | none => true
  | some s => decide (0 < s)

def apply (self : Volume) (u : AtUniverse) (node : AtNode) : AtNode :=
  let n := match self.volumeGrids with
    | some g => if g.length ≠ 0 then node.setParam "grids" (.strArray g) else node
    | none => node
  let n := match self.velocityGrids with
    | some g => if g.length ≠ 0 then n.setParam "velocity_grids" (.strArray g) else n
    | none => n
  let n :=
    if self.wantsMotion then
      match (u.options.getPtr "camera").bind u.node? with
      | some arnoldCamera =>
        (n.setParam "motion_start" (.flt (arnoldCamera.getFlt "shutter_start"))).setParam
          "motion_end" (.flt (arnoldCamera.getFlt "shutter_end"))
      | none => n
    else n
  let n := match self.velocityScale with
    | some v => n.setParam "velocity_scale" (.flt v)
    | none => n
  let n := match self.velocityFPS with
    | some v => n.setParam "velocity_fps" (.flt v)
    | none => n
  let n := match self.velocityOutlierThreshold with
    | some v => n.setParam "velocity_outlier_threshold" (.flt v)
    | none => n
  match self.stepSize with
  | some s => n.setParam "step_size" (.flt (s * self.stepScale.getD 1))
  | none =>
    match self.stepScale with
    | some s => n.setParam "step_scale" (.flt s)
    | none => n

end Volume

namespace ArnoldAttributes

def hashGeometryInternal (self : ArnoldAttributes) (u : AtUniverse) (objectType : TypeId)
    (meshInterpolationIsLinear proceduralIsVolumetric : Bool) (h : MurmurHash) : MurmurHash :=
  match objectType with
  | .MeshPrimitive =>
    let h := self.m_polyMesh.hash meshInterpolationIsLinear h
    let h := self.m_displacement.hash u h
    h ++ [.flt self.m_stepSize, .flt self.m_stepScale, .flt self.m_volumePadding]
  | .CurvesPrimitive => self.m_curves.hash h
  | .SpherePrimitive =>
    h ++ [.flt self.m_stepSize, .flt self.m_stepScale, .flt self.m_volumePadding]
  | .ExternalProcedural =>
    if proceduralIsVolumetric then
      self.m_volume.hash
        (h ++ [.flt self.m_stepSize, .flt self.m_stepScale, .flt self.m_volumePadding])
    else h
  | .VDBObject => self.m_volume.hash (h ++ [.flt self.m_volumePadding])
  | _ => h

def hashGeometry (self : ArnoldAttributes) (u : AtUniverse) (object : Object)
    (h : MurmurHash) : MurmurHash :=
  let meshInterpolationIsLinear :=
    decide (object.typeId = .MeshPrimitive) && decide (object.interpolation = "linear")
  let proceduralIsVolumetric :=
    decide (object.typeId = .ExternalProcedural) && decide (object.fileName = "volume")
  self.hashGeometryInternal u object.typeId meshInterpolationIsLinear proceduralIsVolumetric h

def applyGeometry (self : ArnoldAttributes) (u : AtUniverse) (object : Object)
    (node : AtNode) : AtNode :=
  let n :=
    match object.typeId with
    | .MeshPrimitive => self.m_displacement.apply (self.m_polyMesh.apply object node)
    | .CurvesPrimitive => self.m_curves.apply node
    | .VDBObject => self.m_volume.apply u node
    | .ExternalProcedural =>
      if object.fileName = "volume" then self.m_volume.apply u node else node
    | _ => node
  let actualStepSize := self.m_stepSize * self.m_stepScale
  let n :=
    if actualStepSize ≠ 0 ∧ n.hasParameter "step_size" = true then
      if n.getFlt "step_size" = 0 then n.setParam "step_size" (.flt actualStepSize) else n
    else n
  if self.m_volumePadding ≠ 0 ∧ n.hasParameter "volume_padding" = true then
    n.setParam "volume_padding" (.flt self.m_volumePadding)
  else n

def canInstanceGeometry (self : ArnoldAttributes) (object : Object) : Bool :=
  if !object.isVisibleRenderable then false
  else if object.typeId = .MeshPrimitive then
    if object.interpolation = "linear" then true
    else decide (self.m_polyMesh.subdivAdaptiveError = 0)
      || decide (self.m_polyMesh.subdivAdaptiveSpace = "object")
  else if object.typeId = .ExternalProcedural then
    !object.fileName.endsWith ".ass" && !object.fileName.endsWith ".ass.gz"
  else true

end ArnoldAttributes

/-- An `IECoreScene::Camera`, by the values of the accessors the renderer calls: the
components of the resolution and of the render region `( min, max )` are `int` values,
and `mesh` is the "mesh" parameter, empty when absent. -/
structure Camera where
  renderResolution : Int × Int
  renderRegion : (Int × Int) × (Int × Int)
  pixelAspectRatio : ℚ
  shutter : ℚ × ℚ
  mesh : String
  deriving DecidableEq, Repr

/-! ## Render state and external routines -/

/-- The cache of `LightListCache`, keyed by the content of the name list. -/
structure LightListCache where
  m_cache : List (List String × List AtNodePtr)
  deriving DecidableEq, Repr

def LightListCache.get (self : LightListCache) (u : AtUniverse) (nodeNamesData : StringVectorData) :
    List AtNodePtr × LightListCache :=
  let current := (assocFind self.m_cache nodeNamesData.readable).getD []
  let filled :=
    if current.isEmpty then
      nodeNamesData.readable.filterMap (fun name => u.AiNodeLookUpByName ("light:" ++ name))
    else current
  (filled, { m_cache := assocSet self.m_cache nodeNamesData.readable filled })

/-- The state the renderer mutates: the Arnold universe, the light-list cache and
the log of node names the geometry converter was called with. -/
structure World where
  ai : AtUniverse
  lightListCache : LightListCache
  conversions : List String
  deriving DecidableEq, Repr

/-- Routines and constants that the embedding takes as given. -/
structure External where
  /-- `NodeAlgo::convert( object, nodeName, parent )`: the node it creates, if any. -/
  convert : Object → String → Option AtNode
  /-- The node `convertProcedural( procedural, nodeName, parent )` returns; it runs the
  procedural's own `render` against a nested renderer. -/
  convertProcedural : Object → String → Option AtNode
  /-- The four numbers parsed from `AiGetVersion`. -/
  arnoldVersion : Int × Int × Int × Int
  /-- `ShaderNetworkAlgo::convert( network, names, parent )`: the nodes it creates, the
  root last. -/
  convertShaderNetwork : ShaderNetwork → String → List AtNode
  /-- The node `CameraAlgo::convert( camera, name, parent )` creates. -/
  convertCamera : Camera → String → AtNode
  /-- The camera `new IECoreScene::Camera()` makes. -/
  defaultCamera : Camera
  /-- `NodeAlgo::ensureUniformTimeSamples( times )`: the `what()` of the exception it
  throws, if any. -/
  ensureUniformTimeSamples : List ℚ → Option String
  /-- The value of `getenv( "OSL_SHADER_PATHS" )`. -/
  oslShaderPaths : Option String
  /-- The `try` block that creates the directory of a file name: the `what()` of the
  exception it catches, if any. -/
  createDirectories : String → Option String

/-- The converter `InstanceCache::convert` picks for an object. -/
def External.convertObject (ext : External) (o : Object) (nodeName : String) : Option AtNode :=
  if o.typeId = .Procedural then ext.convertProcedural o nodeName else ext.convert o nodeName

/-- Models `std::lexicographical_compare` on integer ranges. -/
def lexicographical_compare : List Int → List Int → Bool
  | [], [] => false
  | [], _ :: _ => true
  | _ :: _, [] => false
  | a :: as, b :: bs =>
    if a < b then true else if b < a then false else lexicographical_compare as bs

def aiVersionLessThan (ext : External) (arch major minor patch : Int) : Bool :=
  let v := ext.arnoldVersion
  lexicographical_compare [v.1, v.2.1, v.2.2.1, v.2.2.2] [arch, major, minor, patch]

/-! ## ArnoldAttributes::apply -/

/-- Models `AiNodeIs` on a possibly null pointer into the universe. -/
def nodeIs (u : AtUniverse) (p : Option AtNodePtr) (entryName : String) : Bool :=
  match p.bind u.node? with
  | some n => n.is entryName
  | none => false

namespace ArnoldAttributes

/-- The node whose class is inspected by `apply`: the master of a `ginstance`,
the node itself otherwise. -/
def geometryOf (u : AtUniverse) (node : AtNodePtr) : Option AtNodePtr :=
  if nodeIs u (some node) "ginstance" then
    match u.node? node with
    | some n => n.getPtr "node"
    | none => none
  else some node

/-- The object type and flags `apply` derives from the compiled node. -/
def introspect (u : AtUniverse) (geometry : Option AtNodePtr) : TypeId × Bool × Bool :=
  if nodeIs u geometry "polymesh" then
    let subdivType := match geometry.bind u.node? with
      | some n => n.getStr "subdiv_type"
      | none => ""
    (.MeshPrimitive, decide (subdivType ≠ "catclark"), false)
  else if nodeIs u geometry "curves" then (.CurvesPrimitive, false, false)
  else if nodeIs u geometry "box" then (.MeshPrimitive, false, false)
  else if nodeIs u geometry "volume" then (.ExternalProcedural, false, true)
  else if nodeIs u geometry "sphere" then (.SpherePrimitive, false, false)
  else (.InvalidTypeId, false, false)

/-- The hash `apply` computes for a bundle against the compiled node. -/
def geometryHashFor (self : ArnoldAttributes) (u : AtUniverse) (node : AtNodePtr) : MurmurHash :=
  let t := introspect u (geometryOf u node)
  self.hashGeometryInternal u t.1 t.2.1 t.2.2 []

/-- The first part of `apply`: false when the edit would change baked geometry. -/
def compatible (self : ArnoldAttributes) (u : AtUniverse) (node : AtNodePtr)
    (previousAttributes : Option ArnoldAttributes) : Bool :=
  match previousAttributes with
  | none => true
  | some previous => decide (previous.geometryHashFor u node = self.geometryHashFor u node)

/-- Removal of stale `user:` parameters, then the setting of the wanted ones. -/
def applyUser (self : ArnoldAttributes) (n : AtNode) : AtNode :=
  let cleaned := n.userParams.foldl
    (fun acc e =>
      if e.1.startsWith "user:" && (assocFind self.m_user e.1).isNone then acc.resetParam e.1
      else acc) n
  self.m_user.foldl (fun acc e => ParameterAlgo.setParameter acc e.1 e.2) cleaned

/-- The root of the surface shader, when `m_surfaceShader && m_surfaceShader->root()`. -/
def surfaceRoot (self : ArnoldAttributes) : Option AtNodePtr :=
  match self.m_surfaceShader with
  | some s => s.root
  | none => none

/-- The value `apply` gives to `trace_sets`. -/
def traceSetsValue (self : ArnoldAttributes) : List String :=
  match self.m_traceSets with
  | some v => if v.length ≠ 0 then v else ["__none__"]
  | none => ["__none__"]

/-- The shape specific part of `apply`. -/
def applyShape (self : ArnoldAttributes) (applyLinkedLights : Bool) (u : AtUniverse)
    (lights : LightListCache) (n : AtNode) : AtNode × LightListCache :=
  let n := n.setParam "visibility" (.byte self.m_visibility)
  let n := n.setParam "sidedness" (.byte self.m_sidedness)
  let n := match self.m_transformType with
    | some t => n.setParam "transform_type" (.str t)
    | none => n
  let n := n.setParam "receive_shadows" (.bool (decide (self.m_shadingFlags &&& ReceiveShadows ≠ 0)))
  let n := n.setParam "self_shadows" (.bool (decide (self.m_shadingFlags &&& SelfShadows ≠ 0)))
  let n := n.setParam "opaque" (.bool (decide (self.m_shadingFlags &&& Opaque ≠ 0)))
  let n := n.setParam "matte" (.bool (decide (self.m_shadingFlags &&& Matte ≠ 0)))
  let n := match self.surfaceRoot with
    | some r => n.setParam "shader" (.ptr (some r))
    | none => n.resetParam "shader"
  let n := n.setParam "trace_sets" (.strArray self.traceSetsValue)
  let n := match self.m_sssSetName with
    | some name => ParameterAlgo.setParameter n "sss_setname" (.str name)
    | none => n.resetParam "sss_setname"
  let r := match self.m_linkedLights, applyLinkedLights with
    | some linked, true =>
      let g := lights.get u linked
      ((n.setParam "light_group" (.ptrArray (g.1.map some))).setParam
        "use_light_group" (.bool true), g.2)
    | _, _ => ((n.resetParam "light_group").resetParam "use_light_group", lights)
  match self.m_shadowGroup, applyLinkedLights with
  | some linked, true =>
    let g := r.2.get u linked
    ((r.1.setParam "shadow_group" (.ptrArray (g.1.map some))).setParam
      "use_shadow_group" (.bool true), g.2)
  | _, _ => ((r.1.resetParam "shadow_group").resetParam "use_shadow_group", r.2)

/-- The root of a camera shader slot. -/
def shaderRoot (s : Option ArnoldShader) : Option AtNodePtr :=
  match s with
  | some sh => sh.root
  | none => none

/-- The camera specific part of `apply`. -/
def applyCamera (self : ArnoldAttributes) (n : AtNode) : AtNode :=
  let n :=
    if n.hasParameter "filtermap" then
      match shaderRoot self.m_filterMap with
      | some r => n.setParam "filtermap" (.ptr (some r))
      | none => n.resetParam "filtermap"
    else n
  if n.hasParameter "uv_remap" then
    match shaderRoot self.m_uvRemap with
    | some r => n.setParam "uv_remap" (.link r)
    | none => n.resetParam "uv_remap"
  else n

/-- Everything `apply` does to the node once the edit is known to be compatible. -/
def applyToNode (self : ArnoldAttributes) (applyLinkedLights : Bool) (u : AtUniverse)
    (lights : LightListCache) (n : AtNode) : AtNode × LightListCache :=
  let n := self.applyUser n
  let r :=
    if n.entry.type = .AI_NODE_SHAPE then self.applyShape applyLinkedLights u lights n
    else (n, lights)
  if r.1.entry.type = .AI_NODE_CAMERA then (self.applyCamera r.1, r.2) else r

def apply (self : ArnoldAttributes) (node : AtNodePtr) (previousAttributes : Option ArnoldAttributes)
    (applyLinkedLights : Bool) (w : World) : Bool × World :=
  if self.compatible w.ai node previousAttributes then
    match w.ai.node? node with
    | some n =>
      let r := self.applyToNode applyLinkedLights w.ai w.lightListCache n
      (true, { w with ai := { w.ai with nodes := assocSet w.ai.nodes node r.1 },
                      lightListCache := r.2 })
    | none => (true, w)
  else (false, w)

end ArnoldAttributes

/-! ## Instance and InstanceCache -/

/-- The proxy returned by the instance cache: the shared master handle and the
optional `ginstance` node. -/
structure Instance where
  m_node : Option AtNodePtr
  m_ginstance : Option AtNodePtr
  deriving DecidableEq, Repr

/-- The node entry of `ginstance`. -/
def ginstanceEntry : AtNodeEntry :=
  { name := "ginstance", type := .AI_NODE_SHAPE,
    params := ["name", "node", "inherit_xform", "visibility", "sidedness", "receive_shadows",
      "self_shadows", "invert_normals", "ray_bias", "matrix", "shader", "opaque", "matte",
      "use_light_group", "light_group", "use_shadow_group", "shadow_group", "trace_sets",
      "transform_type", "motion_start", "motion_end", "id"] }

namespace Instance

/-- The non-instanced constructor. -/
def nonInstanced (node : Option AtNodePtr) : Instance := { m_node := node, m_ginstance := none }

/-- The instanced constructor. -/
def instanced (node : Option AtNodePtr) (instanceName : String) (u : AtUniverse) :
    Instance × AtUniverse :=
  match node with
  | some master =>
    let u := u.modify master (fun n => n.setParam "visibility" (.byte 0))
    let g := u.AiNode { entry := ginstanceEntry, name := instanceName, params := [], userParams := [] }
    ({ m_node := some master, m_ginstance := some g.1 },
      g.2.modify g.1 (fun n => n.setParam "node" (.ptr (some master))))
  | none => ({ m_node := none, m_ginstance := none }, u)

def node (self : Instance) : Option AtNodePtr :=
  match self.m_ginstance with
  | some g => some g
  | none => self.m_node

end Instance

structure InstanceCache where
  m_nodeDeleter : NodeDeleter
  m_parentNode : Option AtNodePtr
  m_cache : List (MurmurHash × Option AtNodePtr)
  deriving DecidableEq, Repr

namespace InstanceCache

def canInstance (self : InstanceCache) (ext : External) (object : Option Object)
    (attributes : ArnoldAttributes) : Bool :=
  match object with
  | none => false
  | some o =>
    if o.typeId = .Procedural ∧ self.m_nodeDeleter = .AiNodeDestroy
        ∧ aiVersionLessThan ext 5 0 1 4 = true then false
    else attributes.canInstanceGeometry o

def convert (_self : InstanceCache) (ext : External) (object : Option Object)
    (attributes : ArnoldAttributes) (nodeName : String) (w : World) : Option AtNodePtr × World :=
  match object with
  | none => (none, w)
  | some o =>
    let node := ext.convertObject o nodeName
    let w := { w with conversions := w.conversions ++ [nodeName] }
    match node with
    | none => (none, w)
    | some n =>
      let created := w.ai.AiNode n
      (some created.1,
        { w with ai := created.2.modify created.1 (attributes.applyGeometry created.2 o) })

/-- The key `get` uses for an object that can be instanced. -/
def key (attributes : ArnoldAttributes) (u : AtUniverse) (o : Object) : MurmurHash :=
  attributes.hashGeometry u o o.hash

/-- The block `m_cache.insert( a, h ); if( !a->second ) a->second = convert( ... )` of
`get`: the handle stored under the key when it is non-empty, a conversion otherwise. -/
def lookupOrConvert (self : InstanceCache) (ext : External) (o : Object)
    (a : ArnoldAttributes) (w : World) : Option AtNodePtr × World :=
  match (assocFind self.m_cache (key a w.ai o)).getD none with
  | some master => (some master, w)
  | none => self.convert ext (some o) a ("instance:" ++ MurmurHash.toString (key a w.ai o)) w

def get (self : InstanceCache) (ext : External) (object : Option Object)
    (attributes : ArnoldAttributes) (nodeName : String) (w : World) :
    Instance × InstanceCache × World :=
  match object, self.canInstance ext object attributes with
  | some o, true =>
    let r := self.lookupOrConvert ext o attributes w
    let i := Instance.instanced r.1 nodeName r.2.ai
    (i.1, { self with m_cache := assocSet self.m_cache (key attributes w.ai o) r.1 },
      { r.2 with ai := i.2 })
  | _, _ =>
    let r := self.convert ext object attributes nodeName w
    (Instance.nonInstanced r.1, self, r.2)

/-- Models `shared_ptr::use_count` of a handle: the handles that share the node,
in the cache and among the live proxies `holders`; zero for an empty handle. -/
def useCount (self : InstanceCache) (holders : List Instance) (p : Option AtNodePtr) : Nat :=
  match p with
  | none => 0
  | some n =>
    (self.m_cache.filter (fun e => decide (e.2 = some n))).length
      + (holders.filter (fun i => decide (i.m_node = some n))).length

/-- Models `shared_ptr::unique`. -/
def unique (self : InstanceCache) (holders : List Instance) (p : Option AtNodePtr) : Bool :=
  decide (self.useCount holders p = 1)

def clearUnused (self : InstanceCache) (holders : List Instance) (u : AtUniverse) :
    InstanceCache × AtUniverse :=
  let toErase := self.m_cache.filter (fun e => self.unique holders e.2)
  ({ self with m_cache := toErase.foldl (fun c e => assocErase c e.1) self.m_cache },
    toErase.foldl
      (fun acc e => match e.2 with
        | some n => self.m_nodeDeleter.run acc n
        | none => acc) u)

end InstanceCache

/-! ## ArnoldObject -/

structure ArnoldObject where
  m_instance : Instance
  m_attributes : Option ArnoldAttributes
  m_supportsLinkedLights : Bool
  deriving DecidableEq, Repr

def ArnoldObject.attributes (self : ArnoldObject) (attributes : ArnoldAttributes) (w : World) :
    Bool × ArnoldObject × World :=
  match self.m_instance.node with
  | none => (true, self, w)
  | some node =>
    let r := attributes.apply node self.m_attributes self.m_supportsLinkedLights w
    if r.1 then (true, { self with m_attributes := some attributes }, r.2)
    else (false, self, r.2)

/-! ## LightFilterConnections -/

/-- Address of an `ArnoldLight`. -/
abbrev ArnoldLightPtr := Nat

/-- Address of an `ArnoldLightFilter`. -/
abbrev ArnoldLightFilterPtr := Nat

/-- Address of a `FilterGroup`. -/
abbrev FilterGroupPtr := Nat

/-- A `FilterGroup` object on the heap: its address and the filters in it. -/
structure FilterGroup where
  ptr : FilterGroupPtr
  members : List ArnoldLightFilterPtr
  deriving DecidableEq, Repr

/-- The value type of `ConnectionsMap`. -/
structure Filters where
  light : Option ArnoldLightPtr
  lightFilterGroups : List FilterGroupPtr
  dirty : Bool
  deriving DecidableEq, Repr

/-- An element of `m_arnoldObjects`. -/
inductive ArnoldObjectRef where
  | light (p : ArnoldLightPtr)
  | lightFilter (p : ArnoldLightFilterPtr)
  deriving DecidableEq, Repr

/-- The link graph. `m_filterGroups` is keyed by the address of the
`StringVectorData` passed in, as `FilterGroups` is keyed by
`const IECore::StringVectorData*`. -/
structure LightFilterConnections where
  m_connections : List (String × Filters)
  m_filterGroups : List (Nat × FilterGroup)
  m_ownConnections : Bool
  m_arnoldObjects : List ArnoldObjectRef
  nextGroup : FilterGroupPtr
  warnings : List String
  deriving DecidableEq, Repr

/-- One call of `ArnoldLight::updateFilters` made by `update`. -/
structure UpdateFiltersCall where
  light : ArnoldLightPtr
  lightFilters : List ArnoldLightFilterPtr
  deriving DecidableEq, Repr

/-- An object that `m_arnoldObjects.clear()` destroys because the vector held the last
reference to it, with what its destructor passes to the link graph: `m_name` for a
light, `this` and `m_attributes->filteredLights()` for a light filter. -/
inductive Released where
  | light (m_name : String)
  | lightFilter (lightFilter : ArnoldLightFilterPtr)
      (filteredLightsData : Option StringVectorData)
  deriving DecidableEq, Repr

namespace LightFilterConnections

/-- The graph made by the constructor. -/
def new (ownConnections : Bool) : LightFilterConnections :=
  { m_connections := [], m_filterGroups := [], m_ownConnections := ownConnections,
    m_arnoldObjects := [], nextGroup := 0, warnings := [] }

def registerLight (self : LightFilterConnections) (lightName : String) (light : ArnoldLightPtr) :
    LightFilterConnections :=
  let current := (assocFind self.m_connections lightName).getD
    { light := none, lightFilterGroups := [], dirty := false }
  { self with
    m_connections := assocSet self.m_connections lightName
      { current with light := some light, dirty := true },
    m_arnoldObjects :=
      if self.m_ownConnections then self.m_arnoldObjects ++ [.light light]
      else self.m_arnoldObjects }

def deregisterLight (self : LightFilterConnections) (lightName : String) : LightFilterConnections :=
  match assocFind self.m_connections lightName with
  | some f =>
    { self with
      m_connections := assocSet self.m_connections lightName { f with light := none, dirty := true } }
  | none =>
    { self with warnings := self.warnings ++
        ["Can not deregister light filter connections for non-existing light \"" ++ lightName ++ "\""] }

/-- The loop of `registerLightFilter` over the light names. A name without an
entry leaves the accessor empty; the code then dereferences it, which has no
defined behaviour: the result is `none`. -/
def linkLights (connections : List (String × Filters)) (newFilterGroup : Bool)
    (filterGroup : FilterGroupPtr) : List String → Option (List (String × Filters))
  | [] => some connections
  | lightName :: rest =>
    match assocFind connections lightName with
    | none => none
    | some f =>
      linkLights
        (assocSet connections lightName
          { f with
            lightFilterGroups :=
              if newFilterGroup then setInsert f.lightFilterGroups filterGroup
              else f.lightFilterGroups,
            dirty := true })
        newFilterGroup filterGroup rest

def registerLightFilter (self : LightFilterConnections) (lightNames : StringVectorData)
    (lightFilter : ArnoldLightFilterPtr) : Option LightFilterConnections :=
  let found := assocFind self.m_filterGroups lightNames.addr
  let newFilterGroup := found.isNone
  let group := found.getD { ptr := self.nextGroup, members := [] }
  let group := { group with members := setInsert group.members lightFilter }
  match linkLights self.m_connections newFilterGroup group.ptr lightNames.readable with
  | none => none
  | some connections =>
    some { self with
      m_connections := connections,
      m_filterGroups := assocSet self.m_filterGroups lightNames.addr group,
      nextGroup := if newFilterGroup then self.nextGroup + 1 else self.nextGroup,
      m_arnoldObjects :=
        if self.m_ownConnections then self.m_arnoldObjects ++ [.lightFilter lightFilter]
        else self.m_arnoldObjects }

/-- The loop of `deregisterLightFilter` over the light names. -/
def unlinkLights (connections : List (String × Filters)) (groupEmptied : Bool)
    (filterGroup : FilterGroupPtr) : List String → List (String × Filters)
  | [] => connections
  | lightName :: rest =>
    match assocFind connections lightName with
    | some f =>
      unlinkLights
        (assocSet connections lightName
          { f with
            lightFilterGroups :=
              if groupEmptied then f.lightFilterGroups.filter (fun g => decide (g ≠ filterGroup))
              else f.lightFilterGroups,
            dirty := true })
        groupEmptied filterGroup rest
    | none => unlinkLights connections groupEmptied filterGroup rest

def deregisterLightFilter (self : LightFilterConnections) (lightNames : StringVectorData)
    (lightFilter : ArnoldLightFilterPtr) : LightFilterConnections :=
  match assocFind self.m_filterGroups lightNames.addr with
  | none => self
  | some group =>
    let filterErased := decide (lightFilter ∈ group.members)
    let members := group.members.filter (fun f => decide (f ≠ lightFilter))
    let groupEmptied := members.isEmpty
    if !filterErased then self
    else
      let groups := assocSet self.m_filterGroups lightNames.addr { group with members := members }
      { self with
        m_connections :=
          unlinkLights self.m_connections groupEmptied group.ptr lightNames.readable,
        m_filterGroups := if groupEmptied then assocErase groups lightNames.addr else groups }

/-- The filters of the group at an address; a pointer to no live group gives none. -/
def groupMembers (self : LightFilterConnections) (g : FilterGroupPtr) : List ArnoldLightFilterPtr :=
  match self.m_filterGroups.find? (fun e => decide (e.2.ptr = g)) with
  | some e => e.2.members
  | none => []

/-- The vector `allFilters` that `update` builds for an entry. -/
def allFilters (self : LightFilterConnections) (f : Filters) : List ArnoldLightFilterPtr :=
  (f.lightFilterGroups.map self.groupMembers).flatten

/-- The part of `~ArnoldLight` and `~ArnoldLightFilter` that acts on the link graph. No
filter is ever registered for a null light set, so `find` fails for one. -/
def release (self : LightFilterConnections) : Released → LightFilterConnections
  | .light name => self.deregisterLight name
  | .lightFilter F (some filteredLightsData) => self.deregisterLightFilter filteredLightsData F
  | .lightFilter _ none => self

/-- Models `update`. `released` are the objects of `m_arnoldObjects` that no one else
holds, in the order in which `m_arnoldObjects.clear()` destroys them; it is not read
when `m_ownConnections` is false. -/
def update (self : LightFilterConnections) (released : List Released) :
    LightFilterConnections × List UpdateFiltersCall :=
  let calls := self.m_connections.filterMap (fun e =>
    match e.2.light with
    | some l => if e.2.dirty then some { light := l, lightFilters := self.allFilters e.2 } else none
    | none => none)
  let connections := self.m_connections.map (fun e =>
    if e.2.light.isSome && e.2.dirty then (e.1, { e.2 with dirty := false }) else e)
  let deregistered := (self.m_connections.filter (fun e => e.2.light.isNone)).map Prod.fst
  if self.m_ownConnections then
    (released.foldl release { self with m_connections := connections, m_arnoldObjects := [] },
      calls)
  else
    ({ self with m_connections := deregistered.foldl assocErase connections }, calls)

end LightFilterConnections

/-! ## Sequences of calls and sample data -/

/-- One call of `InstanceCache::get`. -/
structure GetCall where
  object : Option Object
  attributes : ArnoldAttributes
  nodeName : String

/-- Runs a sequence of `get` calls, dropping the proxies. -/
def InstanceCache.getAll (ext : External) :
    List GetCall → InstanceCache × World → InstanceCache × World
  | [], s => s
  | c :: rest, s =>
    let r := s.1.get ext c.object c.attributes c.nodeName s.2
    InstanceCache.getAll ext rest (r.2.1, r.2.2)

/-- The bundle the constructor builds from an empty attribute dictionary. -/
def defaultAttributes : ArnoldAttributes :=
  { m_visibility := 255, m_sidedness := 255, m_shadingFlags := 7,
    m_surfaceShader := none, m_filterMap := none, m_uvRemap := none,
    m_lightShader := none, m_lightFilterShader := none, m_lightFilterShaders := [],
    m_traceSets := none, m_transformType := none,
    m_stepSize := 0, m_stepScale := 1, m_volumePadding := 0,
    m_polyMesh :=
      { subdivIterations := 1, subdivAdaptiveError := 0, subdivAdaptiveMetric := "auto",
        subdivAdaptiveSpace := "raster", subdivUVSmoothing := "pin_corners",
        subdividePolygons := false, subdivSmoothDerivs := false },
    m_displacement := { map := none, height := 1, padding := 0, zeroValue := 0, autoBump := false },
    m_curves := { minPixelWidth := 0, thick := false },
    m_volume :=
      { volumeGrids := none, velocityGrids := none, velocityScale := none, velocityFPS := none,
        velocityOutlierThreshold := none, stepSize := none, stepScale := none },
    m_linkedLights := none, m_shadowGroup := none, m_filteredLights := none,
    m_user := [], m_sssSetName := none }

/-- An empty universe whose options node has no parameter set. -/
def emptyUniverse : AtUniverse :=
  { options := { entry := { name := "options", type := .AI_NODE_OPTIONS, params := [] },
                 name := "options", params := [], userParams := [] },
    nodes := [], next := 1 }

/-- The world of a session in which nothing has been submitted yet. -/
def emptyWorld : World :=
  { ai := emptyUniverse, lightListCache := { m_cache := [] }, conversions := [] }

/-- A fresh instance cache. -/
def emptyCache (d : NodeDeleter) : InstanceCache :=
  { m_nodeDeleter := d, m_parentNode := none, m_cache := [] }

/-- A node of the named shape class with the given declared parameters. -/
def shapeNode (entryName nodeName : String) (declared : List String) : AtNode :=
  { entry := { name := entryName, type := .AI_NODE_SHAPE, params := declared },
    name := nodeName, params := [], userParams := [] }

/-- A shader node with the given name. -/
def shaderNode (nodeName : String) : AtNode :=
  { entry := { name := "standard_surface", type := .AI_NODE_SHADER, params := [] },
    name := nodeName, params := [], userParams := [] }

/-- A converter that makes a `polymesh` for meshes (with `subdiv_type` set to
`catclark` for Catmull-Clark interpolation), a `volume` for VDB objects and no
node for anything else. -/
def sampleExternal : External :=
  { convert := fun o nodeName =>
      match o.typeId with
      | .MeshPrimitive =>
        some { shapeNode "polymesh" nodeName ["step_size", "volume_padding"] with
          params :=
            if o.interpolation = "catmullClark" then [("subdiv_type", .str "catclark")] else [] }
      | .VDBObject => some (shapeNode "volume" nodeName ["step_size", "volume_padding"])
      | _ => none,
    convertProcedural := fun _ _ => none,
    arnoldVersion := (5, 2, 0, 0),
    convertShaderNetwork := fun n names => [shaderNode (names ++ toString n.hash)],
    convertCamera := fun _ name =>
      { entry := { name := "persp_camera", type := .AI_NODE_CAMERA,
                   params := ["shutter_start", "shutter_end", "mesh", "matrix"] },
        name := name, params := [], userParams := [] },
    defaultCamera :=
      { renderResolution := (640, 480), renderRegion := ((0, 0), (640, 480)),
        pixelAspectRatio := 1, shutter := (0, 0), mesh := "" },
    ensureUniformTimeSamples := fun _ => none,
    oslShaderPaths := none,
    createDirectories := fun _ => none }

/-- A mesh with linear interpolation. -/
def linearMesh : Object :=
  { typeId := .MeshPrimitive, interpolation := "linear", fileName := "", hash := [.object 1] }

/-- An object of a `VisibleRenderable` class for which no converter is registered:
`sampleExternal` makes no node for it. -/
def unsupportedObject : Object :=
  { typeId := .OtherVisibleRenderable, interpolation := "", fileName := "",
    hash := [.object 2] }

/-- A VDB volume. -/
def sampleVDB : Object :=
  { typeId := .VDBObject, interpolation := "", fileName := "", hash := [.object 3] }

/-- The default bundle with `ai:shape:step_size` set to one. -/
def stepSizeOne : ArnoldAttributes := { defaultAttributes with m_stepSize := 1 }

/-- The default bundle with `ai:shape:step_size` set to two. -/
def stepSizeTwo : ArnoldAttributes := { defaultAttributes with m_stepSize := 2 }

/-- The default bundle with `ai:volume:grids` holding one grid name. -/
def gridsOnly : ArnoldAttributes :=
  { defaultAttributes with
    m_volume := { defaultAttributes.m_volume with volumeGrids := some ["density"] } }

/-- The default bundle with `ai:volume:velocity_grids` holding the same name. -/
def velocityGridsOnly : ArnoldAttributes :=
  { defaultAttributes with
    m_volume := { defaultAttributes.m_volume with velocityGrids := some ["density"] } }

/-- A `volume` node as a converter leaves it: `step_size` declared and not set. -/
def volumeNode : AtNode := shapeNode "volume" "v" ["step_size", "volume_padding"]

/-- A cache is well formed when no key occurs twice and no node is held by two entries. -/
def InstanceCache.WellFormed (c : InstanceCache) : Prop :=
  (c.m_cache.map Prod.fst).Nodup ∧ (c.m_cache.filterMap Prod.snd).Nodup

instance (c : InstanceCache) : Decidable c.WellFormed := by
  unfold InstanceCache.WellFormed
  infer_instance

/-- Runs a sequence of `get` calls and collects the proxies they return. -/
def InstanceCache.getProxies (ext : External) :
    List GetCall → InstanceCache × World → List Instance × (InstanceCache × World)
  | [], s => ([], s)
  | c :: rest, s =>
    let r := s.1.get ext c.object c.attributes c.nodeName s.2
    let t := InstanceCache.getProxies ext rest (r.2.1, r.2.2)
    (r.1 :: t.1, t.2)

/-- Every call of the sequence is for an object that can be instanced and uses the key `h`. -/
def InstanceCache.sameKey (ext : External) (h : MurmurHash) :
    List GetCall → InstanceCache × World → Prop
  | [], _ => True
  | c :: rest, s =>
    (∃ o, c.object = some o ∧ s.1.canInstance ext (some o) c.attributes = true
        ∧ InstanceCache.key c.attributes s.2.ai o = h)
      ∧ InstanceCache.sameKey ext h rest
          ((s.1.get ext c.object c.attributes c.nodeName s.2).2.1,
            (s.1.get ext c.object c.attributes c.nodeName s.2).2.2)

/-- The state after a linear mesh was submitted to a fresh cache. -/
def afterMesh : Instance × InstanceCache × World :=
  (emptyCache .AiNodeDestroy).get sampleExternal (some linearMesh) defaultAttributes "a" emptyWorld

/-- The state after the object without converter was submitted to a fresh cache. -/
def afterUnsupported : Instance × InstanceCache × World :=
  (emptyCache .AiNodeDestroy).get sampleExternal (some unsupportedObject) defaultAttributes "a"
    emptyWorld

/-- Three submissions of the object without converter, with the default bundle. -/
def unsupportedCalls : List GetCall :=
  [{ object := some unsupportedObject, attributes := defaultAttributes, nodeName := "a" },
   { object := some unsupportedObject, attributes := defaultAttributes, nodeName := "b" },
   { object := some unsupportedObject, attributes := defaultAttributes, nodeName := "c" }]

/-- A submission of the linear mesh with the default bundle. -/
def meshFirst : GetCall :=
  { object := some linearMesh, attributes := defaultAttributes, nodeName := "a" }

/-- Two more submissions of the linear mesh with the default bundle. -/
def meshRest : List GetCall :=
  [{ object := some linearMesh, attributes := defaultAttributes, nodeName := "b" },
   { object := some linearMesh, attributes := defaultAttributes, nodeName := "c" }]

/-- The key of the linear mesh under the default bundle. -/
def meshKey : MurmurHash :=
  [.object 1, .flt 1, .flt 0, .flt 0, .bool false, .flt 0, .flt 1, .flt 0]

/-- A mesh with Catmull-Clark interpolation. -/
def catclarkMesh : Object :=
  { typeId := .MeshPrimitive, interpolation := "catmullClark", fileName := "", hash := [.object 4] }

/-- The state after a Catmull-Clark mesh was submitted to a fresh cache. -/
def afterCatclark : Instance × InstanceCache × World :=
  (emptyCache .AiNodeDestroy).get sampleExternal (some catclarkMesh) defaultAttributes "s"
    emptyWorld

/-- What `ArnoldRendererBase::object` returns for an instance and a bundle: the new
object after its first `attributes` call, and the world. -/
def newObject (i : Instance) (a : ArnoldAttributes) (w : World) : ArnoldObject × World :=
  (({ m_instance := i, m_attributes := none, m_supportsLinkedLights := true } :
      ArnoldObject).attributes a w).2

/-- The linear mesh as an object of the scene, with the default bundle applied. -/
def meshObject : ArnoldObject × World := newObject afterMesh.1 defaultAttributes afterMesh.2.2

/-- The Catmull-Clark mesh as an object of the scene, with the default bundle applied. -/
def catclarkObject : ArnoldObject × World :=
  newObject afterCatclark.1 defaultAttributes afterCatclark.2.2

/-- The default bundle with `ai:polymesh:subdiv_iterations` set to two. -/
def twoIterations : ArnoldAttributes :=
  { defaultAttributes with
    m_polyMesh := { defaultAttributes.m_polyMesh with subdivIterations := 2 } }

/-- The default bundle with `ai:disp_height` set to two. -/
def tallDisplacement : ArnoldAttributes :=
  { defaultAttributes with
    m_displacement := { defaultAttributes.m_displacement with height := 2 } }

/-- The default bundle with camera visibility off and two trace sets. -/
def hiddenFromCamera : ArnoldAttributes :=
  { defaultAttributes with m_visibility := 254, m_traceSets := some ["setA", "setB"] }

/-- The link graph of a session in which the lights `A` and `B` have been registered. -/
def twoLights (ownConnections : Bool) (A B : String) (la lb : ArnoldLightPtr) :
    LightFilterConnections :=
  ((LightFilterConnections.new ownConnections).registerLight A la).registerLight B lb

/-- Registers `F1` for the light-set object `S1` and then `F2` for `S2`. -/
def twoFilters (g : LightFilterConnections) (S1 S2 : StringVectorData)
    (F1 F2 : ArnoldLightFilterPtr) : Option LightFilterConnections :=
  (g.registerLightFilter S1 F1).bind (fun g1 => g1.registerLightFilter S2 F2)

/-- The entry of a light in the table. -/
def LightFilterConnections.entry (g : LightFilterConnections) (lightName : String) :
    Option Filters :=
  assocFind g.m_connections lightName

/-- The graph, after an `update` that destroyed no object ran on it when `synced` is
true. -/
def syncIf (synced : Bool) (g : LightFilterConnections) : LightFilterConnections :=
  if synced then (g.update []).1 else g

/-- The submission of a Catmull-Clark mesh. -/
def otherCalls : List GetCall :=
  [{ object := some catclarkMesh, attributes := defaultAttributes, nodeName := "s" }]

/-- Every node held by the cache lies below the next free address of the universe. -/
def InstanceCache.Fresh (c : InstanceCache) (u : AtUniverse) : Prop :=
  ∀ n ∈ c.m_cache.filterMap Prod.snd, n < u.next

/-- The graph of a batch session after light `A` was registered and `update` ran, with
the light held by no one but the link graph: `update` destroys it. -/
def batchLightDestroyed : LightFilterConnections :=
  (((LightFilterConnections.new true).registerLight "A" 10).update [.light "A"]).1

/-- A procedural object. -/
def sampleProcedural : Object :=
  { typeId := .Procedural, interpolation := "", fileName := "", hash := [.object 5] }

/-- A linked Arnold of version 5.0.1.3, with a `convertProcedural` that makes a
`procedural` node. -/
def oldArnold : External :=
  { convert := fun _ _ => none,
    convertProcedural := fun _ nodeName => some (shapeNode "procedural" nodeName []),
    arnoldVersion := (5, 0, 1, 3),
    convertShaderNetwork := fun n names => [shaderNode (names ++ toString n.hash)],
    convertCamera := fun _ name =>
      { entry := { name := "persp_camera", type := .AI_NODE_CAMERA,
                   params := ["shutter_start", "shutter_end", "mesh", "matrix"] },
        name := name, params := [], userParams := [] },
    defaultCamera :=
      { renderResolution := (640, 480), renderRegion := ((0, 0), (640, 480)),
        pixelAspectRatio := 1, shutter := (0, 0), mesh := "" },
    ensureUniformTimeSamples := fun _ => none,
    oslShaderPaths := none,
    createDirectories := fun _ => none }

/-- The version is lexicographically lower than 5.0.1.4. -/
def versionBelow_5_0_1_4 (v : Int × Int × Int × Int) : Prop :=
  v.1 < 5 ∨ (v.1 = 5 ∧ (v.2.1 < 0 ∨ (v.2.1 = 0 ∧ (v.2.2.1 < 1 ∨ (v.2.2.1 = 1 ∧ v.2.2.2 < 4)))))

/-- An external procedural of the node type `volume`. -/
def volumeProcedural : Object :=
  { typeId := .ExternalProcedural, interpolation := "", fileName := "volume",
    hash := [.object 6] }

/-- A `volume` node on which the converter has set `step_size` to one half. -/
def volumeNodeWithStep : AtNode :=
  { volumeNode with params := [("step_size", .flt (1 / 2))] }

/-- The default bundle with `ai:volume:step_size` set to two. -/
def volumeStepTwo : ArnoldAttributes :=
  { defaultAttributes with
    m_volume := { defaultAttributes.m_volume with stepSize := some 2 } }

/-- The object is one for which `applyGeometry` runs `Volume::apply`. -/
def Object.isVolumetric (o : Object) : Bool :=
  decide (o.typeId = .VDBObject)
    || (decide (o.typeId = .ExternalProcedural) && decide (o.fileName = "volume"))

/-- The first part of `applyGeometry`: the settings of the object's class. -/
def ArnoldAttributes.applyClass (self : ArnoldAttributes) (u : AtUniverse) (object : Object)
    (node : AtNode) : AtNode :=
  match object.typeId with
  | .MeshPrimitive => self.m_displacement.apply (self.m_polyMesh.apply object node)
  | .CurvesPrimitive => self.m_curves.apply node
  | .VDBObject => self.m_volume.apply u node
  | .ExternalProcedural =>
    if object.fileName = "volume" then self.m_volume.apply u node else node
  | _ => node

/-- The second part of `applyGeometry`: `ai:shape:step_size` and the volume padding. -/
def ArnoldAttributes.applyStep (self : ArnoldAttributes) (n : AtNode) : AtNode :=
  let actualStepSize := self.m_stepSize * self.m_stepScale
  let n :=
    if actualStepSize ≠ 0 ∧ n.hasParameter "step_size" = true then
      if n.getFlt "step_size" = 0 then n.setParam "step_size" (.flt actualStepSize) else n
    else n
  if self.m_volumePadding ≠ 0 ∧ n.hasParameter "volume_padding" = true then
    n.setParam "volume_padding" (.flt self.m_volumePadding)
  else n

/-! ## InteractiveRenderController -/

/-- Models `AiNodeGetInt`. -/
def AtNode.getInt (n : AtNode) (p : String) : Int :=
  match n.getParam p with
  | some (.int v) => v
  | _ => 0

/-- The result codes of `AiRender`, declared in the Arnold headers. -/
structure RenderCodes where
  AI_SUCCESS : Int
  AI_ABORT : Int
  AI_ERROR_NO_CAMERA : Int
  AI_ERROR_BAD_CAMERA : Int
  AI_ERROR_VALIDATION : Int
  AI_ERROR_RENDER_REGION : Int
  AI_INTERRUPT : Int
  AI_ERROR_NO_OUTPUTS : Int
  AI_ERROR : Int
  deriving DecidableEq, Repr

/-- Values of the codes for the sample sessions, in the order of the `enum` of
`ai_render.h`: success is 0, the seven named failures are 1 to 7, the generic error
is -1. -/
def arnold5Codes : RenderCodes :=
  { AI_SUCCESS := 0, AI_ABORT := 1, AI_ERROR_NO_CAMERA := 2, AI_ERROR_BAD_CAMERA := 3,
    AI_ERROR_VALIDATION := 4, AI_ERROR_RENDER_REGION := 5, AI_INTERRUPT := 6,
    AI_ERROR_NO_OUTPUTS := 7, AI_ERROR := -1 }

/-- What the worker thread meets during its run: the value of `m_rendering` it reads
and the status `AiRender` returns, in the pass at a given `AA_samples`. -/
structure WorkerEnv where
  rendering : Int → Bool
  aiRender : Int → Int

/-- The universe together with the log of `AiRender` calls: each call is recorded with
the options node as it is at that moment. -/
structure RenderSession where
  ai : AtUniverse
  renderCalls : List AtNode
  deriving DecidableEq, Repr

/-- The values `AA_samples` had in the options at the calls of `AiRender`. -/
def RenderSession.samplesAtCalls (s : RenderSession) : List Int :=
  s.renderCalls.map (fun o => o.getInt "AA_samples")

/-- Models `AiNodeSetInt( options, name, value )`. -/
def RenderSession.setOption (s : RenderSession) (p : String) (v : Int) : RenderSession :=
  { s with ai := { s.ai with options := s.ai.options.setParam p (.int v) } }

/-- The largest value of an `int`. -/
def INT_MAX : Int := 2147483647

/-- The `for` loop of `performInteractiveRender`, from the value `aaSamples` on. The
counter `fuel` bounds the number of iterations; the result is `none` when the
fuel runs out before the loop ends, and when `++aaSamples` would overflow. -/
def passLoop (codes : RenderCodes) (env : WorkerEnv) (finalAASamples : Int) :
    Nat → Int → RenderSession → Option RenderSession
  | 0, aaSamples, s => if aaSamples ≤ finalAASamples then none else some s
  | fuel + 1, aaSamples, s =>
    if aaSamples ≤ finalAASamples then
      if aaSamples = 0 ∨ (aaSamples > 1 ∧ aaSamples ≠ finalAASamples) then
        if aaSamples = INT_MAX then none
        else passLoop codes env finalAASamples fuel (aaSamples + 1) s
      else
        let s := s.setOption "AA_samples" aaSamples
        if !env.rendering aaSamples then some s
        else
          let s := { s with renderCalls := s.renderCalls ++ [s.ai.options] }
          if env.aiRender aaSamples ≠ codes.AI_SUCCESS then some s
          else if aaSamples = INT_MAX then none
          else passLoop codes env finalAASamples fuel (aaSamples + 1) s
    else some s

def performInteractiveRender (codes : RenderCodes) (env : WorkerEnv) (s : RenderSession) :
    Option RenderSession :=
  let finalAASamples := s.ai.options.getInt "AA_samples"
  let startAASamples := min (-5) finalAASamples
  (passLoop codes env finalAASamples (finalAASamples - startAASamples + 1).toNat
    startAASamples s).map (fun r => r.setOption "AA_samples" finalAASamples)

/-- The integers `a`, `a + 1`, ..., `a + n - 1`. -/
def intRange (a : Int) : Nat → List Int
  | 0 => []
  | n + 1 => a :: intRange (a + 1) n

/-- The test a value of the loop variable passes when it is not skipped. -/
def isPass (f k : Int) : Bool := decide (k ≠ 0) && (decide (k ≤ 1) || decide (k = f))

/-- The ascending list of the integers `k` with `min(-5, f) <= k <= f`, `k != 0` and
`k <= 1` or `k = f`. -/
def passValues (f : Int) : List Int :=
  (intRange (min (-5) f) (f - min (-5) f + 1).toNat).filter (isPass f)

/-- A worker that is never cancelled and whose render calls all succeed. -/
def undisturbed (codes : RenderCodes) : WorkerEnv :=
  { rendering := fun _ => true, aiRender := fun _ => codes.AI_SUCCESS }

/-- A worker whose render is cancelled on the main thread before the pass at
`AA_samples` -3, and whose render calls until then succeed. -/
def cancelledEarly (codes : RenderCodes) : WorkerEnv :=
  { rendering := fun aaSamples => decide (aaSamples < -3), aiRender := fun _ => codes.AI_SUCCESS }

/-- A session whose options hold the given `AA_samples` and which has rendered nothing. -/
def sessionWith (f : Int) : RenderSession :=
  { ai := { emptyUniverse with options := emptyUniverse.options.setParam "AA_samples" (.int f) },
    renderCalls := [] }

/-! ## Attribute and option values, ShaderCache -/

/-- A value of an attribute dictionary or of an option: the classes of `IECore::Object`
this file casts to, any other data class, and any other object. -/
inductive IECoreObject where
  | BoolData (v : Bool)
  | IntData (v : Int)
  | FloatData (v : ℚ)
  | StringData (v : String)
  | StringVectorData (v : StringVectorData)
  | InternedStringVectorData (v : List String)
  | OtherData (typeName : String)
  | ShaderNetwork (v : ShaderNetwork)
  | OtherObject (typeName : String)
  deriving DecidableEq, Repr

/-- Models `boost::starts_with( s, stem )`. -/
def starts_with (s stem : String) : Bool := stem.data.isPrefixOf s.data

/-- Models `boost::contains( s, c )` for a one-character string `c`. -/
def containsChar (s : String) (c : Char) : Bool := s.data.contains c

/-- Models `s.substr( n )`, for `n` within an ASCII stem of `s`. -/
def substr (s : String) (n : Nat) : String := String.mk (s.data.drop n)

/-- Models `s.c_str()` read as a C string: the characters before the first NUL. -/
def c_str (s : String) : String := String.mk (s.data.takeWhile (fun c => c ≠ Char.ofNat 0))

/-- An attribute dictionary: the members of a `CompoundObject`, in iteration order. -/
abbrev CompoundObject := List (String × IECoreObject)

namespace IECoreObject

def typeName : IECoreObject → String
  | .BoolData _ => "BoolData"
  | .IntData _ => "IntData"
  | .FloatData _ => "FloatData"
  | .StringData _ => "StringData"
  | .StringVectorData _ => "StringVectorData"
  | .InternedStringVectorData _ => "InternedStringVectorData"
  | .OtherData t => t
  | .ShaderNetwork _ => "ShaderNetwork"
  | .OtherObject t => t

/-- Models `runTimeCast<const IECore::Data>`: the parameter value of a data object. -/
def asData : IECoreObject → Option ParamValue
  | .BoolData v => some (.bool v)
  | .IntData v => some (.int v)
  | .FloatData v => some (.flt v)
  | .StringData v => some (.str v)
  | .StringVectorData v => some (.strArray v.readable)
  | .InternedStringVectorData v => some (.strArray v)
  | .OtherData t => some (.data t)
  | .ShaderNetwork _ => none
  | .OtherObject _ => none

def asBool : IECoreObject → Option Bool
  | .BoolData v => some v
  | _ => none

def asInt : IECoreObject → Option Int
  | .IntData v => some v
  | _ => none

def asFloat : IECoreObject → Option ℚ
  | .FloatData v => some v
  | _ => none

def asString : IECoreObject → Option String
  | .StringData v => some v
  | _ => none

def asStringVector : IECoreObject → Option GafferArnold.StringVectorData
  | .StringVectorData v => some v
  | _ => none

def asInternedStringVector : IECoreObject → Option (List String)
  | .InternedStringVectorData v => some v
  | _ => none

def asShaderNetwork : IECoreObject → Option GafferArnold.ShaderNetwork
  | .ShaderNetwork v => some v
  | _ => none

end IECoreObject

/-- The cache of `ShaderCache`, keyed by the hash of the shader network. -/
structure ShaderCache where
  m_cache : List (Nat × ArnoldShader)
  deriving DecidableEq, Repr

/-- Creates the given nodes in the universe, in order, and returns their addresses. -/
def createNodes (u : AtUniverse) : List AtNode → List AtNodePtr × AtUniverse
  | [] => ([], u)
  | n :: rest =>
    let created := u.AiNode n
    let more := createNodes created.2 rest
    (created.1 :: more.1, more.2)

/-- The constructor of `ArnoldShader`. -/
def ArnoldShader.new (ext : External) (shaderNetwork : ShaderNetwork) (names : String)
    (u : AtUniverse) : ArnoldShader × AtUniverse :=
  let created := createNodes u (ext.convertShaderNetwork shaderNetwork names)
  ({ m_nodes := created.1 }, created.2)

def ShaderCache.get (self : ShaderCache) (ext : External) (shader : ShaderNetwork)
    (u : AtUniverse) : ArnoldShader × ShaderCache × AtUniverse :=
  match assocFind self.m_cache shader.hash with
  | some found => (found, self, u)
  | none =>
    let made := ArnoldShader.new ext shader ("shader:" ++ toString shader.hash ++ ":") u
    (made.1, { m_cache := assocSet self.m_cache shader.hash made.1 }, made.2)


/-! ## The constructor of ArnoldAttributes

Every routine that can call `IECore::msg` returns the messages it emits next to its
result. -/

/-- The ray-type bits of `ai_ray.h`, which the constructor takes from the Arnold
headers. -/
structure RayTypes where
  AI_RAY_UNDEFINED : Nat
  AI_RAY_CAMERA : Nat
  AI_RAY_SHADOW : Nat
  AI_RAY_DIFFUSE_TRANSMIT : Nat
  AI_RAY_SPECULAR_TRANSMIT : Nat
  AI_RAY_VOLUME : Nat
  AI_RAY_DIFFUSE_REFLECT : Nat
  AI_RAY_SPECULAR_REFLECT : Nat
  AI_RAY_SUBSURFACE : Nat
  AI_RAY_ALL : Nat
  deriving DecidableEq, Repr

/-- Values of the bits for the sample sessions: one bit for each ray type, all eight
for `AI_RAY_ALL`. -/
def arnold5Rays : RayTypes :=
  { AI_RAY_UNDEFINED := 0x00, AI_RAY_CAMERA := 0x01, AI_RAY_SHADOW := 0x02,
    AI_RAY_DIFFUSE_TRANSMIT := 0x04, AI_RAY_SPECULAR_TRANSMIT := 0x08, AI_RAY_VOLUME := 0x10,
    AI_RAY_DIFFUSE_REFLECT := 0x20, AI_RAY_SPECULAR_REFLECT := 0x40,
    AI_RAY_SUBSURFACE := 0x80, AI_RAY_ALL := 0xFF }

/-- Models `reportedCast<T>`, where `cast` is `runTimeCast<T>` and `staticTypeName` is
`T::staticTypeName()`. -/
def reportedCast {T : Type} (cast : IECoreObject → Option T) (staticTypeName : String)
    (v : IECoreObject) (type name : String) : Option T × List String :=
  match cast v with
  | some t => (some t, [])
  | none =>
    (none, ["Expected " ++ staticTypeName ++ " but got " ++ v.typeName ++ " for " ++ type ++
      " \"" ++ c_str name ++ "\"."])

namespace ArnoldAttributes

/-- Models `attribute<T>` (a reserved word here, hence the longer name). -/
def attributeOf {T : Type} (cast : IECoreObject → Option T) (staticTypeName : String)
    (name : String) (attributes : CompoundObject) : Option T × List String :=
  match assocFind attributes name with
  | none => (none, [])
  | some v => reportedCast cast staticTypeName v "attribute" name

/-- Models `attributeValue<T>`. -/
def attributeValue {T : Type} (cast : IECoreObject → Option T) (staticTypeName : String)
    (name : String) (attributes : CompoundObject) (defaultValue : T) : T × List String :=
  let data := attributeOf cast staticTypeName name attributes
  (data.1.getD defaultValue, data.2)

/-- Models `optionalAttribute<T>`. -/
def optionalAttribute {T : Type} (cast : IECoreObject → Option T) (staticTypeName : String)
    (name : String) (attributes : CompoundObject) : Option T × List String :=
  attributeOf cast staticTypeName name attributes

/-- Stands for `attribute<IECoreScene::ShaderNetwork>`. -/
def shaderNetworkAttribute (name : String) (attributes : CompoundObject) :
    Option ShaderNetwork × List String :=
  attributeOf IECoreObject.asShaderNetwork "ShaderNetwork" name attributes

/-- Stands for `attribute<IECore::BoolData>`. -/
def boolAttribute (name : String) (attributes : CompoundObject) : Option Bool × List String :=
  attributeOf IECoreObject.asBool "BoolData" name attributes

/-- Stands for `attribute<IECore::StringData>`. -/
def stringAttribute (name : String) (attributes : CompoundObject) :
    Option String × List String :=
  attributeOf IECoreObject.asString "StringData" name attributes

/-- Stands for `attribute<IECore::StringVectorData>`. -/
def stringVectorAttribute (name : String) (attributes : CompoundObject) :
    Option StringVectorData × List String :=
  attributeOf IECoreObject.asStringVector "StringVectorData" name attributes

end ArnoldAttributes

open ArnoldAttributes in
/-- The constructor of `PolyMesh`. -/
def PolyMesh.new (attributes : CompoundObject) : PolyMesh × List String :=
  let subdivIterations :=
    attributeValue IECoreObject.asInt "IntData" "ai:polymesh:subdiv_iterations" attributes 1
  let subdivAdaptiveError :=
    attributeValue IECoreObject.asFloat "FloatData" "ai:polymesh:subdiv_adaptive_error"
      attributes 0
  let subdivAdaptiveMetricData := stringAttribute "ai:polymesh:subdiv_adaptive_metric" attributes
  let subdivAdaptiveSpaceData := stringAttribute "ai:polymesh:subdiv_adaptive_space" attributes
  let a := stringAttribute "ai:polymesh:subdiv_uv_smoothing" attributes
  let subdividePolygons :=
    attributeValue IECoreObject.asBool "BoolData" "ai:polymesh:subdivide_polygons" attributes
      false
  let subdivSmoothDerivs :=
    attributeValue IECoreObject.asBool "BoolData" "ai:polymesh:subdiv_smooth_derivs" attributes
      false
  ({ subdivIterations := subdivIterations.1,
     subdivAdaptiveError := subdivAdaptiveError.1,
     subdivAdaptiveMetric :=
       match subdivAdaptiveMetricData.1 with
       | some d => d
       | none => "auto",
     subdivAdaptiveSpace :=
       match subdivAdaptiveSpaceData.1 with
       | some d => d
       | none => "raster",
     subdivUVSmoothing :=
       match a.1 with
       | some d => d
       | none => "pin_corners",
     subdividePolygons := subdividePolygons.1,
     subdivSmoothDerivs := subdivSmoothDerivs.1 },
   subdivIterations.2 ++ subdivAdaptiveError.2 ++ subdivAdaptiveMetricData.2 ++
     subdivAdaptiveSpaceData.2 ++ a.2 ++ subdividePolygons.2 ++ subdivSmoothDerivs.2)

/-- The shader cache and the universe it creates nodes in, as the constructor passes
them along. -/
structure Shaders where
  shaderCache : ShaderCache
  ai : AtUniverse
  deriving DecidableEq, Repr

/-- Stands for `shaderCache->get( shader )` on the state passed along. -/
def Shaders.get (s : Shaders) (ext : External) (shader : ShaderNetwork) :
    ArnoldShader × Shaders :=
  let r := s.shaderCache.get ext shader s.ai
  (r.1, { shaderCache := r.2.1, ai := r.2.2 })

/-- Stands for `if( auto a = attribute<ShaderNetwork>( name, attributes ) ) x = shaderCache->get( a )`. -/
def Shaders.getNamed (s : Shaders) (ext : External) (name : String)
    (attributes : CompoundObject) : (Option ArnoldShader × Shaders) × List String :=
  let a := ArnoldAttributes.shaderNetworkAttribute name attributes
  match a.1 with
  | some network => (((s.get ext network).1, (s.get ext network).2), a.2)
  | none => ((none, s), a.2)

open ArnoldAttributes in
/-- The constructor of `Displacement`. -/
def Displacement.new (ext : External) (attributes : CompoundObject) (s : Shaders) :
    (Displacement × Shaders) × List String :=
  let map := s.getNamed ext "ai:disp_map" attributes
  let height := attributeValue IECoreObject.asFloat "FloatData" "ai:disp_height" attributes 1
  let padding := attributeValue IECoreObject.asFloat "FloatData" "ai:disp_padding" attributes 0
  let zeroValue :=
    attributeValue IECoreObject.asFloat "FloatData" "ai:disp_zero_value" attributes 0
  let autoBump :=
    attributeValue IECoreObject.asBool "BoolData" "ai:disp_autobump" attributes false
  (({ map := map.1.1, height := height.1, padding := padding.1, zeroValue := zeroValue.1,
      autoBump := autoBump.1 }, map.1.2),
   map.2 ++ height.2 ++ padding.2 ++ zeroValue.2 ++ autoBump.2)

open ArnoldAttributes in
/-- The constructor of `Curves`. -/
def Curves.new (attributes : CompoundObject) : Curves × List String :=
  let minPixelWidth :=
    attributeValue IECoreObject.asFloat "FloatData" "ai:curves:min_pixel_width" attributes 0
  let mode := attributeValue IECoreObject.asString "StringData" "ai:curves:mode" attributes "ribbon"
  ({ minPixelWidth := minPixelWidth.1, thick := decide (mode.1 = "thick") },
   minPixelWidth.2 ++ mode.2)

open ArnoldAttributes in
/-- The constructor of `Volume`. -/
def Volume.new (attributes : CompoundObject) : Volume × List String :=
  let volumeGrids := stringVectorAttribute "ai:volume:grids" attributes
  let velocityGrids := stringVectorAttribute "ai:volume:velocity_grids" attributes
  let velocityScale :=
    optionalAttribute IECoreObject.asFloat "FloatData" "ai:volume:velocity_scale" attributes
  let velocityFPS :=
    optionalAttribute IECoreObject.asFloat "FloatData" "ai:volume:velocity_fps" attributes
  let velocityOutlierThreshold :=
    optionalAttribute IECoreObject.asFloat "FloatData" "ai:volume:velocity_outlier_threshold"
      attributes
  let stepSize :=
    optionalAttribute IECoreObject.asFloat "FloatData" "ai:volume:step_size" attributes
  let stepScale :=
    optionalAttribute IECoreObject.asFloat "FloatData" "ai:volume:step_scale" attributes
  ({ volumeGrids := volumeGrids.1.map (fun d => d.readable),
     velocityGrids := velocityGrids.1.map (fun d => d.readable),
     velocityScale := velocityScale.1, velocityFPS := velocityFPS.1,
     velocityOutlierThreshold := velocityOutlierThreshold.1,
     stepSize := stepSize.1, stepScale := stepScale.1 },
   volumeGrids.2 ++ velocityGrids.2 ++ velocityScale.2 ++ velocityFPS.2 ++
     velocityOutlierThreshold.2 ++ stepSize.2 ++ stepScale.2)

namespace ArnoldAttributes

/-- Models `updateVisibility`: `m_visibility` and the `rayType` argument are
`unsigned char`, so both are taken modulo 256. -/
def updateVisibility (name : String) (rayType : Nat) (attributes : CompoundObject)
    (m_visibility : Nat) : Nat × List String :=
  let d := boolAttribute name attributes
  match d.1 with
  | some true => (m_visibility ||| (rayType % 256), d.2)
  | some false => (m_visibility &&& (255 ^^^ (rayType % 256)), d.2)
  | none => (m_visibility, d.2)

/-- Models `updateShadingFlag`: `m_shadingFlags` and the `flag` argument are
`unsigned char`, so both are taken modulo 256. -/
def updateShadingFlag (name : String) (flag : Nat) (attributes : CompoundObject)
    (m_shadingFlags : Nat) : Nat × List String :=
  let d := boolAttribute name attributes
  match d.1 with
  | some true => (m_shadingFlags ||| (flag % 256), d.2)
  | some false => (m_shadingFlags &&& (255 ^^^ (flag % 256)), d.2)
  | none => (m_shadingFlags, d.2)

/-- The eight `updateVisibility` calls of the constructor, in order. -/
def visibilityUpdates (rays : RayTypes) : List (String × Nat) :=
  [("ai:visibility:camera", rays.AI_RAY_CAMERA),
   ("ai:visibility:shadow", rays.AI_RAY_SHADOW),
   ("ai:visibility:diffuse_reflect", rays.AI_RAY_DIFFUSE_REFLECT),
   ("ai:visibility:specular_reflect", rays.AI_RAY_SPECULAR_REFLECT),
   ("ai:visibility:diffuse_transmit", rays.AI_RAY_DIFFUSE_TRANSMIT),
   ("ai:visibility:specular_transmit", rays.AI_RAY_SPECULAR_TRANSMIT),
   ("ai:visibility:volume", rays.AI_RAY_VOLUME),
   ("ai:visibility:subsurface", rays.AI_RAY_SUBSURFACE)]

/-- The four `updateShadingFlag` calls of the constructor, in order. -/
def shadingFlagUpdates : List (String × Nat) :=
  [("ai:receive_shadows", ReceiveShadows), ("ai:self_shadows", SelfShadows),
   ("ai:opaque", Opaque), ("ai:matte", Matte)]

/-- Runs a list of `updateVisibility` or `updateShadingFlag` calls. -/
def runUpdates (update : String → Nat → CompoundObject → Nat → Nat × List String)
    (attributes : CompoundObject) : List (String × Nat) → Nat × List String → Nat × List String
  | [], acc => acc
  | (name, bit) :: rest, acc =>
    let r := update name bit attributes acc.1
    runUpdates update attributes rest (r.1, acc.2 ++ r.2)

/-- The first of the given attributes that holds a shader network, as the chain
`a = a ? a : attribute<ShaderNetwork>( next, attributes )` computes it. -/
def shaderNetworkChain (attributes : CompoundObject) :
    List String → Option ShaderNetwork × List String
  | [] => (none, [])
  | name :: rest =>
    let a := shaderNetworkAttribute name attributes
    match a.1 with
    | some network => (some network, a.2)
    | none => ((shaderNetworkChain attributes rest).1, a.2 ++ (shaderNetworkChain attributes rest).2)

/-- What the loop over the members of the dictionary builds. -/
structure Members where
  m_user : List (String × ParamValue)
  m_lightFilterShaders : List ArnoldShader
  shaders : Shaders
  deriving DecidableEq, Repr

/-- One iteration of the loop over the members. A member under the light filter
stem that holds no shader network makes `ShaderCache::get` dereference a null pointer,
which has no defined result. -/
def memberStep (ext : External) (acc : Members) (it : String × IECoreObject) : Option Members :=
  let acc :=
    if starts_with it.1 "user:" then
      match it.2.asData with
      | some data => { acc with m_user := assocSet acc.m_user it.1 data }
      | none => acc
    else acc
  if it.1 = "ai:lightFilter:filter" then some acc
  else if starts_with it.1 "ai:lightFilter:" then
    match it.2.asShaderNetwork with
    | none => none
    | some network =>
      let filter := acc.shaders.get ext network
      some { acc with m_lightFilterShaders := acc.m_lightFilterShaders ++ [filter.1],
                      shaders := filter.2 }
  else some acc

/-- The loop over the members of the dictionary. -/
def memberLoop (ext : External) : List (String × IECoreObject) → Members → Option Members
  | [], acc => some acc
  | it :: rest, acc =>
    match memberStep ext acc it with
    | none => none
    | some acc => memberLoop ext rest acc

/-- The result of the constructor: the bundle, the shader cache and universe after it,
and the messages it emitted. -/
structure Built where
  attributes : ArnoldAttributes
  shaders : Shaders
  messages : List String
  deriving DecidableEq, Repr

/-- The constructor `ArnoldAttributes::ArnoldAttributes`. -/
def new (rays : RayTypes) (ext : External) (attributes : CompoundObject) (s : Shaders) :
    Option Built :=
  let m_polyMesh := PolyMesh.new attributes
  let m_displacement := Displacement.new ext attributes s
  let m_curves := Curves.new attributes
  let m_volume := Volume.new attributes
  let m_visibility :=
    runUpdates updateVisibility attributes (visibilityUpdates rays) (rays.AI_RAY_ALL % 256, [])
  let d := boolAttribute "doubleSided" attributes
  let m_sidedness :=
    match d.1 with
    | some true => rays.AI_RAY_ALL % 256
    | some false => rays.AI_RAY_UNDEFINED % 256
    | none => rays.AI_RAY_ALL % 256
  let m_shadingFlags :=
    runUpdates updateShadingFlag attributes shadingFlagUpdates
      ((ReceiveShadows ||| SelfShadows ||| Opaque) % 256, [])
  let surfaceShaderAttribute :=
    shaderNetworkChain attributes ["ai:surface", "osl:surface", "osl:shader", "surface"]
  let m_surfaceShader : Option ArnoldShader × Shaders :=
    match surfaceShaderAttribute.1 with
    | some network =>
      ((m_displacement.1.2.get ext network).1, (m_displacement.1.2.get ext network).2)
    | none => (none, m_displacement.1.2)
  let m_filterMap := m_surfaceShader.2.getNamed ext "ai:filtermap" attributes
  let m_uvRemap := m_filterMap.1.2.getNamed ext "ai:uv_remap" attributes
  let m_lightShader := shaderNetworkChain attributes ["ai:light", "light"]
  let m_lightFilterShader := shaderNetworkAttribute "ai:lightFilter:filter" attributes
  let m_traceSets :=
    attributeOf IECoreObject.asInternedStringVector "InternedStringVectorData" "sets" attributes
  let m_transformType := stringAttribute "ai:transform_type" attributes
  let m_stepSize :=
    attributeValue IECoreObject.asFloat "FloatData" "ai:shape:step_size" attributes 0
  let m_stepScale :=
    attributeValue IECoreObject.asFloat "FloatData" "ai:shape:step_scale" attributes 1
  let m_volumePadding :=
    attributeValue IECoreObject.asFloat "FloatData" "ai:shape:volume_padding" attributes 0
  let m_linkedLights := stringVectorAttribute "linkedLights" attributes
  let m_shadowGroup := stringVectorAttribute "ai:visibility:shadow_group" attributes
  let m_filteredLights := stringVectorAttribute "filteredLights" attributes
  let m_sssSetName := stringAttribute "ai:sss_setname" attributes
  match memberLoop ext attributes
      { m_user := [], m_lightFilterShaders := [], shaders := m_uvRemap.1.2 } with
  | none => none
  | some members =>
    some
      { attributes :=
          { m_visibility := m_visibility.1, m_sidedness := m_sidedness,
            m_shadingFlags := m_shadingFlags.1,
            m_surfaceShader := m_surfaceShader.1, m_filterMap := m_filterMap.1.1,
            m_uvRemap := m_uvRemap.1.1, m_lightShader := m_lightShader.1,
            m_lightFilterShader := m_lightFilterShader.1,
            m_lightFilterShaders := members.m_lightFilterShaders,
            m_traceSets := m_traceSets.1, m_transformType := m_transformType.1,
            m_stepSize := m_stepSize.1, m_stepScale := m_stepScale.1,
            m_volumePadding := m_volumePadding.1,
            m_polyMesh := m_polyMesh.1, m_displacement := m_displacement.1.1,
            m_curves := m_curves.1, m_volume := m_volume.1,
            m_linkedLights := m_linkedLights.1, m_shadowGroup := m_shadowGroup.1,
            m_filteredLights := m_filteredLights.1,
            m_user := members.m_user, m_sssSetName := m_sssSetName.1 },
        shaders := members.shaders,
        messages :=
          m_polyMesh.2 ++ m_displacement.2 ++ m_curves.2 ++ m_volume.2 ++ m_visibility.2 ++
            d.2 ++ m_shadingFlags.2 ++ surfaceShaderAttribute.2 ++ m_filterMap.2 ++
            m_uvRemap.2 ++ m_lightShader.2 ++ m_lightFilterShader.2 ++ m_traceSets.2 ++
            m_transformType.2 ++ m_stepSize.2 ++ m_stepScale.2 ++ m_volumePadding.2 ++
            m_linkedLights.2 ++ m_shadowGroup.2 ++ m_filteredLights.2 ++ m_sssSetName.2 }

/-- Modelled from the spec: the first of the given names that is present in the
dictionary as a shader network. -/
def firstShaderNetwork (attributes : CompoundObject) (names : List String) :
    Option ShaderNetwork :=
  names.findSome? (fun name => (assocFind attributes name).bind IECoreObject.asShaderNetwork)

end ArnoldAttributes

/-- No shaders cached, in an empty universe. -/
def noShaders : Shaders := { shaderCache := { m_cache := [] }, ai := emptyWorld.ai }

/-- A dictionary that assigns shader networks under both `ai:surface` and `surface`,
and a light shader under `light`. -/
def twoSurfaces : CompoundObject :=
  [("surface", .ShaderNetwork { hash := 1 }), ("ai:surface", .ShaderNetwork { hash := 2 }),
   ("light", .ShaderNetwork { hash := 3 }), ("ai:light", .StringData "notAShader")]


/-! ## ArnoldGlobals -/

/-- The values of `IECoreScenePreview::Renderer::RenderType`. -/
inductive RenderType where
  | Batch
  | Interactive
  | SceneDescription
  deriving DecidableEq, Repr

/-- Models `nodeDeleter( renderType )`. -/
def nodeDeleter (renderType : RenderType) : NodeDeleter :=
  match renderType with
  | .Interactive => .AiNodeDestroy
  | _ => .nullNodeDeleter

/-- The members of an `ArnoldOutput`. -/
structure ArnoldOutput where
  m_driver : AtNodePtr
  m_filter : AtNodePtr
  m_data : String
  m_lpeName : String
  m_lpeValue : String
  m_cameraOverride : String
  deriving DecidableEq, Repr

namespace ArnoldOutput

def append (self : ArnoldOutput) (u : AtUniverse) (outputs lightPathExpressions : List String) :
    List String × List String :=
  (outputs ++ [self.m_data ++ " " ++ AiNodeGetName u self.m_filter ++ " " ++
      AiNodeGetName u self.m_driver],
   if self.m_lpeValue.length ≠ 0 then
     lightPathExpressions ++ [self.m_lpeName ++ " " ++ self.m_lpeValue]
   else lightPathExpressions)

def cameraOverride (self : ArnoldOutput) : String := self.m_cameraOverride

end ArnoldOutput

/-- The bits of `ai_msg.h`, which the globals take from the Arnold headers. -/
structure LogFlags where
  AI_LOG_INFO : Nat
  AI_LOG_WARNINGS : Nat
  AI_LOG_ERRORS : Nat
  AI_LOG_DEBUG : Nat
  AI_LOG_STATS : Nat
  AI_LOG_ASS_PARSE : Nat
  AI_LOG_PLUGINS : Nat
  AI_LOG_PROGRESS : Nat
  AI_LOG_NAN : Nat
  AI_LOG_TIMESTAMP : Nat
  AI_LOG_BACKTRACE : Nat
  AI_LOG_MEMORY : Nat
  AI_LOG_COLOR : Nat
  AI_LOG_ALL : Nat
  deriving DecidableEq, Repr

/-- Values of the bits for the sample sessions: one bit for each flag, all thirteen
for `AI_LOG_ALL`. -/
def arnold5LogFlags : LogFlags :=
  { AI_LOG_INFO := 0x0001, AI_LOG_WARNINGS := 0x0002, AI_LOG_ERRORS := 0x0004,
    AI_LOG_DEBUG := 0x0008, AI_LOG_STATS := 0x0010, AI_LOG_ASS_PARSE := 0x0020,
    AI_LOG_PLUGINS := 0x0040, AI_LOG_PROGRESS := 0x0080, AI_LOG_NAN := 0x0100,
    AI_LOG_TIMESTAMP := 0x0200, AI_LOG_BACKTRACE := 0x0400, AI_LOG_MEMORY := 0x0800,
    AI_LOG_COLOR := 0x1000, AI_LOG_ALL := 0x1fff }

def g_logFlagsDefault (flags : LogFlags) : Nat := flags.AI_LOG_ALL

def g_consoleFlagsDefault (flags : LogFlags) : Nat :=
  flags.AI_LOG_WARNINGS ||| flags.AI_LOG_ERRORS ||| flags.AI_LOG_TIMESTAMP |||
    flags.AI_LOG_BACKTRACE ||| flags.AI_LOG_MEMORY ||| flags.AI_LOG_COLOR

/-- The state behind `AiMsg*`, `AiStats*` and the file system calls of `option`. -/
structure ArnoldSystem where
  logFileName : String
  logFileFlags : Nat
  consoleFlags : Nat
  maxWarnings : Int
  statsOverwrite : Bool
  statsFileName : String
  /-- The file names whose directory `option` asked to be created. -/
  directoriesRequested : List String
  deriving DecidableEq, Repr

/-- The members of `ArnoldGlobals`, followed by the state they act on. A `std::map` keyed
by `InternedString` is the list of its entries in iteration order. -/
structure ArnoldGlobals where
  m_renderType : RenderType
  m_outputs : List (String × ArnoldOutput)
  m_aovShaders : List (String × ArnoldShader)
  m_atmosphere : Option ArnoldShader
  m_background : Option ArnoldShader
  m_cameraName : String
  m_cameras : List (String × Camera)
  m_defaultCamera : Option AtNodePtr
  m_logFileFlags : Nat
  m_consoleFlags : Nat
  m_frame : Option Int
  m_aaSeed : Option Int
  m_sampleMotion : Option Bool
  /-- The flag `m_rendering` of `m_interactiveRenderController`. -/
  m_rendering : Bool
  m_assFileName : String
  /-- The shader cache `m_shaderCache` points to, and the universe. -/
  shaders : Shaders
  system : ArnoldSystem
  /-- The messages passed to `IECore::msg`. -/
  messages : List String
  /-- The calls of `AiRender`, each with the options node as it is at that moment. -/
  renderCalls : List AtNode
  /-- The file names passed to `AiASSWrite`. -/
  assWrites : List String
  /-- The number of worker threads started. -/
  workers : Nat
  deriving DecidableEq, Repr

/-- The position `std::map` gives a new key: before the first entry whose key it
precedes in the order `before` of the keys. -/
def mapInsert {β : Type} (before : String → String → Bool) :
    List (String × β) → String → β → List (String × β)
  | [], k, v => [(k, v)]
  | (k', v') :: rest, k, v =>
    if before k k' then (k, v) :: (k', v') :: rest else (k', v') :: mapInsert before rest k v

/-- Models `runTimeCast<const IECore::Data>( value )` on a pointer that may be null. -/
def runTimeCastData (value : Option IECoreObject) : Option IECoreObject :=
  value.filter (fun v => v.asData.isSome)

namespace ArnoldGlobals

def options (self : ArnoldGlobals) : AtNode := self.shaders.ai.options

/-- Applies `f` to the options node. -/
def modifyOptions (self : ArnoldGlobals) (f : AtNode → AtNode) : ArnoldGlobals :=
  { self with shaders := { self.shaders with
      ai := { self.shaders.ai with options := f self.shaders.ai.options } } }

/-- Passes messages to `IECore::msg`. -/
def msg (self : ArnoldGlobals) (m : List String) : ArnoldGlobals :=
  { self with messages := self.messages ++ m }

/-- Models `m_shaderCache->get( d )`. -/
def getShader (self : ArnoldGlobals) (ext : External) (d : ShaderNetwork) :
    ArnoldShader × ArnoldGlobals :=
  ((self.shaders.get ext d).1, { self with shaders := (self.shaders.get ext d).2 })

/-- The flag a name of `updateLogFlags` stands for. -/
def flagToModify (flags : LogFlags) (name : String) : Option Nat :=
  if name = "info" then some flags.AI_LOG_INFO
  else if name = "warnings" then some flags.AI_LOG_WARNINGS
  else if name = "errors" then some flags.AI_LOG_ERRORS
  else if name = "debug" then some flags.AI_LOG_DEBUG
  else if name = "stats" then some flags.AI_LOG_STATS
  else if name = "ass_parse" then some flags.AI_LOG_ASS_PARSE
  else if name = "plugins" then some flags.AI_LOG_PLUGINS
  else if name = "progress" then some flags.AI_LOG_PROGRESS
  else if name = "nan" then some flags.AI_LOG_NAN
  else if name = "timestamp" then some flags.AI_LOG_TIMESTAMP
  else if name = "backtrace" then some flags.AI_LOG_BACKTRACE
  else if name = "memory" then some flags.AI_LOG_MEMORY
  else if name = "color" then some flags.AI_LOG_COLOR
  else none

/-- Models `updateLogFlags`: the value it returns and the state after it. On the
non-negative flag words `f & ~g` is `f ^^^ (f &&& g)`. -/
def updateLogFlags (flags : LogFlags) (self : ArnoldGlobals) (name : String)
    (value : Option IECoreObject) (console : Bool) : Bool × ArnoldGlobals :=
  match flagToModify flags name with
  | none => (false, self)
  | some flagToModify =>
    let turnOn : Option Bool × List String :=
      match value with
      | none =>
        (some (decide ((flagToModify &&&
          (if console = false then g_logFlagsDefault flags else g_consoleFlagsDefault flags)) ≠ 0)),
          [])
      | some v => reportedCast IECoreObject.asBool "BoolData" v "option" name
    match turnOn.1 with
    | none => (true, self.msg turnOn.2)
    | some turnOn =>
      let old := if console then self.m_consoleFlags else self.m_logFileFlags
      let new := if turnOn then old ||| flagToModify else old ^^^ (old &&& flagToModify)
      if console then
        (true, { self with m_consoleFlags := new,
                           system := { self.system with consoleFlags := new } })
      else
        (true, { self with m_logFileFlags := new,
                           system := { self.system with logFileFlags := new } })

/-- The `try` block of the two file name options, and what it reports. -/
def createDirectoriesFor (ext : External) (self : ArnoldGlobals) (fileName : String) :
    ArnoldGlobals :=
  if fileName.length ≠ 0 then
    let self := { self with system := { self.system with
      directoriesRequested := self.system.directoriesRequested ++ [fileName] } }
    match ext.createDirectories fileName with
    | some what => self.msg [what]
    | none => self
  else self

/-- The warning at the end of `option`, which prints `name.c_str()`. -/
def unknownOption (self : ArnoldGlobals) (name : String) : ArnoldGlobals :=
  self.msg ["Unknown option \"" ++ c_str name ++ "\"."]

/-- Models `ParameterAlgo::setParameter( options, arnoldName, dataValue )` when the value
is data, and `AiNodeResetParameter( options, arnoldName )` otherwise. -/
def setOrReset (self : ArnoldGlobals) (arnoldName : String) (value : Option IECoreObject) :
    ArnoldGlobals :=
  match (runTimeCastData value).bind IECoreObject.asData with
  | some dataValue => self.modifyOptions (fun o => ParameterAlgo.setParameter o arnoldName dataValue)
  | none => self.modifyOptions (fun o => o.resetParam arnoldName)

/-- Models `ArnoldGlobals::option`; `none` stands for a null value. The tests on the
stem and on the colon read `name.c_str()`, as do the names passed on to Arnold; the
comparisons with the option names and the keys of the maps take the whole name. -/
def option (flags : LogFlags) (ext : External) (before : String → String → Bool)
    (self : ArnoldGlobals) (name : String) (value : Option IECoreObject) : ArnoldGlobals :=
  if name = "frame" then
    match value with
    | none => { self with m_frame := none }
    | some v =>
      let d := reportedCast IECoreObject.asInt "IntData" v "option" name
      match d.1 with
      | some d => { self with m_frame := some d }
      | none => self.msg d.2
  else if name = "camera" then
    match value with
    | none => { self with m_cameraName := "" }
    | some v =>
      let d := reportedCast IECoreObject.asString "StringData" v "option" name
      match d.1 with
      | some d => { self with m_cameraName := d }
      | none => self.msg d.2
  else if name = "ai:log:filename" then
    match value with
    | none => { self with system := { self.system with logFileName := "" } }
    | some v =>
      let d := reportedCast IECoreObject.asString "StringData" v "option" name
      match d.1 with
      | some d =>
        let self := createDirectoriesFor ext self d
        { self with system := { self.system with logFileName := d } }
      | none => self.msg d.2
  else if name = "ai:statisticsFileName" then
    let self := { self with system := { self.system with statsOverwrite := true } }
    match value with
    | none => { self with system := { self.system with statsFileName := "" } }
    | some v =>
      let d := reportedCast IECoreObject.asString "StringData" v "option" name
      match d.1 with
      | some d =>
        let self := createDirectoriesFor ext self d
        { self with system := { self.system with statsFileName := d } }
      | none => self.msg d.2
  else if name = "ai:log:max_warnings" then
    match value with
    | none => { self with system := { self.system with maxWarnings := 100 } }
    | some v =>
      let d := reportedCast IECoreObject.asInt "IntData" v "option" name
      match d.1 with
      | some d => { self with system := { self.system with maxWarnings := d } }
      | none => self.msg d.2
  else if starts_with (c_str name) "ai:log:" then
    let r := updateLogFlags flags self (substr name 7) (runTimeCastData value) false
    if r.1 then r.2 else unknownOption r.2 name
  else if starts_with (c_str name) "ai:console:" then
    let r := updateLogFlags flags self (substr name 11) (runTimeCastData value) true
    if r.1 then r.2 else unknownOption r.2 name
  else if name = "ai:AA_seed" then
    match value with
    | none => { self with m_aaSeed := none }
    | some v =>
      let d := reportedCast IECoreObject.asInt "IntData" v "option" name
      match d.1 with
      | some d => { self with m_aaSeed := some d }
      | none => self.msg d.2
  else if name = "sampleMotion" then
    match value with
    | none => { self with m_sampleMotion := none }
    | some v =>
      let d := reportedCast IECoreObject.asBool "BoolData" v "option" name
      match d.1 with
      | some d => { self with m_sampleMotion := some d }
      | none => self.msg d.2
  else if name = "ai:plugin_searchpath" then
    let s := ext.oslShaderPaths.getD ""
    let d : Option String × List String :=
      match value with
      | some v => reportedCast IECoreObject.asString "StringData" v "option" name
      | none => (none, [])
    let s :=
      match d.1 with
      | some d => d ++ ":" ++ s
      | none => s
    (self.msg d.2).modifyOptions (fun o => o.setParam "plugin_searchpath" (.str s))
  else if name = "ai:atmosphere" then
    let self := { self with m_atmosphere := none }
    let d : Option ShaderNetwork × List String :=
      match value with
      | some v => reportedCast IECoreObject.asShaderNetwork "ShaderNetwork" v "option" name
      | none => (none, [])
    let self := self.msg d.2
    let self :=
      match d.1 with
      | some d => { (self.getShader ext d).2 with m_atmosphere := some (self.getShader ext d).1 }
      | none => self
    self.modifyOptions (fun o =>
      o.setParam "atmosphere" (.ptr (self.m_atmosphere.bind ArnoldShader.root)))
  else if name = "ai:background" then
    let self := { self with m_background := none }
    let d : Option ShaderNetwork × List String :=
      match value with
      | some v => reportedCast IECoreObject.asShaderNetwork "ShaderNetwork" v "option" name
      | none => (none, [])
    let self := self.msg d.2
    let self :=
      match d.1 with
      | some d => { (self.getShader ext d).2 with m_background := some (self.getShader ext d).1 }
      | none => self
    self.modifyOptions (fun o =>
      o.setParam "background" (.ptr (self.m_background.bind ArnoldShader.root)))
  else if starts_with (c_str name) "ai:aov_shader:" then
    let self := { self with m_aovShaders := assocErase self.m_aovShaders name }
    let d : Option ShaderNetwork × List String :=
      match value with
      | some v => reportedCast IECoreObject.asShaderNetwork "ShaderNetwork" v "option" name
      | none => (none, [])
    let self := self.msg d.2
    let self :=
      match d.1 with
      | some d =>
        { (self.getShader ext d).2 with
          m_aovShaders := mapInsert before self.m_aovShaders name (self.getShader ext d).1 }
      | none => self
    self.modifyOptions (fun o =>
      o.setParam "aov_shaders" (.ptrArray (self.m_aovShaders.map (fun it => it.2.root))))
  else if starts_with (c_str name) "ai:declare:" then
    let arnoldName := substr (c_str name) 11
    if self.options.hasParameter arnoldName then
      self.msg ["Unable to declare existing option \"" ++ arnoldName ++ "\"."]
    else
      let self :=
        if (assocFind self.options.userParams arnoldName).isSome then
          self.modifyOptions (fun o => o.resetParam arnoldName)
        else self
      match (runTimeCastData value).bind IECoreObject.asData with
      | some dataValue =>
        self.modifyOptions (fun o => ParameterAlgo.setParameter o arnoldName dataValue)
      | none => self
  else if starts_with (c_str name) "ai:" then
    let arnoldName := substr (c_str name) 3
    if self.options.hasParameter arnoldName then setOrReset self arnoldName value
    else unknownOption self name
  else if starts_with (c_str name) "user:" then setOrReset self (c_str name) value
  else if containsChar (c_str name) ':' then self
  else unknownOption self name

end ArnoldGlobals


/-- A universe whose options node declares the parameters the globals write, and
nothing else. -/
def sessionUniverse : AtUniverse :=
  { options :=
      { entry :=
          { name := "options", type := .AI_NODE_OPTIONS,
            params := ["AA_samples", "AA_seed", "plugin_searchpath", "atmosphere", "background",
              "aov_shaders", "camera", "outputs", "light_path_expressions", "xres", "yres",
              "pixel_aspect_ratio", "region_min_x", "region_min_y", "region_max_x",
              "region_max_y"] },
        name := "options", params := [], userParams := [] },
    nodes := [], next := 1 }

/-- The order of the interned names taken for the sample sessions. -/
def sampleBefore (a b : String) : Bool := decide (a < b)

/-- The constructor of `ArnoldGlobals`, on the shader cache and universe it is given
and the state of the Arnold message system at that moment. -/
def ArnoldGlobals.new (flags : LogFlags) (ext : External) (before : String → String → Bool)
    (renderType : RenderType) (fileName : String) (shaders : Shaders) (system : ArnoldSystem) :
    ArnoldGlobals :=
  ArnoldGlobals.option flags ext before
    { m_renderType := renderType, m_outputs := [], m_aovShaders := [], m_atmosphere := none,
      m_background := none, m_cameraName := "", m_cameras := [], m_defaultCamera := none,
      m_logFileFlags := g_logFlagsDefault flags, m_consoleFlags := g_consoleFlagsDefault flags,
      m_frame := none, m_aaSeed := none, m_sampleMotion := none, m_rendering := false,
      m_assFileName := fileName, shaders := shaders,
      system := { system with logFileFlags := g_logFlagsDefault flags,
                              consoleFlags := g_consoleFlagsDefault flags },
      messages := [], renderCalls := [], assWrites := [], workers := 0 }
    "ai:plugin_searchpath" (some (.StringData ""))

/-- The globals of a new session of the given type. -/
def sampleGlobals (renderType : RenderType) : ArnoldGlobals :=
  ArnoldGlobals.new arnold5LogFlags sampleExternal sampleBefore renderType ""
    { shaderCache := { m_cache := [] }, ai := sessionUniverse }
    { logFileName := "", logFileFlags := 0, consoleFlags := 0, maxWarnings := 100,
      statsOverwrite := false, statsFileName := "", directoriesRequested := [] }

/-! ## ArnoldGlobals::render -/

/-- How a call that may throw ends: it returns, it raises an `IECore::Exception` with
the given `what()`, or it runs into behaviour the language leaves undefined. -/
inductive Outcome (σ : Type) where
  | returned (s : σ)
  | raised (what : String) (s : σ)
  | undefined
  deriving DecidableEq, Repr

/-- The `what()` of the exception, when the call raised one. -/
def Outcome.what? {σ : Type} : Outcome σ → Option String
  | .raised what _ => some what
  | _ => none

/-- The state the call returned in. -/
def Outcome.returned? {σ : Type} : Outcome σ → Option σ
  | .returned s => some s
  | _ => none

/-- The state the call left behind, whether it returned or raised. -/
def Outcome.state? {σ : Type} : Outcome σ → Option σ
  | .returned s => some s
  | .raised _ s => some s
  | .undefined => none

/-- What a batch render meets: the status `AiRender` returns at its n-th call in the
session, given the universe at that moment. -/
structure BatchEnv where
  aiRender : Nat → AtUniverse → Int

/-- Insertion into a `std::set<std::string>`, kept in ascending order. -/
def stringSetInsert : List String → String → List String
  | [], x => [x]
  | y :: rest, x =>
    if x = y then y :: rest
    else if x < y then x :: y :: rest
    else y :: stringSetInsert rest x

/-- Models `AiM4Identity`. -/
def AiM4Identity : List ℚ := [1, 0, 0, 0, 0, 1, 0, 0, 0, 0, 1, 0, 0, 0, 0, 1]

/-- Models `AiNodeGetMatrix`. -/
def AtNode.getMatrix (n : AtNode) (p : String) : List ℚ :=
  match n.getParam p with
  | some (.matrix v) => v
  | _ => AiM4Identity

/-- The value is one an `int` holds. -/
def fitsInt (v : Int) : Bool := decide (-2147483648 ≤ v ∧ v ≤ 2147483647)

/-- Models `ArnoldGlobals::throwError` (a reserved word here, hence the longer name):
the `what()` of the exception it throws, or `none` when it returns. -/
def throwErrorCode (codes : RenderCodes) (errorCode : Int) : Option String :=
  if errorCode = codes.AI_ABORT then some "Render aborted"
  else if errorCode = codes.AI_ERROR_NO_CAMERA then some "Camera not defined"
  else if errorCode = codes.AI_ERROR_BAD_CAMERA then some "Bad camera"
  else if errorCode = codes.AI_ERROR_VALIDATION then some "Usage not validated"
  else if errorCode = codes.AI_ERROR_RENDER_REGION then some "Invalid render region"
  else if errorCode = codes.AI_INTERRUPT then some "Render interrupted by user"
  else if errorCode = codes.AI_ERROR_NO_OUTPUTS then some "No outputs"
  else if errorCode = codes.AI_ERROR then some "Generic Arnold error"
  else none

namespace ArnoldGlobals

/-- Models `InteractiveRenderController::setRendering`. -/
def setRendering (self : ArnoldGlobals) (rendering : Bool) : ArnoldGlobals :=
  if rendering = self.m_rendering then self
  else if rendering then { self with m_rendering := true, workers := self.workers + 1 }
  else { self with m_rendering := false }

/-- Applies `f` to the universe. -/
def modifyUniverse (self : ArnoldGlobals) (f : AtUniverse → AtUniverse) : ArnoldGlobals :=
  { self with shaders := { self.shaders with ai := f self.shaders.ai } }

/-- The camera an output is for: its override, or the default camera of the session. -/
def outputCamera (self : ArnoldGlobals) (output : ArnoldOutput) : String :=
  if output.cameraOverride = "" then self.m_cameraName else output.cameraOverride

/-- The first loop of `updateCamera`: the `outputs` and `light_path_expressions` of the
outputs that are for the camera. -/
def collectOutputs (self : ArnoldGlobals) (cameraName : String) : List String × List String :=
  self.m_outputs.foldl
    (fun acc it =>
      if self.outputCamera it.2 = cameraName then it.2.append self.shaders.ai acc.1 acc.2
      else acc)
    ([], [])

/-- The part of `updateCamera` after the camera has been looked up. A null
`cortexCamera`, and a region whose flipped bounds overflow an `int`, have no defined
result. -/
def applyCamera (self : ArnoldGlobals) (cortexCamera : Option Camera)
    (arnoldCamera : Option AtNodePtr) : Option ArnoldGlobals :=
  let self := self.modifyOptions (fun o => o.setParam "camera" (.ptr arnoldCamera))
  match cortexCamera with
  | none => none
  | some cortexCamera =>
    let resolution := cortexCamera.renderResolution
    let renderRegion := cortexCamera.renderRegion
    let self := self.modifyOptions (fun o => o.setParam "xres" (.int resolution.1))
    let self := self.modifyOptions (fun o => o.setParam "yres" (.int resolution.2))
    let self := self.modifyOptions (fun o =>
      o.setParam "pixel_aspect_ratio" (.flt cortexCamera.pixelAspectRatio))
    let renderRegion : (Int × Int) × (Int × Int) :=
      if renderRegion.1.1 ≥ renderRegion.2.1 ∨ renderRegion.1.2 ≥ renderRegion.2.2 then
        ((0, 0), (1, 1))
      else renderRegion
    if fitsInt (resolution.2 - renderRegion.2.2) && fitsInt (renderRegion.2.1 - 1) &&
        fitsInt (resolution.2 - renderRegion.1.2) &&
        fitsInt (resolution.2 - renderRegion.1.2 - 1) then
      let self := self.modifyOptions (fun o => o.setParam "region_min_x" (.int renderRegion.1.1))
      let self := self.modifyOptions (fun o =>
        o.setParam "region_min_y" (.int (resolution.2 - renderRegion.2.2)))
      let self := self.modifyOptions (fun o =>
        o.setParam "region_max_x" (.int (renderRegion.2.1 - 1)))
      let self := self.modifyOptions (fun o =>
        o.setParam "region_max_y" (.int (resolution.2 - renderRegion.1.2 - 1)))
      let shutter := cortexCamera.shutter
      match arnoldCamera with
      | none => some self
      | some arnoldCamera =>
        if self.m_sampleMotion.getD true then
          some (self.modifyUniverse (fun u => u.modify arnoldCamera (fun n =>
            (n.setParam "shutter_start" (.flt shutter.1)).setParam "shutter_end"
              (.flt shutter.2))))
        else
          some (self.modifyUniverse (fun u => u.modify arnoldCamera (fun n =>
            (n.setParam "shutter_start" (.flt shutter.1)).setParam "shutter_end"
              (.flt shutter.1))))
    else none

/-- Models `ArnoldGlobals::updateCamera`. -/
def updateCamera (ext : External) (self : ArnoldGlobals) (cameraName : String) :
    Option ArnoldGlobals :=
  let collected := self.collectOutputs cameraName
  let self := self.modifyOptions (fun o =>
    ParameterAlgo.setParameter o "outputs" (.strArray collected.1))
  let self := self.modifyOptions (fun o =>
    ParameterAlgo.setParameter o "light_path_expressions" (.strArray collected.2))
  match self.shaders.ai.AiNodeLookUpByName cameraName with
  | some arnoldCamera =>
    let cortexCamera := assocFind self.m_cameras cameraName
    let self :=
      match self.m_defaultCamera with
      | some old =>
        { self.modifyUniverse (fun u => (nodeDeleter self.m_renderType).run u old) with
          m_defaultCamera := none }
      | none => self
    self.applyCamera cortexCamera (some arnoldCamera)
  | none =>
    let self :=
      if self.m_defaultCamera.isNone then
        let created :=
          self.shaders.ai.AiNode (ext.convertCamera ext.defaultCamera "ieCoreArnold:defaultCamera")
        { self.modifyUniverse (fun _ => created.2) with
          m_cameras := assocSet self.m_cameras "ieCoreArnold:defaultCamera" ext.defaultCamera,
          m_defaultCamera := some created.1 }
      else self
    self.applyCamera (assocFind self.m_cameras "ieCoreArnold:defaultCamera") self.m_defaultCamera

/-- The loop of `updateCameraMeshes` over the cameras. -/
def updateCameraMeshesLoop : List (String × Camera) → ArnoldGlobals → Outcome ArnoldGlobals
  | [], self => .returned self
  | it :: rest, self =>
    let meshPath := it.2.mesh
    if meshPath.length = 0 then updateCameraMeshesLoop rest self
    else
      match self.shaders.ai.AiNodeLookUpByName it.1 with
      | none => updateCameraMeshesLoop rest self
      | some arnoldCamera =>
        let missing : Outcome ArnoldGlobals :=
          .raised ("While outputting camera \"" ++ it.1 ++
            "\", could not find target mesh at \"" ++ meshPath ++ "\"") self
        match (self.shaders.ai.AiNodeLookUpByName meshPath).bind self.shaders.ai.node? with
        | none => missing
        | some meshNode =>
          if meshNode.entry.name = "ginstance" then
            updateCameraMeshesLoop rest
              (self.modifyUniverse (fun u => u.modify arnoldCamera (fun n =>
                (n.setParam "mesh" (.ptr (meshNode.getPtr "node"))).setParam "matrix"
                  (.matrix (meshNode.getMatrix "matrix")))))
          else if meshNode.entry.name = "polymesh" then
            updateCameraMeshesLoop rest
              (self.modifyUniverse (fun u => u.modify arnoldCamera (fun n =>
                (n.setParam "mesh" (.ptr (self.shaders.ai.AiNodeLookUpByName meshPath))).setParam
                  "matrix" (.matrix AiM4Identity))))
          else missing

/-- Models `ArnoldGlobals::updateCameraMeshes`. -/
def updateCameraMeshes (self : ArnoldGlobals) : Outcome ArnoldGlobals :=
  updateCameraMeshesLoop self.m_cameras self

/-- The loop of a batch render over the set of camera overrides. -/
def renderCameras (codes : RenderCodes) (ext : External) (env : BatchEnv) :
    List String → ArnoldGlobals → Outcome ArnoldGlobals
  | [], self => .returned self
  | cameraOverride :: rest, self =>
    match self.updateCamera ext
        (if cameraOverride.length ≠ 0 then cameraOverride else self.m_cameraName) with
    | none => .undefined
    | some self =>
      let result := env.aiRender self.renderCalls.length self.shaders.ai
      let self := { self with renderCalls := self.renderCalls ++ [self.shaders.ai.options] }
      match (if result ≠ codes.AI_SUCCESS then throwErrorCode codes result else none) with
      | some what => .raised what self
      | none => renderCameras codes ext env rest self

/-- The `std::set` of the camera overrides of the outputs. -/
def cameraOverrides (self : ArnoldGlobals) : List String :=
  self.m_outputs.foldl (fun acc it => stringSetInsert acc it.2.cameraOverride) []

/-- Models `ArnoldGlobals::render`. -/
def render (codes : RenderCodes) (ext : External) (env : BatchEnv) (self : ArnoldGlobals) :
    Outcome ArnoldGlobals :=
  match self.updateCameraMeshes with
  | .undefined => .undefined
  | .raised what self => .raised what self
  | .returned self =>
    let self := self.modifyOptions (fun o =>
      o.setParam "AA_seed" (.int (self.m_aaSeed.getD (self.m_frame.getD 1))))
    match self.m_renderType with
    | .Batch => renderCameras codes ext env self.cameraOverrides self
    | .SceneDescription =>
      match self.updateCamera ext self.m_cameraName with
      | none => .undefined
      | some self => .returned { self with assWrites := self.assWrites ++ [self.m_assFileName] }
    | .Interactive =>
      match self.updateCamera ext self.m_cameraName with
      | none => .undefined
      | some self => .returned (self.setRendering true)

end ArnoldGlobals

/-- A camera node with the given name. -/
def cameraNode (nodeName : String) : AtNode :=
  { entry := { name := "persp_camera", type := .AI_NODE_CAMERA,
               params := ["shutter_start", "shutter_end", "mesh", "matrix"] },
    name := nodeName, params := [], userParams := [] }

/-- A node of another class with the given name. -/
def otherNode (entryName nodeName : String) : AtNode :=
  { entry := { name := entryName, type := .AI_NODE_OTHER, params := [] },
    name := nodeName, params := [], userParams := [] }

/-- A camera of 640 by 480 pixels that renders its whole frame. -/
def fullFrame : Camera :=
  { renderResolution := (640, 480), renderRegion := ((0, 0), (640, 480)),
    pixelAspectRatio := 1, shutter := (0, 1), mesh := "" }

/-- A batch session with the cameras "camA" and "camB" and one output for each. -/
def twoCameraGlobals : ArnoldGlobals :=
  { sampleGlobals .Batch with
    m_cameraName := "camA",
    m_cameras := [("camA", fullFrame), ("camB", fullFrame)],
    m_outputs :=
      [("beauty", { m_driver := 3, m_filter := 4, m_data := "RGBA RGBA",
                    m_lpeName := "ieCoreArnold:lpe:beauty", m_lpeValue := "",
                    m_cameraOverride := "camA" }),
       ("depth", { m_driver := 5, m_filter := 6, m_data := "Z FLOAT",
                   m_lpeName := "ieCoreArnold:lpe:depth", m_lpeValue := "",
                   m_cameraOverride := "camB" })],
    shaders :=
      { shaderCache := { m_cache := [] },
        ai := { (sampleGlobals .Batch).shaders.ai with
          nodes := [(1, cameraNode "camA"), (2, cameraNode "camB"),
                    (3, otherNode "driver_exr" "ieCoreArnold:display:beauty"),
                    (4, otherNode "gaussian_filter" "ieCoreArnold:filter:beauty"),
                    (5, otherNode "driver_exr" "ieCoreArnold:display:depth"),
                    (6, otherNode "gaussian_filter" "ieCoreArnold:filter:depth")],
          next := 7 } } }

/-- Every call of `AiRender` returns the given status. -/
def alwaysStatus (status : Int) : BatchEnv := { aiRender := fun _ _ => status }

/-- The first call of `AiRender` returns `AI_SUCCESS`, every later one the given status. -/
def statusAfterFirst (codes : RenderCodes) (status : Int) : BatchEnv :=
  { aiRender := fun n _ => if n = 0 then codes.AI_SUCCESS else status }

/-- The session `twoCameraGlobals` as `render` has it when it enters the loop over the
cameras: with `AA_seed` set. -/
def twoCameraSeeded : ArnoldGlobals :=
  twoCameraGlobals.modifyOptions (fun o =>
    o.setParam "AA_seed" (.int (twoCameraGlobals.m_aaSeed.getD (twoCameraGlobals.m_frame.getD 1))))


/-! ## Sequences of calls on the link graph -/

/-- One call on the link graph. A light set is given by the address of its
`StringVectorData` object. -/
inductive LinkCall where
  | registerLight (lightName : String) (light : ArnoldLightPtr)
  | deregisterLight (lightName : String)
  | registerLightFilter (lightNames : Nat) (lightFilter : ArnoldLightFilterPtr)
  | deregisterLightFilter (lightNames : Nat) (lightFilter : ArnoldLightFilterPtr)
  | update (released : List Released)
  deriving DecidableEq, Repr

/-- The destroyed object with its light set holding what `content` gives for its
address. -/
def Released.withContent (content : Nat → List String) : Released → Released
  | .lightFilter F (some d) => .lightFilter F (some { addr := d.addr, readable := content d.addr })
  | other => other

/-- Makes one call, with `content` the strings each light-set object holds, those of
the objects an `update` destroys included. Registering a filter for a light that is not
in the table has no defined result. -/
def LinkCall.run (content : Nat → List String) (s : LightFilterConnections) :
    LinkCall → Option LightFilterConnections
  | .registerLight lightName light => some (s.registerLight lightName light)
  | .deregisterLight lightName => some (s.deregisterLight lightName)
  | .registerLightFilter lightNames lightFilter =>
    s.registerLightFilter { addr := lightNames, readable := content lightNames } lightFilter
  | .deregisterLightFilter lightNames lightFilter =>
    some (s.deregisterLightFilter { addr := lightNames, readable := content lightNames }
      lightFilter)
  | .update released => some (s.update (released.map (Released.withContent content))).1

/-- Makes the calls in order. -/
def runCalls (content : Nat → List String) :
    List LinkCall → LightFilterConnections → Option LightFilterConnections
  | [], s => some s
  | call :: rest, s =>
    match call.run content s with
    | none => none
    | some s => runCalls content rest s

/-- The light sets of the sample sequences: the object at address 100 holds "A" and
"B", the one at 101 holds "A". -/
def sampleContent (addr : Nat) : List String :=
  if addr = 100 then ["A", "B"] else if addr = 101 then ["A"] else []

/-- The invariant of the link graph, with `content` the strings each light-set object
holds: names and light sets are keys, the groups are distinct live objects, none is
empty, and every link of a light entry goes to a group of the table whose light set
names that light. -/
structure WellLinked (content : Nat → List String) (s : LightFilterConnections) : Prop where
  names_nodup : (s.m_connections.map Prod.fst).Nodup
  sets_nodup : (s.m_filterGroups.map Prod.fst).Nodup
  ptr_lt : ∀ e ∈ s.m_filterGroups, e.2.ptr < s.nextGroup
  ptr_nodup : (s.m_filterGroups.map (fun e => e.2.ptr)).Nodup
  nonempty : ∀ e ∈ s.m_filterGroups, e.2.members ≠ []
  linked : ∀ c ∈ s.m_connections, ∀ g ∈ c.2.lightFilterGroups,
    ∃ e ∈ s.m_filterGroups, e.2.ptr = g ∧ c.1 ∈ content e.1


/-- A worker that is never cancelled and whose render call at `AA_samples` 1 reports
an error, the earlier ones success. -/
def failingAtOne (codes : RenderCodes) : WorkerEnv :=
  { rendering := fun _ => true,
    aiRender := fun aaSamples => if aaSamples = 1 then codes.AI_ERROR else codes.AI_SUCCESS }


/-- The calls that register two lights and three filters, with no update yet. -/
def dirtyCalls : List LinkCall :=
  [.registerLight "A" 1, .registerLight "B" 2, .registerLightFilter 100 20,
   .registerLightFilter 100 21, .registerLightFilter 101 22]

/-- The graph the calls of `dirtyCalls` reach in an interactive session. -/
def dirtyLinks : LightFilterConnections :=
  (runCalls sampleContent dirtyCalls (LightFilterConnections.new false)).getD
    (LightFilterConnections.new false)


/-- A dictionary that hides an object from camera rays, names shadow rays as visible
and holds a string where the volume visibility is expected. -/
def hiddenFromCameraAttributes : CompoundObject :=
  [("ai:visibility:camera", .BoolData false), ("ai:visibility:shadow", .BoolData true),
   ("ai:visibility:volume", .StringData "off")]


/-- The default bundle with `ai:volume:velocity_scale` set to one, the value the hash
takes for a bundle without it. -/
def velocityScaleOne : ArnoldAttributes :=
  { defaultAttributes with
    m_volume := { defaultAttributes.m_volume with velocityScale := some 1 } }

/-- A `volume` node that declares the velocity scale as well. -/
def volumeNodeWithVelocity : AtNode :=
  shapeNode "volume" "v" ["step_size", "volume_padding", "velocity_scale"]


/-- The camera `updateCamera` reads the resolution and the region from: the one
submitted under the name when a node of that name exists, the default camera
otherwise. -/
def ArnoldGlobals.cortexCameraFor (ext : External) (self : ArnoldGlobals) (cameraName : String) :
    Option Camera :=
  match self.shaders.ai.AiNodeLookUpByName cameraName with
  | some _ => assocFind self.m_cameras cameraName
  | none =>
    if self.m_defaultCamera.isNone then some ext.defaultCamera
    else assocFind self.m_cameras "ieCoreArnold:defaultCamera"

/-- A camera of 640 by 480 pixels that renders the region from (100, 50) to (300, 200). -/
def croppedFrame : Camera :=
  { renderResolution := (640, 480), renderRegion := ((100, 50), (300, 200)),
    pixelAspectRatio := 1, shutter := (0, 1), mesh := "" }

/-- A camera of 640 by 480 pixels whose render region is empty. -/
def emptyRegionFrame : Camera :=
  { renderResolution := (640, 480), renderRegion := ((300, 50), (100, 200)),
    pixelAspectRatio := 1, shutter := (0, 1), mesh := "" }

/-- A session with the camera "camA", whose region is cropped, and the camera "camB",
whose region is empty. -/
def croppedGlobals : ArnoldGlobals :=
  { twoCameraGlobals with m_cameras := [("camA", croppedFrame), ("camB", emptyRegionFrame)] }


/-- A batch session whose default camera is "camA", with one output that has no camera
override and one whose override names "camA". -/
def defaultAndNamedGlobals : ArnoldGlobals :=
  { twoCameraGlobals with
    m_outputs :=
      [("beauty", { m_driver := 3, m_filter := 4, m_data := "RGBA RGBA",
                    m_lpeName := "ieCoreArnold:lpe:beauty", m_lpeValue := "",
                    m_cameraOverride := "" }),
       ("depth", { m_driver := 5, m_filter := 6, m_data := "Z FLOAT",
                   m_lpeName := "ieCoreArnold:lpe:depth", m_lpeValue := "",
                   m_cameraOverride := "camA" })] }

/-- The camera and the outputs in the options at each call of `AiRender`. -/
def ArnoldGlobals.callsMade (self : ArnoldGlobals) : List (Option AtNodePtr × List String) :=
  self.renderCalls.map (fun o => (o.getPtr "camera", o.getStrArray "outputs"))


/-! ## ArnoldAOVShader -/

/-- The default value of the `optionSuffix` plug, as the constructor of
`ArnoldAOVShader` gives it. -/
def ArnoldAOVShader.defaultOptionSuffix : String := "custom"

/-- Models `ArnoldAOVShader::computeOptionName`, with `optionSuffix` the value
`optionSuffixPlug()->getValue()` returns. -/
def ArnoldAOVShader.computeOptionName (optionSuffix : String) : String :=
  "ai:aov_shader:" ++ optionSuffix

/-- A session in which the AOV shader "ai:aov_shader:custom" has been set. -/
def withAOVShader : ArnoldGlobals :=
  ArnoldGlobals.option arnold5LogFlags sampleExternal sampleBefore (sampleGlobals .Batch)
    (ArnoldAOVShader.computeOptionName "custom") (some (.ShaderNetwork { hash := 7 }))


/-! ## ArnoldLight and ArnoldLightFilter -/

/-- An `Imath::M44f`: its sixteen entries. -/
abbrev M44f := List ℚ

/-- Carries the state of an outcome over to a larger state. -/
def Outcome.map {σ τ : Type} (f : σ → τ) : Outcome σ → Outcome τ
  | .returned s => .returned (f s)
  | .raised what s => .raised what (f s)
  | .undefined => .undefined

/-- The destructor of `ArnoldShader`, with `nodeDeleter` the deleter the shader was
constructed with. -/
def ArnoldShader.destroy (self : ArnoldShader) (nodeDeleter : NodeDeleter) (u : AtUniverse) :
    AtUniverse :=
  self.m_nodes.foldl nodeDeleter.run u

/-- Models the assignment of `nullptr` to an `ArnoldShaderPtr` that is the only
reference to its shader. -/
def resetShader (shader : Option ArnoldShader) (nodeDeleter : NodeDeleter) (u : AtUniverse) :
    AtUniverse :=
  match shader with
  | some sh => sh.destroy nodeDeleter u
  | none => u

/-- The state the calls on a light or a light filter work on: the world, and the link
graph that `m_connections` points to. -/
structure Scene where
  world : World
  connections : LightFilterConnections
  deriving DecidableEq, Repr

/-- The scene with another universe. -/
def Scene.withAi (s : Scene) (u : AtUniverse) : Scene :=
  { s with world := { s.world with ai := u } }

namespace ArnoldObject

/-- The constructor. -/
def new (inst : Instance) (supportsLinkedLights : Bool) : ArnoldObject :=
  { m_instance := inst, m_attributes := none, m_supportsLinkedLights := supportsLinkedLights }

/-- Models `applyTransform( node, transform, matrixParameterName )`. -/
def applyTransform (node : AtNodePtr) (transform : M44f) (matrixParameterName : String)
    (u : AtUniverse) : AtUniverse :=
  u.modify node (fun n => n.setParam matrixParameterName (.matrix transform))

/-- Models `applyTransform( node, samples, times, matrixParameterName )`. Reading
`times[0]` of an empty vector has no defined result. -/
def applyTransformSamples (ext : External) (node : AtNodePtr) (samples : List M44f)
    (times : List ℚ) (matrixParameterName : String) (u : AtUniverse) : Outcome AtUniverse :=
  let u := u.modify node (fun n => n.setParam matrixParameterName (.matrixArray samples))
  match ext.ensureUniformTimeSamples times with
  | some what => .raised what u
  | none =>
    match times.head?, times.getLast? with
    | some first, some last =>
      .returned ((u.modify node (fun n => n.setParam "motion_start" (.flt first))).modify node
        (fun n => n.setParam "motion_end" (.flt last)))
    | _, _ => .undefined

/-- Models `ArnoldObject::transform( transform )`. -/
def transform (self : ArnoldObject) (transform : M44f) (u : AtUniverse) : AtUniverse :=
  match self.m_instance.node with
  | none => u
  | some node => applyTransform node transform "matrix" u

/-- Models `ArnoldObject::transform( samples, times )`. -/
def transformSamples (self : ArnoldObject) (ext : External) (samples : List M44f)
    (times : List ℚ) (u : AtUniverse) : Outcome AtUniverse :=
  match self.m_instance.node with
  | none => .returned u
  | some node => applyTransformSamples ext node samples times "matrix" u

end ArnoldObject

/-- The body that `ArnoldLight::applyLightTransform` and
`ArnoldLightFilter::applyLightFilterTransform` have in common, with the shader, the
stored transform and the name of the matrix parameter of the class. A write through a
null root has no defined result. -/
def applyShaderTransform (ext : External) (shader : Option ArnoldShader)
    (m_transformMatrices : List M44f) (m_transformTimes : List ℚ)
    (matrixParameterName : String) (u : AtUniverse) : Outcome AtUniverse :=
  match shader with
  | none => .returned u
  | some sh =>
    match m_transformMatrices with
    | [] => .returned u
    | first :: _ =>
      match sh.root with
      | none => .undefined
      | some root =>
        if m_transformTimes.isEmpty then
          .returned (ArnoldObject.applyTransform root first matrixParameterName u)
        else
          ArnoldObject.applyTransformSamples ext root m_transformMatrices m_transformTimes
            matrixParameterName u

/-- An `ArnoldLightFilter`: the `ArnoldObject` it derives from, its own address and its
members (the parent node, always null for the nodes modelled here, is left out). -/
structure ArnoldLightFilter where
  object : ArnoldObject
  address : ArnoldLightFilterPtr
  m_name : String
  m_transformMatrices : List M44f
  m_transformTimes : List ℚ
  m_nodeDeleter : NodeDeleter
  m_lightFilterShader : Option ArnoldShader
  deriving DecidableEq, Repr

namespace ArnoldLightFilter

/-- The constructor. -/
def new (address : ArnoldLightFilterPtr) (name : String) (inst : Instance)
    (nodeDeleter : NodeDeleter) : ArnoldLightFilter :=
  { object := ArnoldObject.new inst false, address := address, m_name := name,
    m_transformMatrices := [], m_transformTimes := [], m_nodeDeleter := nodeDeleter,
    m_lightFilterShader := none }

def applyLightFilterTransform (self : ArnoldLightFilter) (ext : External) (u : AtUniverse) :
    Outcome AtUniverse :=
  applyShaderTransform ext self.m_lightFilterShader self.m_transformMatrices
    self.m_transformTimes "geometry_matrix" u

/-- Models `transform( transform )`. -/
def transform (self : ArnoldLightFilter) (ext : External) (transform : M44f) (s : Scene) :
    Outcome (ArnoldLightFilter × Scene) :=
  let u := self.object.transform transform s.world.ai
  let self := { self with m_transformMatrices := [transform], m_transformTimes := [] }
  (self.applyLightFilterTransform ext u).map (fun u => (self, s.withAi u))

/-- Models `transform( samples, times )`. -/
def transformSamples (self : ArnoldLightFilter) (ext : External) (samples : List M44f)
    (times : List ℚ) (s : Scene) : Outcome (ArnoldLightFilter × Scene) :=
  match self.object.transformSamples ext samples times s.world.ai with
  | .undefined => .undefined
  | .raised what u => .raised what (self, s.withAi u)
  | .returned u =>
    let self := { self with m_transformMatrices := samples, m_transformTimes := times }
    (self.applyLightFilterTransform ext u).map (fun u => (self, s.withAi u))

/-- Models `attributes( attributes )`: the value returned, the filter and the scene. -/
def attributes (self : ArnoldLightFilter) (ext : External) (attributes : ArnoldAttributes)
    (s : Scene) : Outcome (Bool × ArnoldLightFilter × Scene) :=
  let r := self.object.attributes attributes s.world
  if !r.1 then .returned (false, { self with object := r.2.1 }, { s with world := r.2.2 })
  else
    let connections :=
      match r.2.1.m_attributes with
      | some previous =>
        match previous.m_filteredLights with
        | some previouslyFilteredLightsData =>
          s.connections.deregisterLightFilter previouslyFilteredLightsData self.address
        | none => s.connections
      | none => s.connections
    let object := { r.2.1 with m_attributes := some attributes }
    let u := resetShader self.m_lightFilterShader self.m_nodeDeleter r.2.2.ai
    match attributes.m_filteredLights, attributes.m_lightFilterShader with
    | some filteredLightsData, some network =>
      let made := ArnoldShader.new ext network ("lightFilter:" ++ self.m_name ++ ":") u
      let self := { self with object := object, m_lightFilterShader := some made.1 }
      match connections.registerLightFilter filteredLightsData self.address with
      | none => .undefined
      | some connections =>
        match made.1.root with
        | none => .undefined
        | some root =>
          let u := made.2.modify root (fun n => { n with name := "lightFilter:" ++ self.m_name })
          (self.applyLightFilterTransform ext u).map (fun u =>
            (true, self, { world := { r.2.2 with ai := u }, connections := connections }))
    | _, _ =>
      .returned (true, { self with object := object, m_lightFilterShader := none },
        { world := { r.2.2 with ai := u }, connections := connections })

end ArnoldLightFilter

/-- An `ArnoldLight`: the `ArnoldObject` it derives from, its own address and its
members (the parent node, always null for the nodes modelled here, is left out). -/
structure ArnoldLight where
  object : ArnoldObject
  address : ArnoldLightPtr
  m_name : String
  m_transformMatrices : List M44f
  m_transformTimes : List ℚ
  m_nodeDeleter : NodeDeleter
  m_lightShader : Option ArnoldShader
  deriving DecidableEq, Repr

namespace ArnoldLight

/-- The constructor. -/
def new (address : ArnoldLightPtr) (name : String) (inst : Instance)
    (nodeDeleter : NodeDeleter) : ArnoldLight :=
  { object := ArnoldObject.new inst false, address := address, m_name := name,
    m_transformMatrices := [], m_transformTimes := [], m_nodeDeleter := nodeDeleter,
    m_lightShader := none }

def applyLightTransform (self : ArnoldLight) (ext : External) (u : AtUniverse) :
    Outcome AtUniverse :=
  applyShaderTransform ext self.m_lightShader self.m_transformMatrices self.m_transformTimes
    "matrix" u

/-- Models `transform( transform )`. -/
def transform (self : ArnoldLight) (ext : External) (transform : M44f) (s : Scene) :
    Outcome (ArnoldLight × Scene) :=
  let u := self.object.transform transform s.world.ai
  let self := { self with m_transformMatrices := [transform], m_transformTimes := [] }
  (self.applyLightTransform ext u).map (fun u => (self, s.withAi u))

/-- Models `transform( samples, times )`. -/
def transformSamples (self : ArnoldLight) (ext : External) (samples : List M44f)
    (times : List ℚ) (s : Scene) : Outcome (ArnoldLight × Scene) :=
  match self.object.transformSamples ext samples times s.world.ai with
  | .undefined => .undefined
  | .raised what u => .raised what (self, s.withAi u)
  | .returned u =>
    let self := { self with m_transformMatrices := samples, m_transformTimes := times }
    (self.applyLightTransform ext u).map (fun u => (self, s.withAi u))

/-- The mesh-light part of `attributes`: the universe when the shader is kept, nothing
when it is dropped because the location has no object. -/
def meshLight (self : ArnoldLight) (root : AtNodePtr) (u : AtUniverse) : Option AtUniverse :=
  if nodeIs u (some root) "mesh_light" then
    match self.object.m_instance.node with
    | some node => some (u.modify root (fun n => n.setParam "mesh" (.ptr (some node))))
    | none => none
  else some u

/-- Models `attributes( attributes )`: the value returned, the light and the scene. -/
def attributes (self : ArnoldLight) (ext : External) (attributes : ArnoldAttributes)
    (s : Scene) : Outcome (Bool × ArnoldLight × Scene) :=
  let r := self.object.attributes attributes s.world
  if !r.1 then .returned (false, { self with object := r.2.1 }, { s with world := r.2.2 })
  else
    let object := { r.2.1 with m_attributes := some attributes }
    let u := resetShader self.m_lightShader self.m_nodeDeleter r.2.2.ai
    match attributes.m_lightShader with
    | none =>
      .returned (true, { self with object := object, m_lightShader := none },
        { s with world := { r.2.2 with ai := u } })
    | some network =>
      let made := ArnoldShader.new ext network ("light:" ++ self.m_name ++ ":") u
      let self := { self with object := object, m_lightShader := some made.1 }
      match made.1.root with
      | none => .undefined
      | some root =>
        let u := made.2.modify root (fun n => { n with name := "light:" ++ self.m_name })
        match self.meshLight root u with
        | none =>
          .returned (true, { self with m_lightShader := none },
            { s with world := { r.2.2 with ai := made.1.destroy self.m_nodeDeleter u } })
        | some u =>
          (self.applyLightTransform ext u).map (fun u =>
            (true, self,
              { world := { r.2.2 with ai := u },
                connections := s.connections.registerLight self.m_name self.address }))

end ArnoldLight

/-- One call on a light or a light filter. -/
inductive ObjectCall where
  | transform (transform : M44f)
  | transformSamples (samples : List M44f) (times : List ℚ)
  | attributes (attributes : ArnoldAttributes)
  deriving DecidableEq, Repr

/-- A time-sampled transform has at least one sample and at least one time. -/
def ObjectCall.WellFormed : ObjectCall → Prop
  | .transformSamples samples times => samples ≠ [] ∧ times ≠ []
  | _ => True

instance (c : ObjectCall) : Decidable c.WellFormed := by
  cases c <;> unfold ObjectCall.WellFormed <;> infer_instance

/-- The most recent transform among the calls, after `earlier`. -/
def mostRecentTransform : List ObjectCall → Option ObjectCall → Option ObjectCall
  | [], earlier => earlier
  | .attributes _ :: rest, earlier => mostRecentTransform rest earlier
  | call :: rest, _ => mostRecentTransform rest (some call)

/-- Makes one call on a light filter. -/
def ArnoldLightFilter.call (ext : External) (self : ArnoldLightFilter) (s : Scene) :
    ObjectCall → Outcome (ArnoldLightFilter × Scene)
  | .transform transform => self.transform ext transform s
  | .transformSamples samples times => self.transformSamples ext samples times s
  | .attributes attributes => (self.attributes ext attributes s).map (fun r => r.2)

/-- Makes the calls on a light filter in order, up to the first that does not return. -/
def ArnoldLightFilter.runCalls (ext : External) :
    List ObjectCall → ArnoldLightFilter × Scene → Outcome (ArnoldLightFilter × Scene)
  | [], st => .returned st
  | call :: rest, st =>
    match ArnoldLightFilter.call ext st.1 st.2 call with
    | .returned st => ArnoldLightFilter.runCalls ext rest st
    | other => other

/-- Makes one call on a light. -/
def ArnoldLight.call (ext : External) (self : ArnoldLight) (s : Scene) :
    ObjectCall → Outcome (ArnoldLight × Scene)
  | .transform transform => self.transform ext transform s
  | .transformSamples samples times => self.transformSamples ext samples times s
  | .attributes attributes => (self.attributes ext attributes s).map (fun r => r.2)

/-- Makes the calls on a light in order, up to the first that does not return. -/
def ArnoldLight.runCalls (ext : External) :
    List ObjectCall → ArnoldLight × Scene → Outcome (ArnoldLight × Scene)
  | [], st => .returned st
  | call :: rest, st =>
    match ArnoldLight.call ext st.1 st.2 call with
    | .returned st => ArnoldLight.runCalls ext rest st
    | other => other


/-- A bundle with a light-filter shader whose light set, the object at address 100,
names light "A". -/
def filterBundleP : ArnoldAttributes :=
  { defaultAttributes with
    m_filteredLights := some { addr := 100, readable := ["A"] },
    m_lightFilterShader := some { hash := 7 } }

/-- The same bundle with another light-set object, at address 101, naming light "A". -/
def filterBundleN : ArnoldAttributes :=
  { defaultAttributes with
    m_filteredLights := some { addr := 101, readable := ["A"] },
    m_lightFilterShader := some { hash := 7 } }

/-- A scene with one shape node, at address 1, and light "A" in the table. -/
def filterScene : Scene :=
  { world :=
      { emptyWorld with
        ai := { emptyUniverse with nodes := [(1, shapeNode "polymesh" "filter" [])], next := 2 } },
    connections := (LightFilterConnections.new false).registerLight "A" 1 }

/-- The filter at address 20 whose proxy holds the node at address 1. -/
def filterWithNode : ArnoldLightFilter :=
  ArnoldLightFilter.new 20 "filter" (Instance.nonInstanced (some 1)) .AiNodeDestroy

/-- The filter at address 20 whose proxy holds no node. -/
def filterWithoutNode : ArnoldLightFilter :=
  ArnoldLightFilter.new 20 "filter" (Instance.nonInstanced none) .AiNodeDestroy

/-- The light sets under which a filter is a member of the group, after the calls. -/
def groupsOf (lightFilter : ArnoldLightFilterPtr)
    (r : Outcome (ArnoldLightFilter × Scene)) : Option (List Nat) :=
  r.returned?.map (fun st =>
    (st.2.connections.m_filterGroups.filter
      (fun e => decide (lightFilter ∈ e.2.members))).map Prod.fst)


/-- What a node carries of a transform call under the matrix parameter named: the
matrix of a single transform; the samples of a time-sampled one, with the first time
as motion start and the last as motion end. -/
def Carries (n : AtNode) (matrixParameterName : String) : ObjectCall → Prop
  | .transform transform => n.getParam matrixParameterName = some (.matrix transform)
  | .transformSamples samples times =>
    n.getParam matrixParameterName = some (.matrixArray samples) ∧
    n.getParam "motion_start" = times.head?.map ParamValue.flt ∧
    n.getParam "motion_end" = times.getLast?.map ParamValue.flt
  | .attributes _ => True

/-- The parameters a transform writes have in `n` the values they have in `n0`. -/
def SameTransform (n n0 : AtNode) (matrixParameterName : String) : Prop :=
  n.getParam matrixParameterName = n0.getParam matrixParameterName ∧
  n.getParam "motion_start" = n0.getParam "motion_start" ∧
  n.getParam "motion_end" = n0.getParam "motion_end"

/-- The transform an object has stored is the one of the most recent transform call. -/
def Stored (m_transformMatrices : List M44f) (m_transformTimes : List ℚ) :
    Option ObjectCall → Prop
  | none => m_transformMatrices = []
  | some (.transform transform) => m_transformMatrices = [transform] ∧ m_transformTimes = []
  | some (.transformSamples samples times) =>
    m_transformMatrices = samples ∧ m_transformTimes = times ∧ samples ≠ [] ∧ times ≠ []
  | some (.attributes _) => False

/-- The state of the root of a shader in the universe `u`, for an object whose proxy
holds `instanceNode`, whose shader is `shader`, made from `network` with the node names
starting with `names`: when there is a shader, its root is a live node other than the
node of the proxy; it carries the most recent transform `recent` under the parameter
named, and when no transform has been received the parameters a transform writes are as
the shader converter made them. -/
def RootCarries (ext : External) (u : AtUniverse) (instanceNode : Option AtNodePtr)
    (shader : Option ArnoldShader) (network : Option ShaderNetwork) (names : String)
    (matrixParameterName : String) (recent : Option ObjectCall) : Prop :=
  ∀ sh, shader = some sh →
    ∃ root n, sh.root = some root ∧ instanceNode ≠ some root ∧ u.node? root = some n ∧
      match recent with
      | some t => Carries n matrixParameterName t
      | none =>
        ∃ net n0, network = some net ∧
          (ext.convertShaderNetwork net names).getLast? = some n0 ∧
          SameTransform n n0 matrixParameterName

/-- What a run without exception asks of the external routines at a call: uniform
times, and at least one node from the shader converter. -/
def ObjectCall.Converts (ext : External) (shaderOf : ArnoldAttributes → Option ShaderNetwork)
    (names : String) : ObjectCall → Prop
  | .transform _ => True
  | .transformSamples _ times => ext.ensureUniformTimeSamples times = none
  | .attributes a =>
    ∀ net, shaderOf a = some net → ext.convertShaderNetwork net names ≠ []

/-- The lights a call on a light filter registers the filter for are in the light table. -/
def ObjectCall.LightsKnown (connections : List (String × Filters)) : ObjectCall → Prop
  | .attributes a =>
    ∀ d, a.m_filteredLights = some d →
      ∀ lightName ∈ d.readable, (assocFind connections lightName).isSome = true
  | _ => True


/-- The transform call that is the most recent one after `call`. -/
def ObjectCall.after (call : ObjectCall) (earlier : Option ObjectCall) : Option ObjectCall :=
  match call with
  | .attributes _ => earlier
  | call => some call

/-- The invariant of a light named `name`, with `recent` the most recent transform call:
the stored transform is that of `recent`, the node of the proxy is an address the
universe has given out, and the root of the light shader carries `recent`. -/
def ArnoldLight.Invariant (ext : External) (name : String) (recent : Option ObjectCall)
    (st : ArnoldLight × Scene) : Prop :=
  st.1.m_name = name ∧
  Stored st.1.m_transformMatrices st.1.m_transformTimes recent ∧
  (∀ node, st.1.object.m_instance.node = some node → node < st.2.world.ai.next) ∧
  RootCarries ext st.2.world.ai st.1.object.m_instance.node st.1.m_lightShader
    (st.1.object.m_attributes.bind (fun a => a.m_lightShader)) ("light:" ++ name ++ ":")
    "matrix" recent

/-- The invariant of a light filter named `name`, with `recent` the most recent
transform call. -/
def ArnoldLightFilter.Invariant (ext : External) (name : String) (recent : Option ObjectCall)
    (st : ArnoldLightFilter × Scene) : Prop :=
  st.1.m_name = name ∧
  Stored st.1.m_transformMatrices st.1.m_transformTimes recent ∧
  (∀ node, st.1.object.m_instance.node = some node → node < st.2.world.ai.next) ∧
  RootCarries ext st.2.world.ai st.1.object.m_instance.node st.1.m_lightFilterShader
    (st.1.object.m_attributes.bind (fun a => a.m_lightFilterShader))
    ("lightFilter:" ++ name ++ ":") "geometry_matrix" recent

/-- The stored times, when there are any, are uniform for the external check. -/
def UniformTimes (ext : External) (m_transformTimes : List ℚ) : Prop :=
  m_transformTimes ≠ [] → ext.ensureUniformTimeSamples m_transformTimes = none


/-- A bundle with a light shader, and with a light-filter shader for the light set at
address 100, which names light "A". -/
def lightAndFilterBundle : ArnoldAttributes :=
  { filterBundleP with m_lightShader := some { hash := 9 } }

/-- The identity matrix. -/
def identityMatrix : M44f := [1, 0, 0, 0, 0, 1, 0, 0, 0, 0, 1, 0, 0, 0, 0, 1]

/-- A translation by two along x. -/
def translationMatrix : M44f := [1, 0, 0, 0, 0, 1, 0, 0, 0, 0, 1, 0, 2, 0, 0, 1]

/-- A transform before the shader arrives, the bundle with the shaders, then a
time-sampled transform. -/
def transformFirstCalls : List ObjectCall :=
  [.transform translationMatrix, .attributes lightAndFilterBundle,
   .transformSamples [identityMatrix, translationMatrix] [0, 1 / 2]]


/-- The name made of "a", a NUL character and ":b". -/
def nameWithNul : String := String.mk ['a', Char.ofNat 0, ':', 'b']

/-! ## Lemmas on association lists -/

theorem assocFind_assocSet_same {α β : Type} [DecidableEq α] (l : List (α × β)) (k : α) (v : β) :
    assocFind (assocSet l k v) k = some v := by
  induction l with
  | nil => simp [assocSet, assocFind]
  | cons e rest ih =>
    obtain ⟨k', v'⟩ := e
    by_cases h : k' = k
    · simp [assocSet, assocFind, h]
    · simp [assocSet, assocFind, h, ih]

theorem assocFind_assocSet_other {α β : Type} [DecidableEq α] (l : List (α × β)) (k k' : α)
    (v : β) (h : k ≠ k') : assocFind (assocSet l k v) k' = assocFind l k' := by
  induction l with
  | nil => simp [assocSet, assocFind, h]
  | cons e rest ih =>
    obtain ⟨k0, v0⟩ := e
    by_cases h0 : k0 = k
    · subst h0
      simp [assocSet, assocFind, h]
    · by_cases h1 : k0 = k'
      · subst h1
        simp [assocSet, assocFind, h0]
      · simp [assocSet, assocFind, h0, h1, ih]

/-! ## Lemmas on the instance cache -/

theorem hashGeometryInternal_append (a : ArnoldAttributes) (u : AtUniverse) (t : TypeId)
    (lin vol : Bool) (h : MurmurHash) :
    a.hashGeometryInternal u t lin vol h = h ++ a.hashGeometryInternal u t lin vol [] := by
  cases t <;>
    simp only [ArnoldAttributes.hashGeometryInternal, PolyMesh.hash, Displacement.hash,
      Curves.hash, Volume.hash] <;>
    (try split) <;> (try split) <;> (try split) <;> simp

theorem hashGeometry_append (a : ArnoldAttributes) (u : AtUniverse) (o : Object) (h : MurmurHash) :
    a.hashGeometry u o h = h ++ a.hashGeometry u o [] := by
  unfold ArnoldAttributes.hashGeometry
  exact hashGeometryInternal_append a u _ _ _ h

theorem instanced_m_node (p : Option AtNodePtr) (name : String) (u : AtUniverse) :
    (Instance.instanced p name u).1.m_node = p := by
  cases p <;> rfl

theorem get_instanced_eq (c : InstanceCache) (ext : External) (o : Object) (a : ArnoldAttributes)
    (n : String) (w : World) (hcan : c.canInstance ext (some o) a = true) :
    c.get ext (some o) a n w =
      ((Instance.instanced (c.lookupOrConvert ext o a w).1 n (c.lookupOrConvert ext o a w).2.ai).1,
        { c with m_cache := assocSet c.m_cache (InstanceCache.key a w.ai o)
                              (c.lookupOrConvert ext o a w).1 },
        { (c.lookupOrConvert ext o a w).2 with
          ai := (Instance.instanced (c.lookupOrConvert ext o a w).1 n
                  (c.lookupOrConvert ext o a w).2.ai).2 }) := by
  simp only [InstanceCache.get, hcan]

theorem get_not_instanced_eq (c : InstanceCache) (ext : External) (obj : Option Object)
    (a : ArnoldAttributes) (n : String) (w : World) (hcan : c.canInstance ext obj a = false) :
    c.get ext obj a n w =
      (Instance.nonInstanced (c.convert ext obj a n w).1, c, (c.convert ext obj a n w).2) := by
  cases obj with
  | none => simp [InstanceCache.get]
  | some o => simp [InstanceCache.get, hcan]

theorem get_m_nodeDeleter (c : InstanceCache) (ext : External) (obj : Option Object)
    (a : ArnoldAttributes) (n : String) (w : World) :
    (c.get ext obj a n w).2.1.m_nodeDeleter = c.m_nodeDeleter := by
  cases hcan : c.canInstance ext obj a with
  | false => rw [get_not_instanced_eq c ext obj a n w hcan]
  | true =>
    cases obj with
    | none => simp [InstanceCache.canInstance] at hcan
    | some o => rw [get_instanced_eq c ext o a n w hcan]

/-- A non-empty entry of the cache is not changed by a later `get`. -/
theorem get_preserves_entry (c : InstanceCache) (ext : External) (obj : Option Object)
    (a : ArnoldAttributes) (n : String) (w : World) (h : MurmurHash) (m : AtNodePtr)
    (hm : assocFind c.m_cache h = some (some m)) :
    assocFind (c.get ext obj a n w).2.1.m_cache h = some (some m) := by
  cases hcan : c.canInstance ext obj a with
  | false => rw [get_not_instanced_eq c ext obj a n w hcan]; exact hm
  | true =>
    cases obj with
    | none => simp [InstanceCache.canInstance] at hcan
    | some o =>
      rw [get_instanced_eq c ext o a n w hcan]
      by_cases hk : InstanceCache.key a w.ai o = h
      · simp only [InstanceCache.lookupOrConvert, hk, hm, Option.getD_some]
        exact assocFind_assocSet_same _ _ _
      · simp only
        rw [assocFind_assocSet_other _ _ _ _ hk]
        exact hm

theorem getAll_m_nodeDeleter (ext : External) (calls : List GetCall) (s : InstanceCache × World) :
    (InstanceCache.getAll ext calls s).1.m_nodeDeleter = s.1.m_nodeDeleter := by
  induction calls generalizing s with
  | nil => rfl
  | cons c rest ih =>
    simp only [InstanceCache.getAll]
    rw [ih]
    exact get_m_nodeDeleter _ _ _ _ _ _

theorem getAll_preserves_entry (ext : External) (calls : List GetCall) (s : InstanceCache × World)
    (h : MurmurHash) (m : AtNodePtr) (hm : assocFind s.1.m_cache h = some (some m)) :
    assocFind (InstanceCache.getAll ext calls s).1.m_cache h = some (some m) := by
  induction calls generalizing s with
  | nil => exact hm
  | cons c rest ih =>
    simp only [InstanceCache.getAll]
    exact ih _ (get_preserves_entry _ _ _ _ _ _ _ _ hm)

/-- A call whose key has a non-empty entry returns that entry and converts nothing. -/
theorem get_hit (c : InstanceCache) (ext : External) (o : Object) (a : ArnoldAttributes)
    (n : String) (w : World) (m : AtNodePtr) (hcan : c.canInstance ext (some o) a = true)
    (hm : assocFind c.m_cache (InstanceCache.key a w.ai o) = some (some m)) :
    (c.get ext (some o) a n w).1.m_node = some m
      ∧ (c.get ext (some o) a n w).2.2.conversions = w.conversions := by
  rw [get_instanced_eq c ext o a n w hcan]
  simp [InstanceCache.lookupOrConvert, hm, instanced_m_node]

/-- After a call for an object that can be instanced, the cache maps the key to the
handle of the returned proxy. -/
theorem get_stores (c : InstanceCache) (ext : External) (o : Object) (a : ArnoldAttributes)
    (n : String) (w : World) (hcan : c.canInstance ext (some o) a = true) :
    assocFind (c.get ext (some o) a n w).2.1.m_cache (InstanceCache.key a w.ai o)
      = some (c.get ext (some o) a n w).1.m_node := by
  rw [get_instanced_eq c ext o a n w hcan]
  simp only [instanced_m_node]
  exact assocFind_assocSet_same _ _ _

theorem canInstance_congr (c c' : InstanceCache) (ext : External) (obj : Option Object)
    (a : ArnoldAttributes) (h : c'.m_nodeDeleter = c.m_nodeDeleter) :
    c'.canInstance ext obj a = c.canInstance ext obj a := by
  cases obj <;> simp [InstanceCache.canInstance, h]

/-! ## Claims on the instance cache -/

/-- C1 (amended): two single-sample `get` calls on one cache, with any number of
other `get` calls and no sweep in between, for objects with the same content
hash that are both eligible for instancing and for which `hashGeometry` appends
the same values: when the proxy of the first call holds a node, the proxy of the
second call holds the same master handle and the second call converts nothing. -/
theorem c1_get_shares_master (ext : External) (c : InstanceCache) (w : World)
    (o1 o2 : Object) (a1 a2 : ArnoldAttributes) (n1 n2 : String) (between : List GetCall)
    (master : AtNodePtr)
    (hcan1 : c.canInstance ext (some o1) a1 = true)
    (hcan2 : c.canInstance ext (some o2) a2 = true)
    (hobj : o1.hash = o2.hash)
    (hgeo : a1.hashGeometry w.ai o1 [] =
      a2.hashGeometry (InstanceCache.getAll ext between
        ((c.get ext (some o1) a1 n1 w).2.1, (c.get ext (some o1) a1 n1 w).2.2)).2.ai o2 [])
    (hnode : (c.get ext (some o1) a1 n1 w).1.m_node = some master) :
    ((InstanceCache.getAll ext between
        ((c.get ext (some o1) a1 n1 w).2.1, (c.get ext (some o1) a1 n1 w).2.2)).1.get ext
        (some o2) a2 n2
        (InstanceCache.getAll ext between
          ((c.get ext (some o1) a1 n1 w).2.1, (c.get ext (some o1) a1 n1 w).2.2)).2).1.m_node
      = some master
    ∧ ((InstanceCache.getAll ext between
        ((c.get ext (some o1) a1 n1 w).2.1, (c.get ext (some o1) a1 n1 w).2.2)).1.get ext
        (some o2) a2 n2
        (InstanceCache.getAll ext between
          ((c.get ext (some o1) a1 n1 w).2.1, (c.get ext (some o1) a1 n1 w).2.2)).2).2.2.conversions
      = (InstanceCache.getAll ext between
          ((c.get ext (some o1) a1 n1 w).2.1, (c.get ext (some o1) a1 n1 w).2.2)).2.conversions := by
  have hstored := get_stores c ext o1 a1 n1 w hcan1
  rw [hnode] at hstored
  have hkept := getAll_preserves_entry ext between
    ((c.get ext (some o1) a1 n1 w).2.1, (c.get ext (some o1) a1 n1 w).2.2) _ _ hstored
  have hkey : InstanceCache.key a1 w.ai o1 =
      InstanceCache.key a2 (InstanceCache.getAll ext between
        ((c.get ext (some o1) a1 n1 w).2.1, (c.get ext (some o1) a1 n1 w).2.2)).2.ai o2 := by
    unfold InstanceCache.key
    rw [hashGeometry_append a1, hashGeometry_append a2, hobj, hgeo]
  rw [hkey] at hkept
  have hdel : (InstanceCache.getAll ext between
      ((c.get ext (some o1) a1 n1 w).2.1, (c.get ext (some o1) a1 n1 w).2.2)).1.m_nodeDeleter
      = c.m_nodeDeleter := by
    rw [getAll_m_nodeDeleter]
    exact get_m_nodeDeleter _ _ _ _ _ _
  have hcan2' := (canInstance_congr c _ ext (some o2) a2 hdel).trans hcan2
  exact get_hit _ ext o2 a2 n2 _ master hcan2' hkept

/-- C1 (witness): a linear mesh submitted twice with the default bundle, with the
submission of another mesh in between. -/
theorem c1_get_shares_master_witness :
    ((InstanceCache.getAll sampleExternal otherCalls (afterMesh.2.1, afterMesh.2.2)).1.get
        sampleExternal (some linearMesh) defaultAttributes "b"
        (InstanceCache.getAll sampleExternal otherCalls (afterMesh.2.1, afterMesh.2.2)).2).1.m_node
      = some 1
    ∧ ((InstanceCache.getAll sampleExternal otherCalls (afterMesh.2.1, afterMesh.2.2)).1.get
        sampleExternal (some linearMesh) defaultAttributes "b"
        (InstanceCache.getAll sampleExternal otherCalls
          (afterMesh.2.1, afterMesh.2.2)).2).2.2.conversions
      = (InstanceCache.getAll sampleExternal otherCalls
          (afterMesh.2.1, afterMesh.2.2)).2.conversions :=
  c1_get_shares_master sampleExternal (emptyCache .AiNodeDestroy) emptyWorld linearMesh linearMesh
    defaultAttributes defaultAttributes "a" "b" otherCalls 1 (by decide) (by decide) rfl
    (by decide!) (by decide!)

/-- C1 (counterexample): an object for which the converter makes no node is eligible
for instancing; submitted twice with the same bundle, the first proxy holds no
node and the second call runs the conversion again. -/
theorem c1_counterexample :
    (emptyCache .AiNodeDestroy).canInstance sampleExternal (some unsupportedObject)
      defaultAttributes = true
    ∧ afterUnsupported.2.1.canInstance sampleExternal (some unsupportedObject)
      defaultAttributes = true
    ∧ afterUnsupported.1.m_node = none
    ∧ afterUnsupported.2.2.conversions = ["instance:o2"]
    ∧ (afterUnsupported.2.1.get sampleExternal (some unsupportedObject) defaultAttributes "b"
        afterUnsupported.2.2).2.2.conversions = ["instance:o2", "instance:o2"] := by
  decide

/-- C2 (failing input): for a VDB volume, two bundles that differ only in
`ai:shape:step_size` make `applyGeometry` write different `step_size` values into
the compiled node, yet `hashGeometry` appends the same values for both; the second
`get` therefore returns the master compiled with the first bundle. -/
theorem c2_vdb_step_size_not_hashed :
    stepSizeOne.applyGeometry emptyUniverse sampleVDB volumeNode
      ≠ stepSizeTwo.applyGeometry emptyUniverse sampleVDB volumeNode
    ∧ (stepSizeOne.applyGeometry emptyUniverse sampleVDB volumeNode).getFlt "step_size" = 1
    ∧ (stepSizeTwo.applyGeometry emptyUniverse sampleVDB volumeNode).getFlt "step_size" = 2
    ∧ stepSizeOne.hashGeometry emptyUniverse sampleVDB []
        = stepSizeTwo.hashGeometry emptyUniverse sampleVDB []
    ∧ ((emptyCache .AiNodeDestroy).get sampleExternal (some sampleVDB) stepSizeOne "a"
        emptyWorld).1.m_node = some 1
    ∧ (((emptyCache .AiNodeDestroy).get sampleExternal (some sampleVDB) stepSizeOne "a"
        emptyWorld).2.1.get sampleExternal (some sampleVDB) stepSizeTwo "b"
        ((emptyCache .AiNodeDestroy).get sampleExternal (some sampleVDB) stepSizeOne "a"
          emptyWorld).2.2).1.m_node = some 1
    ∧ ((((emptyCache .AiNodeDestroy).get sampleExternal (some sampleVDB) stepSizeOne "a"
        emptyWorld).2.1.get sampleExternal (some sampleVDB) stepSizeTwo "b"
        ((emptyCache .AiNodeDestroy).get sampleExternal (some sampleVDB) stepSizeOne "a"
          emptyWorld).2.2).2.2.ai.node? 1).map (fun n => n.getFlt "step_size") = some 1 := by
  decide!

/-- The volume hash does not tell `ai:volume:grids` from `ai:volume:velocity_grids`:
the two bundles write different parameters and append the same values. -/
theorem volume_hash_confuses_grids :
    gridsOnly.applyGeometry emptyUniverse sampleVDB volumeNode
      ≠ velocityGridsOnly.applyGeometry emptyUniverse sampleVDB volumeNode
    ∧ (gridsOnly.applyGeometry emptyUniverse sampleVDB volumeNode).getStrArray "grids"
        = ["density"]
    ∧ (velocityGridsOnly.applyGeometry emptyUniverse sampleVDB volumeNode).getStrArray "grids"
        = []
    ∧ gridsOnly.hashGeometry emptyUniverse sampleVDB []
        = velocityGridsOnly.hashGeometry emptyUniverse sampleVDB [] := by
  decide!

/-! ### Sweep -/

theorem mem_assocErase {α β : Type} [DecidableEq α] (l : List (α × β)) (k : α) (x : α × β) :
    x ∈ assocErase l k ↔ x ∈ l ∧ x.1 ≠ k := by
  simp [assocErase, List.mem_filter]

theorem mem_foldl_assocErase {α β : Type} [DecidableEq α] (ks : List (α × β))
    (l : List (α × β)) (x : α × β) :
    x ∈ ks.foldl (fun c e => assocErase c e.1) l ↔ x ∈ l ∧ ∀ e ∈ ks, e.1 ≠ x.1 := by
  induction ks generalizing l with
  | nil => simp
  | cons e rest ih =>
    simp only [List.foldl_cons, ih, mem_assocErase, List.mem_cons, forall_eq_or_imp]
    constructor
    · rintro ⟨⟨h1, h2⟩, h3⟩
      exact ⟨h1, fun h => h2 h.symm, h3⟩
    · rintro ⟨h1, h2, h3⟩
      exact ⟨⟨h1, fun h => h2 h.symm⟩, h3⟩

theorem eq_of_mem_of_fst_eq {α β : Type} (l : List (α × β)) (hnd : (l.map Prod.fst).Nodup)
    (x y : α × β) (hx : x ∈ l) (hy : y ∈ l) (h : x.1 = y.1) : x = y := by
  induction l with
  | nil => simp at hx
  | cons e rest ih =>
    simp only [List.map_cons, List.nodup_cons, List.mem_map, not_exists, not_and] at hnd
    simp only [List.mem_cons] at hx hy
    rcases hx with hx | hx <;> rcases hy with hy | hy
    · rw [hx, hy]
    · subst hx
      exact absurd h.symm (hnd.1 y hy)
    · subst hy
      exact absurd h (hnd.1 x hx)
    · exact ih hnd.2 hx hy

theorem filter_handle_length (l : List (MurmurHash × Option AtNodePtr)) (n : AtNodePtr) :
    (l.filter (fun e => decide (e.2 = some n))).length = (l.filterMap Prod.snd).count n := by
  induction l with
  | nil => rfl
  | cons e rest ih =>
    obtain ⟨k, p⟩ := e
    cases p with
    | none => simpa [List.filter_cons, List.filterMap_cons] using ih
    | some m =>
      by_cases hm : m = n
      · subst hm
        simp [List.filter_cons, List.filterMap_cons, ih]
      · have hm' : ¬ (m == n) = true := by simpa using hm
        simp [List.filter_cons, List.filterMap_cons, List.count_cons, hm, hm', ih]

/-- In a well-formed cache the handle of an entry is unique exactly when no live
proxy holds its node; an empty handle is never unique. -/
theorem unique_iff (c : InstanceCache) (holders : List Instance) (hwf : c.WellFormed)
    (k : MurmurHash) (p : Option AtNodePtr) (he : (k, p) ∈ c.m_cache) :
    c.unique holders p = true ↔ p ≠ none ∧ ∀ i ∈ holders, i.m_node ≠ p := by
  cases p with
  | none => simp [InstanceCache.unique, InstanceCache.useCount]
  | some n =>
    have hmem : n ∈ c.m_cache.filterMap Prod.snd :=
      List.mem_filterMap.mpr ⟨(k, some n), he, rfl⟩
    have hone : (c.m_cache.filter (fun e => decide (e.2 = some n))).length = 1 := by
      rw [filter_handle_length]
      exact List.count_eq_one_of_mem hwf.2 hmem
    simp only [InstanceCache.unique, InstanceCache.useCount, hone, decide_eq_true_eq, ne_eq,
      reduceCtorEq, not_false_eq_true, true_and]
    constructor
    · intro h i hi heq
      have hlen : (holders.filter (fun i => decide (i.m_node = some n))).length = 0 := by omega
      have hnil := List.length_eq_zero.mp hlen
      have : i ∈ holders.filter (fun i => decide (i.m_node = some n)) :=
        List.mem_filter.mpr ⟨hi, by simpa using heq⟩
      rw [hnil] at this
      simp at this
    · intro h
      have hnil : holders.filter (fun i => decide (i.m_node = some n)) = [] := by
        rw [List.filter_eq_nil_iff]
        intro i hi
        simpa using h i hi
      rw [hnil]
      rfl

/-- C3 (amended): `clearUnused` keeps only entries of the cache, with their handles,
and for every entry of a well-formed cache: the entry is removed if and only if its
stored handle is not empty and no instance proxy outside the cache holds it. An
entry with an outstanding proxy stays; an entry with an empty handle stays too. -/
theorem c3_clearUnused_removes_iff (c : InstanceCache) (holders : List Instance)
    (u : AtUniverse) (hwf : c.WellFormed) :
    (∀ e ∈ (c.clearUnused holders u).1.m_cache, e ∈ c.m_cache)
    ∧ ∀ k p, (k, p) ∈ c.m_cache →
        ((k, p) ∉ (c.clearUnused holders u).1.m_cache ↔
          p ≠ none ∧ ∀ i ∈ holders, i.m_node ≠ p) := by
  constructor
  · intro e he
    simp only [InstanceCache.clearUnused, mem_foldl_assocErase] at he
    exact he.1
  · intro k p he
    rw [← unique_iff c holders hwf k p he]
    simp only [InstanceCache.clearUnused, mem_foldl_assocErase, List.mem_filter, not_and,
      not_forall, Classical.not_imp, not_not]
    constructor
    · intro h
      obtain ⟨e, ⟨hmem, huniq⟩, hk⟩ := h he
      have heq : e = (k, p) := eq_of_mem_of_fst_eq c.m_cache hwf.1 e (k, p) hmem he hk
      rw [heq] at huniq
      exact huniq
    · intro h _
      exact ⟨(k, p), ⟨he, h⟩, rfl⟩

/-- C3 (witness): the cache holding one compiled mesh, with its proxy alive. -/
theorem c3_clearUnused_removes_iff_witness :
    afterMesh.2.1.WellFormed
    ∧ ((∀ e ∈ (afterMesh.2.1.clearUnused [afterMesh.1] afterMesh.2.2.ai).1.m_cache,
          e ∈ afterMesh.2.1.m_cache)
      ∧ ∀ k p, (k, p) ∈ afterMesh.2.1.m_cache →
          ((k, p) ∉ (afterMesh.2.1.clearUnused [afterMesh.1] afterMesh.2.2.ai).1.m_cache ↔
            p ≠ none ∧ ∀ i ∈ [afterMesh.1], i.m_node ≠ p)) :=
  ⟨by decide,
    c3_clearUnused_removes_iff afterMesh.2.1 [afterMesh.1] afterMesh.2.2.ai (by decide)⟩

/-- C3 (counterexample): after a submission whose conversion made no node the cache
holds an entry with an empty handle; with no proxy alive at all, `clearUnused`
leaves that entry in the cache. -/
theorem c3_counterexample :
    afterUnsupported.2.1.m_cache
      = [([.object 2], none)]
    ∧ (afterUnsupported.2.1.clearUnused [] afterUnsupported.2.2.ai).1.m_cache
      = [([.object 2], none)] := by
  decide

/-! ### Repeated submissions under one key -/

theorem convert_conversions (c : InstanceCache) (ext : External) (o : Object)
    (a : ArnoldAttributes) (name : String) (w : World) :
    (c.convert ext (some o) a name w).2.conversions = w.conversions ++ [name] := by
  simp only [InstanceCache.convert]
  cases ext.convertObject o name <;> rfl

theorem convert_none (c : InstanceCache) (ext : External) (o : Object)
    (a : ArnoldAttributes) (name : String) (w : World) (h : ext.convertObject o name = none) :
    c.convert ext (some o) a name w = (none, { w with conversions := w.conversions ++ [name] }) := by
  simp only [InstanceCache.convert, h]

/-- While every call uses the key `h` and the cache holds the node `m` under `h`,
every proxy holds `m` and nothing is converted. -/
theorem getProxies_hit (ext : External) (h : MurmurHash) (m : AtNodePtr) (calls : List GetCall)
    (s : InstanceCache × World) (hkeys : InstanceCache.sameKey ext h calls s)
    (hm : assocFind s.1.m_cache h = some (some m)) :
    (∀ i ∈ (InstanceCache.getProxies ext calls s).1, i.m_node = some m)
      ∧ (InstanceCache.getProxies ext calls s).2.2.conversions = s.2.conversions := by
  induction calls generalizing s with
  | nil => simp [InstanceCache.getProxies]
  | cons c rest ih =>
    obtain ⟨⟨o, ho, hcan, hkey⟩, hrest⟩ := hkeys
    have hm' : assocFind s.1.m_cache (InstanceCache.key c.attributes s.2.ai o) = some (some m) := by
      rw [hkey]; exact hm
    have hhit := get_hit s.1 ext o c.attributes c.nodeName s.2 m hcan hm'
    have hkept := get_preserves_entry s.1 ext c.object c.attributes c.nodeName s.2 h m hm
    have hnext := ih _ hrest hkept
    rw [ho] at hnext
    simp only [InstanceCache.getProxies, List.mem_cons, forall_eq_or_imp, ho]
    exact ⟨⟨hhit.1, hnext.1⟩, hnext.2.trans hhit.2⟩

/-- While every call uses the key `h`, no node is stored under `h` and the converter
makes no node for the name derived from `h`, every call converts again. -/
theorem getProxies_fail (ext : External) (h : MurmurHash) (calls : List GetCall)
    (s : InstanceCache × World) (hkeys : InstanceCache.sameKey ext h calls s)
    (hfresh : (assocFind s.1.m_cache h).getD none = none)
    (hfail : ∀ c ∈ calls, ∀ o, c.object = some o →
      ext.convertObject o ("instance:" ++ MurmurHash.toString h) = none) :
    (∀ i ∈ (InstanceCache.getProxies ext calls s).1, i.m_node = none)
      ∧ (InstanceCache.getProxies ext calls s).2.2.conversions
          = s.2.conversions ++ List.replicate calls.length ("instance:" ++ MurmurHash.toString h)
      ∧ assocFind (InstanceCache.getProxies ext calls s).2.1.m_cache h
          = if calls.isEmpty then assocFind s.1.m_cache h else some none := by
  induction calls generalizing s with
  | nil => simp [InstanceCache.getProxies]
  | cons c rest ih =>
    obtain ⟨⟨o, ho, hcan, hkey⟩, hrest⟩ := hkeys
    have hconv := hfail c (List.mem_cons_self _ _) o ho
    have hget : s.1.get ext (some o) c.attributes c.nodeName s.2 =
        ({ m_node := none, m_ginstance := none },
          { s.1 with m_cache := assocSet s.1.m_cache h none },
          { s.2 with conversions :=
              s.2.conversions ++ ["instance:" ++ MurmurHash.toString h] }) := by
      rw [get_instanced_eq s.1 ext o c.attributes c.nodeName s.2 hcan]
      simp only [InstanceCache.lookupOrConvert, hkey, hfresh, convert_none _ _ _ _ _ _ hconv,
        Instance.instanced]
    rw [ho] at hrest
    rw [hget] at hrest
    have hfresh' : (assocFind (assocSet s.1.m_cache h (none : Option AtNodePtr)) h).getD none
        = none := by
      rw [assocFind_assocSet_same]; rfl
    have hnext := ih _ hrest hfresh' (fun c' hc' => hfail c' (List.mem_cons_of_mem _ hc'))
    simp only [InstanceCache.getProxies, ho, hget, List.mem_cons, forall_eq_or_imp,
      List.length_cons, List.replicate_succ, List.isEmpty_cons, Bool.false_eq_true, if_false]
    refine ⟨⟨trivial, hnext.1⟩, ?_, ?_⟩
    · rw [hnext.2.1]
      simp
    · rw [hnext.2.2]
      split
      · exact assocFind_assocSet_same _ _ _
      · rfl

/-- C4 (amended): successive `get` calls that all use one key `h`, on a cache that
holds no node under `h`, with no sweep in between. When the first call returns a
proxy holding a node, every call returns a proxy holding that node and the
conversion is invoked exactly once. When the converter makes no node, the empty
handle is stored under the key and every call returns a proxy with no node, but
every call invokes the conversion again. -/
theorem c4_conversions_per_key (ext : External) (c : InstanceCache) (w : World) (h : MurmurHash)
    (first : GetCall) (rest : List GetCall)
    (hkeys : InstanceCache.sameKey ext h (first :: rest) (c, w))
    (hfresh : (assocFind c.m_cache h).getD none = none) :
    (∀ m, (c.get ext first.object first.attributes first.nodeName w).1.m_node = some m →
        (∀ i ∈ (InstanceCache.getProxies ext (first :: rest) (c, w)).1, i.m_node = some m)
        ∧ (InstanceCache.getProxies ext (first :: rest) (c, w)).2.2.conversions
            = w.conversions ++ ["instance:" ++ MurmurHash.toString h])
    ∧ ((∀ call ∈ first :: rest, ∀ o, call.object = some o →
          ext.convertObject o ("instance:" ++ MurmurHash.toString h) = none) →
        (∀ i ∈ (InstanceCache.getProxies ext (first :: rest) (c, w)).1, i.m_node = none)
        ∧ (InstanceCache.getProxies ext (first :: rest) (c, w)).2.2.conversions
            = w.conversions
                ++ List.replicate (rest.length + 1) ("instance:" ++ MurmurHash.toString h)
        ∧ assocFind (InstanceCache.getProxies ext (first :: rest) (c, w)).2.1.m_cache h
            = some none) := by
  constructor
  · intro m hnode
    obtain ⟨⟨o, ho, hcan, hkey⟩, hrest⟩ := hkeys
    have hstored := get_stores c ext o first.attributes first.nodeName w hcan
    rw [ho] at hnode hrest
    rw [hnode, hkey] at hstored
    have hconv : (c.get ext (some o) first.attributes first.nodeName w).2.2.conversions
        = w.conversions ++ ["instance:" ++ MurmurHash.toString h] := by
      rw [get_instanced_eq c ext o first.attributes first.nodeName w hcan]
      simp only [InstanceCache.lookupOrConvert, hkey, hfresh]
      exact convert_conversions _ _ _ _ _ _
    have hnext := getProxies_hit ext h m rest _ hrest hstored
    simp only [InstanceCache.getProxies, ho, List.mem_cons, forall_eq_or_imp]
    exact ⟨⟨hnode, hnext.1⟩, hnext.2.trans hconv⟩
  · intro hfail
    have hall := getProxies_fail ext h (first :: rest) (c, w) hkeys hfresh hfail
    simpa using hall

/-- C4 (witness): the linear mesh submitted three times to a fresh cache. -/
theorem c4_conversions_per_key_witness :
    InstanceCache.sameKey sampleExternal meshKey (meshFirst :: meshRest)
      (emptyCache .AiNodeDestroy, emptyWorld)
    ∧ ((∀ m, ((emptyCache .AiNodeDestroy).get sampleExternal meshFirst.object
            meshFirst.attributes meshFirst.nodeName emptyWorld).1.m_node = some m →
          (∀ i ∈ (InstanceCache.getProxies sampleExternal (meshFirst :: meshRest)
              (emptyCache .AiNodeDestroy, emptyWorld)).1, i.m_node = some m)
          ∧ (InstanceCache.getProxies sampleExternal (meshFirst :: meshRest)
              (emptyCache .AiNodeDestroy, emptyWorld)).2.2.conversions
              = emptyWorld.conversions ++ ["instance:" ++ MurmurHash.toString meshKey])
      ∧ ((∀ call ∈ meshFirst :: meshRest, ∀ o, call.object = some o →
            sampleExternal.convertObject o ("instance:" ++ MurmurHash.toString meshKey) = none) →
          (∀ i ∈ (InstanceCache.getProxies sampleExternal (meshFirst :: meshRest)
              (emptyCache .AiNodeDestroy, emptyWorld)).1, i.m_node = none)
          ∧ (InstanceCache.getProxies sampleExternal (meshFirst :: meshRest)
              (emptyCache .AiNodeDestroy, emptyWorld)).2.2.conversions
              = emptyWorld.conversions
                  ++ List.replicate (meshRest.length + 1)
                      ("instance:" ++ MurmurHash.toString meshKey)
          ∧ assocFind (InstanceCache.getProxies sampleExternal (meshFirst :: meshRest)
              (emptyCache .AiNodeDestroy, emptyWorld)).2.1.m_cache meshKey = some none)) :=
  have hkeys : InstanceCache.sameKey sampleExternal meshKey (meshFirst :: meshRest)
      (emptyCache .AiNodeDestroy, emptyWorld) :=
    ⟨⟨linearMesh, rfl, by decide, by decide⟩, ⟨linearMesh, rfl, by decide, by decide⟩,
      ⟨linearMesh, rfl, by decide, by decide⟩, trivial⟩
  ⟨hkeys,
    c4_conversions_per_key sampleExternal (emptyCache .AiNodeDestroy) emptyWorld meshKey
      meshFirst meshRest hkeys (by decide)⟩

/-- C4 (counterexample): an object that is eligible for instancing and for which the
converter makes no node is submitted three times with the same bundle to the
cache of a batch session; the converter is invoked three times, once per call. -/
theorem c4_counterexample :
    (emptyCache .nullNodeDeleter).canInstance sampleExternal (some unsupportedObject)
      defaultAttributes = true
    ∧ (InstanceCache.getProxies sampleExternal unsupportedCalls
        (emptyCache .nullNodeDeleter, emptyWorld)).1
      = [{ m_node := none, m_ginstance := none }, { m_node := none, m_ginstance := none },
         { m_node := none, m_ginstance := none }]
    ∧ (InstanceCache.getProxies sampleExternal unsupportedCalls
        (emptyCache .nullNodeDeleter, emptyWorld)).2.2.conversions.length = 3 := by
  decide

/-! ## Claims on attribute edits -/

/-- An edit whose geometry hash differs from that of the previous bundle is rejected
before anything is written. -/
theorem attributes_of_hash_ne (obj : ArnoldObject) (P N : ArnoldAttributes) (w : World)
    (node : AtNodePtr) (hnode : obj.m_instance.node = some node)
    (hprev : obj.m_attributes = some P)
    (hdiff : P.geometryHashFor w.ai node ≠ N.geometryHashFor w.ai node) :
    obj.attributes N w = (false, obj, w) := by
  simp [ArnoldObject.attributes, hnode, hprev, ArnoldAttributes.apply,
    ArnoldAttributes.compatible, hdiff]

/-- C5: when an object has a node and a previously applied bundle `P`, and the
geometry hash of the new bundle `N`, computed for the class and settings read from
the compiled node, differs from that of `P`, `attributes( N )` returns false,
leaves the whole world (every parameter of every node) as it was and leaves `P`
as the object's current bundle. -/
theorem c5_incompatible_edit_rejected (obj : ArnoldObject) (P N : ArnoldAttributes) (w : World)
    (node : AtNodePtr) (hnode : obj.m_instance.node = some node)
    (hprev : obj.m_attributes = some P)
    (hdiff : N.geometryHashFor w.ai node ≠ P.geometryHashFor w.ai node) :
    obj.attributes N w = (false, obj, w) ∧ (obj.attributes N w).2.1.m_attributes = some P := by
  have h := attributes_of_hash_ne obj P N w node hnode hprev (fun e => hdiff e.symm)
  exact ⟨h, by rw [h]; exact hprev⟩

/-- C5 (witness): the linear mesh instance, edited with a different displacement height. -/
theorem c5_incompatible_edit_rejected_witness :
    meshObject.1.attributes tallDisplacement meshObject.2 = (false, meshObject.1, meshObject.2)
    ∧ (meshObject.1.attributes tallDisplacement meshObject.2).2.1.m_attributes
        = some defaultAttributes :=
  c5_incompatible_edit_rejected meshObject.1 defaultAttributes tallDisplacement meshObject.2 2
    (by decide!) (by decide!) (by decide!)

/-- For a mesh, bundles with different subdivision iterations hash differently as
soon as one of them hashes its subdivision settings. -/
theorem mesh_hash_ne (P N : ArnoldAttributes) (u : AtUniverse) (lin : Bool)
    (hiter : N.m_polyMesh.subdivIterations ≠ P.m_polyMesh.subdivIterations)
    (hbaked : lin = false ∨ P.m_polyMesh.subdividePolygons = true
      ∨ N.m_polyMesh.subdividePolygons = true) :
    P.hashGeometryInternal u .MeshPrimitive lin false []
      ≠ N.hashGeometryInternal u .MeshPrimitive lin false [] := by
  intro heq
  simp only [ArnoldAttributes.hashGeometryInternal, PolyMesh.hash, Displacement.hash] at heq
  cases lin <;> cases hP : P.m_polyMesh.subdividePolygons <;>
    cases hN : N.m_polyMesh.subdividePolygons <;>
    cases hPm : P.m_displacement.mapRoot <;> cases hNm : N.m_displacement.mapRoot <;>
    simp [hP, hN, hPm, hNm] at heq hbaked <;>
    exact hiter heq.1.symm

/-- C6 (amended): for an object whose compiled geometry is a `polymesh` and whose
current bundle is `P`, and a bundle `N` with a different value of
`ai:polymesh:subdiv_iterations`: when the master's `subdiv_type` is `catclark`, or
`P` or `N` sets `ai:polymesh:subdivide_polygons`, `attributes( N )` returns false
and nothing changes, so the node keeps its baked subdivision parameters. -/
theorem c6_subdiv_edit_rejected (obj : ArnoldObject) (P N : ArnoldAttributes) (w : World)
    (node master : AtNodePtr) (nd : AtNode)
    (hnode : obj.m_instance.node = some node) (hprev : obj.m_attributes = some P)
    (hgeo : ArnoldAttributes.geometryOf w.ai node = some master)
    (hmaster : w.ai.node? master = some nd) (hmesh : nd.is "polymesh" = true)
    (hiter : N.m_polyMesh.subdivIterations ≠ P.m_polyMesh.subdivIterations)
    (hbaked : nd.getStr "subdiv_type" = "catclark" ∨ P.m_polyMesh.subdividePolygons = true
      ∨ N.m_polyMesh.subdividePolygons = true) :
    obj.attributes N w = (false, obj, w) := by
  apply attributes_of_hash_ne obj P N w node hnode hprev
  have hintro : ArnoldAttributes.introspect w.ai (some master)
      = (.MeshPrimitive, decide (nd.getStr "subdiv_type" ≠ "catclark"), false) := by
    simp [ArnoldAttributes.introspect, nodeIs, hmaster, hmesh]
  simp only [ArnoldAttributes.geometryHashFor, hgeo, hintro]
  apply mesh_hash_ne P N w.ai _ hiter
  rcases hbaked with h | h | h
  · left; simp [h]
  · right; left; exact h
  · right; right; exact h

/-- C6 (witness): the Catmull-Clark mesh instance, edited to two iterations. -/
theorem c6_subdiv_edit_rejected_witness :
    catclarkObject.1.attributes twoIterations catclarkObject.2
      = (false, catclarkObject.1, catclarkObject.2) :=
  c6_subdiv_edit_rejected catclarkObject.1 defaultAttributes twoIterations catclarkObject.2 2 1
    { shapeNode "polymesh" "instance:o4:i1:f0/1:sauto:sraster:spin_corners:bfalse:f1/1:f0/1:f0/1:bfalse:f0/1:f1/1:f0/1"
        ["step_size", "volume_padding"] with
      params := [("subdiv_type", .str "catclark"), ("subdiv_iterations", .byte 1),
        ("subdiv_adaptive_error", .flt 0), ("subdiv_adaptive_metric", .str "auto"),
        ("subdiv_adaptive_space", .str "raster"), ("subdiv_uv_smoothing", .str "pin_corners"),
        ("subdiv_smooth_derivs", .bool false), ("disp_height", .flt 1), ("disp_padding", .flt 0),
        ("disp_zero_value", .flt 0), ("disp_autobump", .bool false), ("visibility", .byte 0)] }
    (by decide!) (by decide!) (by decide!) (by decide!) (by decide!) (by decide!)
    (Or.inl (by decide!))

/-- C6 (counterexample): the linear mesh instance carries the default bundle, in which
`ai:polymesh:subdivide_polygons` is off; the edit to a bundle that differs only in
the subdivision iterations (two instead of one) returns true. -/
theorem c6_counterexample :
    nodeIs meshObject.2.ai (ArnoldAttributes.geometryOf meshObject.2.ai 2) "polymesh" = true
    ∧ meshObject.1.m_instance.node = some 2
    ∧ meshObject.1.m_attributes = some defaultAttributes
    ∧ twoIterations.m_polyMesh.subdivIterations ≠ defaultAttributes.m_polyMesh.subdivIterations
    ∧ (meshObject.1.attributes twoIterations meshObject.2).1 = true := by
  decide!

/-! ### Parameters that `apply` writes -/

theorem assocFind_assocErase {α β : Type} [DecidableEq α] (l : List (α × β)) (k k' : α) :
    assocFind (assocErase l k) k' = if k = k' then none else assocFind l k' := by
  induction l with
  | nil => simp [assocErase, assocFind]
  | cons e rest ih =>
    obtain ⟨k0, v0⟩ := e
    unfold assocErase at ih ⊢
    by_cases h0 : k0 = k
    · subst h0
      by_cases h1 : k0 = k'
      · simpa [List.filter_cons, assocFind, h1] using ih
      · simpa [List.filter_cons, assocFind, h1] using ih
    · by_cases h1 : k0 = k'
      · subst h1
        have h2 : ¬ k = k0 := fun e => h0 e.symm
        simp [List.filter_cons, assocFind, h0, h2]
      · simpa [List.filter_cons, assocFind, h0, h1] using ih

theorem getParam_setParam (n : AtNode) (p q : String) (v : ParamValue) :
    (n.setParam p v).getParam q = if p = q then some v else n.getParam q := by
  unfold AtNode.setParam AtNode.getParam
  by_cases h : p = q
  · subst h
    simp [assocFind_assocSet_same]
  · simp [h, assocFind_assocSet_other _ _ _ _ h]

theorem getParam_resetParam (n : AtNode) (p q : String) :
    (n.resetParam p).getParam q = if p = q then none else n.getParam q := by
  unfold AtNode.resetParam AtNode.getParam
  exact assocFind_assocErase _ _ _

theorem getParam_setParameter (n : AtNode) (p q : String) (v : ParamValue) (h : p ≠ q) :
    (ParameterAlgo.setParameter n p v).getParam q = n.getParam q := by
  unfold ParameterAlgo.setParameter
  split
  · rw [getParam_setParam]
    simp [h]
  · rfl

theorem entry_setParam (n : AtNode) (p : String) (v : ParamValue) :
    (n.setParam p v).entry = n.entry := rfl

theorem entry_resetParam (n : AtNode) (p : String) : (n.resetParam p).entry = n.entry := rfl

theorem entry_setParameter (n : AtNode) (p : String) (v : ParamValue) :
    (ParameterAlgo.setParameter n p v).entry = n.entry := by
  unfold ParameterAlgo.setParameter
  split <;> rfl

theorem entry_applyUser (a : ArnoldAttributes) (n : AtNode) : (a.applyUser n).entry = n.entry := by
  unfold ArnoldAttributes.applyUser
  have h1 : ∀ (l : List (String × ParamValue)) (m : AtNode),
      (l.foldl (fun acc e => ParameterAlgo.setParameter acc e.1 e.2) m).entry = m.entry := by
    intro l
    induction l with
    | nil => intro m; rfl
    | cons e rest ih => intro m; rw [List.foldl_cons, ih, entry_setParameter]
  have h2 : ∀ (l : List (String × ParamValue)) (m : AtNode),
      (l.foldl (fun acc e =>
        if e.1.startsWith "user:" && (assocFind a.m_user e.1).isNone then acc.resetParam e.1
        else acc) m).entry = m.entry := by
    intro l
    induction l with
    | nil => intro m; rfl
    | cons e rest ih =>
      intro m
      rw [List.foldl_cons, ih]
      split <;> rfl
  rw [h1, h2]

theorem applyShape_visibility (a : ArnoldAttributes) (ll : Bool) (u : AtUniverse)
    (lights : LightListCache) (n : AtNode) :
    (a.applyShape ll u lights n).1.getParam "visibility" = some (.byte a.m_visibility) := by
  unfold ArnoldAttributes.applyShape
  simp only
  split <;> split <;> split <;> split <;> split <;>
    simp [getParam_setParam, getParam_resetParam, getParam_setParameter]

theorem applyShape_entry (a : ArnoldAttributes) (ll : Bool) (u : AtUniverse)
    (lights : LightListCache) (n : AtNode) :
    (a.applyShape ll u lights n).1.entry = n.entry := by
  unfold ArnoldAttributes.applyShape
  simp only
  split <;> split <;> split <;> split <;> split <;>
    simp [entry_setParam, entry_resetParam, entry_setParameter]

/-- On a shape node `apply` ends with the result of the shape specific part. -/
theorem applyToNode_shape (a : ArnoldAttributes) (ll : Bool) (u : AtUniverse)
    (lights : LightListCache) (n : AtNode) (hshape : n.entry.type = .AI_NODE_SHAPE) :
    a.applyToNode ll u lights n = a.applyShape ll u lights (a.applyUser n) := by
  unfold ArnoldAttributes.applyToNode
  simp [entry_applyUser, hshape, applyShape_entry]

/-- The geometry hash reads only the settings that are baked into geometry. -/
theorem geometryHashFor_congr (P N : ArnoldAttributes) (u : AtUniverse) (node : AtNodePtr)
    (hmesh : N.m_polyMesh = P.m_polyMesh) (hdisp : N.m_displacement = P.m_displacement)
    (hcurves : N.m_curves = P.m_curves) (hvolume : N.m_volume = P.m_volume)
    (hsize : N.m_stepSize = P.m_stepSize) (hscale : N.m_stepScale = P.m_stepScale)
    (hpad : N.m_volumePadding = P.m_volumePadding) :
    P.geometryHashFor u node = N.geometryHashFor u node := by
  unfold ArnoldAttributes.geometryHashFor ArnoldAttributes.hashGeometryInternal
  rw [hmesh, hdisp, hcurves, hvolume, hsize, hscale, hpad]

/-- What a successful `apply` leaves at the address of a live node. -/
theorem apply_node (a : ArnoldAttributes) (node : AtNodePtr) (prev : Option ArnoldAttributes)
    (ll : Bool) (w : World) (nd : AtNode) (hlive : w.ai.node? node = some nd)
    (hok : a.compatible w.ai node prev = true) :
    (a.apply node prev ll w).1 = true
      ∧ (a.apply node prev ll w).2.ai.node? node
          = some (a.applyToNode ll w.ai w.lightListCache nd).1 := by
  have hlive' : assocFind w.ai.nodes node = some nd := hlive
  simp only [ArnoldAttributes.apply, hok, if_true, AtUniverse.node?, hlive', true_and]
  exact assocFind_assocSet_same w.ai.nodes node _

/-- C7: for an object whose node is a live shape node and whose current bundle is `P`,
and a bundle `N` that agrees with `P` on every setting baked into geometry
(subdivision, displacement, curves, volume, step size, step scale and volume
padding) and may differ in anything else (visibility, sidedness, shading flags,
surface shader, trace sets, light and shadow links, user attributes):
`attributes( N )` returns true, `N` becomes the current bundle and the node's
visibility byte is the visibility mask of `N`. -/
theorem c7_unbaked_edit_accepted (obj : ArnoldObject) (P N : ArnoldAttributes) (w : World)
    (node : AtNodePtr) (nd : AtNode)
    (hnode : obj.m_instance.node = some node) (hprev : obj.m_attributes = some P)
    (hlive : w.ai.node? node = some nd) (hshape : nd.entry.type = .AI_NODE_SHAPE)
    (hmesh : N.m_polyMesh = P.m_polyMesh) (hdisp : N.m_displacement = P.m_displacement)
    (hcurves : N.m_curves = P.m_curves) (hvolume : N.m_volume = P.m_volume)
    (hsize : N.m_stepSize = P.m_stepSize) (hscale : N.m_stepScale = P.m_stepScale)
    (hpad : N.m_volumePadding = P.m_volumePadding) :
    (obj.attributes N w).1 = true
    ∧ (obj.attributes N w).2.1.m_attributes = some N
    ∧ ((obj.attributes N w).2.2.ai.node? node).map (fun n => n.getByte "visibility")
        = some N.m_visibility := by
  have hcompat : N.compatible w.ai node (some P) = true := by
    simp [ArnoldAttributes.compatible,
      geometryHashFor_congr P N w.ai node hmesh hdisp hcurves hvolume hsize hscale hpad]
  have happly := apply_node N node (some P) obj.m_supportsLinkedLights w nd hlive hcompat
  simp only [ArnoldObject.attributes, hnode, hprev, happly.1, if_true, happly.2, true_and,
    Option.map_some', Option.some.injEq]
  rw [applyToNode_shape N _ _ _ nd hshape]
  simp [AtNode.getByte, applyShape_visibility]

/-- C7 (witness): the linear mesh instance, hidden from camera rays and given trace sets. -/
theorem c7_unbaked_edit_accepted_witness :
    (meshObject.1.attributes hiddenFromCamera meshObject.2).1 = true
    ∧ (meshObject.1.attributes hiddenFromCamera meshObject.2).2.1.m_attributes
        = some hiddenFromCamera
    ∧ ((meshObject.1.attributes hiddenFromCamera meshObject.2).2.2.ai.node? 2).map
        (fun n => n.getByte "visibility") = some hiddenFromCamera.m_visibility :=
  c7_unbaked_edit_accepted meshObject.1 defaultAttributes hiddenFromCamera meshObject.2 2
    { entry := ginstanceEntry, name := "a",
      params := [("node", .ptr (some 1)), ("visibility", .byte 255), ("sidedness", .byte 255),
        ("receive_shadows", .bool true), ("self_shadows", .bool true), ("opaque", .bool true),
        ("matte", .bool false), ("trace_sets", .strArray ["__none__"])],
      userParams := [] }
    (by decide!) (by decide!) (by decide!) (by decide!) rfl rfl rfl rfl rfl rfl rfl

/-- The graph after two filters were registered through one light-set object. -/
theorem twoFilters_same (own : Bool) (A B : String) (la lb : ArnoldLightPtr)
    (F1 F2 : ArnoldLightFilterPtr) (p : Nat) (hAB : A ≠ B) (hF : F1 ≠ F2) :
    twoFilters (twoLights own A B la lb) ⟨p, [A, B]⟩ ⟨p, [A, B]⟩ F1 F2 =
      some { m_connections :=
               [(A, { light := some la, lightFilterGroups := [0], dirty := true }),
                (B, { light := some lb, lightFilterGroups := [0], dirty := true })],
             m_filterGroups := [(p, { ptr := 0, members := [F1, F2] })],
             m_ownConnections := own,
             m_arnoldObjects :=
               if own then [.light la, .light lb, .lightFilter F1, .lightFilter F2] else [],
             nextGroup := 1,
             warnings := [] } := by
  have hBA : B ≠ A := fun h => hAB h.symm
  have hF' : F2 ≠ F1 := fun h => hF h.symm
  cases own <;>
    simp [twoFilters, twoLights, LightFilterConnections.new,
      LightFilterConnections.registerLight, LightFilterConnections.registerLightFilter,
      LightFilterConnections.linkLights, assocFind, assocSet, setInsert, hAB, hBA, hF, hF']

/-- The graph after two filters were registered through two light-set objects. -/
theorem twoFilters_distinct (own : Bool) (A B : String) (la lb : ArnoldLightPtr)
    (F1 F2 : ArnoldLightFilterPtr) (p1 p2 : Nat) (hAB : A ≠ B) (hp : p1 ≠ p2) :
    twoFilters (twoLights own A B la lb) ⟨p1, [A, B]⟩ ⟨p2, [A, B]⟩ F1 F2 =
      some { m_connections :=
               [(A, { light := some la, lightFilterGroups := [0, 1], dirty := true }),
                (B, { light := some lb, lightFilterGroups := [0, 1], dirty := true })],
             m_filterGroups :=
               [(p1, { ptr := 0, members := [F1] }), (p2, { ptr := 1, members := [F2] })],
             m_ownConnections := own,
             m_arnoldObjects :=
               if own then [.light la, .light lb, .lightFilter F1, .lightFilter F2] else [],
             nextGroup := 2,
             warnings := [] } := by
  have hBA : B ≠ A := fun h => hAB h.symm
  have hp' : p2 ≠ p1 := fun h => hp h.symm
  cases own <;>
    simp [twoFilters, twoLights, LightFilterConnections.new,
      LightFilterConnections.registerLight, LightFilterConnections.registerLightFilter,
      LightFilterConnections.linkLights, assocFind, assocSet, setInsert, hAB, hBA, hp, hp']

/-- C9 (amended): from the graph in which the lights `A` and `B` are registered,
register `F1` for a light-set object with the names `[A, B]` and then `F2` for a
light-set object with the same names. Both registrations succeed. If the two
objects are the same object, exactly one group is left, holding `F1` and `F2` and
linked from the entries of `A` and `B`. If they are distinct objects, two groups
are left, one holding `F1` and one holding `F2`, both linked from the entries of
`A` and `B`. In both cases `update` passes the light of `A` and the light of `B`
a filter list whose elements are exactly `F1` and `F2`, whatever objects it destroys
afterwards. -/
theorem c9_register_two_filters (own : Bool) (A B : String) (la lb : ArnoldLightPtr)
    (F1 F2 : ArnoldLightFilterPtr) (p1 p2 : Nat) (hAB : A ≠ B) (hF : F1 ≠ F2) :
    ∃ g, twoFilters (twoLights own A B la lb) ⟨p1, [A, B]⟩ ⟨p2, [A, B]⟩ F1 F2 = some g
      ∧ (p1 = p2 →
          g.m_filterGroups = [(p1, { ptr := 0, members := [F1, F2] })]
          ∧ (g.entry A).map (fun f => f.lightFilterGroups) = some [0]
          ∧ (g.entry B).map (fun f => f.lightFilterGroups) = some [0])
      ∧ (p1 ≠ p2 →
          g.m_filterGroups
            = [(p1, { ptr := 0, members := [F1] }), (p2, { ptr := 1, members := [F2] })]
          ∧ (g.entry A).map (fun f => f.lightFilterGroups) = some [0, 1]
          ∧ (g.entry B).map (fun f => f.lightFilterGroups) = some [0, 1])
      ∧ ∀ released, (g.update released).2 =
          [{ light := la, lightFilters := [F1, F2] },
           { light := lb, lightFilters := [F1, F2] }] := by
  by_cases hp : p1 = p2
  · subst hp
    refine ⟨_, twoFilters_same own A B la lb F1 F2 p1 hAB hF, ?_, ?_, ?_⟩
    · intro _
      simp [LightFilterConnections.entry, assocFind, hAB]
    · intro h
      exact absurd rfl h
    · intro released
      cases own <;>
        simp [LightFilterConnections.update, LightFilterConnections.allFilters,
          LightFilterConnections.groupMembers]
  · refine ⟨_, twoFilters_distinct own A B la lb F1 F2 p1 p2 hAB hp, ?_, ?_, ?_⟩
    · intro h
      exact absurd h hp
    · intro _
      simp [LightFilterConnections.entry, assocFind, hAB]
    · intro released
      cases own <;>
        simp [LightFilterConnections.update, LightFilterConnections.allFilters,
          LightFilterConnections.groupMembers]

/-- C9 (witness): both filters registered through the light-set object at address 100. -/
theorem c9_register_two_filters_witness :
    ∃ g, twoFilters (twoLights false "A" "B" 10 11) ⟨100, ["A", "B"]⟩ ⟨100, ["A", "B"]⟩ 20 21
        = some g
      ∧ ((100 : Nat) = 100 →
          g.m_filterGroups = [(100, { ptr := 0, members := [20, 21] })]
          ∧ (g.entry "A").map (fun f => f.lightFilterGroups) = some [0]
          ∧ (g.entry "B").map (fun f => f.lightFilterGroups) = some [0])
      ∧ ((100 : Nat) ≠ 100 →
          g.m_filterGroups
            = [(100, { ptr := 0, members := [20] }), (100, { ptr := 1, members := [21] })]
          ∧ (g.entry "A").map (fun f => f.lightFilterGroups) = some [0, 1]
          ∧ (g.entry "B").map (fun f => f.lightFilterGroups) = some [0, 1])
      ∧ ∀ released, (g.update released).2 =
          [{ light := 10, lightFilters := [20, 21] },
           { light := 11, lightFilters := [20, 21] }] :=
  c9_register_two_filters false "A" "B" 10 11 20 21 100 100 (by decide) (by decide)

/-- C9 (counterexample): the filters 20 and 21 are registered for two light-set
objects, at the addresses 100 and 200, that hold the same names `["A", "B"]`; two
groups are left and neither holds both filters. -/
theorem c9_counterexample :
    (twoFilters (twoLights false "A" "B" 10 11) ⟨100, ["A", "B"]⟩ ⟨200, ["A", "B"]⟩ 20 21).map
        (fun g => g.m_filterGroups)
      = some [(100, { ptr := 0, members := [20] }), (200, { ptr := 1, members := [21] })] := by
  decide

/-- C10 (amended): the lights `A` and `B` are registered and the filters `F1` and `F2`
are registered for the light set `[A, B]` (through one light-set object or through
two), with or without an `update` since. Then `deregisterLightFilter` for the
light-set object `F1` was registered through and `F1` leaves one group for the set,
holding only `F2`; the entries of `A` and `B` link to that group and are dirty; and the
next `update` passes the light of `B` (and that of `A`) the filter list `[F2]`. For any
other light-set object with the same names `deregisterLightFilter` changes nothing. -/
theorem c10_deregister_one_filter (own synced : Bool) (A B : String) (la lb : ArnoldLightPtr)
    (F1 F2 : ArnoldLightFilterPtr) (p1 p2 : Nat) (hAB : A ≠ B) (hF : F1 ≠ F2) :
    ∃ g, twoFilters (twoLights own A B la lb) ⟨p1, [A, B]⟩ ⟨p2, [A, B]⟩ F1 F2 = some g
      ∧ (∃ grp,
          ((syncIf synced g).deregisterLightFilter ⟨p1, [A, B]⟩ F1).m_filterGroups = [(p2, grp)]
          ∧ grp.members = [F2]
          ∧ ((syncIf synced g).deregisterLightFilter ⟨p1, [A, B]⟩ F1).entry A
              = some { light := some la, lightFilterGroups := [grp.ptr], dirty := true }
          ∧ ((syncIf synced g).deregisterLightFilter ⟨p1, [A, B]⟩ F1).entry B
              = some { light := some lb, lightFilterGroups := [grp.ptr], dirty := true })
      ∧ (∀ released,
          (((syncIf synced g).deregisterLightFilter ⟨p1, [A, B]⟩ F1).update released).2
            = [{ light := la, lightFilters := [F2] }, { light := lb, lightFilters := [F2] }])
      ∧ (∀ p3, p3 ≠ p1 →
          (syncIf synced g).deregisterLightFilter ⟨p3, [A, B]⟩ F1 = syncIf synced g) := by
  have hBA : B ≠ A := fun h => hAB h.symm
  have hF' : F2 ≠ F1 := fun h => hF h.symm
  by_cases hp : p1 = p2
  · subst hp
    refine ⟨_, twoFilters_same own A B la lb F1 F2 p1 hAB hF,
      ⟨{ ptr := 0, members := [F2] }, ?_⟩, ?_, ?_⟩
    · cases own <;> cases synced <;>
        simp [syncIf, LightFilterConnections.update, LightFilterConnections.deregisterLightFilter,
          LightFilterConnections.unlinkLights, LightFilterConnections.entry, assocFind, assocSet,
          assocErase, hAB, hBA, hF, hF']
    · intro released
      cases own <;> cases synced <;>
        simp [syncIf, LightFilterConnections.update, LightFilterConnections.deregisterLightFilter,
          LightFilterConnections.unlinkLights, LightFilterConnections.allFilters,
          LightFilterConnections.groupMembers, assocFind, assocSet, assocErase, hAB, hBA, hF, hF']
    · intro p3 hp3
      have hp3' : ¬ p1 = p3 := fun h => hp3 h.symm
      cases own <;> cases synced <;>
        simp [syncIf, LightFilterConnections.update, LightFilterConnections.deregisterLightFilter,
          assocFind, hp3, hp3']
  · have hp' : p2 ≠ p1 := fun h => hp h.symm
    refine ⟨_, twoFilters_distinct own A B la lb F1 F2 p1 p2 hAB hp,
      ⟨{ ptr := 1, members := [F2] }, ?_⟩, ?_, ?_⟩
    · cases own <;> cases synced <;>
        simp [syncIf, LightFilterConnections.update, LightFilterConnections.deregisterLightFilter,
          LightFilterConnections.unlinkLights, LightFilterConnections.entry, assocFind, assocSet,
          assocErase, hAB, hBA, hp, hp']
    · intro released
      cases own <;> cases synced <;>
        simp [syncIf, LightFilterConnections.update, LightFilterConnections.deregisterLightFilter,
          LightFilterConnections.unlinkLights, LightFilterConnections.allFilters,
          LightFilterConnections.groupMembers, assocFind, assocSet, assocErase, hAB, hBA, hp, hp']
    · intro p3 hp3
      have hp3' : ¬ p1 = p3 := fun h => hp3 h.symm
      by_cases h32 : p2 = p3
      · subst h32
        cases own <;> cases synced <;>
          simp [syncIf, LightFilterConnections.update,
            LightFilterConnections.deregisterLightFilter, assocFind, hp, hp', hF, hF']
      · cases own <;> cases synced <;>
          simp [syncIf, LightFilterConnections.update,
            LightFilterConnections.deregisterLightFilter, assocFind, hp3', h32]

/-- C10 (witness): an interactive session, one light-set object at address 100, an
`update` between the registrations and the deregistration. -/
theorem c10_deregister_one_filter_witness :
    ∃ g, twoFilters (twoLights false "A" "B" 10 11) ⟨100, ["A", "B"]⟩ ⟨100, ["A", "B"]⟩ 20 21
        = some g
      ∧ (∃ grp,
          ((syncIf true g).deregisterLightFilter ⟨100, ["A", "B"]⟩ 20).m_filterGroups
            = [(100, grp)]
          ∧ grp.members = [21]
          ∧ ((syncIf true g).deregisterLightFilter ⟨100, ["A", "B"]⟩ 20).entry "A"
              = some { light := some 10, lightFilterGroups := [grp.ptr], dirty := true }
          ∧ ((syncIf true g).deregisterLightFilter ⟨100, ["A", "B"]⟩ 20).entry "B"
              = some { light := some 11, lightFilterGroups := [grp.ptr], dirty := true })
      ∧ (∀ released,
          (((syncIf true g).deregisterLightFilter ⟨100, ["A", "B"]⟩ 20).update released).2
            = [{ light := 10, lightFilters := [21] }, { light := 11, lightFilters := [21] }])
      ∧ (∀ p3, p3 ≠ 100 →
          (syncIf true g).deregisterLightFilter ⟨p3, ["A", "B"]⟩ 20 = syncIf true g) :=
  c10_deregister_one_filter false true "A" "B" 10 11 20 21 100 100 (by decide) (by decide)

/-- C10 (counterexample): the filters 20 and 21 are registered for the light set
`["A", "B"]` through the object at address 100, and filter 20 is deregistered through
another object, at address 200, that holds the same names: the group is looked up by the
address, none is found, and the group still holds both filters; the next `update` passes
the light of "B" both of them. -/
theorem c10_counterexample :
    ((twoFilters (twoLights false "A" "B" 10 11) ⟨100, ["A", "B"]⟩ ⟨100, ["A", "B"]⟩ 20 21).map
        (fun g => (g.deregisterLightFilter ⟨200, ["A", "B"]⟩ 20).m_filterGroups))
      = some [(100, { ptr := 0, members := [20, 21] })] ∧
    ((twoFilters (twoLights false "A" "B" 10 11) ⟨100, ["A", "B"]⟩ ⟨100, ["A", "B"]⟩ 20 21).map
        (fun g => ((g.deregisterLightFilter ⟨200, ["A", "B"]⟩ 20).update []).2))
      = some [{ light := 10, lightFilters := [20, 21] },
              { light := 11, lightFilters := [20, 21] }] := by
  decide

/-! ## Caches built by `get` are well formed -/

theorem assocSet_keys {α β : Type} [DecidableEq α] (l : List (α × β)) (k : α) (v : β) :
    (assocSet l k v).map Prod.fst
      = if k ∈ l.map Prod.fst then l.map Prod.fst else l.map Prod.fst ++ [k] := by
  induction l with
  | nil => simp [assocSet]
  | cons e rest ih =>
    obtain ⟨k0, v0⟩ := e
    by_cases h0 : k0 = k
    · subst h0
      simp [assocSet]
    · have h1 : ¬ k = k0 := fun e => h0 e.symm
      simp only [assocSet, h0, if_false, List.map_cons, ih, List.mem_cons, h1, false_or]
      split <;> simp

theorem assocSet_keys_nodup {α β : Type} [DecidableEq α] (l : List (α × β)) (k : α) (v : β)
    (h : (l.map Prod.fst).Nodup) : ((assocSet l k v).map Prod.fst).Nodup := by
  rw [assocSet_keys]
  split
  · exact h
  · rename_i hk
    exact List.Nodup.append h (List.nodup_singleton k) (by simpa using hk)

theorem assocSet_of_find {α β : Type} [DecidableEq α] (l : List (α × β)) (k : α) (v : β)
    (h : assocFind l k = some v) : assocSet l k v = l := by
  induction l with
  | nil => simp [assocFind] at h
  | cons e rest ih =>
    obtain ⟨k0, v0⟩ := e
    by_cases h0 : k0 = k
    · subst h0
      simp only [assocFind, if_true, Option.some.injEq] at h
      simp [assocSet, h]
    · simp only [assocFind, h0, if_false] at h
      simp [assocSet, h0, ih h]

theorem handles_assocSet_none (l : List (MurmurHash × Option AtNodePtr)) (k : MurmurHash)
    (hold : (assocFind l k).getD none = none) :
    (assocSet l k none).filterMap Prod.snd = l.filterMap Prod.snd := by
  induction l with
  | nil => simp [assocSet]
  | cons e rest ih =>
    obtain ⟨k0, v0⟩ := e
    by_cases h0 : k0 = k
    · subst h0
      simp only [assocFind, if_true, Option.getD_some] at hold
      subst hold
      simp [assocSet]
    · simp only [assocFind, h0, if_false] at hold
      simp [assocSet, h0, List.filterMap_cons, ih hold]

theorem mem_handles_assocSet_some (l : List (MurmurHash × Option AtNodePtr)) (k : MurmurHash)
    (p x : AtNodePtr) (hold : (assocFind l k).getD none = none) :
    x ∈ (assocSet l k (some p)).filterMap Prod.snd ↔ x = p ∨ x ∈ l.filterMap Prod.snd := by
  induction l with
  | nil => simp [assocSet]
  | cons e rest ih =>
    obtain ⟨k0, v0⟩ := e
    by_cases h0 : k0 = k
    · subst h0
      simp only [assocFind, if_true, Option.getD_some] at hold
      subst hold
      simp [assocSet, List.filterMap_cons]
    · simp only [assocFind, h0, if_false] at hold
      cases v0 with
      | none => simpa [assocSet, h0, List.filterMap_cons] using ih hold
      | some m =>
        simp only [assocSet, h0, if_false, List.filterMap_cons, List.mem_cons, ih hold]
        tauto

theorem nodup_handles_assocSet_some (l : List (MurmurHash × Option AtNodePtr)) (k : MurmurHash)
    (p : AtNodePtr) (hold : (assocFind l k).getD none = none)
    (hnd : (l.filterMap Prod.snd).Nodup) (hp : p ∉ l.filterMap Prod.snd) :
    ((assocSet l k (some p)).filterMap Prod.snd).Nodup := by
  induction l with
  | nil => simp [assocSet]
  | cons e rest ih =>
    obtain ⟨k0, v0⟩ := e
    by_cases h0 : k0 = k
    · subst h0
      simp only [assocFind, if_true, Option.getD_some] at hold
      subst hold
      simp only [List.filterMap_cons] at hnd hp
      simp only [assocSet, if_true, List.filterMap_cons, List.nodup_cons]
      exact ⟨hp, hnd⟩
    · simp only [assocFind, h0, if_false] at hold
      cases v0 with
      | none =>
        simp only [List.filterMap_cons] at hnd hp
        simpa [assocSet, h0, List.filterMap_cons] using ih hold hnd hp
      | some m =>
        simp only [List.filterMap_cons, List.nodup_cons, List.mem_cons, not_or] at hnd hp
        simp only [assocSet, h0, if_false, List.filterMap_cons, List.nodup_cons,
          mem_handles_assocSet_some rest k p m hold, not_or]
        exact ⟨⟨fun e => hp.1 e.symm, hnd.1⟩, ih hold hnd.2 hp.2⟩

theorem modify_next (u : AtUniverse) (p : AtNodePtr) (f : AtNode → AtNode) :
    (u.modify p f).next = u.next := by
  unfold AtUniverse.modify
  split <;> rfl

theorem instanced_next (p : Option AtNodePtr) (name : String) (u : AtUniverse) :
    u.next ≤ (Instance.instanced p name u).2.next := by
  cases p with
  | none => exact le_refl _
  | some m =>
    simp only [Instance.instanced, modify_next, AtUniverse.AiNode]
    exact Nat.le_succ _

theorem convert_next (c : InstanceCache) (ext : External) (obj : Option Object)
    (a : ArnoldAttributes) (name : String) (w : World) :
    w.ai.next ≤ (c.convert ext obj a name w).2.ai.next
      ∧ ∀ p, (c.convert ext obj a name w).1 = some p →
          p = w.ai.next ∧ w.ai.next < (c.convert ext obj a name w).2.ai.next := by
  cases obj with
  | none => simp [InstanceCache.convert]
  | some o =>
    simp only [InstanceCache.convert]
    cases ext.convertObject o name with
    | none => simp
    | some nd =>
      simp only [modify_next, AtUniverse.AiNode, Option.some.injEq]
      constructor
      · exact Nat.le_succ _
      · intro p hp
        exact ⟨hp.symm, Nat.lt_succ_self _⟩

/-- `get` keeps a well-formed cache well formed: no key twice, no node in two
entries, every cached node below the next free address. -/
theorem get_wellFormed (c : InstanceCache) (ext : External) (obj : Option Object)
    (a : ArnoldAttributes) (n : String) (w : World) (hwf : c.WellFormed)
    (hfresh : c.Fresh w.ai) :
    (c.get ext obj a n w).2.1.WellFormed
      ∧ (c.get ext obj a n w).2.1.Fresh (c.get ext obj a n w).2.2.ai := by
  cases hcan : c.canInstance ext obj a with
  | false =>
    rw [get_not_instanced_eq c ext obj a n w hcan]
    refine ⟨hwf, fun m hm => ?_⟩
    exact lt_of_lt_of_le (hfresh m hm) (convert_next c ext obj a n w).1
  | true =>
    cases obj with
    | none => simp [InstanceCache.canInstance] at hcan
    | some o =>
      rw [get_instanced_eq c ext o a n w hcan]
      simp only [InstanceCache.WellFormed, InstanceCache.Fresh]
      cases hfind : (assocFind c.m_cache (InstanceCache.key a w.ai o)).getD none with
      | some m =>
        have hsome : assocFind c.m_cache (InstanceCache.key a w.ai o) = some (some m) := by
          cases h : assocFind c.m_cache (InstanceCache.key a w.ai o) with
          | none => rw [h] at hfind; simp at hfind
          | some v => rw [h] at hfind; simp at hfind; rw [hfind]
        simp only [InstanceCache.lookupOrConvert, hfind, assocSet_of_find _ _ _ hsome]
        exact ⟨hwf, fun x hx => lt_of_lt_of_le (hfresh x hx) (instanced_next _ _ _)⟩
      | none =>
        have hconv := convert_next c ext (some o) a
          ("instance:" ++ MurmurHash.toString (InstanceCache.key a w.ai o)) w
        simp only [InstanceCache.lookupOrConvert, hfind]
        cases hres : (c.convert ext (some o) a
            ("instance:" ++ MurmurHash.toString (InstanceCache.key a w.ai o)) w).1 with
        | none =>
          rw [handles_assocSet_none _ _ hfind]
          refine ⟨⟨assocSet_keys_nodup _ _ _ hwf.1, hwf.2⟩, fun x hx => ?_⟩
          exact lt_of_lt_of_le (hfresh x hx) (le_trans hconv.1 (instanced_next _ _ _))
        | some p =>
          obtain ⟨hp, hlt⟩ := hconv.2 p hres
          have hnot : p ∉ c.m_cache.filterMap Prod.snd := by
            intro hmem
            have hlt' := hfresh p hmem
            rw [hp] at hlt'
            exact Nat.lt_irrefl _ hlt'
          refine ⟨⟨assocSet_keys_nodup _ _ _ hwf.1,
            nodup_handles_assocSet_some _ _ _ hfind hwf.2 hnot⟩, fun x hx => ?_⟩
          rw [mem_handles_assocSet_some _ _ _ _ hfind] at hx
          have hle := instanced_next (some p) n (c.convert ext (some o) a
            ("instance:" ++ MurmurHash.toString (InstanceCache.key a w.ai o)) w).2.ai
          rcases hx with hx | hx
          · rw [hx]
            exact lt_of_lt_of_le (hp ▸ hlt) hle
          · exact lt_of_lt_of_le (hfresh x hx) (le_trans hconv.1 hle)

/-- Every cache built from a fresh one by `get` calls is well formed. -/
theorem getAll_wellFormed (ext : External) (calls : List GetCall) (s : InstanceCache × World)
    (hwf : s.1.WellFormed) (hfresh : s.1.Fresh s.2.ai) :
    (InstanceCache.getAll ext calls s).1.WellFormed := by
  induction calls generalizing s with
  | nil => exact hwf
  | cons c rest ih =>
    simp only [InstanceCache.getAll]
    have h := get_wellFormed s.1 ext c.object c.attributes c.nodeName s.2 hwf hfresh
    exact ih _ h.1 h.2

/-! ## Claims on `update` and dead lights -/

theorem mem_foldl_assocErase_keys {α β : Type} [DecidableEq α] (ks : List α)
    (l : List (α × β)) (x : α × β) :
    x ∈ ks.foldl assocErase l ↔ x ∈ l ∧ ∀ k ∈ ks, k ≠ x.1 := by
  induction ks generalizing l with
  | nil => simp
  | cons k rest ih =>
    simp only [List.foldl_cons, ih, mem_assocErase, List.mem_cons, forall_eq_or_imp]
    constructor
    · rintro ⟨⟨h1, h2⟩, h3⟩
      exact ⟨h1, fun h => h2 h.symm, h3⟩
    · rintro ⟨h1, h2, h3⟩
      exact ⟨⟨h1, fun h => h2 h.symm⟩, h3⟩

/-! ## Claims on the version gate for procedurals -/

/-- The comparison made by `aiVersionLessThan( 5, 0, 1, 4 )` is the lexicographic order
on the four version numbers. -/
theorem lexicographical_compare_iff (v : Int × Int × Int × Int) :
    lexicographical_compare [v.1, v.2.1, v.2.2.1, v.2.2.2] [5, 0, 1, 4] = true
      ↔ versionBelow_5_0_1_4 v := by
  obtain ⟨a, b, c, d⟩ := v
  simp only [lexicographical_compare, versionBelow_5_0_1_4]
  constructor
  · intro h
    split at h
    · left; assumption
    · split at h
      · simp at h
      · right
        refine ⟨by omega, ?_⟩
        split at h
        · left; assumption
        · split at h
          · simp at h
          · right
            refine ⟨by omega, ?_⟩
            split at h
            · left; assumption
            · split at h
              · simp at h
              · right
                refine ⟨by omega, ?_⟩
                split at h
                · assumption
                · split at h <;> simp at h
  · intro h
    rcases h with h | ⟨h1, h | ⟨h2, h | ⟨h3, h4⟩⟩⟩
    · simp [h]
    · subst h1
      simp [h]
    · subst h1; subst h2
      simp [h]
    · subst h1; subst h2; subst h3
      simp [h4]

theorem aiVersionLessThan_iff (ext : External) :
    aiVersionLessThan ext 5 0 1 4 = true ↔ versionBelow_5_0_1_4 ext.arnoldVersion :=
  lexicographical_compare_iff ext.arnoldVersion

/-- C16 (amended): in an interactive session (the node deleter is `AiNodeDestroy`),
for every procedural object, when the version of the linked renderer is
lexicographically lower than 5.0.1.4, `get` does not instance the object: it
converts it under the name of the call, leaves the cache as it was and returns a
proxy without `ginstance` that holds the converted node. -/
theorem c16_old_arnold_no_instancing (c : InstanceCache) (ext : External) (o : Object)
    (a : ArnoldAttributes) (n : String) (w : World) (hproc : o.typeId = .Procedural)
    (hdel : c.m_nodeDeleter = .AiNodeDestroy)
    (hver : versionBelow_5_0_1_4 ext.arnoldVersion) :
    (c.get ext (some o) a n w).2.1 = c
    ∧ (c.get ext (some o) a n w).1.m_ginstance = none
    ∧ (c.get ext (some o) a n w).1.m_node = (c.convert ext (some o) a n w).1
    ∧ (c.get ext (some o) a n w).2.2.conversions = w.conversions ++ [n] := by
  have hcan : c.canInstance ext (some o) a = false := by
    simp [InstanceCache.canInstance, hproc, hdel, (aiVersionLessThan_iff ext).mpr hver]
  rw [get_not_instanced_eq c ext (some o) a n w hcan]
  exact ⟨rfl, rfl, rfl, convert_conversions c ext o a n w⟩

/-- C16 (witness): a procedural in an interactive session linked to Arnold 5.0.1.3. -/
theorem c16_old_arnold_no_instancing_witness :
    ((emptyCache .AiNodeDestroy).get oldArnold (some sampleProcedural) defaultAttributes "p"
        emptyWorld).2.1 = emptyCache .AiNodeDestroy
    ∧ ((emptyCache .AiNodeDestroy).get oldArnold (some sampleProcedural) defaultAttributes "p"
        emptyWorld).1.m_ginstance = none
    ∧ ((emptyCache .AiNodeDestroy).get oldArnold (some sampleProcedural) defaultAttributes "p"
        emptyWorld).1.m_node
      = ((emptyCache .AiNodeDestroy).convert oldArnold (some sampleProcedural) defaultAttributes
          "p" emptyWorld).1
    ∧ ((emptyCache .AiNodeDestroy).get oldArnold (some sampleProcedural) defaultAttributes "p"
        emptyWorld).2.2.conversions = emptyWorld.conversions ++ ["p"] :=
  c16_old_arnold_no_instancing (emptyCache .AiNodeDestroy) oldArnold sampleProcedural
    defaultAttributes "p" emptyWorld rfl rfl
    (Or.inr ⟨rfl, Or.inr ⟨rfl, Or.inr ⟨rfl, by decide⟩⟩⟩)

/-- C16 (counterexample): in a batch session (the node deleter is `nullNodeDeleter`)
linked to Arnold 5.0.1.3, `get` instances a procedural: it adds a cache entry and
returns a proxy with a `ginstance`. -/
theorem c16_counterexample :
    sampleProcedural.typeId = .Procedural
    ∧ aiVersionLessThan oldArnold 5 0 1 4 = true
    ∧ ((emptyCache .nullNodeDeleter).get oldArnold (some sampleProcedural) defaultAttributes "p"
        emptyWorld).2.1.m_cache = [([.object 5], some 1)]
    ∧ ((emptyCache .nullNodeDeleter).get oldArnold (some sampleProcedural) defaultAttributes "p"
        emptyWorld).1 = { m_node := some 1, m_ginstance := some 2 } := by
  decide!

/-! ## Claims on the step size -/

/-- C18 (failing input): the converter has set `step_size` to one half on the node of
a `volume` procedural; with a bundle in which `ai:volume:step_size` is two,
`applyGeometry` replaces the converter's value by two. -/
theorem c18_volume_step_size_overwritten :
    volumeNodeWithStep.getFlt "step_size" = 1 / 2
    ∧ (volumeStepTwo.applyGeometry emptyUniverse volumeProcedural volumeNodeWithStep).getFlt
        "step_size" = 2 := by
  decide!

theorem getFlt_setParam_ne (n : AtNode) (p q : String) (v : ParamValue) (h : p ≠ q) :
    (n.setParam p v).getFlt q = n.getFlt q := by
  simp [AtNode.getFlt, getParam_setParam, h]

theorem getFlt_resetParam_ne (n : AtNode) (p q : String) (h : p ≠ q) :
    (n.resetParam p).getFlt q = n.getFlt q := by
  simp [AtNode.getFlt, getParam_resetParam, h]

theorem hasParameter_setParam (n : AtNode) (p q : String) (v : ParamValue) :
    (n.setParam p v).hasParameter q = n.hasParameter q := rfl

theorem applyGeometry_eq (a : ArnoldAttributes) (u : AtUniverse) (o : Object) (node : AtNode) :
    a.applyGeometry u o node = a.applyStep (a.applyClass u o node) := rfl

/-- The step size set by the converter survives `applyGeometry` whenever the bundle has
no `ai:volume:step_size` or the object is not a volume: the part of `applyGeometry`
that applies `ai:shape:step_size` does test the node's value first. -/
theorem applyGeometry_keeps_step_size (a : ArnoldAttributes) (u : AtUniverse) (o : Object)
    (node : AtNode) (hset : node.getFlt "step_size" ≠ 0)
    (h : o.isVolumetric = false ∨ a.m_volume.stepSize = none) :
    (a.applyGeometry u o node).getFlt "step_size" = node.getFlt "step_size" := by
  have hmesh : ∀ m : AtNode,
      (a.m_displacement.apply (a.m_polyMesh.apply o m)).getFlt "step_size"
        = m.getFlt "step_size" := by
    intro m
    simp only [Displacement.apply, PolyMesh.apply]
    split <;> split <;> (try split) <;>
      simp [getFlt_setParam_ne, getFlt_resetParam_ne]
  have hcurves : ∀ m : AtNode, (a.m_curves.apply m).getFlt "step_size" = m.getFlt "step_size" := by
    intro m
    simp only [Curves.apply]
    split <;> simp [getFlt_setParam_ne]
  have hvol : a.m_volume.stepSize = none →
      ∀ m : AtNode, (a.m_volume.apply u m).getFlt "step_size" = m.getFlt "step_size" := by
    intro hnone m
    simp only [Volume.apply, hnone]
    repeat' split
    all_goals simp [getFlt_setParam_ne]
  have hfirst : (a.applyClass u o node).getFlt "step_size" = node.getFlt "step_size" := by
    unfold ArnoldAttributes.applyClass
    split
    · exact hmesh node
    · exact hcurves node
    · rename_i ht
      rcases h with h | h
      · simp [Object.isVolumetric, ht] at h
      · exact hvol h node
    · rename_i ht
      split
      · rename_i hf
        rcases h with h | h
        · simp [Object.isVolumetric, ht, hf] at h
        · exact hvol h node
      · rfl
    · rfl
  have hstep : ∀ m : AtNode, m.getFlt "step_size" ≠ 0 →
      (a.applyStep m).getFlt "step_size" = m.getFlt "step_size" := by
    intro m hm
    unfold ArnoldAttributes.applyStep
    simp only [hm, if_false, ite_self]
    split
    · rw [getFlt_setParam_ne _ _ _ _ (by decide)]
    · rfl
  rw [applyGeometry_eq, hstep _ (by rw [hfirst]; exact hset), hfirst]

/-! ## Claims on the progressive render worker -/

theorem getInt_setOption (s : RenderSession) (p : String) (v : Int) :
    (s.setOption p v).ai.options.getInt p = v := by
  simp [RenderSession.setOption, AtNode.getInt, getParam_setParam]

theorem isPass_iff (f k : Int) :
    isPass f k = true ↔ ¬ (k = 0 ∨ (k > 1 ∧ k ≠ f)) := by
  simp only [isPass, Bool.and_eq_true, Bool.or_eq_true, decide_eq_true_eq]
  constructor
  · rintro ⟨h0, h1⟩ (h | ⟨h2, h3⟩)
    · exact h0 h
    · rcases h1 with h1 | h1
      · omega
      · exact h3 h1
  · intro h
    refine ⟨fun h0 => h (Or.inl h0), ?_⟩
    by_cases h1 : k ≤ 1
    · exact Or.inl h1
    · right
      by_contra h3
      exact h (Or.inr ⟨by omega, h3⟩)

theorem mem_intRange (a : Int) (n : Nat) (x : Int) :
    x ∈ intRange a n ↔ a ≤ x ∧ x < a + n := by
  induction n generalizing a with
  | zero =>
    simp only [intRange, List.not_mem_nil, Nat.cast_zero, add_zero, false_iff, not_and, not_lt]
    exact fun h => h
  | succ n ih =>
    simp only [intRange, List.mem_cons, ih, Nat.cast_succ]
    omega

theorem intRange_pairwise (a : Int) (n : Nat) : (intRange a n).Pairwise (· < ·) := by
  induction n generalizing a with
  | zero => simp [intRange]
  | succ n ih =>
    simp only [intRange, List.pairwise_cons]
    refine ⟨fun x hx => ?_, ih (a + 1)⟩
    rw [mem_intRange] at hx
    omega

theorem intRange_succ_last (a : Int) (n : Nat) :
    intRange a (n + 1) = intRange a n ++ [a + n] := by
  induction n generalizing a with
  | zero => simp [intRange]
  | succ n ih =>
    have h := ih (a + 1)
    simp only [intRange] at h ⊢
    rw [h]
    simp only [List.cons_append, Nat.cast_succ, List.cons.injEq, true_and,
      List.append_cancel_left_eq, and_true]
    omega

/-- With enough fuel and below `INT_MAX` the loop ends, whatever the worker meets. -/
theorem passLoop_some (codes : RenderCodes) (env : WorkerEnv) (f : Int) (fuel : Nat) (aa : Int)
    (s : RenderSession) (hfuel : aa + fuel = f + 1) (hmax : f < INT_MAX) :
    ∃ r, passLoop codes env f fuel aa s = some r := by
  induction fuel generalizing aa s with
  | zero =>
    have h : ¬ aa ≤ f := by simp at hfuel; omega
    exact ⟨s, by simp [passLoop, h]⟩
  | succ fuel ih =>
    have hle : aa ≤ f := by simp at hfuel; omega
    have hne : aa ≠ INT_MAX := by omega
    have hnext : aa + 1 + (fuel : Int) = f + 1 := by simp at hfuel; omega
    simp only [passLoop, hle, if_true, hne, if_false]
    split
    · exact ih (aa + 1) s hnext
    · split
      · exact ⟨_, rfl⟩
      · split
        · exact ⟨_, rfl⟩
        · exact ih (aa + 1) _ hnext

/-- The render calls of an undisturbed worker from `aa` on. -/
theorem passLoop_undisturbed (codes : RenderCodes) (f : Int) (fuel : Nat) (aa : Int)
    (s : RenderSession) (hfuel : aa + fuel = f + 1) (hmax : f < INT_MAX) :
    (passLoop codes (undisturbed codes) f fuel aa s).map (fun r => r.samplesAtCalls)
      = some (s.samplesAtCalls ++ (intRange aa fuel).filter (isPass f)) := by
  induction fuel generalizing aa s with
  | zero =>
    have h : ¬ aa ≤ f := by simp at hfuel; omega
    simp [passLoop, h, intRange]
  | succ fuel ih =>
    have hle : aa ≤ f := by simp at hfuel; omega
    have hne : aa ≠ INT_MAX := by omega
    have hnext : aa + 1 + (fuel : Int) = f + 1 := by simp at hfuel; omega
    simp only [passLoop, hle, if_true, hne, if_false, intRange]
    by_cases hskip : aa = 0 ∨ (aa > 1 ∧ aa ≠ f)
    · have hp : isPass f aa = false := by
        rw [Bool.eq_false_iff]
        intro h
        exact (isPass_iff f aa).mp h hskip
      simp only [hskip, if_true, List.filter_cons, hp, Bool.false_eq_true, if_false]
      exact ih (aa + 1) s hnext
    · have hp : isPass f aa = true := (isPass_iff f aa).mpr hskip
      have hr : (undisturbed codes).rendering aa = true := rfl
      have ha : (undisturbed codes).aiRender aa = codes.AI_SUCCESS := rfl
      simp only [hskip, if_false, hr, ha, Bool.not_true, Bool.false_eq_true, ne_eq,
        not_true_eq_false, List.filter_cons, hp, if_true]
      rw [ih (aa + 1) _ hnext]
      simp [RenderSession.setOption, RenderSession.samplesAtCalls, AtNode.getInt,
        getParam_setParam]

theorem passValues_pairwise (f : Int) : (passValues f).Pairwise (· < ·) :=
  (intRange_pairwise _ _).filter _

theorem passValues_head (f : Int) : (passValues f).head? = some (min (-5) f) := by
  unfold passValues
  obtain ⟨n, hn⟩ : ∃ n, (f - min (-5) f + 1).toNat = n + 1 :=
    ⟨(f - min (-5) f + 1).toNat - 1, by omega⟩
  have hp : isPass f (min (-5) f) = true := by
    rw [isPass_iff]
    omega
  rw [hn]
  simp [intRange, List.filter_cons, hp]

theorem passValues_last (f : Int) (h0 : f ≠ 0) : (passValues f).getLast? = some f := by
  unfold passValues
  obtain ⟨n, hn⟩ : ∃ n, (f - min (-5) f + 1).toNat = n + 1 :=
    ⟨(f - min (-5) f + 1).toNat - 1, by omega⟩
  have hlast : min (-5) f + (n : Int) = f := by omega
  have hp : isPass f f = true := by
    rw [isPass_iff]
    omega
  rw [hn, intRange_succ_last, hlast, List.filter_append]
  simp [List.filter_cons, hp]

/-- The fuel `performInteractiveRender` gives the loop is the number of its iterations. -/
theorem worker_fuel (f : Int) :
    min (-5) f + ((f - min (-5) f + 1).toNat : Int) = f + 1 := by
  omega

/-- C12 (amended): a worker that is never cancelled and whose render calls all report
success, started with the final `AA_samples` value `f` below `INT_MAX`, returns;
the values of `AA_samples` at its render calls are the integers `k` with
`min(-5, f) <= k <= f`, `k != 0` and (`k <= 1` or `k = f`), in ascending order.
That sequence is strictly increasing and starts at `min(-5, f)`; it ends with a
pass at `f` when `f` is not 0, and for `f = 0` it is -5, -4, -3, -2, -1, with no
pass at `f`. -/
theorem c12_pass_sequence (codes : RenderCodes) (s : RenderSession)
    (hmax : s.ai.options.getInt "AA_samples" < INT_MAX) :
    (performInteractiveRender codes (undisturbed codes) s).map (fun r => r.samplesAtCalls)
      = some (s.samplesAtCalls ++ passValues (s.ai.options.getInt "AA_samples"))
    ∧ (passValues (s.ai.options.getInt "AA_samples")).Pairwise (· < ·)
    ∧ (passValues (s.ai.options.getInt "AA_samples")).head?
        = some (min (-5) (s.ai.options.getInt "AA_samples"))
    ∧ (s.ai.options.getInt "AA_samples" ≠ 0 →
        (passValues (s.ai.options.getInt "AA_samples")).getLast?
          = some (s.ai.options.getInt "AA_samples"))
    ∧ (s.ai.options.getInt "AA_samples" = 0 →
        passValues (s.ai.options.getInt "AA_samples") = [-5, -4, -3, -2, -1]) := by
  refine ⟨?_, passValues_pairwise _, passValues_head _, passValues_last _, ?_⟩
  · have h := passLoop_undisturbed codes (s.ai.options.getInt "AA_samples")
      (s.ai.options.getInt "AA_samples" - min (-5) (s.ai.options.getInt "AA_samples") + 1).toNat
      (min (-5) (s.ai.options.getInt "AA_samples")) s (worker_fuel _) hmax
    simp only [performInteractiveRender, Option.map_map]
    exact h
  · intro h
    rw [h]
    decide

/-- C12 (witness): a worker started with `AA_samples` at 3. -/
theorem c12_pass_sequence_witness :
    (performInteractiveRender arnold5Codes (undisturbed arnold5Codes) (sessionWith 3)).map
        (fun r => r.samplesAtCalls)
      = some ((sessionWith 3).samplesAtCalls
          ++ passValues ((sessionWith 3).ai.options.getInt "AA_samples"))
    ∧ (passValues ((sessionWith 3).ai.options.getInt "AA_samples")).Pairwise (· < ·)
    ∧ (passValues ((sessionWith 3).ai.options.getInt "AA_samples")).head?
        = some (min (-5) ((sessionWith 3).ai.options.getInt "AA_samples"))
    ∧ ((sessionWith 3).ai.options.getInt "AA_samples" ≠ 0 →
        (passValues ((sessionWith 3).ai.options.getInt "AA_samples")).getLast?
          = some ((sessionWith 3).ai.options.getInt "AA_samples"))
    ∧ ((sessionWith 3).ai.options.getInt "AA_samples" = 0 →
        passValues ((sessionWith 3).ai.options.getInt "AA_samples") = [-5, -4, -3, -2, -1]) :=
  c12_pass_sequence arnold5Codes (sessionWith 3) (by decide)

/-- C12 (counterexample): started with `AA_samples` at 0, the undisturbed worker
renders at -5, -4, -3, -2 and -1 and returns; its last pass is at -1, not at 0. -/
theorem c12_counterexample :
    (sessionWith 0).ai.options.getInt "AA_samples" = 0
    ∧ (performInteractiveRender arnold5Codes (undisturbed arnold5Codes) (sessionWith 0)).map
        (fun r => r.samplesAtCalls) = some [-5, -4, -3, -2, -1] := by
  decide

/-- C13: for every initial `AA_samples` value `f` and whatever the worker meets
(cancellation at any pass, any status from any render call), the `AA_samples` of the
options is `f` whenever `performInteractiveRender` returns; and it does return for
every `f` below `INT_MAX`. -/
theorem c13_aa_samples_restored (codes : RenderCodes) (env : WorkerEnv) (s : RenderSession) :
    (∀ r, performInteractiveRender codes env s = some r →
      r.ai.options.getInt "AA_samples" = s.ai.options.getInt "AA_samples") ∧
    (s.ai.options.getInt "AA_samples" < INT_MAX →
      ∃ r, performInteractiveRender codes env s = some r) := by
  constructor
  · intro r hr
    simp only [performInteractiveRender, Option.map_eq_some'] at hr
    obtain ⟨r0, _, h0⟩ := hr
    rw [← h0]
    exact getInt_setOption _ _ _
  · intro hmax
    obtain ⟨r, hr⟩ := passLoop_some codes env (s.ai.options.getInt "AA_samples")
      (s.ai.options.getInt "AA_samples" - min (-5) (s.ai.options.getInt "AA_samples") + 1).toNat
      (min (-5) (s.ai.options.getInt "AA_samples")) s (worker_fuel _) hmax
    refine ⟨r.setOption "AA_samples" (s.ai.options.getInt "AA_samples"), ?_⟩
    simp only [performInteractiveRender, hr, Option.map_some']

theorem c13_aa_samples_restored_witness :
    (performInteractiveRender arnold5Codes (cancelledEarly arnold5Codes) (sessionWith 3)).map
        (fun r => r.samplesAtCalls) = some [-5, -4] ∧
      ∃ r, performInteractiveRender arnold5Codes (cancelledEarly arnold5Codes) (sessionWith 3) =
          some r ∧ r.ai.options.getInt "AA_samples" = 3 := by
  obtain ⟨r, hr⟩ :=
    (c13_aa_samples_restored arnold5Codes (cancelledEarly arnold5Codes) (sessionWith 3)).2
      (by decide)
  exact ⟨by decide, r, hr,
    (c13_aa_samples_restored arnold5Codes (cancelledEarly arnold5Codes) (sessionWith 3)).1 r hr⟩

/-! ## Claims on the constructor of the attribute bundle -/

/-- The shader stored in the cache under a hash. -/
theorem ShaderCache.get_entry (c : ShaderCache) (ext : External) (n : ShaderNetwork)
    (u : AtUniverse) :
    assocFind (c.get ext n u).2.1.m_cache n.hash = some (c.get ext n u).1 := by
  unfold ShaderCache.get
  cases h : assocFind c.m_cache n.hash with
  | some found => simp [h]
  | none => simp [assocFind_assocSet_same]

/-- A cached shader stays in the cache when `get` is called. -/
theorem ShaderCache.get_keeps (c : ShaderCache) (ext : External) (n : ShaderNetwork)
    (u : AtUniverse) (k : Nat) (sh : ArnoldShader) (hk : assocFind c.m_cache k = some sh) :
    assocFind (c.get ext n u).2.1.m_cache k = some sh := by
  unfold ShaderCache.get
  cases h : assocFind c.m_cache n.hash with
  | some found => simpa using hk
  | none =>
    have hne : n.hash ≠ k := by
      intro e
      rw [e] at h
      rw [h] at hk
      exact Option.noConfusion hk
    simp only []
    rw [assocFind_assocSet_other _ _ _ _ hne]
    exact hk

theorem Shaders.get_cached (s : Shaders) (ext : External) (n : ShaderNetwork) :
    assocFind (s.get ext n).2.shaderCache.m_cache n.hash = some (s.get ext n).1 :=
  ShaderCache.get_entry s.shaderCache ext n s.ai

theorem Shaders.get_retains (s : Shaders) (ext : External) (n : ShaderNetwork) (k : Nat)
    (sh : ArnoldShader) (hk : assocFind s.shaderCache.m_cache k = some sh) :
    assocFind (s.get ext n).2.shaderCache.m_cache k = some sh :=
  ShaderCache.get_keeps s.shaderCache ext n s.ai k sh hk

theorem Shaders.getNamed_keeps (s : Shaders) (ext : External) (name : String)
    (attributes : CompoundObject) (k : Nat) (sh : ArnoldShader)
    (hk : assocFind s.shaderCache.m_cache k = some sh) :
    assocFind (s.getNamed ext name attributes).1.2.shaderCache.m_cache k = some sh := by
  cases h : (ArnoldAttributes.shaderNetworkAttribute name attributes).1 with
  | some network =>
    simp only [Shaders.getNamed, h]
    exact Shaders.get_retains s ext network k sh hk
  | none =>
    simp only [Shaders.getNamed, h]
    exact hk

/-- The first part of an iteration, on `user:` members, leaves the shaders alone. -/
theorem ArnoldAttributes.memberStep_eq (ext : External) (acc : ArnoldAttributes.Members)
    (it : String × IECoreObject) :
    ∃ acc1 : ArnoldAttributes.Members, acc1.shaders = acc.shaders ∧
      ArnoldAttributes.memberStep ext acc it =
        if it.1 = "ai:lightFilter:filter" then some acc1
        else if starts_with it.1 "ai:lightFilter:" then
          match it.2.asShaderNetwork with
          | none => none
          | some network =>
            some { acc1 with
              m_lightFilterShaders := acc1.m_lightFilterShaders ++ [(acc1.shaders.get ext network).1],
              shaders := (acc1.shaders.get ext network).2 }
        else some acc1 := by
  refine ⟨if starts_with it.1 "user:" then
      match it.2.asData with
      | some data => { acc with m_user := assocSet acc.m_user it.1 data }
      | none => acc
    else acc, ?_, rfl⟩
  split_ifs
  · split <;> rfl
  · rfl

theorem ArnoldAttributes.memberStep_keeps (ext : External) (acc m : ArnoldAttributes.Members)
    (it : String × IECoreObject) (h : ArnoldAttributes.memberStep ext acc it = some m)
    (k : Nat) (sh : ArnoldShader) (hk : assocFind acc.shaders.shaderCache.m_cache k = some sh) :
    assocFind m.shaders.shaderCache.m_cache k = some sh := by
  obtain ⟨acc1, hs, he⟩ := ArnoldAttributes.memberStep_eq ext acc it
  rw [he] at h
  rw [← hs] at hk
  split_ifs at h with h2 h3
  · cases h
    exact hk
  · cases hn : it.2.asShaderNetwork with
    | none => simp [hn] at h
    | some network =>
      simp only [hn, Option.some.injEq] at h
      subst h
      exact Shaders.get_retains _ ext network k sh hk
  · cases h
    exact hk

theorem ArnoldAttributes.memberLoop_keeps (ext : External) (l : List (String × IECoreObject)) :
    ∀ (acc m : ArnoldAttributes.Members), ArnoldAttributes.memberLoop ext l acc = some m →
      ∀ (k : Nat) (sh : ArnoldShader),
        assocFind acc.shaders.shaderCache.m_cache k = some sh →
        assocFind m.shaders.shaderCache.m_cache k = some sh := by
  induction l with
  | nil =>
    intro acc m h k sh hk
    simp only [ArnoldAttributes.memberLoop, Option.some.injEq] at h
    subst h
    exact hk
  | cons it rest ih =>
    intro acc m h k sh hk
    simp only [ArnoldAttributes.memberLoop] at h
    cases hs : ArnoldAttributes.memberStep ext acc it with
    | none => simp [hs] at h
    | some acc2 =>
      simp only [hs] at h
      exact ih acc2 m h k sh (ArnoldAttributes.memberStep_keeps ext acc acc2 it hs k sh hk)

/-- The loop over the members returns when every member under the light filter stem,
other than `ai:lightFilter:filter`, holds a shader network. -/
theorem ArnoldAttributes.memberLoop_some (ext : External) (l : List (String × IECoreObject))
    (hl : ∀ e ∈ l, starts_with e.1 "ai:lightFilter:" = true → e.1 ≠ "ai:lightFilter:filter" →
      e.2.asShaderNetwork ≠ none) :
    ∀ acc : ArnoldAttributes.Members, ∃ m, ArnoldAttributes.memberLoop ext l acc = some m := by
  induction l with
  | nil => exact fun acc => ⟨acc, rfl⟩
  | cons it rest ih =>
    intro acc
    have hit := hl it (List.mem_cons_self _ _)
    have hrest := ih (fun e he => hl e (List.mem_cons_of_mem _ he))
    simp only [ArnoldAttributes.memberLoop]
    have hstep : ∃ acc2, ArnoldAttributes.memberStep ext acc it = some acc2 := by
      obtain ⟨acc1, _, he⟩ := ArnoldAttributes.memberStep_eq ext acc it
      rw [he]
      by_cases h2 : it.1 = "ai:lightFilter:filter"
      · exact ⟨acc1, by simp [h2]⟩
      · by_cases h3 : starts_with it.1 "ai:lightFilter:" = true
        · cases hn : it.2.asShaderNetwork with
          | none => exact absurd hn (hit h3 h2)
          | some network => simp [h2, h3]
        · exact ⟨acc1, by simp [h2, h3]⟩
    obtain ⟨acc2, h2⟩ := hstep
    rw [h2]
    exact hrest acc2

/-- The chain of lookups in the constructor finds the first of the names that is
present as a shader network. -/
theorem ArnoldAttributes.shaderNetworkChain_eq (attributes : CompoundObject)
    (names : List String) :
    (ArnoldAttributes.shaderNetworkChain attributes names).1 =
      ArnoldAttributes.firstShaderNetwork attributes names := by
  induction names with
  | nil => rfl
  | cons name rest ih =>
    simp only [ArnoldAttributes.shaderNetworkChain, ArnoldAttributes.firstShaderNetwork,
      List.findSome?_cons]
    have hattr : (ArnoldAttributes.shaderNetworkAttribute name attributes).1 =
        (assocFind attributes name).bind IECoreObject.asShaderNetwork := by
      unfold ArnoldAttributes.shaderNetworkAttribute ArnoldAttributes.attributeOf reportedCast
      cases assocFind attributes name with
      | none => rfl
      | some v => cases hv : v.asShaderNetwork <;> simp [hv]
    rw [← hattr]
    cases h : (ArnoldAttributes.shaderNetworkAttribute name attributes).1 with
    | some network => rfl
    | none => simpa [ArnoldAttributes.firstShaderNetwork] using ih


/-- The surface shader of a bundle is the compiled form, as the shader cache holds it
after the constructor, of the network the chain of lookups found. -/
theorem ArnoldAttributes.new_surfaceShader (rays : RayTypes) (ext : External)
    (attributes : CompoundObject) (s : Shaders) (b : ArnoldAttributes.Built)
    (hb : ArnoldAttributes.new rays ext attributes s = some b) :
    (match ArnoldAttributes.firstShaderNetwork attributes
        ["ai:surface", "osl:surface", "osl:shader", "surface"] with
      | some network => ∃ sh, b.attributes.m_surfaceShader = some sh ∧
          assocFind b.shaders.shaderCache.m_cache network.hash = some sh
      | none => b.attributes.m_surfaceShader = none) ∧
    b.attributes.m_lightShader =
      ArnoldAttributes.firstShaderNetwork attributes ["ai:light", "light"] := by
  have hchain := ArnoldAttributes.shaderNetworkChain_eq attributes
    ["ai:surface", "osl:surface", "osl:shader", "surface"]
  have hlight := ArnoldAttributes.shaderNetworkChain_eq attributes ["ai:light", "light"]
  unfold ArnoldAttributes.new at hb
  simp only [] at hb
  split at hb
  · cases hb
  · rename_i members hm
    simp only [Option.some.injEq] at hb
    subst hb
    simp only []
    rw [hchain] at hm ⊢
    refine ⟨?_, hlight⟩
    cases hf : ArnoldAttributes.firstShaderNetwork attributes
        ["ai:surface", "osl:surface", "osl:shader", "surface"] with
    | none => rfl
    | some network =>
      rw [hf] at hm
      simp only [] at hm ⊢
      refine ⟨_, rfl, ?_⟩
      refine ArnoldAttributes.memberLoop_keeps ext attributes _ members hm _ _ ?_
      refine Shaders.getNamed_keeps _ ext _ attributes _ _ ?_
      refine Shaders.getNamed_keeps _ ext _ attributes _ _ ?_
      exact Shaders.get_cached _ ext network


/-- From an empty dictionary the constructor builds the default bundle, creates no
shader and emits no message. -/
theorem ArnoldAttributes.new_empty :
    ArnoldAttributes.new arnold5Rays sampleExternal [] noShaders =
      some { attributes := defaultAttributes, shaders := noShaders, messages := [] } := by
  decide!

/-- C17: for every attribute dictionary, every bundle the constructor builds has as its
surface shader the compiled form of the first of "ai:surface", "osl:surface",
"osl:shader", "surface" that is present as a shader network, and none when no such
name is; its light shader is the first of "ai:light", "light" that is present as a
shader network. In particular "ai:surface" wins over "surface". The constructor builds a
bundle whenever every member under the "ai:lightFilter:" stem holds a shader network. -/
theorem c17_shader_precedence (rays : RayTypes) (ext : External) (attributes : CompoundObject)
    (s : Shaders) :
    (∀ b, ArnoldAttributes.new rays ext attributes s = some b →
      (match ArnoldAttributes.firstShaderNetwork attributes
          ["ai:surface", "osl:surface", "osl:shader", "surface"] with
        | some network => ∃ sh, b.attributes.m_surfaceShader = some sh ∧
            assocFind b.shaders.shaderCache.m_cache network.hash = some sh
        | none => b.attributes.m_surfaceShader = none) ∧
      b.attributes.m_lightShader =
        ArnoldAttributes.firstShaderNetwork attributes ["ai:light", "light"] ∧
      (∀ a c, assocFind attributes "ai:surface" = some (.ShaderNetwork a) →
        assocFind attributes "surface" = some (.ShaderNetwork c) →
        ∃ sh, b.attributes.m_surfaceShader = some sh ∧
          assocFind b.shaders.shaderCache.m_cache a.hash = some sh) ∧
      ((∀ name ∈ ["ai:surface", "osl:surface", "osl:shader", "surface"],
          (assocFind attributes name).bind IECoreObject.asShaderNetwork = none) →
        b.attributes.m_surfaceShader = none)) ∧
    ((∀ e ∈ attributes, starts_with e.1 "ai:lightFilter:" = true →
        e.1 ≠ "ai:lightFilter:filter" → e.2.asShaderNetwork ≠ none) →
      ∃ b, ArnoldAttributes.new rays ext attributes s = some b) := by
  constructor
  · intro b hb
    have h := ArnoldAttributes.new_surfaceShader rays ext attributes s b hb
    refine ⟨h.1, h.2, ?_, ?_⟩
    · intro a c ha _
      have hf : ArnoldAttributes.firstShaderNetwork attributes
          ["ai:surface", "osl:surface", "osl:shader", "surface"] = some a := by
        simp [ArnoldAttributes.firstShaderNetwork, List.findSome?_cons, ha,
          IECoreObject.asShaderNetwork]
      have h1 := h.1
      rw [hf] at h1
      exact h1
    · intro hnone
      have hf : ArnoldAttributes.firstShaderNetwork attributes
          ["ai:surface", "osl:surface", "osl:shader", "surface"] = none := by
        simp only [ArnoldAttributes.firstShaderNetwork, List.findSome?_cons, List.findSome?_nil]
        rw [hnone "ai:surface" (by simp), hnone "osl:surface" (by simp),
          hnone "osl:shader" (by simp), hnone "surface" (by simp)]
      have h1 := h.1
      rw [hf] at h1
      exact h1
  · intro hl
    obtain ⟨m, hm⟩ := ArnoldAttributes.memberLoop_some ext attributes hl
      { m_user := [], m_lightFilterShaders := [],
        shaders := ((((match (ArnoldAttributes.shaderNetworkChain attributes
            ["ai:surface", "osl:surface", "osl:shader", "surface"]).1 with
          | some network =>
            (some ((Displacement.new ext attributes s).1.2.get ext network).1,
              ((Displacement.new ext attributes s).1.2.get ext network).2)
          | none => ((none : Option ArnoldShader), (Displacement.new ext attributes s).1.2)).2.getNamed
            ext "ai:filtermap" attributes).1.2.getNamed ext "ai:uv_remap" attributes).1.2) }
    unfold ArnoldAttributes.new
    simp only []
    rw [hm]
    exact ⟨_, rfl⟩

theorem c17_shader_precedence_witness :
    ∃ b, ArnoldAttributes.new arnold5Rays sampleExternal twoSurfaces noShaders = some b ∧
      b.attributes.m_lightShader = some { hash := 3 } ∧
      ∃ sh, b.attributes.m_surfaceShader = some sh ∧
        assocFind b.shaders.shaderCache.m_cache 2 = some sh := by
  obtain ⟨b, hb⟩ :=
    (c17_shader_precedence arnold5Rays sampleExternal twoSurfaces noShaders).2 (by decide)
  have h := (c17_shader_precedence arnold5Rays sampleExternal twoSurfaces noShaders).1 b hb
  refine ⟨b, hb, ?_, ?_⟩
  · rw [h.2.1]
    decide
  · exact h.2.2.1 { hash := 2 } { hash := 1 } (by decide) (by decide)


/-! ## Claims on the option dispatch -/

theorem starts_with_trans (s p q : String) (h1 : starts_with s p = true)
    (h2 : starts_with p q = true) : starts_with s q = true := by
  unfold starts_with at *
  rw [List.isPrefixOf_iff_prefix] at *
  exact h2.trans h1

/-- A name outside the `ai:` stem is none of the names under it. -/
theorem ne_of_not_starts_with (name p stem : String) (h : starts_with name stem = false)
    (hp : starts_with p stem = true) : name ≠ p := by
  rintro rfl
  rw [hp] at h
  exact Bool.noConfusion h

/-- A name outside the `ai:` stem is under none of the longer stems. -/
theorem not_starts_with_longer (name p stem : String) (h : starts_with name stem = false)
    (hp : starts_with p stem = true) : starts_with name p = false := by
  cases hs : starts_with name p with
  | false => rfl
  | true =>
    rw [starts_with_trans name p stem hs hp] at h
    exact Bool.noConfusion h

/-- A stem without a NUL starts the C string of a name exactly when it starts the name. -/
theorem starts_with_c_str (name stem : String)
    (h : stem.data.all (fun c => decide (c ≠ Char.ofNat 0)) = true) :
    starts_with (c_str name) stem = starts_with name stem := by
  unfold starts_with c_str
  simp only []
  generalize name.data = l
  generalize stem.data = t at h
  induction t generalizing l with
  | nil => simp
  | cons c cs ih =>
    simp only [List.all_cons, Bool.and_eq_true, decide_eq_true_eq] at h
    cases l with
    | nil => simp
    | cons d ds =>
      by_cases hd : d = Char.ofNat 0
      · simp [List.takeWhile_cons, hd, List.isPrefixOf]
        exact fun e => absurd e h.1
      · have ih2 := ih ds h.2
        simp only [ne_eq, decide_not] at ih2
        simp [List.takeWhile_cons, hd, List.isPrefixOf, ih2]

/-- What `option` does with the stems once the C string is read. -/
theorem ArnoldGlobals.option_stems (name : String) :
    starts_with (c_str name) "ai:log:" = starts_with name "ai:log:" ∧
    starts_with (c_str name) "ai:console:" = starts_with name "ai:console:" ∧
    starts_with (c_str name) "ai:aov_shader:" = starts_with name "ai:aov_shader:" ∧
    starts_with (c_str name) "ai:declare:" = starts_with name "ai:declare:" ∧
    starts_with (c_str name) "ai:" = starts_with name "ai:" ∧
    starts_with (c_str name) "user:" = starts_with name "user:" :=
  ⟨starts_with_c_str name _ (by decide), starts_with_c_str name _ (by decide),
   starts_with_c_str name _ (by decide), starts_with_c_str name _ (by decide),
   starts_with_c_str name _ (by decide), starts_with_c_str name _ (by decide)⟩

/-- Outside the `ai:` stem, `option` handles "frame", "camera", "sampleMotion" and the
`user:` stem, ignores every other name whose C string contains a colon, and warns about
the rest. -/
theorem ArnoldGlobals.option_outside_ai (flags : LogFlags) (ext : External)
    (before : String → String → Bool) (self : ArnoldGlobals) (name : String)
    (value : Option IECoreObject) (hai : starts_with name "ai:" = false)
    (h1 : name ≠ "frame") (h2 : name ≠ "camera") (h3 : name ≠ "sampleMotion") :
    ArnoldGlobals.option flags ext before self name value =
      if starts_with name "user:" then self.setOrReset (c_str name) value
      else if containsChar (c_str name) ':' then self
      else self.unknownOption name := by
  have e1 := ne_of_not_starts_with name "ai:log:filename" "ai:" hai (by decide)
  have e2 := ne_of_not_starts_with name "ai:statisticsFileName" "ai:" hai (by decide)
  have e3 := ne_of_not_starts_with name "ai:log:max_warnings" "ai:" hai (by decide)
  have e4 := ne_of_not_starts_with name "ai:AA_seed" "ai:" hai (by decide)
  have e5 := ne_of_not_starts_with name "ai:plugin_searchpath" "ai:" hai (by decide)
  have e6 := ne_of_not_starts_with name "ai:atmosphere" "ai:" hai (by decide)
  have e7 := ne_of_not_starts_with name "ai:background" "ai:" hai (by decide)
  have s1 := not_starts_with_longer name "ai:log:" "ai:" hai (by decide)
  have s2 := not_starts_with_longer name "ai:console:" "ai:" hai (by decide)
  have s3 := not_starts_with_longer name "ai:aov_shader:" "ai:" hai (by decide)
  have s4 := not_starts_with_longer name "ai:declare:" "ai:" hai (by decide)
  obtain ⟨c1, c2, c3, c4, c5, c6⟩ := ArnoldGlobals.option_stems name
  unfold ArnoldGlobals.option
  simp only [c1, c2, c3, c4, c5, c6, h1, h2, h3, e1, e2, e3, e4, e5, e6, e7, s1, s2, s3, s4,
    hai, if_false, Bool.false_eq_true]


/-- A name under a stem that has a colon contains a colon. -/
theorem containsChar_of_starts_with (name stem : String) (h : starts_with name stem = true)
    (hs : containsChar stem ':' = true) : containsChar name ':' = true := by
  unfold starts_with at h
  unfold containsChar at *
  rw [List.isPrefixOf_iff_prefix] at h
  obtain ⟨t, ht⟩ := h
  rw [← ht]
  simp only [List.contains_eq_any_beq, List.any_append, Bool.or_eq_true] at *
  exact Or.inl hs

/-- Under the `ai:log:` stem, a name that is not `filename`, `max_warnings` or one of the
flags draws the warning. -/
theorem ArnoldGlobals.option_log_unknown (flags : LogFlags) (ext : External)
    (before : String → String → Bool) (self : ArnoldGlobals) (name : String)
    (value : Option IECoreObject) (hs : starts_with name "ai:log:" = true)
    (h1 : name ≠ "ai:log:filename") (h2 : name ≠ "ai:log:max_warnings")
    (hf : ArnoldGlobals.flagToModify flags (substr name 7) = none) :
    ArnoldGlobals.option flags ext before self name value = self.unknownOption name := by
  have hc := containsChar_of_starts_with name "ai:log:" hs (by decide)
  have e1 : name ≠ "frame" := by rintro rfl; revert hc; decide
  have e2 : name ≠ "camera" := by rintro rfl; revert hc; decide
  have e3 : name ≠ "ai:statisticsFileName" := by rintro rfl; revert hs; decide
  obtain ⟨c1, c2, c3, c4, c5, c6⟩ := ArnoldGlobals.option_stems name
  unfold ArnoldGlobals.option
  simp only [c1, c2, c3, c4, c5, c6, h1, h2, e1, e2, e3, hs, if_false, if_true,
    ArnoldGlobals.updateLogFlags, hf, Bool.false_eq_true]

/-- Under the `ai:console:` stem, a name that is not one of the flags draws the warning. -/
theorem ArnoldGlobals.option_console_unknown (flags : LogFlags) (ext : External)
    (before : String → String → Bool) (self : ArnoldGlobals) (name : String)
    (value : Option IECoreObject) (hs : starts_with name "ai:console:" = true)
    (hf : ArnoldGlobals.flagToModify flags (substr name 11) = none) :
    ArnoldGlobals.option flags ext before self name value = self.unknownOption name := by
  have hc := containsChar_of_starts_with name "ai:console:" hs (by decide)
  have e1 : name ≠ "frame" := by rintro rfl; revert hc; decide
  have e2 : name ≠ "camera" := by rintro rfl; revert hc; decide
  have e3 : name ≠ "ai:statisticsFileName" := by rintro rfl; revert hs; decide
  have e4 : name ≠ "ai:log:filename" := by rintro rfl; revert hs; decide
  have e5 : name ≠ "ai:log:max_warnings" := by rintro rfl; revert hs; decide
  have s1 : starts_with name "ai:log:" = false := by
    cases h : starts_with name "ai:log:" with
    | false => rfl
    | true =>
      exfalso
      unfold starts_with at h hs
      rw [List.isPrefixOf_iff_prefix] at h hs
      obtain ⟨t, ht⟩ := h
      obtain ⟨t2, ht2⟩ := hs
      rw [← ht2] at ht
      have := congrArg (fun l => l.get? 3) ht
      revert this
      simp
  obtain ⟨c1, c2, c3, c4, c5, c6⟩ := ArnoldGlobals.option_stems name
  unfold ArnoldGlobals.option
  simp only [c1, c2, c3, c4, c5, c6, e1, e2, e3, e4, e5, s1, hs, if_false, if_true,
    ArnoldGlobals.updateLogFlags, hf, Bool.false_eq_true]

/-- Under the `ai:` stem, a name that no earlier branch takes and whose C string names no
parameter of the options node draws the warning. -/
theorem ArnoldGlobals.option_ai_unknown (flags : LogFlags) (ext : External)
    (before : String → String → Bool) (self : ArnoldGlobals) (name : String)
    (value : Option IECoreObject) (hs : starts_with name "ai:" = true)
    (hn : name ∉ ["ai:log:filename", "ai:statisticsFileName", "ai:log:max_warnings",
      "ai:AA_seed", "ai:plugin_searchpath", "ai:atmosphere", "ai:background"])
    (hl : ∀ stem ∈ ["ai:log:", "ai:console:", "ai:aov_shader:", "ai:declare:"],
      starts_with name stem = false)
    (hp : self.options.hasParameter (substr (c_str name) 3) = false) :
    ArnoldGlobals.option flags ext before self name value = self.unknownOption name := by
  have hc := containsChar_of_starts_with name "ai:" hs (by decide)
  have e1 : name ≠ "frame" := by rintro rfl; revert hc; decide
  have e2 : name ≠ "camera" := by rintro rfl; revert hc; decide
  have e3 : name ≠ "sampleMotion" := by rintro rfl; revert hc; decide
  simp only [List.mem_cons, List.mem_singleton, not_or, List.not_mem_nil, or_false] at hn
  obtain ⟨n1, n2, n3, n4, n5, n6, n7⟩ := hn
  have s1 := hl "ai:log:" (by simp)
  have s2 := hl "ai:console:" (by simp)
  have s3 := hl "ai:aov_shader:" (by simp)
  have s4 := hl "ai:declare:" (by simp)
  obtain ⟨c1, c2, c3, c4, c5, c6⟩ := ArnoldGlobals.option_stems name
  unfold ArnoldGlobals.option
  simp only [c1, c2, c3, c4, c5, c6, e1, e2, e3, n1, n2, n3, n4, n5, n6, n7, s1, s2, s3, s4, hs,
    hp, if_false, if_true, Bool.false_eq_true]


/-- C14 (amended): `option` reads the name as a C string, up to its first NUL, when it
looks for the stem and for the colon. A name whose C string contains a colon and that
is under neither the "ai:" nor the "user:" stem is ignored: `option` emits no message
and returns the state unchanged. A name whose C string has no colon, other than
"frame", "camera" and "sampleMotion", draws the "Unknown option" warning and changes
nothing else; so does a name under "ai:" that is not an option of the renderer and whose
C string names no parameter of the options node, and a name under "ai:log:" or
"ai:console:" that is not a log flag. -/
theorem c14_foreign_options_ignored (flags : LogFlags) (ext : External)
    (before : String → String → Bool) (self : ArnoldGlobals) (name : String)
    (value : Option IECoreObject) :
    (containsChar (c_str name) ':' = true → starts_with name "ai:" = false →
      starts_with name "user:" = false →
      ArnoldGlobals.option flags ext before self name value = self) ∧
    (containsChar (c_str name) ':' = false → name ≠ "frame" → name ≠ "camera" →
      name ≠ "sampleMotion" →
      ArnoldGlobals.option flags ext before self name value =
        { self with
          messages := self.messages ++ ["Unknown option \"" ++ c_str name ++ "\"."] }) ∧
    (starts_with name "ai:" = true →
      name ∉ ["ai:log:filename", "ai:statisticsFileName", "ai:log:max_warnings",
        "ai:AA_seed", "ai:plugin_searchpath", "ai:atmosphere", "ai:background"] →
      (∀ stem ∈ ["ai:log:", "ai:console:", "ai:aov_shader:", "ai:declare:"],
        starts_with name stem = false) →
      self.options.hasParameter (substr (c_str name) 3) = false →
      ArnoldGlobals.option flags ext before self name value =
        { self with
          messages := self.messages ++ ["Unknown option \"" ++ c_str name ++ "\"."] }) ∧
    (starts_with name "ai:log:" = true → name ≠ "ai:log:filename" →
      name ≠ "ai:log:max_warnings" →
      ArnoldGlobals.flagToModify flags (substr name 7) = none →
      ArnoldGlobals.option flags ext before self name value =
        { self with
          messages := self.messages ++ ["Unknown option \"" ++ c_str name ++ "\"."] }) ∧
    (starts_with name "ai:console:" = true →
      ArnoldGlobals.flagToModify flags (substr name 11) = none →
      ArnoldGlobals.option flags ext before self name value =
        { self with
          messages := self.messages ++ ["Unknown option \"" ++ c_str name ++ "\"."] }) ∧
    ((∀ c ∈ name.data, c ≠ Char.ofNat 0) → c_str name = name) := by
  obtain ⟨c1, c2, c3, c4, c5, c6⟩ := ArnoldGlobals.option_stems name
  refine ⟨?_, ?_, ?_, ?_, ?_, ?_⟩
  · intro hc hai hu
    have e1 : name ≠ "frame" := by rintro rfl; revert hc; decide
    have e2 : name ≠ "camera" := by rintro rfl; revert hc; decide
    have e3 : name ≠ "sampleMotion" := by rintro rfl; revert hc; decide
    rw [ArnoldGlobals.option_outside_ai flags ext before self name value hai e1 e2 e3]
    simp [hu, hc]
  · intro hc e1 e2 e3
    have hai : starts_with name "ai:" = false := by
      cases h : starts_with name "ai:" with
      | false => rfl
      | true =>
        rw [← c5] at h
        rw [containsChar_of_starts_with (c_str name) "ai:" h (by decide)] at hc
        exact Bool.noConfusion hc
    have hu : starts_with name "user:" = false := by
      cases h : starts_with name "user:" with
      | false => rfl
      | true =>
        rw [← c6] at h
        rw [containsChar_of_starts_with (c_str name) "user:" h (by decide)] at hc
        exact Bool.noConfusion hc
    rw [ArnoldGlobals.option_outside_ai flags ext before self name value hai e1 e2 e3]
    simp [hu, hc, ArnoldGlobals.unknownOption, ArnoldGlobals.msg]
  · intro hs hn hl hp
    exact ArnoldGlobals.option_ai_unknown flags ext before self name value hs hn hl hp
  · intro hs h1 h2 hf
    exact ArnoldGlobals.option_log_unknown flags ext before self name value hs h1 h2 hf
  · intro hs hf
    exact ArnoldGlobals.option_console_unknown flags ext before self name value hs hf
  · intro h
    unfold c_str
    have : name.data.takeWhile (fun c => decide (c ≠ Char.ofNat 0)) = name.data := by
      rw [List.takeWhile_eq_self_iff]
      intro c hc
      exact decide_eq_true (h c hc)
    rw [this]

theorem c14_foreign_options_ignored_witness :
    ArnoldGlobals.option arnold5LogFlags sampleExternal sampleBefore (sampleGlobals .Batch)
        "ri:shadingRate" (some (.FloatData 2)) = sampleGlobals .Batch ∧
      ArnoldGlobals.option arnold5LogFlags sampleExternal sampleBefore (sampleGlobals .Batch)
        "shadingRate" (some (.FloatData 2)) =
        { sampleGlobals .Batch with messages := ["Unknown option \"shadingRate\"."] } :=
  ⟨(c14_foreign_options_ignored arnold5LogFlags sampleExternal sampleBefore
      (sampleGlobals .Batch) "ri:shadingRate" (some (.FloatData 2))).1
      (by decide) (by decide) (by decide),
   (c14_foreign_options_ignored arnold5LogFlags sampleExternal sampleBefore
      (sampleGlobals .Batch) "shadingRate" (some (.FloatData 2))).2.1
      (by decide) (by decide) (by decide) (by decide)⟩

/-- C14, counterexample: "ai:bogus" and "ai:log:bogus" contain a colon and are not
recognised, and each draws the "Unknown option" warning; "ai:AA_samples", a parameter of
the options node, is set without a message. A name with a NUL before its colon is
under no stem and contains a colon, and draws the warning too: the test for the colon
reads `name.c_str()`, which ends at the NUL. -/
theorem c14_counterexample :
    containsChar "ai:bogus" ':' = true ∧
    (ArnoldGlobals.option arnold5LogFlags sampleExternal sampleBefore (sampleGlobals .Batch)
        "ai:bogus" (some (.IntData 1))).messages = ["Unknown option \"ai:bogus\"."] ∧
    (ArnoldGlobals.option arnold5LogFlags sampleExternal sampleBefore (sampleGlobals .Batch)
        "ai:log:bogus" (some (.BoolData true))).messages = ["Unknown option \"ai:log:bogus\"."] ∧
    (ArnoldGlobals.option arnold5LogFlags sampleExternal sampleBefore (sampleGlobals .Batch)
        "ai:AA_samples" (some (.IntData 3))).messages = [] ∧
    (ArnoldGlobals.option arnold5LogFlags sampleExternal sampleBefore (sampleGlobals .Batch)
        "ai:AA_samples" (some (.IntData 3))).options.getInt "AA_samples" = 3 ∧
    containsChar nameWithNul ':' = true ∧
    starts_with nameWithNul "ai:" = false ∧
    starts_with nameWithNul "user:" = false ∧
    (ArnoldGlobals.option arnold5LogFlags sampleExternal sampleBefore (sampleGlobals .Batch)
        nameWithNul (some (.IntData 1))).messages = ["Unknown option \"a\"."] := by
  decide


/-! ## Claims on the batch render -/

/-- `throwError` raises on the eight statuses its `switch` names and returns on every
other one. -/
theorem throwErrorCode_eq_none_iff (codes : RenderCodes) (errorCode : Int) :
    throwErrorCode codes errorCode = none ↔
      errorCode ∉ [codes.AI_ABORT, codes.AI_ERROR_NO_CAMERA, codes.AI_ERROR_BAD_CAMERA,
        codes.AI_ERROR_VALIDATION, codes.AI_ERROR_RENDER_REGION, codes.AI_INTERRUPT,
        codes.AI_ERROR_NO_OUTPUTS, codes.AI_ERROR] := by
  unfold throwErrorCode
  simp only [List.mem_cons, List.mem_singleton, List.not_mem_nil, or_false, not_or]
  constructor
  · intro h
    split_ifs at h
    refine ⟨?_, ?_, ?_, ?_, ?_, ?_, ?_, ?_⟩ <;> assumption
  · rintro ⟨h1, h2, h3, h4, h5, h6, h7, h8⟩
    simp [h1, h2, h3, h4, h5, h6, h7, h8]

/-- A status that the `switch` names, other than success, ends the batch render with an
exception right after the call of `AiRender` that returned it. -/
theorem ArnoldGlobals.renderCameras_raises (codes : RenderCodes) (ext : External)
    (env : BatchEnv) (cameraOverride : String) (rest : List String) (self s1 : ArnoldGlobals)
    (what : String)
    (hc : self.updateCamera ext
      (if cameraOverride.length ≠ 0 then cameraOverride else self.m_cameraName) = some s1)
    (hs : env.aiRender s1.renderCalls.length s1.shaders.ai ≠ codes.AI_SUCCESS)
    (hw : throwErrorCode codes (env.aiRender s1.renderCalls.length s1.shaders.ai) = some what) :
    ArnoldGlobals.renderCameras codes ext env (cameraOverride :: rest) self =
      .raised what { s1 with renderCalls := s1.renderCalls ++ [s1.shaders.ai.options] } := by
  rw [ArnoldGlobals.renderCameras, hc]
  simp only [hs, ne_eq, not_false_eq_true, if_true, hw]

/-- When no status `AiRender` returns is one the `switch` names, the batch render never
raises: it goes on to the next camera whatever the status was. -/
theorem ArnoldGlobals.renderCameras_never_raises (codes : RenderCodes) (ext : External)
    (env : BatchEnv) (he : ∀ n u, throwErrorCode codes (env.aiRender n u) = none)
    (cameras : List String) :
    ∀ (self : ArnoldGlobals) (what : String) (s : ArnoldGlobals),
      ArnoldGlobals.renderCameras codes ext env cameras self ≠ .raised what s := by
  induction cameras with
  | nil =>
    intro self what s h
    simp [ArnoldGlobals.renderCameras] at h
  | cons cameraOverride rest ih =>
    intro self what s h
    rw [ArnoldGlobals.renderCameras] at h
    split at h
    · cases h
    · simp only [he, ite_self] at h
      exact ih _ what s h

/-- The loop over a list of cameras in two parts: the second part runs from the state the
first part returned, and not at all when the first part did not return. -/
theorem ArnoldGlobals.renderCameras_append (codes : RenderCodes) (ext : External)
    (env : BatchEnv) (done rest : List String) :
    ∀ self : ArnoldGlobals,
      ArnoldGlobals.renderCameras codes ext env (done ++ rest) self =
        match ArnoldGlobals.renderCameras codes ext env done self with
        | .returned s => ArnoldGlobals.renderCameras codes ext env rest s
        | .raised what s => .raised what s
        | .undefined => .undefined := by
  induction done with
  | nil =>
    intro self
    simp only [List.nil_append, ArnoldGlobals.renderCameras]
  | cons cameraOverride more ih =>
    intro self
    simp only [List.cons_append]
    rw [ArnoldGlobals.renderCameras, ArnoldGlobals.renderCameras]
    cases hc : self.updateCamera ext
        (if cameraOverride.length ≠ 0 then cameraOverride else self.m_cameraName) with
    | none => rfl
    | some s1 =>
      dsimp only
      generalize (if env.aiRender s1.renderCalls.length s1.shaders.ai ≠ codes.AI_SUCCESS then
        throwErrorCode codes (env.aiRender s1.renderCalls.length s1.shaders.ai) else none) = w
      cases w with
      | none => exact ih _
      | some what => rfl

/-- The `what()` of every exception of `throwError` is one of its eight messages. -/
theorem throwErrorCode_some (codes : RenderCodes) (errorCode : Int) (what : String)
    (h : throwErrorCode codes errorCode = some what) :
    what ∈ ["Render aborted", "Camera not defined", "Bad camera", "Usage not validated",
      "Invalid render region", "Render interrupted by user", "No outputs",
      "Generic Arnold error"] := by
  unfold throwErrorCode at h
  split_ifs at h <;> cases h <;> simp

/-- C15: in a batch session, when the call of `AiRender` for one of the cameras returns
a status other than `AI_SUCCESS`, one of the eight statuses the render call reports
(abort, no camera, bad camera, validation, region, interrupt, no outputs, generic),
`render` raises the exception `throwError` has for this status. The render calls for
the cameras before it have returned, and the state the exception leaves has this
render call as its last one: no call is issued for the cameras that remain. -/
theorem c15_status_raises (codes : RenderCodes) (ext : External) (env : BatchEnv)
    (self s0 s2 s1 : ArnoldGlobals) (done rest : List String) (cameraOverride : String)
    (hm : self.updateCameraMeshes = .returned s0)
    (hb : s0.m_renderType = .Batch)
    (hsplit : s0.cameraOverrides = done ++ cameraOverride :: rest)
    (hdone : ArnoldGlobals.renderCameras codes ext env done
      (s0.modifyOptions (fun o =>
        o.setParam "AA_seed" (.int (s0.m_aaSeed.getD (s0.m_frame.getD 1))))) = .returned s2)
    (hc : s2.updateCamera ext
      (if cameraOverride.length ≠ 0 then cameraOverride else s2.m_cameraName) = some s1)
    (hs : env.aiRender s1.renderCalls.length s1.shaders.ai ≠ codes.AI_SUCCESS)
    (hnamed : env.aiRender s1.renderCalls.length s1.shaders.ai ∈
      [codes.AI_ABORT, codes.AI_ERROR_NO_CAMERA, codes.AI_ERROR_BAD_CAMERA,
        codes.AI_ERROR_VALIDATION, codes.AI_ERROR_RENDER_REGION, codes.AI_INTERRUPT,
        codes.AI_ERROR_NO_OUTPUTS, codes.AI_ERROR]) :
    ∃ what, throwErrorCode codes (env.aiRender s1.renderCalls.length s1.shaders.ai) = some what ∧
      what ∈ ["Render aborted", "Camera not defined", "Bad camera", "Usage not validated",
        "Invalid render region", "Render interrupted by user", "No outputs",
        "Generic Arnold error"] ∧
      ArnoldGlobals.render codes ext env self =
        .raised what { s1 with renderCalls := s1.renderCalls ++ [s1.shaders.ai.options] } := by
  cases hw : throwErrorCode codes (env.aiRender s1.renderCalls.length s1.shaders.ai) with
  | none => exact absurd hnamed ((throwErrorCode_eq_none_iff codes _).mp hw)
  | some what =>
    refine ⟨what, rfl, throwErrorCode_some codes _ what hw, ?_⟩
    have hover : (s0.modifyOptions (fun o =>
        o.setParam "AA_seed" (.int (s0.m_aaSeed.getD (s0.m_frame.getD 1))))).cameraOverrides =
        done ++ cameraOverride :: rest := hsplit
    have htype : (s0.modifyOptions (fun o =>
        o.setParam "AA_seed" (.int (s0.m_aaSeed.getD (s0.m_frame.getD 1))))).m_renderType =
        .Batch := hb
    simp only [ArnoldGlobals.render, hm, htype, hover]
    rw [ArnoldGlobals.renderCameras_append, hdone]
    exact ArnoldGlobals.renderCameras_raises codes ext env cameraOverride rest s2 s1 what hc hs hw

/-- The batch session "camA", "camB". When every call of `AiRender` returns `AI_ABORT`,
the first render call raises "Render aborted" and "camB" is not rendered. With success at
the first call and `AI_ERROR_NO_OUTPUTS` at the second, the second call raises
"No outputs". -/
theorem c15_status_raises_witness :
    twoCameraGlobals.cameraOverrides = ["camA", "camB"] ∧
    (ArnoldGlobals.render arnold5Codes sampleExternal (alwaysStatus 1)
        twoCameraGlobals).what? = some "Render aborted" ∧
    ((ArnoldGlobals.render arnold5Codes sampleExternal (alwaysStatus 1)
        twoCameraGlobals).state?.map
      (fun s => s.renderCalls.map (fun o => o.getPtr "camera"))) = some [some 1] ∧
    (∃ (what : String) (s1 : ArnoldGlobals),
      ArnoldGlobals.render arnold5Codes sampleExternal (alwaysStatus 1) twoCameraGlobals =
        .raised what { s1 with renderCalls := s1.renderCalls ++ [s1.shaders.ai.options] }) ∧
    (ArnoldGlobals.render arnold5Codes sampleExternal (statusAfterFirst arnold5Codes 7)
        twoCameraGlobals).what? = some "No outputs" ∧
    ((ArnoldGlobals.render arnold5Codes sampleExternal (statusAfterFirst arnold5Codes 7)
        twoCameraGlobals).state?.map
      (fun s => s.renderCalls.map (fun o => o.getPtr "camera"))) = some [some 1, some 2] ∧
    (∃ (what : String) (s1 : ArnoldGlobals),
      ArnoldGlobals.render arnold5Codes sampleExternal (statusAfterFirst arnold5Codes 7)
          twoCameraGlobals =
        .raised what { s1 with renderCalls := s1.renderCalls ++ [s1.shaders.ai.options] }) := by
  obtain ⟨what, _, _, h⟩ := c15_status_raises arnold5Codes sampleExternal (alwaysStatus 1)
    twoCameraGlobals twoCameraGlobals twoCameraSeeded
    ((twoCameraSeeded.updateCamera sampleExternal "camA").getD twoCameraGlobals)
    [] ["camB"] "camA"
    (by decide!) (by decide!) (by decide!) rfl (by decide!)
    (by show (1 : Int) ≠ 0; decide)
    (by show (1 : Int) ∈ [1, 2, 3, 4, 5, 6, 7, -1]; decide)
  obtain ⟨what2, _, _, h2⟩ := c15_status_raises arnold5Codes sampleExternal
    (statusAfterFirst arnold5Codes 7) twoCameraGlobals twoCameraGlobals
    ((ArnoldGlobals.renderCameras arnold5Codes sampleExternal (statusAfterFirst arnold5Codes 7)
      ["camA"] twoCameraSeeded).returned?.getD twoCameraGlobals)
    ((((ArnoldGlobals.renderCameras arnold5Codes sampleExternal (statusAfterFirst arnold5Codes 7)
      ["camA"] twoCameraSeeded).returned?.getD twoCameraGlobals).updateCamera sampleExternal
        "camB").getD twoCameraGlobals)
    ["camA"] [] "camB"
    (by decide!) (by decide!) (by decide!) (by decide!) (by decide!) (by decide!) (by decide!)
  exact ⟨by decide!, by decide!, by decide!, ⟨what, _, h⟩, by decide!, by decide!, what2, _, h2⟩


/-! ## Claims on the reachable states of the link graph -/

theorem mem_assocSet {α β : Type} [DecidableEq α] (l : List (α × β)) (k : α) (v : β)
    (x : α × β) (h : x ∈ assocSet l k v) : x = (k, v) ∨ x ∈ l := by
  induction l with
  | nil =>
    simp only [assocSet, List.mem_singleton] at h
    exact Or.inl h
  | cons e rest ih =>
    obtain ⟨k0, v0⟩ := e
    by_cases h0 : k0 = k
    · simp only [assocSet, h0, if_true, List.mem_cons] at h
      rcases h with h | h
      · exact Or.inl h
      · exact Or.inr (List.mem_cons_of_mem _ h)
    · simp only [assocSet, h0, if_false, List.mem_cons] at h
      rcases h with h | h
      · exact Or.inr (h ▸ List.mem_cons_self _ _)
      · rcases ih h with h | h
        · exact Or.inl h
        · exact Or.inr (List.mem_cons_of_mem _ h)

theorem assocSet_mem {α β : Type} [DecidableEq α] (l : List (α × β)) (k : α) (v : β) :
    (k, v) ∈ assocSet l k v := by
  induction l with
  | nil => simp [assocSet]
  | cons e rest ih =>
    obtain ⟨k0, v0⟩ := e
    by_cases h0 : k0 = k
    · simp [assocSet, h0]
    · simp only [assocSet, h0, if_false]
      exact List.mem_cons_of_mem _ ih

theorem assocFind_some_mem {α β : Type} [DecidableEq α] (l : List (α × β)) (k : α) (v : β)
    (h : assocFind l k = some v) : (k, v) ∈ l := by
  induction l with
  | nil => simp [assocFind] at h
  | cons e rest ih =>
    obtain ⟨k0, v0⟩ := e
    by_cases h0 : k0 = k
    · simp only [assocFind, h0, if_true, Option.some.injEq] at h
      subst h0
      subst h
      exact List.mem_cons_self _ _
    · simp only [assocFind, h0, if_false] at h
      exact List.mem_cons_of_mem _ (ih h)

theorem assocFind_none_not_mem {α β : Type} [DecidableEq α] (l : List (α × β)) (k : α)
    (h : assocFind l k = none) (x : α × β) (hx : x ∈ l) : x.1 ≠ k := by
  induction l with
  | nil => cases hx
  | cons e rest ih =>
    obtain ⟨k0, v0⟩ := e
    by_cases h0 : k0 = k
    · simp [assocFind, h0] at h
    · simp only [assocFind, h0, if_false] at h
      rcases List.mem_cons.mp hx with hx | hx
      · subst hx
        exact h0
      · exact ih h hx

/-- Under distinct keys, an entry is the one its key is found at. -/
theorem assocFind_of_mem {α β : Type} [DecidableEq α] (l : List (α × β))
    (hn : (l.map Prod.fst).Nodup) (x : α × β) (hx : x ∈ l) : assocFind l x.1 = some x.2 := by
  induction l with
  | nil => cases hx
  | cons e rest ih =>
    obtain ⟨k0, v0⟩ := e
    simp only [List.map_cons, List.nodup_cons] at hn
    rcases List.mem_cons.mp hx with hx | hx
    · subst hx
      simp [assocFind]
    · have hne : k0 ≠ x.1 := by
        intro e
        exact hn.1 (e ▸ List.mem_map_of_mem Prod.fst hx)
      simp only [assocFind, hne, if_false]
      exact ih hn.2 hx

/-- Under distinct keys, two entries with one key are one entry. -/
theorem eq_of_mem_of_key {α β : Type} [DecidableEq α] (l : List (α × β))
    (hn : (l.map Prod.fst).Nodup) (x y : α × β) (hx : x ∈ l) (hy : y ∈ l) (hk : x.1 = y.1) :
    x = y := by
  have h1 := assocFind_of_mem l hn x hx
  have h2 := assocFind_of_mem l hn y hy
  rw [hk, h2] at h1
  exact Prod.ext hk (Option.some.inj h1).symm


namespace LightFilterConnections

/-- The loop of `deregisterLightFilter` keeps the names of the light table. -/
theorem unlinkLights_keys (b : Bool) (g : FilterGroupPtr) (names : List String) :
    ∀ (C : List (String × Filters)),
      (unlinkLights C b g names).map Prod.fst = C.map Prod.fst := by
  induction names with
  | nil => intro C; rfl
  | cons L rest ih =>
    intro C
    simp only [unlinkLights]
    cases hf : assocFind C L with
    | none => exact ih C
    | some f =>
      simp only []
      have hk : L ∈ C.map Prod.fst := List.mem_map_of_mem Prod.fst (assocFind_some_mem C L f hf)
      rw [ih, assocSet_keys, if_pos hk]

end LightFilterConnections


namespace LightFilterConnections

end LightFilterConnections


namespace LightFilterConnections

end LightFilterConnections

namespace LightFilterConnections

/-- With `m_ownConnections` false `update` destroys nothing. -/
theorem update_not_owning (s : LightFilterConnections) (released : List Released)
    (h : s.m_ownConnections = false) : s.update released = s.update [] := by
  unfold update
  simp only [h, Bool.false_eq_true, if_false]

/-- With `m_ownConnections` true `update` ends with the destructors of the objects it
releases. -/
theorem update_owning (s : LightFilterConnections) (released : List Released)
    (h : s.m_ownConnections = true) :
    (s.update released).1 = released.foldl release (s.update []).1 := by
  unfold update
  simp only [h, if_true, List.foldl_nil]

/-- The calls of `update` are made before anything is destroyed. -/
theorem update_calls_released (s : LightFilterConnections) (released : List Released) :
    (s.update released).2 = (s.update []).2 := by
  unfold update
  split <;> rfl

end LightFilterConnections


/-- Whatever the worker meets, the render calls the loop issues from `aa` on are a
first part of the passes listed from `aa` on. -/
theorem passLoop_prefix (codes : RenderCodes) (env : WorkerEnv) (f : Int) (fuel : Nat) :
    ∀ (aa : Int) (s r : RenderSession), passLoop codes env f fuel aa s = some r →
      ∃ p, r.samplesAtCalls = s.samplesAtCalls ++ p ∧
        p <+: (intRange aa fuel).filter (isPass f) := by
  induction fuel with
  | zero =>
    intro aa s r h
    simp only [passLoop] at h
    split_ifs at h
    cases h
    exact ⟨[], by simp, List.nil_prefix⟩
  | succ fuel ih =>
    intro aa s r h
    simp only [passLoop] at h
    by_cases hle : aa ≤ f
    swap
    · simp only [hle, if_false, Option.some.injEq] at h
      subst h
      exact ⟨[], by simp, List.nil_prefix⟩
    simp only [hle, if_true] at h
    by_cases hskip : aa = 0 ∨ (aa > 1 ∧ aa ≠ f)
    · have hp : isPass f aa = false := by
        rw [Bool.eq_false_iff]
        intro hpass
        exact (isPass_iff f aa).mp hpass hskip
      simp only [hskip, if_true] at h
      split_ifs at h
      obtain ⟨p, h1, h2⟩ := ih (aa + 1) s r h
      refine ⟨p, h1, ?_⟩
      simpa [intRange, List.filter_cons, hp] using h2
    · have hp : isPass f aa = true := (isPass_iff f aa).mpr hskip
      simp only [hskip, if_false] at h
      have hlist : (intRange aa (fuel + 1)).filter (isPass f) =
          aa :: (intRange (aa + 1) fuel).filter (isPass f) := by
        simp [intRange, List.filter_cons, hp]
      rw [hlist]
      cases hr : env.rendering aa with
      | false =>
        simp only [hr, Bool.not_false, if_true, Option.some.injEq] at h
        subst h
        exact ⟨[], by simp [RenderSession.setOption, RenderSession.samplesAtCalls],
          List.nil_prefix⟩
      | true =>
        simp only [hr, Bool.not_true, Bool.false_eq_true, if_false] at h
        have hcall : ({ (s.setOption "AA_samples" aa) with
            renderCalls := (s.setOption "AA_samples" aa).renderCalls ++
              [(s.setOption "AA_samples" aa).ai.options] } : RenderSession).samplesAtCalls =
            s.samplesAtCalls ++ [aa] := by
          simp [RenderSession.setOption, RenderSession.samplesAtCalls, AtNode.getInt,
            getParam_setParam]
        by_cases hs : env.aiRender aa = codes.AI_SUCCESS
        swap
        · simp only [ne_eq, hs, not_false_eq_true, if_true, Option.some.injEq] at h
          subst h
          refine ⟨[aa], hcall, ?_⟩
          exact List.prefix_cons_inj aa |>.mpr List.nil_prefix
        · simp only [ne_eq, hs, not_true_eq_false, if_false] at h
          split_ifs at h
          obtain ⟨p, h1, h2⟩ := ih (aa + 1) _ r h
          refine ⟨aa :: p, ?_, (List.prefix_cons_inj aa).mpr h2⟩
          rw [h1, hcall]
          simp


/-- The passes listed by `passValues`. -/
theorem mem_passValues (f k : Int) :
    k ∈ passValues f ↔ min (-5) f ≤ k ∧ k ≤ f ∧ k ≠ 0 ∧ (k ≤ 1 ∨ k = f) := by
  unfold passValues
  rw [List.mem_filter, mem_intRange, isPass_iff]
  constructor
  · rintro ⟨⟨h1, h2⟩, h3⟩
    refine ⟨h1, by omega, fun h0 => h3 (Or.inl h0), ?_⟩
    by_cases h : k ≤ 1
    · exact Or.inl h
    · by_cases hf : k = f
      · exact Or.inr hf
      · exact absurd (Or.inr ⟨by omega, hf⟩) h3
  · rintro ⟨h1, h2, h3, h4⟩
    refine ⟨⟨h1, by omega⟩, ?_⟩
    rintro (h | ⟨h5, h6⟩)
    · exact h3 h
    · rcases h4 with h4 | h4
      · omega
      · exact h6 h4

/-- C22: for every final `AA_samples` value `f` and whatever the worker meets
(cancellation before any pass, any status from any render call), the values of
`AA_samples` at the render calls the worker has issued when it returns are a first
part of the ascending list of the integers `k` with `min(-5, f) <= k <= f`, `k != 0`
and (`k <= 1` or `k = f`); none of them is 0 and none lies strictly between 1 and `f`.
The worker returns for every `f` below `INT_MAX`. -/
theorem c22_issued_passes (codes : RenderCodes) (env : WorkerEnv) (s : RenderSession) :
    (∀ r, performInteractiveRender codes env s = some r →
      ∃ p, r.samplesAtCalls = s.samplesAtCalls ++ p ∧
        p <+: passValues (s.ai.options.getInt "AA_samples") ∧
        0 ∉ p ∧ ∀ k ∈ p, ¬ (1 < k ∧ k < s.ai.options.getInt "AA_samples")) ∧
    (∀ k, k ∈ passValues (s.ai.options.getInt "AA_samples") ↔
      min (-5) (s.ai.options.getInt "AA_samples") ≤ k ∧ k ≤ s.ai.options.getInt "AA_samples" ∧
        k ≠ 0 ∧ (k ≤ 1 ∨ k = s.ai.options.getInt "AA_samples")) ∧
    (passValues (s.ai.options.getInt "AA_samples")).Pairwise (· < ·) ∧
    (s.ai.options.getInt "AA_samples" < INT_MAX →
      ∃ r, performInteractiveRender codes env s = some r) := by
  refine ⟨?_, mem_passValues _, passValues_pairwise _, ?_⟩
  · intro r hr
    simp only [performInteractiveRender, Option.map_eq_some'] at hr
    obtain ⟨r0, h0, hset⟩ := hr
    obtain ⟨p, h1, h2⟩ := passLoop_prefix codes env _ _ _ s r0 h0
    have hsame : r.samplesAtCalls = r0.samplesAtCalls := by
      rw [← hset]
      rfl
    refine ⟨p, hsame.trans h1, h2, ?_, ?_⟩
    · intro hin
      exact ((mem_passValues _ 0).mp (h2.subset hin)).2.2.1 rfl
    · intro k hk hbetween
      have := (mem_passValues _ k).mp (h2.subset hk)
      omega
  · intro hmax
    obtain ⟨r, hr⟩ := passLoop_some codes env (s.ai.options.getInt "AA_samples")
      (s.ai.options.getInt "AA_samples" - min (-5) (s.ai.options.getInt "AA_samples") + 1).toNat
      (min (-5) (s.ai.options.getInt "AA_samples")) s (worker_fuel _) hmax
    refine ⟨r.setOption "AA_samples" (s.ai.options.getInt "AA_samples"), ?_⟩
    simp only [performInteractiveRender, hr, Option.map_some']

theorem c22_issued_passes_witness :
    (performInteractiveRender arnold5Codes (failingAtOne arnold5Codes) (sessionWith 4)).map
        (fun r => r.samplesAtCalls) = some [-5, -4, -3, -2, -1, 1] ∧
      passValues 4 = [-5, -4, -3, -2, -1, 1, 4] ∧
      ∃ r, performInteractiveRender arnold5Codes (failingAtOne arnold5Codes) (sessionWith 4) =
          some r ∧
        ∃ p, r.samplesAtCalls = (sessionWith 4).samplesAtCalls ++ p ∧
          p <+: passValues ((sessionWith 4).ai.options.getInt "AA_samples") ∧
          0 ∉ p ∧ ∀ k ∈ p, ¬ (1 < k ∧ k < (sessionWith 4).ai.options.getInt "AA_samples") := by
  obtain ⟨r, hr⟩ :=
    (c22_issued_passes arnold5Codes (failingAtOne arnold5Codes) (sessionWith 4)).2.2.2
      (by decide)
  exact ⟨by decide, by decide, r, hr,
    (c22_issued_passes arnold5Codes (failingAtOne arnold5Codes) (sessionWith 4)).1 r hr⟩


/-! ## Claims on what `update` pushes to the lights -/

/-- Setting a key keeps, for every entry with a property, an entry of the same key with
the property, when the new value has it whenever the value it replaces has it. -/
theorem assocSet_keeps {α β : Type} [DecidableEq α] (P : β → Prop) (l : List (α × β)) (k : α)
    (v : β) (hv : ∀ f, assocFind l k = some f → P f → P v) :
    ∀ e ∈ l, P e.2 → ∃ e2 ∈ assocSet l k v, e2.1 = e.1 ∧ P e2.2 := by
  induction l with
  | nil => intro e he; cases he
  | cons e0 rest ih =>
    obtain ⟨k0, v0⟩ := e0
    intro e he hP
    by_cases h0 : k0 = k
    · subst h0
      simp only [assocSet, if_true]
      rcases List.mem_cons.mp he with h | h
      · subst h
        exact ⟨(k0, v), List.mem_cons_self _ _, rfl, hv v0 (by simp [assocFind]) hP⟩
      · exact ⟨e, List.mem_cons_of_mem _ h, rfl, hP⟩
    · simp only [assocSet, h0, if_false]
      rcases List.mem_cons.mp he with h | h
      · subst h
        exact ⟨(k0, v0), List.mem_cons_self _ _, rfl, hP⟩
      · obtain ⟨e2, he2, h1, h2⟩ := ih (fun f hf => hv f (by simpa [assocFind, h0] using hf))
          e h hP
        exact ⟨e2, List.mem_cons_of_mem _ he2, h1, h2⟩

namespace LightFilterConnections

/-- The entries of the table after an `update` that destroys nothing are entries `update`
has cleaned. -/
theorem mem_update_connections (s : LightFilterConnections) (e2 : String × Filters)
    (h : e2 ∈ (s.update []).1.m_connections) :
    ∃ e ∈ s.m_connections,
      e2 = if e.2.light.isSome && e.2.dirty then (e.1, { e.2 with dirty := false }) else e := by
  unfold update at h
  cases hown : s.m_ownConnections with
  | true =>
    simp only [hown, if_true, List.foldl_nil] at h
    obtain ⟨e, he, heq⟩ := List.mem_map.mp h
    exact ⟨e, he, heq.symm⟩
  | false =>
    simp only [hown, Bool.false_eq_true, if_false] at h
    obtain ⟨e, he, heq⟩ := List.mem_map.mp ((mem_foldl_assocErase_keys _ _ e2).mp h).1
    exact ⟨e, he, heq.symm⟩

/-- After the loop of `update` every entry with a light is clean. -/
theorem update_clean (s : LightFilterConnections) :
    ∀ e ∈ (s.update []).1.m_connections, e.2.light ≠ none → e.2.dirty = false := by
  intro e2 h2 hlive
  obtain ⟨e, _, heq⟩ := mem_update_connections s e2 h2
  subst heq
  split
  · rfl
  · rename_i hcond
    split at hlive
    · rename_i hc
      exact absurd hc hcond
    · cases hl : e.2.light with
      | none => exact absurd hl hlive
      | some l =>
        cases hd : e.2.dirty with
        | false => rfl
        | true => simp [hl, hd] at hcond

/-- The calls `update` makes: one for each entry that has a light and is dirty. -/
theorem update_calls (s : LightFilterConnections) (released : List Released) :
    (s.update released).2 =
      (s.m_connections.filter (fun e => e.2.light.isSome && e.2.dirty)).map
        (fun e => { light := e.2.light.getD 0, lightFilters := s.allFilters e.2 }) := by
  have h : (s.update released).2 = s.m_connections.filterMap (fun e =>
      match e.2.light with
      | some l =>
        if e.2.dirty then some { light := l, lightFilters := s.allFilters e.2 } else none
      | none => none) := by
    unfold update
    split <;> rfl
  rw [h]
  induction s.m_connections with
  | nil => rfl
  | cons e rest ih =>
    cases hl : e.2.light with
    | none => simp [List.filterMap_cons, List.filter_cons, hl, ih]
    | some l =>
      cases hd : e.2.dirty with
      | false => simp [List.filterMap_cons, List.filter_cons, hl, hd, ih]
      | true => simp [List.filterMap_cons, List.filter_cons, hl, hd, ih]

/-- In a well-linked graph the filters `update` collects for a link are the members of
the group of the table the link points to. -/
theorem groupMembers_of_mem (s : LightFilterConnections) (k : Nat) (grp : FilterGroup)
    (hn : (s.m_filterGroups.map (fun e => e.2.ptr)).Nodup) (hmem : (k, grp) ∈ s.m_filterGroups) :
    s.groupMembers grp.ptr = grp.members := by
  unfold groupMembers
  cases hf : s.m_filterGroups.find? (fun e => decide (e.2.ptr = grp.ptr)) with
  | none =>
    have := List.find?_eq_none.mp hf (k, grp) hmem
    simp at this
  | some e =>
    have hp : e.2.ptr = grp.ptr := by simpa using List.find?_some hf
    have he : e = (k, grp) := List.inj_on_of_nodup_map hn (List.mem_of_find?_eq_some hf) hmem hp
    rw [he]

/-- An entry after the loop of `deregisterLightFilter` was there before, or is the entry
of one of the names. -/
theorem mem_unlinkLights (b : Bool) (g : FilterGroupPtr) (names : List String) :
    ∀ (C : List (String × Filters)), ∀ e2 ∈ unlinkLights C b g names,
      e2 ∈ C ∨ e2.1 ∈ names := by
  induction names with
  | nil => exact fun C e2 h => Or.inl h
  | cons L rest ih =>
    intro C e2 h
    simp only [unlinkLights] at h
    cases hf : assocFind C L with
    | none =>
      simp only [hf] at h
      rcases ih C e2 h with h1 | h1
      · exact Or.inl h1
      · exact Or.inr (List.mem_cons_of_mem _ h1)
    | some f =>
      simp only [hf] at h
      rcases ih _ e2 h with h1 | h1
      · rcases mem_assocSet _ _ _ _ h1 with h2 | h2
        · right
          rw [h2]
          exact List.mem_cons_self _ _
        · exact Or.inl h2
      · exact Or.inr (List.mem_cons_of_mem _ h1)

/-- The loop of `deregisterLightFilter` leaves an entry without a light without one. -/
theorem unlinkLights_dead (b : Bool) (g : FilterGroupPtr) (names : List String) :
    ∀ (C : List (String × Filters)), ∀ e ∈ C, e.2.light = none →
      ∃ e2 ∈ unlinkLights C b g names, e2.1 = e.1 ∧ e2.2.light = none := by
  induction names with
  | nil => exact fun C e he hl => ⟨e, he, rfl, hl⟩
  | cons L rest ih =>
    intro C e he hl
    simp only [unlinkLights]
    cases hf : assocFind C L with
    | none => exact ih C e he hl
    | some f =>
      simp only []
      obtain ⟨e1, he1, hk1, hl1⟩ := assocSet_keeps (fun x : Filters => x.light = none) C L
        { f with
          lightFilterGroups :=
            if b then f.lightFilterGroups.filter (fun x => decide (x ≠ g))
            else f.lightFilterGroups,
          dirty := true }
        (by
          intro f2 hf2 hP
          rw [hf] at hf2
          cases hf2
          exact hP) e he hl
      obtain ⟨e2, he2, hk2, hl2⟩ := ih _ e1 he1 hl1
      exact ⟨e2, he2, hk2.trans hk1, hl2⟩

/-- A destructor keeps the names of the light table and the objects owned. -/
theorem release_keys (s : LightFilterConnections) (r : Released) :
    (s.release r).m_connections.map Prod.fst = s.m_connections.map Prod.fst ∧
    (s.release r).m_arnoldObjects = s.m_arnoldObjects ∧
    (s.release r).m_ownConnections = s.m_ownConnections := by
  cases r with
  | light name =>
    simp only [release, deregisterLight]
    cases hf : assocFind s.m_connections name with
    | none => exact ⟨rfl, rfl, rfl⟩
    | some f =>
      refine ⟨?_, rfl, rfl⟩
      simp only []
      rw [assocSet_keys, if_pos]
      exact List.mem_map.mpr ⟨(name, f), assocFind_some_mem _ _ _ hf, rfl⟩
  | lightFilter F d =>
    cases d with
    | none => exact ⟨rfl, rfl, rfl⟩
    | some d =>
      simp only [release, deregisterLightFilter]
      split
      · exact ⟨rfl, rfl, rfl⟩
      · split
        · exact ⟨rfl, rfl, rfl⟩
        · exact ⟨unlinkLights_keys _ _ _ _, rfl, rfl⟩

/-- A destructor leaves an entry without a light without one. -/
theorem release_dead (s : LightFilterConnections) (r : Released) :
    ∀ e ∈ s.m_connections, e.2.light = none →
      ∃ e2 ∈ (s.release r).m_connections, e2.1 = e.1 ∧ e2.2.light = none := by
  intro e he hl
  cases r with
  | light name =>
    simp only [release, deregisterLight]
    cases hf : assocFind s.m_connections name with
    | none => exact ⟨e, he, rfl, hl⟩
    | some f =>
      exact assocSet_keeps (fun x : Filters => x.light = none) _ _ _ (fun _ _ _ => rfl) e he hl
  | lightFilter F d =>
    cases d with
    | none => exact ⟨e, he, rfl, hl⟩
    | some d =>
      simp only [release, deregisterLightFilter]
      split
      · exact ⟨e, he, rfl, hl⟩
      · split
        · exact ⟨e, he, rfl, hl⟩
        · exact unlinkLights_dead _ _ _ _ e he hl

/-- An entry with a light after a destructor was there before, or is named by the light
set of the light filter destroyed. -/
theorem mem_release (s : LightFilterConnections) (r : Released) :
    ∀ e2 ∈ (s.release r).m_connections, e2.2.light ≠ none →
      e2 ∈ s.m_connections ∨
        ∃ F d, r = Released.lightFilter F (some d) ∧ e2.1 ∈ d.readable := by
  intro e2 he2 hlive
  cases r with
  | light name =>
    simp only [release, deregisterLight] at he2
    cases hf : assocFind s.m_connections name with
    | none =>
      simp only [hf] at he2
      exact Or.inl he2
    | some f =>
      simp only [hf] at he2
      rcases mem_assocSet _ _ _ _ he2 with h | h
      · rw [h] at hlive
        exact absurd rfl hlive
      · exact Or.inl h
  | lightFilter F d =>
    cases d with
    | none => exact Or.inl he2
    | some d =>
      simp only [release, deregisterLightFilter] at he2
      split at he2
      · exact Or.inl he2
      · split at he2
        · exact Or.inl he2
        · rcases mem_unlinkLights _ _ _ _ e2 he2 with h | h
          · exact Or.inl h
          · exact Or.inr ⟨F, d, rfl, h⟩

theorem foldl_release_keys (released : List Released) :
    ∀ s : LightFilterConnections,
      (released.foldl release s).m_connections.map Prod.fst = s.m_connections.map Prod.fst ∧
      (released.foldl release s).m_arnoldObjects = s.m_arnoldObjects ∧
      (released.foldl release s).m_ownConnections = s.m_ownConnections := by
  induction released with
  | nil => exact fun s => ⟨rfl, rfl, rfl⟩
  | cons r rest ih =>
    intro s
    simp only [List.foldl_cons]
    obtain ⟨h1, h2, h3⟩ := ih (s.release r)
    obtain ⟨k1, k2, k3⟩ := release_keys s r
    exact ⟨h1.trans k1, h2.trans k2, h3.trans k3⟩

theorem foldl_release_dead (released : List Released) :
    ∀ s : LightFilterConnections, ∀ e ∈ s.m_connections, e.2.light = none →
      ∃ e2 ∈ (released.foldl release s).m_connections, e2.1 = e.1 ∧ e2.2.light = none := by
  induction released with
  | nil => exact fun s e he hl => ⟨e, he, rfl, hl⟩
  | cons r rest ih =>
    intro s e he hl
    simp only [List.foldl_cons]
    obtain ⟨e1, he1, hk1, hl1⟩ := release_dead s r e he hl
    obtain ⟨e2, he2, hk2, hl2⟩ := ih _ e1 he1 hl1
    exact ⟨e2, he2, hk2.trans hk1, hl2⟩

theorem mem_foldl_release (released : List Released) :
    ∀ s : LightFilterConnections, ∀ e2 ∈ (released.foldl release s).m_connections,
      e2.2.light ≠ none →
      e2 ∈ s.m_connections ∨
        ∃ F d, Released.lightFilter F (some d) ∈ released ∧ e2.1 ∈ d.readable := by
  induction released with
  | nil => exact fun s e2 he2 _ => Or.inl he2
  | cons r rest ih =>
    intro s e2 he2 hlive
    simp only [List.foldl_cons] at he2
    rcases ih _ e2 he2 hlive with h | ⟨F, d, hmem, hin⟩
    · rcases mem_release s r e2 h hlive with h1 | ⟨F, d, hr, hin⟩
      · exact Or.inl h1
      · exact Or.inr ⟨F, d, hr ▸ List.mem_cons_self _ _, hin⟩
    · exact Or.inr ⟨F, d, List.mem_cons_of_mem _ hmem, hin⟩

/-- A live entry that is dirty when `update` returns is named by the light set of a
light filter that `update` has destroyed. -/
theorem update_dirty (s : LightFilterConnections) (released : List Released) :
    ∀ e ∈ (s.update released).1.m_connections, e.2.light ≠ none → e.2.dirty = true →
      s.m_ownConnections = true ∧
        ∃ F d, Released.lightFilter F (some d) ∈ released ∧ e.1 ∈ d.readable := by
  intro e he hlive hd
  cases hown : s.m_ownConnections with
  | false =>
    rw [update_not_owning _ _ hown] at he
    rw [update_clean s e he hlive] at hd
    exact Bool.noConfusion hd
  | true =>
    rw [update_owning _ _ hown] at he
    rcases mem_foldl_release released _ e he hlive with h | h
    · rw [update_clean s e h hlive] at hd
      exact Bool.noConfusion hd
    · exact ⟨rfl, h⟩

end LightFilterConnections


/-- C21 (amended): `update` calls `updateFilters` once for each entry of the light table
that has a light and is dirty, and for no other entry; the filters it passes are the
members of the groups linked to the entry, one group after the other (in a graph reached
by calls each link points to a group of the table, and the members are those of that
group). When `update` returns, an entry that has a light is dirty only if
`m_ownConnections` is true and the entry is named by the light set of a light filter
that `update` has destroyed when it released the objects it owns. So when
`m_ownConnections` is false, or no light filter with a light set is destroyed, every
entry that has a light is clean after `update`, and an `update` that follows at once
calls `updateFilters` on no light. -/
theorem c21_update_pushes_dirty (s : LightFilterConnections) (released : List Released) :
    (∀ call : UpdateFiltersCall, call ∈ (s.update released).2 ↔
      ∃ e ∈ s.m_connections, e.2.light = some call.light ∧ e.2.dirty = true ∧
        call.lightFilters = (e.2.lightFilterGroups.map s.groupMembers).flatten) ∧
    (s.update released).2.length =
      (s.m_connections.filter (fun e => e.2.light.isSome && e.2.dirty)).length ∧
    (∀ e ∈ (s.update released).1.m_connections, e.2.light ≠ none → e.2.dirty = true →
      s.m_ownConnections = true ∧
        ∃ F d, Released.lightFilter F (some d) ∈ released ∧ e.1 ∈ d.readable) ∧
    (s.m_ownConnections = false ∨ (∀ F d, Released.lightFilter F (some d) ∉ released) →
      (∀ e ∈ (s.update released).1.m_connections, e.2.light ≠ none → e.2.dirty = false) ∧
      ∀ next, ((s.update released).1.update next).2 = []) ∧
    (∀ content : Nat → List String, WellLinked content s →
      ∀ e ∈ s.m_connections, ∀ g ∈ e.2.lightFilterGroups,
        ∃ k grp, (k, grp) ∈ s.m_filterGroups ∧ grp.ptr = g ∧
          s.groupMembers g = grp.members) := by
  have hclean : s.m_ownConnections = false ∨
      (∀ F d, Released.lightFilter F (some d) ∉ released) →
      ∀ e ∈ (s.update released).1.m_connections, e.2.light ≠ none → e.2.dirty = false := by
    intro hcase e he hlive
    cases hd : e.2.dirty with
    | false => rfl
    | true =>
      obtain ⟨hown, F, d, hmem, _⟩ :=
        LightFilterConnections.update_dirty s released e he hlive hd
      rcases hcase with h | h
      · rw [h] at hown
        exact Bool.noConfusion hown
      · exact absurd hmem (h F d)
  refine ⟨?_, ?_, LightFilterConnections.update_dirty s released, ?_, ?_⟩
  · intro call
    rw [LightFilterConnections.update_calls, List.mem_map]
    constructor
    · rintro ⟨e, he, hcall⟩
      obtain ⟨hmem, hcond⟩ := List.mem_filter.mp he
      simp only [Bool.and_eq_true, Option.isSome_iff_exists] at hcond
      obtain ⟨⟨l, hl⟩, hd⟩ := hcond
      refine ⟨e, hmem, ?_, hd, ?_⟩
      · rw [← hcall, hl]
        rfl
      · rw [← hcall]
        rfl
    · rintro ⟨e, hmem, hl, hd, hf⟩
      refine ⟨e, List.mem_filter.mpr ⟨hmem, by simp [hl, hd]⟩, ?_⟩
      cases call with
      | mk light lightFilters =>
        simp only at hl hf
        simp [hl, hf, LightFilterConnections.allFilters]
  · rw [LightFilterConnections.update_calls, List.length_map]
  · intro hcase
    refine ⟨hclean hcase, fun next => ?_⟩
    rw [LightFilterConnections.update_calls]
    have hnil : (s.update released).1.m_connections.filter
        (fun e => e.2.light.isSome && e.2.dirty) = [] := by
      rw [List.filter_eq_nil_iff]
      intro e he hcond
      simp only [Bool.and_eq_true, Option.isSome_iff_exists] at hcond
      obtain ⟨⟨l, hl⟩, hd⟩ := hcond
      have := hclean hcase e he (by rw [hl]; exact Option.some_ne_none l)
      rw [this] at hd
      exact Bool.noConfusion hd
    rw [hnil]
    rfl
  · intro content hw e he g hg
    obtain ⟨x, hx, hp, _⟩ := hw.linked e he g hg
    refine ⟨x.1, x.2, hx, hp, ?_⟩
    rw [← hp]
    exact LightFilterConnections.groupMembers_of_mem s x.1 x.2 hw.ptr_nodup hx

/-- C21 (witness): the interactive session of `dirtyLinks`: the two lights are pushed
their filters, and nothing is pushed by an `update` that follows. -/
theorem c21_update_pushes_dirty_witness :
    (dirtyLinks.m_ownConnections = false ∨
      (∀ F d, Released.lightFilter F (some d) ∉ ([] : List Released))) ∧
    (dirtyLinks.update []).2 =
      [{ light := 1, lightFilters := [20, 21, 22] }, { light := 2, lightFilters := [20, 21] }] ∧
    { light := 1, lightFilters := [20, 21, 22] } ∈ (dirtyLinks.update []).2 ∧
    (∀ next, ((dirtyLinks.update []).1.update next).2 = []) :=
  ⟨Or.inl (by decide), by decide,
   ((c21_update_pushes_dirty dirtyLinks []).1 { light := 1, lightFilters := [20, 21, 22] }).mpr
     ⟨("A", { light := some 1, lightFilterGroups := [0, 1], dirty := true }),
      by decide, rfl, rfl, by decide⟩,
   ((c21_update_pushes_dirty dirtyLinks []).2.2.2.1 (Or.inl (by decide))).2⟩

/-- C21 (counterexample): a batch session (`m_ownConnections` true) in which light "A"
is held by the client and the filter 20, registered for the light set with "A", is held
by the link graph alone. `update` pushes the filter to the light and cleans the entry,
then releases the objects it owns: the filter is destroyed, its destructor deregisters it
and marks the entry of "A" dirty. When `update` returns the entry has a light and is
dirty, and the next `update` pushes to the light again. -/
theorem c21_counterexample :
    (((LightFilterConnections.new true).registerLight "A" 1).registerLightFilter
        { addr := 100, readable := ["A"] } 20).map
      (fun g =>
        ((g.update [.lightFilter 20 (some { addr := 100, readable := ["A"] })]).2,
         (g.update [.lightFilter 20 (some { addr := 100, readable := ["A"] })]).1.m_connections,
         ((g.update [.lightFilter 20 (some { addr := 100, readable := ["A"] })]).1.update
           []).2)) =
      some ([{ light := 1, lightFilters := [20] }],
        [("A", { light := some 1, lightFilterGroups := [], dirty := true })],
        [{ light := 1, lightFilters := [] }]) := by
  decide


/-! ## Claims on `update` and dead lights -/

/-- C11 (amended): when `m_ownConnections` is false (interactive and procedural
sessions), no entry of the light table has a null light after `update`. When it
is true (batch and scene-description sessions), `update` releases the objects it owns
and returns without erasing an entry: the table keeps the same names, and every entry
with a null light still has a null light. -/
theorem c11_update_dead_lights (g : LightFilterConnections) (released : List Released) :
    (g.m_ownConnections = false →
      ∀ e ∈ (g.update released).1.m_connections, e.2.light ≠ none)
    ∧ (g.m_ownConnections = true →
        (g.update released).1.m_connections.map Prod.fst = g.m_connections.map Prod.fst
        ∧ (g.update released).1.m_arnoldObjects = []
        ∧ ∀ e ∈ g.m_connections, e.2.light = none →
            ∃ e2 ∈ (g.update released).1.m_connections, e2.1 = e.1 ∧ e2.2.light = none) := by
  constructor
  · intro hown e he hnone
    rw [LightFilterConnections.update_not_owning _ _ hown] at he
    simp only [LightFilterConnections.update, hown, Bool.false_eq_true, if_false,
      mem_foldl_assocErase_keys, List.mem_map, List.mem_filter] at he
    obtain ⟨⟨e0, he0, hmap⟩, hkeys⟩ := he
    have hfst : e.1 = e0.1 := by
      rw [← hmap]
      split <;> rfl
    have hlight : e0.2.light = none := by
      rw [← hmap] at hnone
      split at hnone
      · exact hnone
      · exact hnone
    exact hkeys e0.1 ⟨e0, ⟨he0, by simp [hlight]⟩, rfl⟩ hfst.symm
  · intro hown
    rw [LightFilterConnections.update_owning _ _ hown]
    obtain ⟨hk, ho, _⟩ := LightFilterConnections.foldl_release_keys released (g.update []).1
    have hnil : (g.update []).1.m_connections.map Prod.fst = g.m_connections.map Prod.fst ∧
        (g.update []).1.m_arnoldObjects = [] ∧
        ∀ e ∈ g.m_connections, e.2.light = none → e ∈ (g.update []).1.m_connections := by
      simp only [LightFilterConnections.update, hown, if_true, List.foldl_nil]
      refine ⟨?_, trivial, ?_⟩
      · rw [List.map_map]
        apply List.map_congr_left
        intro e _
        simp only [Function.comp]
        split <;> rfl
      · intro e he hnone
        rw [List.mem_map]
        exact ⟨e, he, by simp [hnone]⟩
    refine ⟨hk.trans hnil.1, ho.trans hnil.2.1, ?_⟩
    intro e he hnone
    exact LightFilterConnections.foldl_release_dead released _ e (hnil.2.2 e he hnone) hnone

/-- C11 (witness): an interactive session in which light `A` was registered and
destroyed before `update`. -/
theorem c11_update_dead_lights_witness :
    (((LightFilterConnections.new false).registerLight "A" 10).deregisterLight
          "A").m_ownConnections = false ∧
    ∀ e ∈ ((((LightFilterConnections.new false).registerLight "A" 10).deregisterLight
          "A").update []).1.m_connections, e.2.light ≠ none :=
  ⟨by decide,
   (c11_update_dead_lights
    (((LightFilterConnections.new false).registerLight "A" 10).deregisterLight "A") []).1
    (by decide)⟩

/-- C11 (counterexample): in a batch session (`m_ownConnections` true) light `A` is
registered and held by no one but the link graph: `update` destroys it and returns with
the entry of `A` in the table, with a null light. The same holds when the client
destroys the light between two calls of `update`. -/
theorem c11_counterexample :
    batchLightDestroyed.m_ownConnections = true
    ∧ batchLightDestroyed.m_connections
        = [("A", { light := none, lightFilterGroups := [], dirty := true })]
    ∧ (((((LightFilterConnections.new true).registerLight "A" 10).update []).1.deregisterLight
        "A").update []).1.m_connections
        = [("A", { light := none, lightFilterGroups := [], dirty := true })] := by
  decide



/-! ## Claims on the visibility mask -/

namespace ArnoldAttributes

/-- An attribute reads as the boolean `false` exactly when the dictionary holds a
`BoolData` of value `false` under its name. -/
theorem boolAttribute_eq_some_iff (name : String) (attributes : CompoundObject) (b : Bool) :
    (boolAttribute name attributes).1 = some b ↔
      assocFind attributes name = some (.BoolData b) := by
  unfold boolAttribute attributeOf reportedCast
  cases assocFind attributes name with
  | none => simp
  | some v => cases v <;> simp [IECoreObject.asBool]

theorem updateVisibility_lt (name : String) (c : Nat) (attributes : CompoundObject) (v : Nat)
    (hv : v < 256) : (updateVisibility name c attributes v).1 < 256 := by
  unfold updateVisibility
  simp only []
  split
  · exact Nat.or_lt_two_pow (n := 8) hv (Nat.mod_lt _ (by decide))
  · exact lt_of_le_of_lt Nat.and_le_left hv
  · exact hv

/-- A call of `updateVisibility` for another ray type leaves a bit as it is. -/
theorem updateVisibility_testBit_other (name : String) (c : Nat) (attributes : CompoundObject)
    (v i : Nat) (hi : i < 8) (hc : (c % 256).testBit i = false) :
    (updateVisibility name c attributes v).1.testBit i = v.testBit i := by
  have h255 : Nat.testBit 255 i = true := by
    have := Nat.testBit_two_pow_sub_one 8 i
    simpa [hi] using this
  unfold updateVisibility
  simp only []
  split
  · simp [hc]
  · simp [hc, h255]
  · rfl

/-- The call of `updateVisibility` for the ray type of a bit sets it to the value of
the attribute, and leaves it when the attribute is not there as a boolean. -/
theorem updateVisibility_testBit_own (name : String) (c : Nat) (attributes : CompoundObject)
    (v i : Nat) (hi : i < 8) (hc : (c % 256).testBit i = true) :
    (updateVisibility name c attributes v).1.testBit i =
      match (boolAttribute name attributes).1 with
      | some b => b
      | none => v.testBit i := by
  have h255 : Nat.testBit 255 i = true := by
    have := Nat.testBit_two_pow_sub_one 8 i
    simpa [hi] using this
  unfold updateVisibility
  simp only []
  split <;> rename_i hb <;> simp [hb, hc, h255]

theorem runUpdates_append (update : String → Nat → CompoundObject → Nat → Nat × List String)
    (attributes : CompoundObject) (l1 l2 : List (String × Nat)) :
    ∀ acc : Nat × List String,
      runUpdates update attributes (l1 ++ l2) acc =
        runUpdates update attributes l2 (runUpdates update attributes l1 acc) := by
  induction l1 with
  | nil => intro acc; rfl
  | cons e rest ih =>
    intro acc
    obtain ⟨name, bit⟩ := e
    simp only [List.cons_append, runUpdates]
    exact ih _

theorem runUpdates_visibility_lt (attributes : CompoundObject) (l : List (String × Nat)) :
    ∀ acc : Nat × List String, acc.1 < 256 →
      (runUpdates updateVisibility attributes l acc).1 < 256 := by
  induction l with
  | nil => exact fun acc h => h
  | cons e rest ih =>
    intro acc h
    obtain ⟨name, bit⟩ := e
    simp only [runUpdates]
    exact ih _ (updateVisibility_lt name bit attributes acc.1 h)

/-- Calls of `updateVisibility` for other ray types leave a bit as it is. -/
theorem runUpdates_testBit_other (attributes : CompoundObject) (i : Nat) (hi : i < 8)
    (l : List (String × Nat)) (hl : ∀ e ∈ l, (e.2 % 256).testBit i = false) :
    ∀ acc : Nat × List String,
      (runUpdates updateVisibility attributes l acc).1.testBit i = acc.1.testBit i := by
  induction l with
  | nil => exact fun acc => rfl
  | cons e rest ih =>
    intro acc
    obtain ⟨name, bit⟩ := e
    simp only [runUpdates]
    rw [ih (fun e he => hl e (List.mem_cons_of_mem _ he))]
    exact updateVisibility_testBit_other name bit attributes acc.1 i hi
      (hl (name, bit) (List.mem_cons_self _ _))

/-- The mask of a bundle is what the eight calls of `updateVisibility` leave. -/
theorem new_visibility (rays : RayTypes) (ext : External) (attributes : CompoundObject)
    (s : Shaders) (b : Built) (hb : new rays ext attributes s = some b) :
    b.attributes.m_visibility =
      (runUpdates updateVisibility attributes (visibilityUpdates rays)
        (rays.AI_RAY_ALL % 256, [])).1 := by
  unfold new at hb
  simp only [] at hb
  split at hb
  · cases hb
  · simp only [Option.some.injEq] at hb
    subst hb
    rfl

end ArnoldAttributes


namespace ArnoldAttributes

/-- After the calls of `updateVisibility` for ray types that are distinct bits, the bit
of a ray type has the value of its attribute, or its initial value when the attribute
is not there as a boolean. -/
theorem runUpdates_testBit (attributes : CompoundObject) (l : List (String × Nat)) :
    ∀ (bits : List Nat), l.map Prod.snd = bits.map (fun k => 2 ^ k) → bits.Nodup →
      (∀ k ∈ bits, k < 8) → ∀ (acc : Nat × List String),
      ∀ nk ∈ (l.map Prod.fst).zip bits,
        (runUpdates updateVisibility attributes l acc).1.testBit nk.2 =
          match (boolAttribute nk.1 attributes).1 with
          | some b => b
          | none => acc.1.testBit nk.2 := by
  induction l with
  | nil =>
    intro bits _ _ _ acc nk hnk
    simp at hnk
  | cons e rest ih =>
    intro bits hmap hnodup hlt acc nk hnk
    obtain ⟨n0, c0⟩ := e
    cases bits with
    | nil => simp at hmap
    | cons k0 ks =>
      simp only [List.map_cons, List.cons.injEq] at hmap
      obtain ⟨hc0, htail⟩ := hmap
      have hk0 : k0 < 8 := hlt k0 (List.mem_cons_self _ _)
      have hks : ∀ k ∈ ks, k < 8 := fun k hk => hlt k (List.mem_cons_of_mem _ hk)
      have hnd := List.nodup_cons.mp hnodup
      have hmod : ∀ k, k < 8 → (2 ^ k) % 256 = 2 ^ k := by
        intro k hk
        exact Nat.mod_eq_of_lt (Nat.pow_lt_pow_right (by decide) hk)
      simp only [List.map_cons, List.zip_cons_cons, List.mem_cons] at hnk
      simp only [runUpdates]
      rcases hnk with hhead | htl
      · subst hhead
        have hrest : ∀ e ∈ rest, (e.2 % 256).testBit k0 = false := by
          intro e he
          have : e.2 ∈ rest.map Prod.snd := List.mem_map_of_mem Prod.snd he
          rw [htail] at this
          obtain ⟨k, hk, hke⟩ := List.mem_map.mp this
          rw [← hke, hmod k (hks k hk), Nat.testBit_two_pow]
          simp only [decide_eq_false_iff_not]
          intro hkk
          exact hnd.1 (hkk ▸ hk)
        rw [runUpdates_testBit_other attributes k0 hk0 rest hrest]
        refine updateVisibility_testBit_own n0 c0 attributes acc.1 k0 hk0 ?_
        rw [hc0, hmod k0 hk0]
        exact Nat.testBit_two_pow_self
      · rw [ih ks htail hnd.2 hks _ nk htl]
        have hk : nk.2 ∈ ks := (List.of_mem_zip htl).2
        have hne : k0 ≠ nk.2 := fun h => hnd.1 (h ▸ hk)
        have hother : (c0 % 256).testBit nk.2 = false := by
          rw [hc0, hmod k0 hk0, Nat.testBit_two_pow]
          simpa using hne
        rw [updateVisibility_testBit_other n0 c0 attributes acc.1 nk.2 (hks _ hk) hother]

/-- The constructor builds a bundle whenever every member under the light filter stem,
other than `ai:lightFilter:filter`, holds a shader network. -/
theorem new_isSome (rays : RayTypes) (ext : External) (attributes : CompoundObject)
    (s : Shaders)
    (hl : ∀ e ∈ attributes, starts_with e.1 "ai:lightFilter:" = true →
      e.1 ≠ "ai:lightFilter:filter" → e.2.asShaderNetwork ≠ none) :
    ∃ b, new rays ext attributes s = some b := by
  unfold new
  simp only []
  split
  · rename_i hnone
    obtain ⟨m, hm⟩ := memberLoop_some ext attributes hl
      { m_user := [], m_lightFilterShaders := [],
        shaders := ((((match (shaderNetworkChain attributes
            ["ai:surface", "osl:surface", "osl:shader", "surface"]).1 with
          | some network =>
            (some ((Displacement.new ext attributes s).1.2.get ext network).1,
              ((Displacement.new ext attributes s).1.2.get ext network).2)
          | none => ((none : Option ArnoldShader), (Displacement.new ext attributes s).1.2)).2.getNamed
            ext "ai:filtermap" attributes).1.2.getNamed ext "ai:uv_remap" attributes).1.2) }
    rw [hm] at hnone
    cases hnone
  · exact ⟨_, rfl⟩

end ArnoldAttributes


/-- C23: when the eight ray-type constants are distinct bits of a byte (the constant of
the n-th name being 2 to the n-th number of `bits`) and `AI_RAY_ALL` is all eight of
them, the visibility mask of every bundle the constructor builds is below 256 and the
bit of each ray type is 0 exactly when the dictionary holds a boolean of value false
under the name of that ray type, and 1 otherwise; with none of the eight names in the
dictionary the mask is 255. The constructor builds a bundle whenever every member
under the "ai:lightFilter:" stem holds a shader network. -/
theorem c23_visibility_mask (rays : RayTypes) (ext : External) (attributes : CompoundObject)
    (s : Shaders) (bits : List Nat) (hnodup : bits.Nodup) (hlt : ∀ k ∈ bits, k < 8)
    (hbits : [rays.AI_RAY_CAMERA, rays.AI_RAY_SHADOW, rays.AI_RAY_DIFFUSE_REFLECT,
      rays.AI_RAY_SPECULAR_REFLECT, rays.AI_RAY_DIFFUSE_TRANSMIT,
      rays.AI_RAY_SPECULAR_TRANSMIT, rays.AI_RAY_VOLUME, rays.AI_RAY_SUBSURFACE] =
        bits.map (fun k => 2 ^ k))
    (hall : rays.AI_RAY_ALL % 256 = 255) :
    (∀ b, ArnoldAttributes.new rays ext attributes s = some b →
      b.attributes.m_visibility < 256 ∧
      (∀ nk ∈ List.zip ["ai:visibility:camera", "ai:visibility:shadow",
          "ai:visibility:diffuse_reflect", "ai:visibility:specular_reflect",
          "ai:visibility:diffuse_transmit", "ai:visibility:specular_transmit",
          "ai:visibility:volume", "ai:visibility:subsurface"] bits,
        (b.attributes.m_visibility.testBit nk.2 = false ↔
          assocFind attributes nk.1 = some (.BoolData false)) ∧
        (b.attributes.m_visibility.testBit nk.2 = true ↔
          assocFind attributes nk.1 ≠ some (.BoolData false))) ∧
      ((∀ name ∈ ["ai:visibility:camera", "ai:visibility:shadow",
          "ai:visibility:diffuse_reflect", "ai:visibility:specular_reflect",
          "ai:visibility:diffuse_transmit", "ai:visibility:specular_transmit",
          "ai:visibility:volume", "ai:visibility:subsurface"],
          assocFind attributes name = none) →
        b.attributes.m_visibility = 255)) ∧
    ((∀ e ∈ attributes, starts_with e.1 "ai:lightFilter:" = true →
        e.1 ≠ "ai:lightFilter:filter" → e.2.asShaderNetwork ≠ none) →
      ∃ b, ArnoldAttributes.new rays ext attributes s = some b) := by
  refine ⟨?_, ArnoldAttributes.new_isSome rays ext attributes s⟩
  intro b hb
  rw [ArnoldAttributes.new_visibility rays ext attributes s b hb, hall]
  refine ⟨ArnoldAttributes.runUpdates_visibility_lt attributes _ _ (by decide), ?_, ?_⟩
  · intro nk hnk
    have hbit := ArnoldAttributes.runUpdates_testBit attributes
      (ArnoldAttributes.visibilityUpdates rays) bits hbits hnodup hlt (255, []) nk hnk
    have h255 : Nat.testBit 255 nk.2 = true := by
      have := Nat.testBit_two_pow_sub_one 8 nk.2
      simpa [hlt nk.2 (List.of_mem_zip hnk).2] using this
    have hfalse := ArnoldAttributes.boolAttribute_eq_some_iff nk.1 attributes false
    rw [hbit]
    cases hattr : (ArnoldAttributes.boolAttribute nk.1 attributes).1 with
    | none =>
      rw [hattr] at hfalse
      have hne : assocFind attributes nk.1 ≠ some (.BoolData false) :=
        fun h => Option.noConfusion (hfalse.mpr h)
      simp [h255, hne]
    | some v =>
      rw [hattr] at hfalse
      cases v with
      | false =>
        have := hfalse.mp rfl
        simp [this]
      | true =>
        have hne : assocFind attributes nk.1 ≠ some (.BoolData false) := by
          intro h
          have := hfalse.mpr h
          simp at this
        simp [hne]
  · intro hnone
    have hattr : ∀ name ∈ ["ai:visibility:camera", "ai:visibility:shadow",
        "ai:visibility:diffuse_reflect", "ai:visibility:specular_reflect",
        "ai:visibility:diffuse_transmit", "ai:visibility:specular_transmit",
        "ai:visibility:volume", "ai:visibility:subsurface"],
        ∀ (c v : Nat), (ArnoldAttributes.updateVisibility name c attributes v).1 = v := by
      intro name hname c v
      simp [ArnoldAttributes.updateVisibility, ArnoldAttributes.boolAttribute,
        ArnoldAttributes.attributeOf, hnone name hname]
    simp only [ArnoldAttributes.visibilityUpdates, ArnoldAttributes.runUpdates]
    rw [hattr _ (by simp), hattr _ (by simp), hattr _ (by simp), hattr _ (by simp),
      hattr _ (by simp), hattr _ (by simp), hattr _ (by simp), hattr _ (by simp)]

theorem c23_visibility_mask_witness :
    (ArnoldAttributes.new arnold5Rays sampleExternal hiddenFromCameraAttributes noShaders).map
        (fun b => b.attributes.m_visibility) = some 254 ∧
      ∃ b, ArnoldAttributes.new arnold5Rays sampleExternal hiddenFromCameraAttributes noShaders =
          some b ∧
        (b.attributes.m_visibility.testBit 0 = false ↔
          assocFind hiddenFromCameraAttributes "ai:visibility:camera" =
            some (.BoolData false)) ∧
        (b.attributes.m_visibility.testBit 4 = true ↔
          assocFind hiddenFromCameraAttributes "ai:visibility:volume" ≠
            some (.BoolData false)) := by
  have h := c23_visibility_mask arnold5Rays sampleExternal hiddenFromCameraAttributes noShaders
    [0, 1, 5, 6, 2, 3, 4, 7] (by decide) (by decide) (by decide) (by decide)
  obtain ⟨b, hb⟩ := h.2 (by decide)
  exact ⟨by decide!, b, hb,
    ((h.1 b hb).2.1 ("ai:visibility:camera", 0) (by decide)).1,
    ((h.1 b hb).2.1 ("ai:visibility:volume", 4) (by decide)).2⟩


/-! ## Claims on what the geometry hash depends on -/

/-- The values `Volume::hash` appends. -/
theorem Volume.hash_eq (v : Volume) (h : MurmurHash) :
    v.hash h = h ++ ((v.volumeGrids.toList.map HashValue.strings) ++
      (v.velocityGrids.toList.map HashValue.strings) ++
      [.flt (v.velocityScale.getD 1), .flt (v.velocityFPS.getD 24),
       .flt (v.velocityOutlierThreshold.getD (1 / 1000)),
       .flt (v.stepSize.getD 0), .flt (v.stepScale.getD 1)]) := by
  unfold Volume.hash
  cases v.volumeGrids <;> cases v.velocityGrids <;> simp

/-- On a volumetric object the hash is the values before the volume settings, then
those `Volume::hash` appends. -/
theorem hashGeometry_volumetric (a : ArnoldAttributes) (u : AtUniverse) (o : Object)
    (h : MurmurHash) (hvol : o.isVolumetric = true) :
    ∃ before : MurmurHash, ∀ v : Volume,
      ({ a with m_volume := v } : ArnoldAttributes).hashGeometry u o h = v.hash before := by
  unfold Object.isVolumetric at hvol
  simp only [Bool.or_eq_true, Bool.and_eq_true, decide_eq_true_eq] at hvol
  rcases hvol with hv | ⟨hp, hf⟩
  · exact ⟨h ++ [.flt a.m_volumePadding], fun v => by
      simp [ArnoldAttributes.hashGeometry, ArnoldAttributes.hashGeometryInternal, hv]⟩
  · exact ⟨h ++ [.flt a.m_stepSize, .flt a.m_stepScale, .flt a.m_volumePadding], fun v => by
      simp [ArnoldAttributes.hashGeometry, ArnoldAttributes.hashGeometryInternal, hp, hf]⟩

/-- On an object that is not volumetric the hash does not read the volume settings. -/
theorem hashGeometry_not_volumetric (a : ArnoldAttributes) (u : AtUniverse) (o : Object)
    (h : MurmurHash) (v : Volume) (hvol : o.isVolumetric = false) :
    ({ a with m_volume := v } : ArnoldAttributes).hashGeometry u o h = a.hashGeometry u o h := by
  unfold Object.isVolumetric at hvol
  simp only [Bool.or_eq_false_iff, Bool.and_eq_false_iff, decide_eq_false_iff_not] at hvol
  obtain ⟨hv, hp⟩ := hvol
  unfold ArnoldAttributes.hashGeometry
  cases ht : o.typeId <;>
    simp [ArnoldAttributes.hashGeometryInternal, ht] at hv hp ⊢
  simp [hp]

/-- On a mesh the hash is the values `PolyMesh::hash` appends, then values that do not
depend on the subdivision settings. -/
theorem hashGeometry_mesh (a : ArnoldAttributes) (u : AtUniverse) (o : Object)
    (h : MurmurHash) (ht : o.typeId = .MeshPrimitive) :
    ∃ after : MurmurHash, ∀ p : PolyMesh,
      ({ a with m_polyMesh := p } : ArnoldAttributes).hashGeometry u o h =
        p.hash (decide (o.interpolation = "linear")) h ++ after := by
  refine ⟨a.m_displacement.hash u [] ++
    [.flt a.m_stepSize, .flt a.m_stepScale, .flt a.m_volumePadding], fun p => ?_⟩
  simp only [ArnoldAttributes.hashGeometry, ArnoldAttributes.hashGeometryInternal, ht,
    decide_True, Bool.true_and, Displacement.hash]
  cases a.m_displacement.mapRoot <;> simp


/-- What two volume settings must share for `Volume::hash` to append the same values
after the same hash. -/
theorem Volume.hash_eq_iff (v w : Volume) (h : MurmurHash) :
    v.hash h = w.hash h ↔
      (v.volumeGrids.toList.map HashValue.strings ++
          v.velocityGrids.toList.map HashValue.strings =
        w.volumeGrids.toList.map HashValue.strings ++
          w.velocityGrids.toList.map HashValue.strings) ∧
      v.velocityScale.getD 1 = w.velocityScale.getD 1 ∧
      v.velocityFPS.getD 24 = w.velocityFPS.getD 24 ∧
      v.velocityOutlierThreshold.getD (1 / 1000) = w.velocityOutlierThreshold.getD (1 / 1000) ∧
      v.stepSize.getD 0 = w.stepSize.getD 0 ∧
      v.stepScale.getD 1 = w.stepScale.getD 1 := by
  rw [Volume.hash_eq, Volume.hash_eq, List.append_cancel_left_eq]
  constructor
  · intro heq
    have := List.append_inj' heq rfl
    obtain ⟨h1, h2⟩ := this
    simp only [List.cons.injEq, HashValue.flt.injEq, and_true] at h2
    exact ⟨h1, h2⟩
  · rintro ⟨h1, h2, h3, h4, h5, h6⟩
    rw [h1, h2, h3, h4, h5, h6]

/-- C25 (amended): for a linear mesh and bundles without `subdividePolygons` the
geometry hash does not depend on the subdivision settings; for an object that is
neither a VDB volume nor a "volume" procedural it does not depend on the volume
settings. For a mesh that is not linear, or bundles with `subdividePolygons`, bundles
whose subdivision settings differ hash differently. For a volumetric object bundles
hash differently when they differ in the grids alone, in the velocity grids alone, or
in the value of the velocity scale, fps, outlier threshold, step size or step scale,
where a setting that is not there counts as 1, 24, 0.001, 0 and 1; bundles with the same
grids and the same such values hash alike. -/
theorem c25_hash_dependence (a : ArnoldAttributes) (u : AtUniverse) (o : Object)
    (h : MurmurHash) :
    (∀ p : PolyMesh, o.typeId = .MeshPrimitive → o.interpolation = "linear" →
      a.m_polyMesh.subdividePolygons = false → p.subdividePolygons = false →
      ({ a with m_polyMesh := p } : ArnoldAttributes).hashGeometry u o h =
        a.hashGeometry u o h) ∧
    (∀ v : Volume, o.isVolumetric = false →
      ({ a with m_volume := v } : ArnoldAttributes).hashGeometry u o h =
        a.hashGeometry u o h) ∧
    (∀ p : PolyMesh, o.typeId = .MeshPrimitive →
      o.interpolation ≠ "linear" ∨ a.m_polyMesh.subdividePolygons = true →
      p.subdividePolygons = a.m_polyMesh.subdividePolygons → p ≠ a.m_polyMesh →
      ({ a with m_polyMesh := p } : ArnoldAttributes).hashGeometry u o h ≠
        a.hashGeometry u o h) ∧
    (∀ v : Volume, o.isVolumetric = true →
      (v.velocityGrids = a.m_volume.velocityGrids ∧ v.volumeGrids ≠ a.m_volume.volumeGrids) ∨
        (v.volumeGrids = a.m_volume.volumeGrids ∧
          v.velocityGrids ≠ a.m_volume.velocityGrids) ∨
        v.velocityScale.getD 1 ≠ a.m_volume.velocityScale.getD 1 ∨
        v.velocityFPS.getD 24 ≠ a.m_volume.velocityFPS.getD 24 ∨
        v.velocityOutlierThreshold.getD (1 / 1000) ≠
          a.m_volume.velocityOutlierThreshold.getD (1 / 1000) ∨
        v.stepSize.getD 0 ≠ a.m_volume.stepSize.getD 0 ∨
        v.stepScale.getD 1 ≠ a.m_volume.stepScale.getD 1 →
      ({ a with m_volume := v } : ArnoldAttributes).hashGeometry u o h ≠
        a.hashGeometry u o h) ∧
    (∀ v : Volume, v.volumeGrids = a.m_volume.volumeGrids →
      v.velocityGrids = a.m_volume.velocityGrids →
      v.velocityScale.getD 1 = a.m_volume.velocityScale.getD 1 →
      v.velocityFPS.getD 24 = a.m_volume.velocityFPS.getD 24 →
      v.velocityOutlierThreshold.getD (1 / 1000) =
        a.m_volume.velocityOutlierThreshold.getD (1 / 1000) →
      v.stepSize.getD 0 = a.m_volume.stepSize.getD 0 →
      v.stepScale.getD 1 = a.m_volume.stepScale.getD 1 →
      ({ a with m_volume := v } : ArnoldAttributes).hashGeometry u o h =
        a.hashGeometry u o h) := by
  refine ⟨?_, fun v hvol => hashGeometry_not_volumetric a u o h v hvol, ?_, ?_, ?_⟩
  · intro p ht hlin ha hp
    obtain ⟨after, hafter⟩ := hashGeometry_mesh a u o h ht
    have h1 := hafter p
    have h2 := hafter a.m_polyMesh
    rw [h1]
    rw [show a.hashGeometry u o h = _ from h2]
    simp [PolyMesh.hash, hlin, ha, hp]
  · intro p ht hbaked hsub hne heq
    obtain ⟨after, hafter⟩ := hashGeometry_mesh a u o h ht
    have h1 := hafter p
    have h2 : a.hashGeometry u o h = _ := hafter a.m_polyMesh
    rw [h1, h2, List.append_cancel_right_eq] at heq
    have hcond : (!decide (o.interpolation = "linear") || a.m_polyMesh.subdividePolygons) =
        true := by
      rcases hbaked with hb | hb
      · simp [hb]
      · simp [hb]
    have hcondp : (!decide (o.interpolation = "linear") || p.subdividePolygons) = true := by
      rw [hsub]
      exact hcond
    simp only [PolyMesh.hash, hcond, hcondp, if_true, List.append_cancel_left_eq,
      List.cons.injEq, HashValue.int.injEq, HashValue.flt.injEq, HashValue.str.injEq,
      HashValue.bool.injEq, and_true] at heq
    apply hne
    obtain ⟨e1, e2, e3, e4, e5, e6⟩ := heq
    cases p
    cases hm : a.m_polyMesh
    rw [hm] at e1 e2 e3 e4 e5 e6 hsub
    simp only at e1 e2 e3 e4 e5 e6 hsub
    subst e1 e2 e3 e4 e5 e6 hsub
    rfl
  · intro v hvol hdiff heq
    obtain ⟨before, hbefore⟩ := hashGeometry_volumetric a u o h hvol
    have h1 := hbefore v
    have h2 : a.hashGeometry u o h = _ := hbefore a.m_volume
    rw [h1, h2, Volume.hash_eq_iff] at heq
    obtain ⟨hg, e1, e2, e3, e4, e5⟩ := heq
    rcases hdiff with ⟨hvel, hgrid⟩ | ⟨hgrid, hvel⟩ | hd | hd | hd | hd | hd
    · rw [hvel, List.append_cancel_right_eq] at hg
      apply hgrid
      cases hv : v.volumeGrids <;> cases ha : a.m_volume.volumeGrids <;>
        simp [hv, ha] at hg ⊢
      exact hg
    · rw [hgrid, List.append_cancel_left_eq] at hg
      apply hvel
      cases hv : v.velocityGrids <;> cases ha : a.m_volume.velocityGrids <;>
        simp [hv, ha] at hg ⊢
      exact hg
    · exact hd e1
    · exact hd e2
    · exact hd e3
    · exact hd e4
    · exact hd e5
  · intro v hg hvg e1 e2 e3 e4 e5
    by_cases hvol : o.isVolumetric = true
    · obtain ⟨before, hbefore⟩ := hashGeometry_volumetric a u o h hvol
      have h1 := hbefore v
      have h2 : a.hashGeometry u o h = _ := hbefore a.m_volume
      rw [h1, h2, Volume.hash_eq_iff, hg, hvg]
      exact ⟨rfl, e1, e2, e3, e4, e5⟩
    · exact hashGeometry_not_volumetric a u o h v (by simpa using hvol)


theorem c25_hash_dependence_witness :
    volumeStepTwo.hashGeometry emptyUniverse sampleVDB [] ≠
        defaultAttributes.hashGeometry emptyUniverse sampleVDB [] ∧
      volumeStepTwo.hashGeometry emptyUniverse linearMesh [] =
        defaultAttributes.hashGeometry emptyUniverse linearMesh [] :=
  ⟨(c25_hash_dependence defaultAttributes emptyUniverse sampleVDB []).2.2.2.1
      volumeStepTwo.m_volume (by decide)
      (Or.inr (Or.inr (Or.inr (Or.inr (Or.inr (Or.inl (by decide!))))))),
   (c25_hash_dependence defaultAttributes emptyUniverse linearMesh []).2.1
      volumeStepTwo.m_volume (by decide)⟩

/-- C25 (counterexample): on a VDB volume, the default bundle and the bundle that
differs from it only in `ai:volume:velocity_scale`, set to one, have the same geometry
hash, although `applyGeometry` writes `velocity_scale` for the second alone. -/
theorem c25_counterexample :
    sampleVDB.isVolumetric = true ∧
    velocityScaleOne =
      { defaultAttributes with
        m_volume := { defaultAttributes.m_volume with velocityScale := some 1 } } ∧
    velocityScaleOne.m_volume.velocityScale ≠ defaultAttributes.m_volume.velocityScale ∧
    velocityScaleOne.hashGeometry emptyUniverse sampleVDB [] =
      defaultAttributes.hashGeometry emptyUniverse sampleVDB [] ∧
    (velocityScaleOne.applyGeometry emptyUniverse sampleVDB volumeNodeWithVelocity).getParam
      "velocity_scale" = some (.flt 1) ∧
    (defaultAttributes.applyGeometry emptyUniverse sampleVDB volumeNodeWithVelocity).getParam
      "velocity_scale" = none := by
  refine ⟨by decide, rfl, by decide, by decide!, by decide!, by decide!⟩


/-! ## Claims on filters registered for lights that are not in the table -/

namespace LightFilterConnections

/-- The loop of `registerLightFilter` has no defined result as soon as one name of the
light set has no entry in the light table. -/
theorem linkLights_none (b : Bool) (g : FilterGroupPtr) (names : List String) :
    ∀ (C : List (String × Filters)), (∃ name ∈ names, assocFind C name = none) →
      linkLights C b g names = none := by
  induction names with
  | nil =>
    rintro C ⟨name, hname, _⟩
    cases hname
  | cons L rest ih =>
    rintro C ⟨name, hname, hnone⟩
    simp only [linkLights]
    cases hf : assocFind C L with
    | none => rfl
    | some f =>
      simp only []
      apply ih
      rcases List.mem_cons.mp hname with h | h
      · rw [h, hf] at hnone
        exact Option.noConfusion hnone
      · refine ⟨name, h, ?_⟩
        by_cases hLn : L = name
        · rw [← hLn, hf] at hnone
          exact Option.noConfusion hnone
        · rw [assocFind_assocSet_other _ _ _ _ hLn]
          exact hnone

/-- A filter registered for a light set that names a light without an entry: the
call dereferences an empty accessor and has no defined result. -/
theorem registerLightFilter_missing (s : LightFilterConnections) (lightNames : StringVectorData)
    (lightFilter : ArnoldLightFilterPtr)
    (h : ∃ name ∈ lightNames.readable, assocFind s.m_connections name = none) :
    s.registerLightFilter lightNames lightFilter = none := by
  unfold registerLightFilter
  simp only []
  rw [linkLights_none _ _ _ _ h]

end LightFilterConnections

/-- C26 (failing input): light "A" is in the table and light "B" is not; a filter is
registered for the light set that holds "A" and "B". The call has no defined result:
after the warning for "B" it goes on to the entry of the empty accessor. For a
light set that holds "A" alone the call returns, and links and dirties the entry of "A". -/
theorem c26_missing_light_dereferenced :
    assocFind ((LightFilterConnections.new false).registerLight "A" 1).m_connections "B" = none ∧
    ((LightFilterConnections.new false).registerLight "A" 1).registerLightFilter
      { addr := 100, readable := ["A", "B"] } 20 = none ∧
    (((LightFilterConnections.new false).registerLight "A" 1).registerLightFilter
      { addr := 101, readable := ["A"] } 20).map (fun s => s.m_connections) =
      some [("A", { light := some 1, lightFilterGroups := [0], dirty := true })] := by
  decide


/-! ## Claims on the render region -/

theorem AtUniverse.modify_options (u : AtUniverse) (p : AtNodePtr) (f : AtNode → AtNode) :
    (u.modify p f).options = u.options := by
  unfold AtUniverse.modify
  split <;> rfl

namespace ArnoldGlobals

/-- The region `applyCamera` writes: the four values of the options, from the render
region after an empty one has been replaced by the pixel in the corner. -/
theorem applyCamera_region (self s2 : ArnoldGlobals) (cam : Camera)
    (arnoldCamera : Option AtNodePtr) (h : self.applyCamera (some cam) arnoldCamera = some s2)
    (region : (Int × Int) × (Int × Int))
    (hregion : region =
      if cam.renderRegion.1.1 ≥ cam.renderRegion.2.1 ∨ cam.renderRegion.1.2 ≥ cam.renderRegion.2.2
      then ((0, 0), (1, 1)) else cam.renderRegion) :
    s2.options.getInt "region_min_x" = region.1.1 ∧
    s2.options.getInt "region_max_x" = region.2.1 - 1 ∧
    s2.options.getInt "region_min_y" = cam.renderResolution.2 - region.2.2 ∧
    s2.options.getInt "region_max_y" = cam.renderResolution.2 - region.1.2 - 1 := by
  unfold applyCamera at h
  simp only [← hregion] at h
  cases arnoldCamera <;> simp only [] at h <;> split_ifs at h <;>
    (simp only [Option.some.injEq] at h
     subst h
     simp [options, modifyOptions, modifyUniverse, AtUniverse.modify_options, AtNode.getInt,
       getParam_setParam])

end ArnoldGlobals


namespace ArnoldGlobals

/-- What `updateCamera` does after it has looked the camera up. -/
theorem updateCamera_eq_applyCamera (ext : External) (self : ArnoldGlobals)
    (cameraName : String) :
    ∃ (st : ArnoldGlobals) (arnoldCamera : Option AtNodePtr),
      self.updateCamera ext cameraName =
        st.applyCamera (self.cortexCameraFor ext cameraName) arnoldCamera := by
  unfold updateCamera cortexCameraFor
  simp only []
  have hlook : ((self.modifyOptions fun o =>
      ParameterAlgo.setParameter o "outputs"
        (.strArray (self.collectOutputs cameraName).1)).modifyOptions fun o =>
      ParameterAlgo.setParameter o "light_path_expressions"
        (.strArray (self.collectOutputs cameraName).2)).shaders.ai.AiNodeLookUpByName cameraName =
      self.shaders.ai.AiNodeLookUpByName cameraName := rfl
  have key : ∀ (st : ArnoldGlobals) (c1 c2 : Option Camera) (ac : Option AtNodePtr), c1 = c2 →
      ∃ (st2 : ArnoldGlobals) (ac2 : Option AtNodePtr),
        st.applyCamera c1 ac = st2.applyCamera c2 ac2 :=
    fun st c1 c2 ac h => ⟨st, ac, h ▸ rfl⟩
  have hdm : ((self.modifyOptions fun o =>
      ParameterAlgo.setParameter o "outputs"
        (.strArray (self.collectOutputs cameraName).1)).modifyOptions fun o =>
      ParameterAlgo.setParameter o "light_path_expressions"
        (.strArray (self.collectOutputs cameraName).2)).m_defaultCamera =
      self.m_defaultCamera := rfl
  have hcm : ((self.modifyOptions fun o =>
      ParameterAlgo.setParameter o "outputs"
        (.strArray (self.collectOutputs cameraName).1)).modifyOptions fun o =>
      ParameterAlgo.setParameter o "light_path_expressions"
        (.strArray (self.collectOutputs cameraName).2)).m_cameras = self.m_cameras := rfl
  rw [hlook]
  cases hl : self.shaders.ai.AiNodeLookUpByName cameraName with
  | some p =>
    simp only []
    exact key _ _ _ _ (by rw [hcm])
  | none =>
    simp only [hdm]
    cases hd : self.m_defaultCamera with
    | none =>
      simp only [Option.isNone_none, if_true]
      exact key _ _ _ _ (assocFind_assocSet_same _ _ _)
    | some d =>
      simp only [Option.isNone_some, Bool.false_eq_true, if_false]
      exact key _ _ _ _ (by rw [hcm])

/-- With a camera and bounds that fit an `int`, `applyCamera` returns. -/
theorem applyCamera_isSome (self : ArnoldGlobals) (cam : Camera)
    (arnoldCamera : Option AtNodePtr) (region : (Int × Int) × (Int × Int))
    (hregion : region =
      if cam.renderRegion.1.1 ≥ cam.renderRegion.2.1 ∨ cam.renderRegion.1.2 ≥ cam.renderRegion.2.2
      then ((0, 0), (1, 1)) else cam.renderRegion)
    (hfit : (fitsInt (cam.renderResolution.2 - region.2.2) && fitsInt (region.2.1 - 1) &&
      fitsInt (cam.renderResolution.2 - region.1.2) &&
      fitsInt (cam.renderResolution.2 - region.1.2 - 1)) = true) :
    ∃ s2, self.applyCamera (some cam) arnoldCamera = some s2 := by
  unfold applyCamera
  simp only [← hregion, hfit, if_true]
  cases arnoldCamera with
  | none => exact ⟨_, rfl⟩
  | some p =>
    simp only []
    split <;> exact ⟨_, rfl⟩

end ArnoldGlobals


/-- C29: for the camera `updateCamera` takes the resolution `(w, h)` and the region
`[min, max)` from, whenever `updateCamera` returns the options hold region_min_x =
min.x, region_max_x = max.x - 1, region_min_y = h - max.y and region_max_y =
h - min.y - 1 when the region is not empty, an inclusive region of
(max.x - min.x) * (max.y - min.y) pixels; and region_min_x = region_max_x = 0 and
region_min_y = region_max_y = h - 1 when it is empty. It returns whenever the four
values fit an `int`. -/
theorem c29_render_region (ext : External) (self : ArnoldGlobals) (cameraName : String)
    (cam : Camera) (hcam : self.cortexCameraFor ext cameraName = some cam) :
    (∀ s2, self.updateCamera ext cameraName = some s2 →
      (cam.renderRegion.1.1 < cam.renderRegion.2.1 ∧
          cam.renderRegion.1.2 < cam.renderRegion.2.2 →
        s2.options.getInt "region_min_x" = cam.renderRegion.1.1 ∧
        s2.options.getInt "region_max_x" = cam.renderRegion.2.1 - 1 ∧
        s2.options.getInt "region_min_y" = cam.renderResolution.2 - cam.renderRegion.2.2 ∧
        s2.options.getInt "region_max_y" = cam.renderResolution.2 - cam.renderRegion.1.2 - 1 ∧
        (s2.options.getInt "region_max_x" - s2.options.getInt "region_min_x" + 1) *
            (s2.options.getInt "region_max_y" - s2.options.getInt "region_min_y" + 1) =
          (cam.renderRegion.2.1 - cam.renderRegion.1.1) *
            (cam.renderRegion.2.2 - cam.renderRegion.1.2)) ∧
      (cam.renderRegion.1.1 ≥ cam.renderRegion.2.1 ∨
          cam.renderRegion.1.2 ≥ cam.renderRegion.2.2 →
        s2.options.getInt "region_min_x" = 0 ∧ s2.options.getInt "region_max_x" = 0 ∧
        s2.options.getInt "region_min_y" = cam.renderResolution.2 - 1 ∧
        s2.options.getInt "region_max_y" = cam.renderResolution.2 - 1)) ∧
    (∀ region : (Int × Int) × (Int × Int),
      region =
        (if cam.renderRegion.1.1 ≥ cam.renderRegion.2.1 ∨
            cam.renderRegion.1.2 ≥ cam.renderRegion.2.2
          then ((0, 0), (1, 1)) else cam.renderRegion) →
      (fitsInt (cam.renderResolution.2 - region.2.2) && fitsInt (region.2.1 - 1) &&
        fitsInt (cam.renderResolution.2 - region.1.2) &&
        fitsInt (cam.renderResolution.2 - region.1.2 - 1)) = true →
      ∃ s2, self.updateCamera ext cameraName = some s2) := by
  obtain ⟨st, ac, heq⟩ := ArnoldGlobals.updateCamera_eq_applyCamera ext self cameraName
  rw [hcam] at heq
  constructor
  · intro s2 hs2
    rw [heq] at hs2
    constructor
    · rintro ⟨hx, hy⟩
      have hr := ArnoldGlobals.applyCamera_region st s2 cam ac hs2 cam.renderRegion
        (by rw [if_neg]; intro h; omega)
      obtain ⟨h1, h2, h3, h4⟩ := hr
      refine ⟨h1, h2, h3, h4, ?_⟩
      rw [h1, h2, h3, h4]
      ring
    · intro hempty
      have hr := ArnoldGlobals.applyCamera_region st s2 cam ac hs2 ((0, 0), (1, 1))
        (by rw [if_pos hempty])
      obtain ⟨h1, h2, h3, h4⟩ := hr
      refine ⟨h1, ?_, ?_, ?_⟩
      · rw [h2]; rfl
      · rw [h3]
      · rw [h4]; simp
  · intro region hregion hfit
    rw [heq]
    exact ArnoldGlobals.applyCamera_isSome st cam ac region hregion hfit

theorem c29_render_region_witness :
    ((croppedGlobals.updateCamera sampleExternal "camA").map (fun s =>
      [s.options.getInt "region_min_x", s.options.getInt "region_max_x",
       s.options.getInt "region_min_y", s.options.getInt "region_max_y"])) =
        some [100, 299, 280, 429] ∧
    ((croppedGlobals.updateCamera sampleExternal "camB").map (fun s =>
      [s.options.getInt "region_min_x", s.options.getInt "region_max_x",
       s.options.getInt "region_min_y", s.options.getInt "region_max_y"])) =
        some [0, 0, 479, 479] ∧
    ∃ s2, croppedGlobals.updateCamera sampleExternal "camA" = some s2 ∧
      (s2.options.getInt "region_max_x" - s2.options.getInt "region_min_x" + 1) *
          (s2.options.getInt "region_max_y" - s2.options.getInt "region_min_y" + 1) =
        (croppedFrame.renderRegion.2.1 - croppedFrame.renderRegion.1.1) *
          (croppedFrame.renderRegion.2.2 - croppedFrame.renderRegion.1.2) := by
  have h := c29_render_region sampleExternal croppedGlobals "camA" croppedFrame (by decide!)
  obtain ⟨s2, hs2⟩ := h.2 croppedFrame.renderRegion (by decide) (by decide)
  exact ⟨by decide!, by decide!, s2, hs2, ((h.1 s2 hs2).1 (by decide)).2.2.2.2⟩


/-! ## Claims on the cameras of a batch render -/

/-- C28 (failing input): the default camera of the session is "camA"; one output has
no camera override and another has the override "camA", so "camA" is the effective
camera of both. The set of overrides holds the empty string and "camA", and `render`
calls `AiRender` twice with the camera "camA", each time with both outputs. With one
output for "camA" and one for "camB" it renders each camera once, with its output. -/
theorem c28_one_camera_rendered_twice :
    defaultAndNamedGlobals.m_outputs.map
        (fun it => defaultAndNamedGlobals.outputCamera it.2) = ["camA", "camA"] ∧
    defaultAndNamedGlobals.cameraOverrides = ["", "camA"] ∧
    (ArnoldGlobals.render arnold5Codes sampleExternal (alwaysStatus 0)
        defaultAndNamedGlobals).returned?.map ArnoldGlobals.callsMade =
      some
        [(some 1, ["RGBA RGBA ieCoreArnold:filter:beauty ieCoreArnold:display:beauty",
                   "Z FLOAT ieCoreArnold:filter:depth ieCoreArnold:display:depth"]),
         (some 1, ["RGBA RGBA ieCoreArnold:filter:beauty ieCoreArnold:display:beauty",
                   "Z FLOAT ieCoreArnold:filter:depth ieCoreArnold:display:depth"])] ∧
    (ArnoldGlobals.render arnold5Codes sampleExternal (alwaysStatus 0)
        twoCameraGlobals).returned?.map ArnoldGlobals.callsMade =
      some
        [(some 1, ["RGBA RGBA ieCoreArnold:filter:beauty ieCoreArnold:display:beauty"]),
         (some 2, ["Z FLOAT ieCoreArnold:filter:depth ieCoreArnold:display:depth"])] := by
  refine ⟨by decide!, by decide!, by decide!, by decide!⟩


/-! ## Claims on the AOV shader options -/

/-- A name under one stem is not a name outside it. -/
theorem ne_of_starts_with (name p stem : String) (h : starts_with name stem = true)
    (hp : starts_with p stem = false) : name ≠ p := by
  rintro rfl
  rw [h] at hp
  exact Bool.noConfusion hp

/-- A name under one stem is not under a shorter stem that the first does not
start with. -/
theorem not_starts_with_other (name stem other : String)
    (h : starts_with name stem = true) (hlen : other.data.length ≤ stem.data.length)
    (hother : starts_with stem other = false) : starts_with name other = false := by
  cases ho : starts_with name other with
  | false => rfl
  | true =>
    exfalso
    unfold starts_with at h ho hother
    rw [List.isPrefixOf_iff_prefix] at h ho
    have := List.prefix_of_prefix_length_le ho h hlen
    rw [← List.isPrefixOf_iff_prefix, hother] at this
    exact Bool.noConfusion this

theorem starts_with_append (stem s : String) : starts_with (stem ++ s) stem = true := by
  unfold starts_with
  rw [List.isPrefixOf_iff_prefix, String.data_append]
  exact List.prefix_append _ _

namespace ArnoldGlobals

/-- Every name under the `ai:aov_shader:` stem reaches the branch of `option` for
the AOV shaders: no earlier branch takes it. -/
theorem option_aov_shader (flags : LogFlags) (ext : External)
    (before : String → String → Bool) (self : ArnoldGlobals) (name : String)
    (value : Option IECoreObject) (hs : starts_with name "ai:aov_shader:" = true) :
    ArnoldGlobals.option flags ext before self name value =
      (let self := { self with m_aovShaders := assocErase self.m_aovShaders name }
       let d : Option ShaderNetwork × List String :=
         match value with
         | some v => reportedCast IECoreObject.asShaderNetwork "ShaderNetwork" v "option" name
         | none => (none, [])
       let self := self.msg d.2
       let self :=
         match d.1 with
         | some d =>
           { (self.getShader ext d).2 with
             m_aovShaders := mapInsert before self.m_aovShaders name (self.getShader ext d).1 }
         | none => self
       self.modifyOptions (fun o =>
         o.setParam "aov_shaders" (.ptrArray (self.m_aovShaders.map (fun it => it.2.root))))) := by
  have e1 := ne_of_starts_with name "frame" _ hs (by decide)
  have e2 := ne_of_starts_with name "camera" _ hs (by decide)
  have e3 := ne_of_starts_with name "ai:log:filename" _ hs (by decide)
  have e4 := ne_of_starts_with name "ai:statisticsFileName" _ hs (by decide)
  have e5 := ne_of_starts_with name "ai:log:max_warnings" _ hs (by decide)
  have e6 := ne_of_starts_with name "ai:AA_seed" _ hs (by decide)
  have e7 := ne_of_starts_with name "sampleMotion" _ hs (by decide)
  have e8 := ne_of_starts_with name "ai:plugin_searchpath" _ hs (by decide)
  have e9 := ne_of_starts_with name "ai:atmosphere" _ hs (by decide)
  have e10 := ne_of_starts_with name "ai:background" _ hs (by decide)
  have s1 := not_starts_with_other name _ "ai:log:" hs (by decide) (by decide)
  have s2 := not_starts_with_other name _ "ai:console:" hs (by decide) (by decide)
  obtain ⟨c1, c2, c3, _, _, _⟩ := ArnoldGlobals.option_stems name
  unfold ArnoldGlobals.option
  simp only [c1, c2, c3, e1, e2, e3, e4, e5, e6, e7, e8, e9, e10, s1, s2, hs, if_false, if_true,
    Bool.false_eq_true]

end ArnoldGlobals


theorem assocFind_mapInsert_same {β : Type} (before : String → String → Bool)
    (l : List (String × β)) (k : String) (v : β) (h : assocFind l k = none) :
    assocFind (mapInsert before l k v) k = some v := by
  induction l with
  | nil => simp [mapInsert, assocFind]
  | cons e rest ih =>
    obtain ⟨k0, v0⟩ := e
    have hk : k0 ≠ k := by
      intro hk
      simp [assocFind, hk] at h
    have hrest : assocFind rest k = none := by
      simpa [assocFind, hk] using h
    unfold mapInsert
    split
    · simp [assocFind]
    · simp [assocFind, hk, ih hrest]

theorem assocFind_mapInsert_other {β : Type} (before : String → String → Bool)
    (l : List (String × β)) (k k2 : String) (v : β) (h : k ≠ k2) :
    assocFind (mapInsert before l k v) k2 = assocFind l k2 := by
  induction l with
  | nil => simp [mapInsert, assocFind, h]
  | cons e rest ih =>
    obtain ⟨k0, v0⟩ := e
    unfold mapInsert
    split
    · simp [assocFind, h]
    · simp [assocFind, ih]

theorem length_mapInsert {β : Type} (before : String → String → Bool)
    (l : List (String × β)) (k : String) (v : β) :
    (mapInsert before l k v).length = l.length + 1 := by
  induction l with
  | nil => simp [mapInsert]
  | cons e rest ih =>
    obtain ⟨k0, v0⟩ := e
    unfold mapInsert
    split
    · simp
    · simp [ih]

/-- C30: for every value `s` of the `optionSuffix` plug `computeOptionName`
returns "ai:aov_shader:" followed by `s` ("ai:aov_shader:custom" for the default
suffix), and `option` handles every such name in its branch for the AOV shaders: with a
shader network as value the globals change only in that the map of AOV shaders holds the
shader of the cache under that name, in the shader cache, and in the `aov_shaders`
parameter; with a missing value only in that the map has no entry under the name, and in
the parameter; the entries under other names stay, and the array written to
`aov_shaders` has one element for each entry of the map, its root. -/
theorem c30_aov_shader_option (flags : LogFlags) (ext : External)
    (before : String → String → Bool) (self : ArnoldGlobals) (s : String) :
    ArnoldAOVShader.computeOptionName s = "ai:aov_shader:" ++ s ∧
    ArnoldAOVShader.computeOptionName ArnoldAOVShader.defaultOptionSuffix =
      "ai:aov_shader:custom" ∧
    (∀ d : ShaderNetwork,
      ArnoldGlobals.option flags ext before self (ArnoldAOVShader.computeOptionName s)
          (some (.ShaderNetwork d)) =
        ({ (self.getShader ext d).2 with
            m_aovShaders := mapInsert before
              (assocErase self.m_aovShaders (ArnoldAOVShader.computeOptionName s))
              (ArnoldAOVShader.computeOptionName s) (self.shaders.get ext d).1 }).modifyOptions
          (fun o => o.setParam "aov_shaders" (.ptrArray
            ((mapInsert before
              (assocErase self.m_aovShaders (ArnoldAOVShader.computeOptionName s))
              (ArnoldAOVShader.computeOptionName s) (self.shaders.get ext d).1).map
                (fun it : String × ArnoldShader => it.2.root))))) ∧
    ArnoldGlobals.option flags ext before self (ArnoldAOVShader.computeOptionName s) none =
      ({ self with
          m_aovShaders :=
            assocErase self.m_aovShaders (ArnoldAOVShader.computeOptionName s) }).modifyOptions
        (fun o => o.setParam "aov_shaders" (.ptrArray
          ((assocErase self.m_aovShaders (ArnoldAOVShader.computeOptionName s)).map
            (fun it : String × ArnoldShader => it.2.root)))) ∧
    (∀ d : ShaderNetwork,
      assocFind (ArnoldGlobals.option flags ext before self
          (ArnoldAOVShader.computeOptionName s) (some (.ShaderNetwork d))).m_aovShaders
        (ArnoldAOVShader.computeOptionName s) = some (self.shaders.get ext d).1) ∧
    assocFind (ArnoldGlobals.option flags ext before self
        (ArnoldAOVShader.computeOptionName s) none).m_aovShaders
      (ArnoldAOVShader.computeOptionName s) = none ∧
    (∀ (value : Option IECoreObject) (k : String), k ≠ ArnoldAOVShader.computeOptionName s →
      assocFind (ArnoldGlobals.option flags ext before self
          (ArnoldAOVShader.computeOptionName s) value).m_aovShaders k =
        assocFind self.m_aovShaders k) ∧
    (∀ value : Option IECoreObject,
      ∃ array : List (Option AtNodePtr),
        (ArnoldGlobals.option flags ext before self
          (ArnoldAOVShader.computeOptionName s) value).options.getParam "aov_shaders" =
          some (.ptrArray array) ∧
        array = (ArnoldGlobals.option flags ext before self
          (ArnoldAOVShader.computeOptionName s) value).m_aovShaders.map
            (fun it : String × ArnoldShader => it.2.root) ∧
        array.length = (ArnoldGlobals.option flags ext before self
          (ArnoldAOVShader.computeOptionName s) value).m_aovShaders.length) ∧
    withAOVShader.m_aovShaders.map (fun it : String × ArnoldShader => it.1) =
      ["ai:aov_shader:custom"] := by
  refine ⟨rfl, by decide, ?_⟩
  have hs : starts_with (ArnoldAOVShader.computeOptionName s) "ai:aov_shader:" = true :=
    starts_with_append _ _
  generalize ArnoldAOVShader.computeOptionName s = name at hs
  have hshader : ∀ d : ShaderNetwork,
      ArnoldGlobals.option flags ext before self name (some (.ShaderNetwork d)) =
        ({ (self.getShader ext d).2 with
            m_aovShaders := mapInsert before (assocErase self.m_aovShaders name) name
              (self.shaders.get ext d).1 }).modifyOptions
          (fun o => o.setParam "aov_shaders" (.ptrArray
            ((mapInsert before (assocErase self.m_aovShaders name) name
              (self.shaders.get ext d).1).map
                (fun it : String × ArnoldShader => it.2.root)))) := by
    intro d
    rw [ArnoldGlobals.option_aov_shader _ _ _ _ _ _ hs]
    simp [reportedCast, IECoreObject.asShaderNetwork, ArnoldGlobals.msg,
      ArnoldGlobals.getShader, ArnoldGlobals.modifyOptions]
  have hnone : ArnoldGlobals.option flags ext before self name none =
      ({ self with m_aovShaders := assocErase self.m_aovShaders name }).modifyOptions
        (fun o => o.setParam "aov_shaders" (.ptrArray
          ((assocErase self.m_aovShaders name).map
            (fun it : String × ArnoldShader => it.2.root)))) := by
    rw [ArnoldGlobals.option_aov_shader _ _ _ _ _ _ hs]
    simp [ArnoldGlobals.msg, ArnoldGlobals.modifyOptions]
  have hgen : ∀ value : Option IECoreObject,
      (ArnoldGlobals.option flags ext before self name value).options.getParam "aov_shaders"
        = some (.ptrArray ((ArnoldGlobals.option flags ext before self name
            value).m_aovShaders.map (fun it : String × ArnoldShader => it.2.root))) ∧
      ∀ k, k ≠ name →
        assocFind (ArnoldGlobals.option flags ext before self name value).m_aovShaders k =
          assocFind self.m_aovShaders k := by
    intro value
    rw [ArnoldGlobals.option_aov_shader _ _ _ _ _ _ hs]
    have herase : ∀ k, k ≠ name → assocFind (assocErase self.m_aovShaders name) k =
        assocFind self.m_aovShaders k := by
      intro k hk
      rw [assocFind_assocErase]
      simp [Ne.symm hk]
    cases value with
    | none =>
      simp only [ArnoldGlobals.msg, ArnoldGlobals.modifyOptions, ArnoldGlobals.options,
        getParam_setParam, if_true]
      exact ⟨trivial, herase⟩
    | some v =>
      cases hc : IECoreObject.asShaderNetwork v with
      | none =>
        simp only [reportedCast, hc, ArnoldGlobals.msg, ArnoldGlobals.modifyOptions,
          ArnoldGlobals.options, getParam_setParam, if_true]
        exact ⟨trivial, herase⟩
      | some d =>
        simp only [reportedCast, hc, ArnoldGlobals.msg, ArnoldGlobals.modifyOptions,
          ArnoldGlobals.options, ArnoldGlobals.getShader, getParam_setParam, if_true]
        refine ⟨trivial, fun k hk => ?_⟩
        rw [assocFind_mapInsert_other _ _ _ _ _ (Ne.symm hk)]
        exact herase k hk
  refine ⟨hshader, hnone, ?_, ?_, fun value => (hgen value).2, ?_, ?_⟩
  · intro d
    rw [hshader d]
    simp only [ArnoldGlobals.modifyOptions]
    apply assocFind_mapInsert_same
    rw [assocFind_assocErase]
    simp
  · rw [hnone]
    simp only [ArnoldGlobals.modifyOptions]
    rw [assocFind_assocErase]
    simp
  · intro value
    exact ⟨_, (hgen value).1, rfl, by simp⟩
  · decide!


/-! ## Claims on the groups a light filter is left in -/

namespace LightFilterConnections

/-- After `deregisterLightFilter` the filter is in no group of the light set given. -/
theorem deregisterLightFilter_members (s : LightFilterConnections)
    (lightNames : StringVectorData) (lightFilter : ArnoldLightFilterPtr)
    (hn : (s.m_filterGroups.map Prod.fst).Nodup) (e : Nat × FilterGroup)
    (he : e ∈ (s.deregisterLightFilter lightNames lightFilter).m_filterGroups)
    (hf : lightFilter ∈ e.2.members) :
    e ∈ s.m_filterGroups ∧ e.1 ≠ lightNames.addr := by
  unfold deregisterLightFilter at he
  cases hfind : assocFind s.m_filterGroups lightNames.addr with
  | none =>
    simp only [hfind] at he
    exact ⟨he, assocFind_none_not_mem _ _ hfind e he⟩
  | some group =>
    simp only [hfind] at he
    by_cases hmem : lightFilter ∈ group.members
    · simp only [hmem, decide_True, Bool.not_true, Bool.false_eq_true, if_false] at he
      have hnew : ∀ x : Nat × FilterGroup,
          x ∈ assocSet s.m_filterGroups lightNames.addr
            { group with members := group.members.filter (fun f => decide (f ≠ lightFilter)) } →
          lightFilter ∈ x.2.members → x ∈ s.m_filterGroups ∧ x.1 ≠ lightNames.addr := by
        intro x hx hxf
        have hin := assocSet_mem s.m_filterGroups lightNames.addr
          { group with members := group.members.filter (fun f => decide (f ≠ lightFilter)) }
        have hne : x.1 ≠ lightNames.addr := by
          intro hk
          have := eq_of_mem_of_key _ (assocSet_keys_nodup _ _ _ hn) x _ hx hin hk
          rw [this] at hxf
          simp at hxf
        rcases mem_assocSet _ _ _ x hx with h | h
        · rw [h] at hne
          exact absurd rfl hne
        · exact ⟨h, hne⟩
      split at he
      · rw [mem_assocErase] at he
        exact hnew e he.1 hf
      · exact hnew e he hf
    · simp only [hmem, decide_False, Bool.not_false, if_true] at he
      refine ⟨he, fun hk => hmem ?_⟩
      have := assocFind_of_mem _ hn e he
      rw [hk, hfind] at this
      simp only [Option.some.injEq] at this
      rw [this]
      exact hf

/-- The groups after `registerLightFilter` are those before and the one of the light
set given. -/
theorem registerLightFilter_members (s s2 : LightFilterConnections)
    (lightNames : StringVectorData) (lightFilter : ArnoldLightFilterPtr)
    (h : s.registerLightFilter lightNames lightFilter = some s2) (e : Nat × FilterGroup)
    (he : e ∈ s2.m_filterGroups) : e.1 = lightNames.addr ∨ e ∈ s.m_filterGroups := by
  unfold registerLightFilter at h
  simp only at h
  split at h
  · cases h
  · simp only [Option.some.injEq] at h
    subst h
    rcases mem_assocSet _ _ _ e he with h | h
    · left
      rw [h]
    · exact Or.inr h

end LightFilterConnections

/-- A mapped outcome that returned comes from an outcome that returned. -/
theorem Outcome.map_eq_returned {σ τ : Type} (f : σ → τ) (o : Outcome σ) (r : τ)
    (h : o.map f = .returned r) : ∃ x, o = .returned x ∧ f x = r := by
  cases o with
  | returned x =>
    simp only [Outcome.map, Outcome.returned.injEq] at h
    exact ⟨x, rfl, h⟩
  | raised what x => simp [Outcome.map] at h
  | undefined => simp [Outcome.map] at h

/-- A filter whose proxy has no node, registered at most under the light set of its
current bundle, is after `attributes( N )` in no group other than the one of the light
set of `N`. -/
theorem ArnoldLightFilter.attributes_without_node (self : ArnoldLightFilter) (ext : External)
    (P N : ArnoldAttributes) (s : Scene)
    (hnode : self.object.m_instance.node = none)
    (hP : self.object.m_attributes = some P)
    (hn : (s.connections.m_filterGroups.map Prod.fst).Nodup)
    (honly : ∀ e ∈ s.connections.m_filterGroups, self.address ∈ e.2.members →
      ∃ d, P.m_filteredLights = some d ∧ e.1 = d.addr)
    (r : Bool × ArnoldLightFilter × Scene) (hr : self.attributes ext N s = .returned r) :
    ∀ e ∈ r.2.2.connections.m_filterGroups, self.address ∈ e.2.members →
      ∃ d, N.m_filteredLights = some d ∧ e.1 = d.addr := by
  have hbefore : ∀ e ∈
      (match P.m_filteredLights with
        | some previouslyFilteredLightsData =>
          s.connections.deregisterLightFilter previouslyFilteredLightsData self.address
        | none => s.connections).m_filterGroups, self.address ∉ e.2.members := by
    intro e he hf
    cases hd : P.m_filteredLights with
    | none =>
      rw [hd] at he
      obtain ⟨d, hd2, _⟩ := honly e he hf
      rw [hd] at hd2
      cases hd2
    | some d =>
      rw [hd] at he
      have := LightFilterConnections.deregisterLightFilter_members _ _ _ hn e he hf
      obtain ⟨d2, hd2, hk⟩ := honly e this.1 hf
      rw [hd] at hd2
      cases hd2
      exact this.2 hk
  unfold ArnoldLightFilter.attributes at hr
  simp only [ArnoldObject.attributes, hnode, Bool.not_true, Bool.false_eq_true, if_false,
    hP] at hr
  intro e he hf
  split at hr
  · rename_i filteredLightsData network hfl hnet
    split at hr
    · cases hr
    · rename_i connections hreg
      split at hr
      · cases hr
      · obtain ⟨u, _, hu⟩ := Outcome.map_eq_returned _ _ _ hr
        subst hu
        rcases LightFilterConnections.registerLightFilter_members _ _ _ _ hreg e he with h | h
        · exact ⟨filteredLightsData, hfl, h⟩
        · exact absurd hf (hbefore e h)
  · simp only [Outcome.returned.injEq] at hr
    subst hr
    exact absurd hf (hbefore e he)

/-- C27: a filter whose proxy holds a node, made with bundle `P` (light set at address
100) and then given bundle `N` (light set at address 101), is left in the group of the
light set of `P` and is also in the group of the light set of `N`: by the time
`attributes` looks up the light set to deregister from, `ArnoldObject::attributes` has
replaced `m_attributes` by `N`. The same calls on a filter whose proxy holds no node
leave it in the group of the light set of `N` only. -/
theorem c27_filter_left_in_previous_group :
    groupsOf 20 (ArnoldLightFilter.runCalls sampleExternal [.attributes filterBundleP]
      (filterWithNode, filterScene)) = some [100] ∧
    groupsOf 20 (ArnoldLightFilter.runCalls sampleExternal
      [.attributes filterBundleP, .attributes filterBundleN]
      (filterWithNode, filterScene)) = some [100, 101] ∧
    groupsOf 20 (ArnoldLightFilter.runCalls sampleExternal
      [.attributes filterBundleP, .attributes filterBundleN]
      (filterWithoutNode, filterScene)) = some [101] := by
  decide!


/-! ## Claims on the transform of lights and light filters -/

namespace AtUniverse

theorem node?_modify_same (u : AtUniverse) (p : AtNodePtr) (f : AtNode → AtNode) :
    (u.modify p f).node? p = (u.node? p).map f := by
  unfold modify
  cases h : u.node? p with
  | none => simp [h]
  | some n =>
    simp only [Option.map_some']
    exact assocFind_assocSet_same _ _ _

theorem node?_modify_other (u : AtUniverse) (p q : AtNodePtr) (f : AtNode → AtNode)
    (h : p ≠ q) : (u.modify p f).node? q = u.node? q := by
  unfold modify
  cases hn : u.node? p with
  | none => rfl
  | some n => exact assocFind_assocSet_other _ _ _ _ h

end AtUniverse

/-- The nodes `createNodes` makes are at fresh addresses; the last address holds the
last node, and the nodes at lower addresses stay. -/
theorem createNodes_spec (l : List AtNode) :
    ∀ u : AtUniverse,
      (createNodes u l).2.next = u.next + l.length ∧
      (∀ r, (createNodes u l).1.getLast? = some r →
        u.next ≤ r ∧ (createNodes u l).2.node? r = l.getLast? ∧ l ≠ []) ∧
      (l ≠ [] → ∃ r, (createNodes u l).1.getLast? = some r) := by
  induction l with
  | nil =>
    intro u
    simp [createNodes]
  | cons n rest ih =>
    intro u
    obtain ⟨hnext, hlast, hsome⟩ := ih (u.AiNode n).2
    have hn1 : (u.AiNode n).2.next = u.next + 1 := rfl
    refine ⟨?_, ?_, ?_⟩
    · simp only [createNodes, hnext, hn1, List.length_cons]
      rw [Nat.add_assoc, Nat.add_comm 1]
    · intro r hr
      simp only [createNodes] at hr ⊢
      cases hrest : rest with
      | nil =>
        subst hrest
        simp only [createNodes, List.getLast?_singleton, Option.some.injEq] at hr ⊢
        subst hr
        refine ⟨Nat.le_refl _, ?_, by simp⟩
        exact assocFind_assocSet_same _ _ _
      | cons n2 rest2 =>
        have hne : rest ≠ [] := by simp [hrest]
        obtain ⟨r2, hr2⟩ := hsome hne
        have hcons : ((u.AiNode n).1 :: (createNodes (u.AiNode n).2 rest).1).getLast? =
            (createNodes (u.AiNode n).2 rest).1.getLast? := by
          cases hc : (createNodes (u.AiNode n).2 rest).1 with
          | nil => rw [hc] at hr2; simp at hr2
          | cons a b => simp [List.getLast?_cons_cons]
        rw [← hrest]
        rw [hcons] at hr
        obtain ⟨h1, h2, _⟩ := hlast r hr
        have h1b : u.next + 1 ≤ r := h1
        refine ⟨Nat.le_of_succ_le h1b, ?_, by simp⟩
        rw [h2, hrest]
        simp [List.getLast?_cons_cons]
    · intro _
      simp only [createNodes]
      cases hc : (createNodes (u.AiNode n).2 rest).1 with
      | nil => exact ⟨_, rfl⟩
      | cons a b => simp [List.getLast?_cons_cons, List.getLast?_eq_getLast]

/-- The root of a new shader: a fresh address that holds the last node of the
converter. -/
theorem ArnoldShader.new_root (ext : External) (network : ShaderNetwork) (names : String)
    (u : AtUniverse) :
    u.next ≤ (ArnoldShader.new ext network names u).2.next ∧
    (∀ root, (ArnoldShader.new ext network names u).1.root = some root →
      u.next ≤ root ∧
      (ArnoldShader.new ext network names u).2.node? root =
        (ext.convertShaderNetwork network names).getLast? ∧
      ext.convertShaderNetwork network names ≠ []) ∧
    (ext.convertShaderNetwork network names ≠ [] →
      ∃ root, (ArnoldShader.new ext network names u).1.root = some root) := by
  obtain ⟨h1, h2, h3⟩ := createNodes_spec (ext.convertShaderNetwork network names) u
  refine ⟨?_, h2, h3⟩
  show u.next ≤ (createNodes u (ext.convertShaderNetwork network names)).2.next
  rw [h1]
  exact Nat.le_add_right _ _


theorem mostRecentTransform_cons (call : ObjectCall) (rest : List ObjectCall)
    (earlier : Option ObjectCall) :
    mostRecentTransform (call :: rest) earlier = mostRecentTransform rest (call.after earlier) := by
  cases call <;> rfl

namespace ArnoldObject

theorem applyTransform_frame (node : AtNodePtr) (transform : M44f) (name : String)
    (u : AtUniverse) :
    (applyTransform node transform name u).next = u.next ∧
    (∀ q, node ≠ q → (applyTransform node transform name u).node? q = u.node? q) ∧
    (∀ n, u.node? node = some n →
      ∃ n2, (applyTransform node transform name u).node? node = some n2 ∧
        Carries n2 name (.transform transform)) := by
  refine ⟨modify_next _ _ _, fun q hq => AtUniverse.node?_modify_other _ _ _ _ hq, ?_⟩
  intro n hn
  refine ⟨n.setParam name (.matrix transform), ?_, ?_⟩
  · unfold applyTransform
    rw [AtUniverse.node?_modify_same, hn]
    rfl
  · simp [Carries, getParam_setParam]

theorem applyTransformSamples_returned (ext : External) (node : AtNodePtr)
    (samples : List M44f) (times : List ℚ) (name : String) (u u2 : AtUniverse)
    (h1 : name ≠ "motion_start") (h2 : name ≠ "motion_end")
    (h : applyTransformSamples ext node samples times name u = .returned u2) :
    u2.next = u.next ∧ (∀ q, node ≠ q → u2.node? q = u.node? q) ∧
    (∀ n, u.node? node = some n →
      ∃ n2, u2.node? node = some n2 ∧ Carries n2 name (.transformSamples samples times)) := by
  unfold applyTransformSamples at h
  simp only at h
  split at h
  · cases h
  · split at h
    · rename_i first last hfirst hlast
      simp only [Outcome.returned.injEq] at h
      subst h
      refine ⟨?_, ?_, ?_⟩
      · simp only [modify_next]
      · intro q hq
        simp only [AtUniverse.node?_modify_other _ _ _ _ hq]
      · intro n hn
        refine ⟨((n.setParam name (.matrixArray samples)).setParam "motion_start"
          (.flt first)).setParam "motion_end" (.flt last), ?_, ?_⟩
        · simp only [AtUniverse.node?_modify_same, hn, Option.map_some']
        · have e1 : ¬ "motion_end" = name := fun e => h2 e.symm
          have e2 : ¬ "motion_start" = name := fun e => h1 e.symm
          have e3 : ¬ "motion_end" = "motion_start" := by decide
          simp only [Carries, getParam_setParam, e1, e2, e3, if_false, if_true, hfirst, hlast,
            Option.map_some', and_self]
    · cases h

theorem applyTransformSamples_returns (ext : External) (node : AtNodePtr)
    (samples : List M44f) (times : List ℚ) (name : String) (u : AtUniverse)
    (ht : times ≠ []) (hu : ext.ensureUniformTimeSamples times = none) :
    ∃ u2, applyTransformSamples ext node samples times name u = .returned u2 := by
  unfold applyTransformSamples
  simp only [hu]
  cases times with
  | nil => exact absurd rfl ht
  | cons t rest =>
    cases hl : (t :: rest).getLast? with
    | none => simp at hl
    | some last => exact ⟨_, rfl⟩

theorem transform_frame (self : ArnoldObject) (transform : M44f) (u : AtUniverse) :
    (self.transform transform u).next = u.next ∧
    (∀ q, self.m_instance.node ≠ some q → (self.transform transform u).node? q = u.node? q) := by
  unfold ArnoldObject.transform
  cases hn : self.m_instance.node with
  | none => exact ⟨rfl, fun _ _ => rfl⟩
  | some node =>
    refine ⟨(applyTransform_frame _ _ _ _).1, fun q hq => (applyTransform_frame _ _ _ _).2.1 q ?_⟩
    intro e
    exact hq (by rw [e])

theorem transformSamples_frame (self : ArnoldObject) (ext : External) (samples : List M44f)
    (times : List ℚ) (u u2 : AtUniverse)
    (h : self.transformSamples ext samples times u = .returned u2) :
    u2.next = u.next ∧ (∀ q, self.m_instance.node ≠ some q → u2.node? q = u.node? q) := by
  unfold ArnoldObject.transformSamples at h
  cases hn : self.m_instance.node with
  | none =>
    simp only [hn, Outcome.returned.injEq] at h
    subst h
    exact ⟨rfl, fun _ _ => rfl⟩
  | some node =>
    simp only [hn] at h
    have := applyTransformSamples_returned ext node samples times "matrix" u u2
      (by decide) (by decide) h
    refine ⟨this.1, fun q hq => this.2.1 q ?_⟩
    intro e
    exact hq (by rw [e])

theorem transformSamples_returns (self : ArnoldObject) (ext : External) (samples : List M44f)
    (times : List ℚ) (u : AtUniverse) (ht : times ≠ [])
    (hu : ext.ensureUniformTimeSamples times = none) :
    ∃ u2, self.transformSamples ext samples times u = .returned u2 := by
  unfold ArnoldObject.transformSamples
  cases self.m_instance.node with
  | none => exact ⟨_, rfl⟩
  | some node => exact applyTransformSamples_returns ext node samples times _ u ht hu

/-- A rejected edit leaves the object and the world as they are. -/
theorem attributes_false (self : ArnoldObject) (a : ArnoldAttributes) (w : World)
    (h : (self.attributes a w).1 = false) : (self.attributes a w).2 = (self, w) := by
  unfold ArnoldObject.attributes at h ⊢
  cases hn : self.m_instance.node with
  | none => simp [hn] at h
  | some node =>
    simp only [hn] at h ⊢
    unfold ArnoldAttributes.apply at h ⊢
    by_cases hc : a.compatible w.ai node self.m_attributes = true
    · simp only [hc, if_true] at h
      cases hnode : w.ai.node? node <;> simp [hnode] at h
    · simp [hc]

/-- An accepted edit keeps the proxy and the next free address, and stores the bundle
when the proxy has a node. -/
theorem attributes_true (self : ArnoldObject) (a : ArnoldAttributes) (w : World) :
    (self.attributes a w).2.1.m_instance = self.m_instance ∧
    (self.attributes a w).2.2.ai.next = w.ai.next := by
  unfold ArnoldObject.attributes
  cases hn : self.m_instance.node with
  | none => exact ⟨rfl, rfl⟩
  | some node =>
    simp only []
    unfold ArnoldAttributes.apply
    by_cases hc : a.compatible w.ai node self.m_attributes = true
    · simp only [hc, if_true]
      cases hnode : w.ai.node? node <;> simp
    · simp [hc]

end ArnoldObject

theorem resetShader_next (shader : Option ArnoldShader) (nodeDeleter : NodeDeleter)
    (u : AtUniverse) : (resetShader shader nodeDeleter u).next = u.next := by
  have key : ∀ (l : List AtNodePtr) (u : AtUniverse),
      (l.foldl nodeDeleter.run u).next = u.next := by
    intro l
    induction l with
    | nil => intro u; rfl
    | cons p rest ih =>
      intro u
      simp only [List.foldl_cons]
      rw [ih]
      cases nodeDeleter <;> rfl
  cases shader with
  | none => rfl
  | some sh => exact key _ _

/-- What `applyLightTransform` and `applyLightFilterTransform` leave at the root: the
most recent transform, and with no transform received the node as it was. -/
theorem applyShaderTransform_carries (ext : External) (sh : ArnoldShader) (root : AtNodePtr)
    (n : AtNode) (name : String) (ms : List M44f) (ts : List ℚ) (recent : Option ObjectCall)
    (u u2 : AtUniverse) (h1 : name ≠ "motion_start") (h2 : name ≠ "motion_end")
    (hroot : sh.root = some root) (hn : u.node? root = some n) (hst : Stored ms ts recent)
    (h : applyShaderTransform ext (some sh) ms ts name u = .returned u2) :
    u2.next = u.next ∧
    ∃ n2, u2.node? root = some n2 ∧
      match recent with
      | some t => Carries n2 name t
      | none => n2 = n := by
  unfold applyShaderTransform at h
  cases recent with
  | none =>
    have hms : ms = [] := hst
    subst hms
    simp only [Outcome.returned.injEq] at h
    subst h
    exact ⟨rfl, n, hn, rfl⟩
  | some t =>
    cases t with
    | attributes a => exact absurd hst (by simp [Stored])
    | transform m =>
      obtain ⟨hms, hts⟩ := hst
      subst hms
      subst hts
      simp only [hroot, List.isEmpty_nil, if_true, Outcome.returned.injEq] at h
      subst h
      have := ArnoldObject.applyTransform_frame root m name u
      exact ⟨this.1, this.2.2 n hn⟩
    | transformSamples samples times =>
      obtain ⟨hms, hts, hs, ht⟩ := hst
      subst hms
      subst hts
      cases ms with
      | nil => exact absurd rfl hs
      | cons first rest =>
        have hte : ts.isEmpty = false := by
          cases ts with
          | nil => exact absurd rfl ht
          | cons _ _ => rfl
        simp only [hroot, hte, Bool.false_eq_true, if_false] at h
        have := ArnoldObject.applyTransformSamples_returned ext root _ _ name u u2 h1 h2 h
        exact ⟨this.1, this.2.2 n hn⟩

/-- The deferred write returns when the root is not null and the stored times are
uniform. -/
theorem applyShaderTransform_returns (ext : External) (shader : Option ArnoldShader)
    (name : String) (ms : List M44f) (ts : List ℚ) (u : AtUniverse)
    (hroot : ∀ sh, shader = some sh → ∃ root, sh.root = some root)
    (hu : UniformTimes ext ts) :
    ∃ u2, applyShaderTransform ext shader ms ts name u = .returned u2 := by
  unfold applyShaderTransform
  cases shader with
  | none => exact ⟨_, rfl⟩
  | some sh =>
    obtain ⟨root, hr⟩ := hroot sh rfl
    cases ms with
    | nil => exact ⟨_, rfl⟩
    | cons first rest =>
      simp only [hr]
      cases ts with
      | nil => exact ⟨_, rfl⟩
      | cons t more =>
        simp only [List.isEmpty_cons, Bool.false_eq_true, if_false]
        exact ArnoldObject.applyTransformSamples_returns ext root _ _ name u (by simp)
          (hu (by simp))

/-- The guard of the deferred write: without a shader, or without a stored transform,
nothing is written. -/
theorem applyShaderTransform_guard (ext : External) (shader : Option ArnoldShader)
    (name : String) (ms : List M44f) (ts : List ℚ) (u : AtUniverse)
    (h : shader = none ∨ ms = []) :
    applyShaderTransform ext shader ms ts name u = .returned u := by
  unfold applyShaderTransform
  cases shader with
  | none => rfl
  | some sh =>
    rcases h with h | h
    · cases h
    · subst h
      rfl


/-- One transform call keeps what the root carries up to date, whatever the root
carried before. -/
theorem rootCarries_step (ext : External) (inst : Option AtNodePtr)
    (shader : Option ArnoldShader) (network : Option ShaderNetwork) (names name : String)
    (ms : List M44f) (ts : List ℚ) (t : ObjectCall) (recent : Option ObjectCall)
    (u u1 u2 : AtUniverse) (h1 : name ≠ "motion_start") (h2 : name ≠ "motion_end")
    (hprev : RootCarries ext u inst shader network names name recent)
    (hframe : u1.next = u.next ∧ ∀ q, inst ≠ some q → u1.node? q = u.node? q)
    (hst : Stored ms ts (some t))
    (h : applyShaderTransform ext shader ms ts name u1 = .returned u2) :
    u2.next = u.next ∧ RootCarries ext u2 inst shader network names name (some t) := by
  cases shader with
  | none =>
    rw [applyShaderTransform_guard ext none name ms ts u1 (Or.inl rfl)] at h
    simp only [Outcome.returned.injEq] at h
    subst h
    refine ⟨hframe.1, ?_⟩
    intro sh hsh
    cases hsh
  | some sh =>
    obtain ⟨root, n, hroot, hinst, hn, _⟩ := hprev sh rfl
    have hn1 : u1.node? root = some n := by rw [hframe.2 root hinst, hn]
    obtain ⟨hnext, n2, hn2, hcar⟩ :=
      applyShaderTransform_carries ext sh root n name ms ts (some t) u1 u2 h1 h2 hroot hn1 hst h
    refine ⟨hnext.trans hframe.1, ?_⟩
    intro sh2 hsh2
    cases hsh2
    exact ⟨root, n2, hroot, hinst, hn2, hcar⟩

/-- The root of a shader that the invariant speaks of is not null. -/
theorem RootCarries.root_isSome {ext : External} {u : AtUniverse} {inst : Option AtNodePtr}
    {shader : Option ArnoldShader} {network : Option ShaderNetwork} {names name : String}
    {recent : Option ObjectCall}
    (h : RootCarries ext u inst shader network names name recent) :
    ∀ sh, shader = some sh → ∃ root, sh.root = some root := by
  intro sh hsh
  obtain ⟨root, _, hroot, _⟩ := h sh hsh
  exact ⟨root, hroot⟩

namespace ArnoldLight

theorem light_transform_step (ext : External) (name : String) (recent : Option ObjectCall)
    (light : ArnoldLight) (s : Scene) (m : M44f) :
    Invariant ext name recent (light, s) →
    (∀ st2, light.transform ext m s = .returned st2 →
      Invariant ext name (some (.transform m)) st2) ∧
    ∃ st2, light.transform ext m s = .returned st2 ∧ UniformTimes ext st2.1.m_transformTimes := by
  rintro ⟨hname, _, hnode, hroot⟩
  have hf := ArnoldObject.transform_frame light.object m s.world.ai
  constructor
  · intro st2 h
    unfold ArnoldLight.transform at h
    obtain ⟨u2, hu2, rfl⟩ := Outcome.map_eq_returned _ _ _ h
    obtain ⟨hnext, hcar⟩ := rootCarries_step ext _ _ _ _ "matrix" [m] [] (.transform m) recent
      s.world.ai _ u2 (by decide) (by decide) hroot hf ⟨rfl, rfl⟩ hu2
    refine ⟨hname, ⟨rfl, rfl⟩, ?_, hcar⟩
    intro node hnd
    show node < u2.next
    rw [hnext]
    exact hnode node hnd
  · obtain ⟨u2, hu2⟩ := applyShaderTransform_returns ext light.m_lightShader "matrix" [m] []
      (light.object.transform m s.world.ai) hroot.root_isSome (fun h => absurd rfl h)
    refine ⟨({ light with m_transformMatrices := [m], m_transformTimes := [] },
      s.withAi u2), ?_, ?_⟩
    · unfold ArnoldLight.transform
      show Outcome.map _ (applyShaderTransform ext light.m_lightShader [m] [] "matrix" _) = _
      rw [hu2]
      rfl
    · exact fun h => absurd rfl h

theorem light_transformSamples_step (ext : External) (name : String)
    (recent : Option ObjectCall) (light : ArnoldLight) (s : Scene) (samples : List M44f) (times : List ℚ)
    (hs : samples ≠ []) (ht : times ≠ []) :
    Invariant ext name recent (light, s) →
    (∀ st2, light.transformSamples ext samples times s = .returned st2 →
      Invariant ext name (some (.transformSamples samples times)) st2) ∧
    (ext.ensureUniformTimeSamples times = none →
      ∃ st2, light.transformSamples ext samples times s = .returned st2 ∧
        UniformTimes ext st2.1.m_transformTimes) := by
  rintro ⟨hname, _, hnode, hroot⟩
  constructor
  · intro st2 h
    unfold ArnoldLight.transformSamples at h
    cases ho : light.object.transformSamples ext samples times s.world.ai with
    | undefined => simp [ho] at h
    | raised what u => simp [ho] at h
    | returned u1 =>
      simp only [ho] at h
      have hf := ArnoldObject.transformSamples_frame _ _ _ _ _ _ ho
      obtain ⟨u2, hu2, rfl⟩ := Outcome.map_eq_returned _ _ _ h
      obtain ⟨hnext, hcar⟩ := rootCarries_step ext _ _ _ _ "matrix" samples times
        (.transformSamples samples times) recent s.world.ai _ u2 (by decide) (by decide)
        hroot hf ⟨rfl, rfl, hs, ht⟩ hu2
      refine ⟨hname, ⟨rfl, rfl, hs, ht⟩, ?_, hcar⟩
      intro node hnd
      show node < u2.next
      rw [hnext]
      exact hnode node hnd
  · intro hu
    obtain ⟨u1, ho⟩ := ArnoldObject.transformSamples_returns light.object ext samples times
      s.world.ai ht hu
    obtain ⟨u2, hu2⟩ := applyShaderTransform_returns ext light.m_lightShader "matrix" samples
      times u1 hroot.root_isSome (fun _ => hu)
    refine ⟨({ light with m_transformMatrices := samples, m_transformTimes := times },
      s.withAi u2), ?_, ?_⟩
    · unfold ArnoldLight.transformSamples
      simp only [ho]
      show Outcome.map _ (applyShaderTransform ext light.m_lightShader samples times "matrix" _)
        = _
      rw [hu2]
      rfl
    · exact fun _ => hu

end ArnoldLight


namespace ArnoldLight

theorem meshLight_spec (self : ArnoldLight) (root : AtNodePtr) (u u3 : AtUniverse)
    (h : self.meshLight root u = some u3) :
    u3.next = u.next ∧
    ∀ n, u.node? root = some n → ∃ n3, u3.node? root = some n3 ∧ SameTransform n3 n "matrix" := by
  unfold meshLight at h
  split at h
  · split at h
    · rename_i node _
      simp only [Option.some.injEq] at h
      subst h
      refine ⟨modify_next _ _ _, fun n hn => ⟨n.setParam "mesh" (.ptr (some node)), ?_, ?_⟩⟩
      · rw [AtUniverse.node?_modify_same, hn]
        rfl
      · have e1 : ¬ "mesh" = "matrix" := by decide
        have e2 : ¬ "mesh" = "motion_start" := by decide
        have e3 : ¬ "mesh" = "motion_end" := by decide
        simp only [SameTransform, getParam_setParam, e1, e2, e3, if_false, and_self]
    · cases h
  · simp only [Option.some.injEq] at h
    subst h
    exact ⟨rfl, fun n hn => ⟨n, hn, rfl, rfl, rfl⟩⟩

theorem light_attributes_step (ext : External) (name : String) (recent : Option ObjectCall)
    (light : ArnoldLight) (s : Scene) (a : ArnoldAttributes) :
    Invariant ext name recent (light, s) →
    (∀ r, light.attributes ext a s = .returned r →
      Invariant ext name recent r.2 ∧ r.2.1.m_transformTimes = light.m_transformTimes) ∧
    ((∀ net, a.m_lightShader = some net →
        ext.convertShaderNetwork net ("light:" ++ name ++ ":") ≠ []) →
      UniformTimes ext light.m_transformTimes →
      ∃ r, light.attributes ext a s = .returned r) := by
  rintro ⟨hname, hst, hnode, hroot⟩
  dsimp only at hname hst hnode hroot
  subst hname
  obtain ⟨hinst, hnext⟩ := ArnoldObject.attributes_true light.object a s.world
  have hunext := resetShader_next light.m_lightShader light.m_nodeDeleter
    (light.object.attributes a s.world).2.2.ai
  constructor
  · intro r h
    unfold ArnoldLight.attributes at h
    dsimp only at h
    by_cases hacc : (light.object.attributes a s.world).1 = true
    · simp only [hacc, Bool.not_true, Bool.false_eq_true, if_false] at h
      have hnode2 : ∀ node, light.object.m_instance.node = some node →
          node < (resetShader light.m_lightShader light.m_nodeDeleter
            (light.object.attributes a s.world).2.2.ai).next := by
        intro node hnd
        rw [hunext, hnext]
        exact hnode node hnd
      cases hls : a.m_lightShader with
      | none =>
        simp only [hls, Outcome.returned.injEq] at h
        subst h
        refine ⟨⟨rfl, hst, ?_, ?_⟩, rfl⟩
        · intro node hnd
          exact hnode2 node (by rw [← hinst]; exact hnd)
        · intro sh hsh
          cases hsh
      | some network =>
        simp only [hls] at h
        obtain ⟨hge, hroots, _⟩ := ArnoldShader.new_root ext network
          ("light:" ++ light.m_name ++ ":")
          (resetShader light.m_lightShader light.m_nodeDeleter
            (light.object.attributes a s.world).2.2.ai)
        split at h
        · cases h
        · rename_i root hrootEq
          obtain ⟨hle, hnodeRoot, hne⟩ := hroots root hrootEq
          split at h
          · simp only [Outcome.returned.injEq] at h
            subst h
            refine ⟨⟨rfl, hst, ?_, ?_⟩, rfl⟩
            · intro node hnd
              show node < (resetShader (some _) light.m_nodeDeleter _).next
              rw [resetShader_next, modify_next]
              exact lt_of_lt_of_le (hnode2 node (by rw [← hinst]; exact hnd)) hge
            · intro sh hsh
              cases hsh
          · rename_i u3 hmesh
            obtain ⟨u4, hu4, rfl⟩ := Outcome.map_eq_returned _ _ _ h
            obtain ⟨hm1, hm2⟩ := meshLight_spec _ _ _ _ hmesh
            obtain ⟨n0, hn0⟩ : ∃ n0, (ext.convertShaderNetwork network
                ("light:" ++ light.m_name ++ ":")).getLast? = some n0 := by
              cases hl : (ext.convertShaderNetwork network
                ("light:" ++ light.m_name ++ ":")).getLast? with
              | none => exact absurd (List.getLast?_eq_none_iff.mp hl) hne
              | some n0 => exact ⟨n0, rfl⟩
            obtain ⟨n3, hn3, hsame⟩ := hm2 { n0 with name := "light:" ++ light.m_name } (by
              rw [AtUniverse.node?_modify_same, hnodeRoot, hn0]
              rfl)
            obtain ⟨hnext4, n4, hn4, hcar⟩ := applyShaderTransform_carries ext _ root n3 "matrix"
              _ _ recent u3 u4 (by decide) (by decide) hrootEq hn3 hst hu4
            refine ⟨⟨rfl, hst, ?_, ?_⟩, rfl⟩
            · intro node hnd
              show node < u4.next
              rw [hnext4, hm1, modify_next]
              exact lt_of_lt_of_le (hnode2 node (by rw [← hinst]; exact hnd)) hge
            · intro sh hsh
              cases hsh
              refine ⟨root, n4, hrootEq, ?_, hn4, ?_⟩
              · intro e
                have hlt := hnode2 root (by rw [← hinst]; exact e)
                exact absurd (lt_of_lt_of_le hlt hle) (lt_irrefl _)
              · cases recent with
                | some t => exact hcar
                | none =>
                  dsimp only at hcar
                  subst hcar
                  exact ⟨network, n0, by simp [hls], hn0, hsame⟩
    · have hfalse : (light.object.attributes a s.world).1 = false := by
        simpa using hacc
      simp only [hfalse, Bool.not_false, if_true, Outcome.returned.injEq] at h
      subst h
      have h2 := ArnoldObject.attributes_false _ _ _ hfalse
      rw [Prod.ext_iff] at h2
      obtain ⟨ho, hw⟩ := h2
      dsimp only at ho hw
      simp only [ho, hw]
      exact ⟨⟨rfl, hst, hnode, hroot⟩, trivial⟩
  · intro hconv hu
    unfold ArnoldLight.attributes
    dsimp only
    by_cases hacc : (light.object.attributes a s.world).1 = true
    · simp only [hacc, Bool.not_true, Bool.false_eq_true, if_false]
      cases hls : a.m_lightShader with
      | none => exact ⟨_, rfl⟩
      | some network =>
        dsimp only
        obtain ⟨_, _, hsome⟩ := ArnoldShader.new_root ext network
          ("light:" ++ light.m_name ++ ":")
          (resetShader light.m_lightShader light.m_nodeDeleter
            (light.object.attributes a s.world).2.2.ai)
        obtain ⟨root, hrootEq⟩ := hsome (hconv network hls)
        simp only [hrootEq]
        split
        · exact ⟨_, rfl⟩
        · rename_i u3 hmesh
          obtain ⟨u4, hu4⟩ := applyShaderTransform_returns ext
            (some (ArnoldShader.new ext network ("light:" ++ light.m_name ++ ":")
              (resetShader light.m_lightShader light.m_nodeDeleter
                (light.object.attributes a s.world).2.2.ai)).1) "matrix"
            light.m_transformMatrices light.m_transformTimes u3
            (fun sh hsh => by cases hsh; exact ⟨root, hrootEq⟩) hu
          unfold ArnoldLight.applyLightTransform
          dsimp only
          rw [hu4]
          exact ⟨_, rfl⟩
    · have hfalse : (light.object.attributes a s.world).1 = false := by
        simpa using hacc
      simp only [hfalse, Bool.not_false, if_true]
      exact ⟨_, rfl⟩

end ArnoldLight


namespace ArnoldLightFilter

theorem filter_transform_step (ext : External) (name : String) (recent : Option ObjectCall)
    (lightFilter : ArnoldLightFilter) (s : Scene) (m : M44f) :
    Invariant ext name recent (lightFilter, s) →
    (∀ st2, lightFilter.transform ext m s = .returned st2 →
      Invariant ext name (some (.transform m)) st2) ∧
    ∃ st2, lightFilter.transform ext m s = .returned st2 ∧
      UniformTimes ext st2.1.m_transformTimes := by
  rintro ⟨hname, _, hnode, hroot⟩
  have hf := ArnoldObject.transform_frame lightFilter.object m s.world.ai
  constructor
  · intro st2 h
    unfold ArnoldLightFilter.transform at h
    obtain ⟨u2, hu2, rfl⟩ := Outcome.map_eq_returned _ _ _ h
    obtain ⟨hnext, hcar⟩ := rootCarries_step ext _ _ _ _ "geometry_matrix" [m] []
      (.transform m) recent s.world.ai _ u2 (by decide) (by decide) hroot hf ⟨rfl, rfl⟩ hu2
    refine ⟨hname, ⟨rfl, rfl⟩, ?_, hcar⟩
    intro node hnd
    show node < u2.next
    rw [hnext]
    exact hnode node hnd
  · obtain ⟨u2, hu2⟩ := applyShaderTransform_returns ext lightFilter.m_lightFilterShader
      "geometry_matrix" [m] [] (lightFilter.object.transform m s.world.ai) hroot.root_isSome
      (fun h => absurd rfl h)
    refine ⟨({ lightFilter with m_transformMatrices := [m], m_transformTimes := [] },
      s.withAi u2), ?_, ?_⟩
    · unfold ArnoldLightFilter.transform
      show Outcome.map _
        (applyShaderTransform ext lightFilter.m_lightFilterShader [m] [] "geometry_matrix" _) = _
      rw [hu2]
      rfl
    · exact fun h => absurd rfl h

theorem filter_transformSamples_step (ext : External) (name : String)
    (recent : Option ObjectCall) (lightFilter : ArnoldLightFilter) (s : Scene)
    (samples : List M44f) (times : List ℚ)
    (hs : samples ≠ []) (ht : times ≠ []) :
    Invariant ext name recent (lightFilter, s) →
    (∀ st2, lightFilter.transformSamples ext samples times s = .returned st2 →
      Invariant ext name (some (.transformSamples samples times)) st2) ∧
    (ext.ensureUniformTimeSamples times = none →
      ∃ st2, lightFilter.transformSamples ext samples times s = .returned st2 ∧
        UniformTimes ext st2.1.m_transformTimes) := by
  rintro ⟨hname, _, hnode, hroot⟩
  constructor
  · intro st2 h
    unfold ArnoldLightFilter.transformSamples at h
    cases ho : lightFilter.object.transformSamples ext samples times s.world.ai with
    | undefined => simp [ho] at h
    | raised what u => simp [ho] at h
    | returned u1 =>
      simp only [ho] at h
      have hf := ArnoldObject.transformSamples_frame _ _ _ _ _ _ ho
      obtain ⟨u2, hu2, rfl⟩ := Outcome.map_eq_returned _ _ _ h
      obtain ⟨hnext, hcar⟩ := rootCarries_step ext _ _ _ _ "geometry_matrix" samples times
        (.transformSamples samples times) recent s.world.ai _ u2 (by decide) (by decide)
        hroot hf ⟨rfl, rfl, hs, ht⟩ hu2
      refine ⟨hname, ⟨rfl, rfl, hs, ht⟩, ?_, hcar⟩
      intro node hnd
      show node < u2.next
      rw [hnext]
      exact hnode node hnd
  · intro hu
    obtain ⟨u1, ho⟩ := ArnoldObject.transformSamples_returns lightFilter.object ext samples times
      s.world.ai ht hu
    obtain ⟨u2, hu2⟩ := applyShaderTransform_returns ext lightFilter.m_lightFilterShader
      "geometry_matrix" samples times u1 hroot.root_isSome (fun _ => hu)
    refine ⟨({ lightFilter with m_transformMatrices := samples, m_transformTimes := times },
      s.withAi u2), ?_, ?_⟩
    · unfold ArnoldLightFilter.transformSamples
      simp only [ho]
      show Outcome.map _ (applyShaderTransform ext lightFilter.m_lightFilterShader samples
        times "geometry_matrix" _) = _
      rw [hu2]
      rfl
    · exact fun _ => hu

end ArnoldLightFilter

namespace LightFilterConnections

theorem assocSet_known (C : List (String × Filters)) (k l : String) (v : Filters)
    (h : (assocFind C l).isSome = true) : (assocFind (assocSet C k v) l).isSome = true := by
  by_cases hk : k = l
  · subst hk
    rw [assocFind_assocSet_same]
    rfl
  · rw [assocFind_assocSet_other _ _ _ _ hk]
    exact h

/-- The loop of `registerLightFilter` keeps the lights of the table in the table. -/
theorem linkLights_known (b : Bool) (g : FilterGroupPtr) (names : List String) :
    ∀ (C C2 : List (String × Filters)), linkLights C b g names = some C2 →
      ∀ l, (assocFind C l).isSome = true → (assocFind C2 l).isSome = true := by
  induction names with
  | nil =>
    intro C C2 h l hl
    simp only [linkLights, Option.some.injEq] at h
    subst h
    exact hl
  | cons L rest ih =>
    intro C C2 h l hl
    simp only [linkLights] at h
    cases hf : assocFind C L with
    | none => simp [hf] at h
    | some f =>
      simp only [hf] at h
      exact ih _ _ h l (assocSet_known _ _ _ _ hl)

/-- The loop of `registerLightFilter` comes to an end when every light named is in the
table. -/
theorem linkLights_isSome (b : Bool) (g : FilterGroupPtr) (names : List String) :
    ∀ (C : List (String × Filters)), (∀ l ∈ names, (assocFind C l).isSome = true) →
      ∃ C2, linkLights C b g names = some C2 := by
  induction names with
  | nil => intro C _; exact ⟨C, rfl⟩
  | cons L rest ih =>
    intro C h
    simp only [linkLights]
    cases hf : assocFind C L with
    | none =>
      have := h L (List.mem_cons_self _ _)
      rw [hf] at this
      cases this
    | some f =>
      simp only []
      exact ih _ (fun l hl => assocSet_known _ _ _ _ (h l (List.mem_cons_of_mem _ hl)))

theorem unlinkLights_known (b : Bool) (g : FilterGroupPtr) (names : List String) :
    ∀ (C : List (String × Filters)) (l : String), (assocFind C l).isSome = true →
      (assocFind (unlinkLights C b g names) l).isSome = true := by
  induction names with
  | nil => intro C l hl; exact hl
  | cons L rest ih =>
    intro C l hl
    simp only [unlinkLights]
    cases hf : assocFind C L with
    | none => exact ih _ _ hl
    | some f => exact ih _ _ (assocSet_known _ _ _ _ hl)

theorem deregisterLightFilter_known (s : LightFilterConnections) (lightNames : StringVectorData)
    (lightFilter : ArnoldLightFilterPtr) (l : String)
    (h : (assocFind s.m_connections l).isSome = true) :
    (assocFind (s.deregisterLightFilter lightNames lightFilter).m_connections l).isSome = true := by
  unfold deregisterLightFilter
  split
  · exact h
  · dsimp only
    split
    · exact h
    · exact unlinkLights_known _ _ _ _ _ h

theorem registerLightFilter_known (s s2 : LightFilterConnections) (lightNames : StringVectorData)
    (lightFilter : ArnoldLightFilterPtr)
    (hr : s.registerLightFilter lightNames lightFilter = some s2) (l : String)
    (h : (assocFind s.m_connections l).isSome = true) :
    (assocFind s2.m_connections l).isSome = true := by
  unfold registerLightFilter at hr
  dsimp only at hr
  split at hr
  · cases hr
  · rename_i connections hlink
    simp only [Option.some.injEq] at hr
    subst hr
    exact linkLights_known _ _ _ _ _ hlink l h

theorem registerLightFilter_isSome (s : LightFilterConnections) (lightNames : StringVectorData)
    (lightFilter : ArnoldLightFilterPtr)
    (h : ∀ l ∈ lightNames.readable, (assocFind s.m_connections l).isSome = true) :
    ∃ s2, s.registerLightFilter lightNames lightFilter = some s2 := by
  unfold registerLightFilter
  dsimp only
  obtain ⟨C2, hC2⟩ := linkLights_isSome
    (assocFind s.m_filterGroups lightNames.addr).isNone
    ((assocFind s.m_filterGroups lightNames.addr).getD
      { ptr := s.nextGroup, members := [] }).ptr lightNames.readable s.m_connections h
  rw [hC2]
  exact ⟨_, rfl⟩

end LightFilterConnections


namespace ArnoldLightFilter

/-- The deregistration at the start of `attributes` keeps the lights of the table. -/
theorem deregisterPrevious_known (c : LightFilterConnections)
    (previous : Option ArnoldAttributes) (lightFilter : ArnoldLightFilterPtr) (l : String)
    (h : (assocFind c.m_connections l).isSome = true) :
    (assocFind
      (match previous with
        | some p =>
          match p.m_filteredLights with
          | some previouslyFilteredLightsData =>
            c.deregisterLightFilter previouslyFilteredLightsData lightFilter
          | none => c
        | none => c).m_connections l).isSome = true := by
  cases previous with
  | none => exact h
  | some p =>
    dsimp only
    cases p.m_filteredLights with
    | none => exact h
    | some d => exact LightFilterConnections.deregisterLightFilter_known _ _ _ _ h

theorem filter_attributes_step (ext : External) (name : String) (recent : Option ObjectCall)
    (lightFilter : ArnoldLightFilter) (s : Scene) (a : ArnoldAttributes) :
    Invariant ext name recent (lightFilter, s) →
    (∀ r, lightFilter.attributes ext a s = .returned r →
      Invariant ext name recent r.2 ∧
      r.2.1.m_transformTimes = lightFilter.m_transformTimes ∧
      ∀ l, (assocFind s.connections.m_connections l).isSome = true →
        (assocFind r.2.2.connections.m_connections l).isSome = true) ∧
    ((∀ net, a.m_lightFilterShader = some net →
        ext.convertShaderNetwork net ("lightFilter:" ++ name ++ ":") ≠ []) →
      (∀ d, a.m_filteredLights = some d →
        ∀ l ∈ d.readable, (assocFind s.connections.m_connections l).isSome = true) →
      UniformTimes ext lightFilter.m_transformTimes →
      ∃ r, lightFilter.attributes ext a s = .returned r) := by
  rintro ⟨hname, hst, hnode, hroot⟩
  dsimp only at hname hst hnode hroot
  subst hname
  obtain ⟨hinst, hnext⟩ := ArnoldObject.attributes_true lightFilter.object a s.world
  have hunext := resetShader_next lightFilter.m_lightFilterShader lightFilter.m_nodeDeleter
    (lightFilter.object.attributes a s.world).2.2.ai
  have hnode2 : ∀ node, lightFilter.object.m_instance.node = some node →
      node < (resetShader lightFilter.m_lightFilterShader lightFilter.m_nodeDeleter
        (lightFilter.object.attributes a s.world).2.2.ai).next := by
    intro node hnd
    rw [hunext, hnext]
    exact hnode node hnd
  have hk1 := deregisterPrevious_known s.connections
    (lightFilter.object.attributes a s.world).2.1.m_attributes lightFilter.address
  constructor
  · intro r h
    unfold ArnoldLightFilter.attributes at h
    dsimp only at h
    by_cases hacc : (lightFilter.object.attributes a s.world).1 = true
    · simp only [hacc, Bool.not_true, Bool.false_eq_true, if_false] at h
      split at h
      · rename_i d network hfl hnet
        obtain ⟨hge, hroots, _⟩ := ArnoldShader.new_root ext network
          ("lightFilter:" ++ lightFilter.m_name ++ ":")
          (resetShader lightFilter.m_lightFilterShader lightFilter.m_nodeDeleter
            (lightFilter.object.attributes a s.world).2.2.ai)
        split at h
        · cases h
        · rename_i connections hreg
          split at h
          · cases h
          · rename_i root hrootEq
            obtain ⟨hle, hnodeRoot, hne⟩ := hroots root hrootEq
            obtain ⟨u4, hu4, rfl⟩ := Outcome.map_eq_returned _ _ _ h
            obtain ⟨n0, hn0⟩ : ∃ n0, (ext.convertShaderNetwork network
                ("lightFilter:" ++ lightFilter.m_name ++ ":")).getLast? = some n0 := by
              cases hl : (ext.convertShaderNetwork network
                ("lightFilter:" ++ lightFilter.m_name ++ ":")).getLast? with
              | none => exact absurd (List.getLast?_eq_none_iff.mp hl) hne
              | some n0 => exact ⟨n0, rfl⟩
            obtain ⟨hnext4, n4, hn4, hcar⟩ := applyShaderTransform_carries ext _ root
              { n0 with name := "lightFilter:" ++ lightFilter.m_name } "geometry_matrix"
              _ _ recent _ u4 (by decide) (by decide) hrootEq (by
                rw [AtUniverse.node?_modify_same, hnodeRoot, hn0]
                rfl) hst hu4
            refine ⟨⟨rfl, hst, ?_, ?_⟩, rfl, ?_⟩
            · intro node hnd
              show node < u4.next
              rw [hnext4, modify_next]
              exact lt_of_lt_of_le (hnode2 node (by rw [← hinst]; exact hnd)) hge
            · intro sh hsh
              cases hsh
              refine ⟨root, n4, hrootEq, ?_, hn4, ?_⟩
              · intro e
                have hlt := hnode2 root (by rw [← hinst]; exact e)
                exact absurd (lt_of_lt_of_le hlt hle) (lt_irrefl _)
              · cases recent with
                | some t => exact hcar
                | none =>
                  dsimp only at hcar
                  subst hcar
                  exact ⟨network, n0, by simp [hnet], hn0, rfl, rfl, rfl⟩
            · intro l hl
              exact LightFilterConnections.registerLightFilter_known _ _ _ _ hreg l (hk1 l hl)
      · simp only [Outcome.returned.injEq] at h
        subst h
        refine ⟨⟨rfl, hst, ?_, ?_⟩, rfl, ?_⟩
        · intro node hnd
          exact hnode2 node (by rw [← hinst]; exact hnd)
        · intro sh hsh
          cases hsh
        · intro l hl
          exact hk1 l hl
    · have hfalse : (lightFilter.object.attributes a s.world).1 = false := by
        simpa using hacc
      simp only [hfalse, Bool.not_false, if_true, Outcome.returned.injEq] at h
      subst h
      have h2 := ArnoldObject.attributes_false _ _ _ hfalse
      rw [Prod.ext_iff] at h2
      obtain ⟨ho, hw⟩ := h2
      dsimp only at ho hw
      simp only [ho, hw]
      exact ⟨⟨rfl, hst, hnode, hroot⟩, trivial, fun l hl => hl⟩
  · intro hconv hknown hu
    unfold ArnoldLightFilter.attributes
    dsimp only
    by_cases hacc : (lightFilter.object.attributes a s.world).1 = true
    · simp only [hacc, Bool.not_true, Bool.false_eq_true, if_false]
      split
      · rename_i d network hfl hnet
        obtain ⟨_, _, hsome⟩ := ArnoldShader.new_root ext network
          ("lightFilter:" ++ lightFilter.m_name ++ ":")
          (resetShader lightFilter.m_lightFilterShader lightFilter.m_nodeDeleter
            (lightFilter.object.attributes a s.world).2.2.ai)
        obtain ⟨root, hrootEq⟩ := hsome (hconv network hnet)
        obtain ⟨c2, hc2⟩ := LightFilterConnections.registerLightFilter_isSome _ d
          lightFilter.address (fun l hl => hk1 l (hknown d hfl l hl))
        rw [hc2]
        simp only [hrootEq]
        obtain ⟨u4, hu4⟩ := applyShaderTransform_returns ext
          (some (ArnoldShader.new ext network ("lightFilter:" ++ lightFilter.m_name ++ ":")
            (resetShader lightFilter.m_lightFilterShader lightFilter.m_nodeDeleter
              (lightFilter.object.attributes a s.world).2.2.ai)).1) "geometry_matrix"
          lightFilter.m_transformMatrices lightFilter.m_transformTimes
          (AtUniverse.modify
            (ArnoldShader.new ext network ("lightFilter:" ++ lightFilter.m_name ++ ":")
              (resetShader lightFilter.m_lightFilterShader lightFilter.m_nodeDeleter
                (lightFilter.object.attributes a s.world).2.2.ai)).2 root
            (fun n => { n with name := "lightFilter:" ++ lightFilter.m_name }))
          (fun sh hsh => by cases hsh; exact ⟨root, hrootEq⟩) hu
        unfold ArnoldLightFilter.applyLightFilterTransform
        dsimp only
        rw [hu4]
        exact ⟨_, rfl⟩
      · exact ⟨_, rfl⟩
    · have hfalse : (lightFilter.object.attributes a s.world).1 = false := by
        simpa using hacc
      simp only [hfalse, Bool.not_false, if_true]
      exact ⟨_, rfl⟩

end ArnoldLightFilter


theorem ObjectCall.lightsKnown_mono (c : ObjectCall) (C C2 : List (String × Filters))
    (h : c.LightsKnown C)
    (hmono : ∀ l, (assocFind C l).isSome = true → (assocFind C2 l).isSome = true) :
    c.LightsKnown C2 := by
  cases c with
  | attributes a => exact fun d hd l hl => hmono l (h d hd l hl)
  | transform m => trivial
  | transformSamples samples times => trivial

namespace ArnoldLight

theorem light_call_step (ext : External) (name : String) (recent : Option ObjectCall)
    (light : ArnoldLight) (s : Scene) (c : ObjectCall) (hwf : c.WellFormed) :
    Invariant ext name recent (light, s) →
    (∀ st2, call ext light s c = .returned st2 → Invariant ext name (c.after recent) st2) ∧
    (c.Converts ext (fun a => a.m_lightShader) ("light:" ++ name ++ ":") →
      UniformTimes ext light.m_transformTimes →
      ∃ st2, call ext light s c = .returned st2 ∧ UniformTimes ext st2.1.m_transformTimes) := by
  intro hinv
  cases c with
  | transform m =>
    obtain ⟨p1, p2⟩ := light_transform_step ext name recent light s m hinv
    exact ⟨p1, fun _ _ => p2⟩
  | transformSamples samples times =>
    obtain ⟨p1, p2⟩ := light_transformSamples_step ext name recent light s samples times
      hwf.1 hwf.2 hinv
    exact ⟨p1, fun hc _ => p2 hc⟩
  | attributes a =>
    obtain ⟨p1, p2⟩ := light_attributes_step ext name recent light s a hinv
    constructor
    · intro st2 h
      obtain ⟨r, hr, rfl⟩ := Outcome.map_eq_returned _ _ _ h
      exact (p1 r hr).1
    · intro hc hu
      obtain ⟨r, hr⟩ := p2 hc hu
      refine ⟨r.2, ?_, ?_⟩
      · show Outcome.map _ (light.attributes ext a s) = _
        rw [hr]
        rfl
      · rw [(p1 r hr).2]
        exact hu

theorem light_runCalls (ext : External) (name : String) (calls : List ObjectCall) :
    ∀ (recent : Option ObjectCall) (st : ArnoldLight × Scene),
      Invariant ext name recent st → (∀ c ∈ calls, c.WellFormed) →
      (∀ st2, runCalls ext calls st = .returned st2 →
        Invariant ext name (mostRecentTransform calls recent) st2) ∧
      ((∀ c ∈ calls, c.Converts ext (fun a => a.m_lightShader) ("light:" ++ name ++ ":")) →
        UniformTimes ext st.1.m_transformTimes →
        ∃ st2, runCalls ext calls st = .returned st2) := by
  induction calls with
  | nil =>
    intro recent st hinv _
    refine ⟨?_, fun _ _ => ⟨st, rfl⟩⟩
    intro st2 h
    simp only [runCalls, Outcome.returned.injEq] at h
    subst h
    exact hinv
  | cons c rest ih =>
    intro recent st hinv hwf
    obtain ⟨p1, p2⟩ := light_call_step ext name recent st.1 st.2 c
      (hwf c (List.mem_cons_self _ _)) hinv
    have hwf2 : ∀ c2 ∈ rest, c2.WellFormed := fun c2 h2 => hwf c2 (List.mem_cons_of_mem _ h2)
    constructor
    · intro st2 h
      rw [mostRecentTransform_cons]
      simp only [runCalls] at h
      cases hc : call ext st.1 st.2 c with
      | undefined => simp [hc] at h
      | raised what x => simp [hc] at h
      | returned st1 =>
        simp only [hc] at h
        exact (ih _ st1 (p1 st1 hc) hwf2).1 st2 h
    · intro hconv hu
      obtain ⟨st1, hc, hu1⟩ := p2 (hconv c (List.mem_cons_self _ _)) hu
      obtain ⟨st2, h2⟩ := (ih _ st1 (p1 st1 hc) hwf2).2
        (fun c2 h2 => hconv c2 (List.mem_cons_of_mem _ h2)) hu1
      refine ⟨st2, ?_⟩
      simp only [runCalls, hc]
      exact h2

end ArnoldLight

namespace ArnoldLightFilter

theorem filter_call_step (ext : External) (name : String) (recent : Option ObjectCall)
    (lightFilter : ArnoldLightFilter) (s : Scene) (c : ObjectCall) (hwf : c.WellFormed) :
    Invariant ext name recent (lightFilter, s) →
    (∀ st2, call ext lightFilter s c = .returned st2 →
      Invariant ext name (c.after recent) st2 ∧
      ∀ l, (assocFind s.connections.m_connections l).isSome = true →
        (assocFind st2.2.connections.m_connections l).isSome = true) ∧
    (c.Converts ext (fun a => a.m_lightFilterShader) ("lightFilter:" ++ name ++ ":") →
      c.LightsKnown s.connections.m_connections →
      UniformTimes ext lightFilter.m_transformTimes →
      ∃ st2, call ext lightFilter s c = .returned st2 ∧
        UniformTimes ext st2.1.m_transformTimes) := by
  intro hinv
  cases c with
  | transform m =>
    obtain ⟨p1, p2⟩ := filter_transform_step ext name recent lightFilter s m hinv
    refine ⟨fun st2 h => ⟨p1 st2 h, ?_⟩, fun _ _ _ => p2⟩
    obtain ⟨u2, _, rfl⟩ := Outcome.map_eq_returned _ _ _ h
    exact fun l hl => hl
  | transformSamples samples times =>
    obtain ⟨p1, p2⟩ := filter_transformSamples_step ext name recent lightFilter s samples times
      hwf.1 hwf.2 hinv
    refine ⟨fun st2 h => ⟨p1 st2 h, ?_⟩, fun hc _ _ => p2 hc⟩
    have h2 : lightFilter.transformSamples ext samples times s = .returned st2 := h
    unfold ArnoldLightFilter.transformSamples at h2
    cases ho : lightFilter.object.transformSamples ext samples times s.world.ai with
    | undefined => simp [ho] at h2
    | raised what u => simp [ho] at h2
    | returned u1 =>
      simp only [ho] at h2
      obtain ⟨u2, _, rfl⟩ := Outcome.map_eq_returned _ _ _ h2
      exact fun l hl => hl
  | attributes a =>
    obtain ⟨p1, p2⟩ := filter_attributes_step ext name recent lightFilter s a hinv
    constructor
    · intro st2 h
      obtain ⟨r, hr, rfl⟩ := Outcome.map_eq_returned _ _ _ h
      exact ⟨(p1 r hr).1, (p1 r hr).2.2⟩
    · intro hc hk hu
      obtain ⟨r, hr⟩ := p2 hc hk hu
      refine ⟨r.2, ?_, ?_⟩
      · show Outcome.map _ (lightFilter.attributes ext a s) = _
        rw [hr]
        rfl
      · rw [(p1 r hr).2.1]
        exact hu

theorem filter_runCalls (ext : External) (name : String) (calls : List ObjectCall) :
    ∀ (recent : Option ObjectCall) (st : ArnoldLightFilter × Scene),
      Invariant ext name recent st → (∀ c ∈ calls, c.WellFormed) →
      (∀ st2, runCalls ext calls st = .returned st2 →
        Invariant ext name (mostRecentTransform calls recent) st2) ∧
      ((∀ c ∈ calls,
          c.Converts ext (fun a => a.m_lightFilterShader) ("lightFilter:" ++ name ++ ":")) →
        (∀ c ∈ calls, c.LightsKnown st.2.connections.m_connections) →
        UniformTimes ext st.1.m_transformTimes →
        ∃ st2, runCalls ext calls st = .returned st2) := by
  induction calls with
  | nil =>
    intro recent st hinv _
    refine ⟨?_, fun _ _ _ => ⟨st, rfl⟩⟩
    intro st2 h
    simp only [runCalls, Outcome.returned.injEq] at h
    subst h
    exact hinv
  | cons c rest ih =>
    intro recent st hinv hwf
    obtain ⟨p1, p2⟩ := filter_call_step ext name recent st.1 st.2 c
      (hwf c (List.mem_cons_self _ _)) hinv
    have hwf2 : ∀ c2 ∈ rest, c2.WellFormed := fun c2 h2 => hwf c2 (List.mem_cons_of_mem _ h2)
    constructor
    · intro st2 h
      rw [mostRecentTransform_cons]
      simp only [runCalls] at h
      cases hc : call ext st.1 st.2 c with
      | undefined => simp [hc] at h
      | raised what x => simp [hc] at h
      | returned st1 =>
        simp only [hc] at h
        exact (ih _ st1 (p1 st1 hc).1 hwf2).1 st2 h
    · intro hconv hknown hu
      obtain ⟨st1, hc, hu1⟩ := p2 (hconv c (List.mem_cons_self _ _))
        (hknown c (List.mem_cons_self _ _)) hu
      obtain ⟨st2, h2⟩ := (ih _ st1 (p1 st1 hc).1 hwf2).2
        (fun c2 h2 => hconv c2 (List.mem_cons_of_mem _ h2))
        (fun c2 h2 => ObjectCall.lightsKnown_mono c2 _ _
          (hknown c2 (List.mem_cons_of_mem _ h2)) (p1 st1 hc).2) hu1
      refine ⟨st2, ?_⟩
      simp only [runCalls, hc]
      exact h2

end ArnoldLightFilter

/-- C24: a light and a light filter are made and given any sequence of calls of
`transform( transform )`, `transform( samples, times )` (each with at least one sample
and one time) and `attributes`, on a proxy whose node, if any, is an address the universe
has given out. Whenever the calls return, the object has stored the most recent
transform, and when it has a shader the root of the shader is a live node that carries
that transform under `matrix` (light) or `geometry_matrix` (light filter): the matrix of
a single transform, or the samples of a time-sampled one with its first time as
`motion_start` and its last as `motion_end`, whichever of the transform and the shader
came first; when no transform has been received these parameters of the root are as
the shader converter made them. The write is behind a guard: with no shader or no
stored transform `applyLightTransform` and `applyLightFilterTransform` return the
universe as it is. The calls do return when the external check finds the times uniform,
the shader converter makes at least one node for every shader network submitted and,
for the filter, the lights it is registered for are in the light table. -/
theorem c24_deferred_transform (ext : External) (address : Nat) (name : String)
    (inst : Instance) (nodeDeleter : NodeDeleter) (s : Scene) (calls : List ObjectCall)
    (hinst : ∀ node, inst.node = some node → node < s.world.ai.next)
    (hwf : ∀ c ∈ calls, c.WellFormed) :
    (∀ light s2,
      ArnoldLight.runCalls ext calls (ArnoldLight.new address name inst nodeDeleter, s) =
        .returned (light, s2) →
      Stored light.m_transformMatrices light.m_transformTimes (mostRecentTransform calls none) ∧
      RootCarries ext s2.world.ai light.object.m_instance.node light.m_lightShader
        (light.object.m_attributes.bind (fun a => a.m_lightShader)) ("light:" ++ name ++ ":")
        "matrix" (mostRecentTransform calls none)) ∧
    (∀ (light : ArnoldLight) (u : AtUniverse),
      light.m_lightShader = none ∨ light.m_transformMatrices = [] →
      light.applyLightTransform ext u = .returned u) ∧
    ((∀ c ∈ calls, c.Converts ext (fun a => a.m_lightShader) ("light:" ++ name ++ ":")) →
      ∃ st, ArnoldLight.runCalls ext calls
        (ArnoldLight.new address name inst nodeDeleter, s) = .returned st) ∧
    (∀ lightFilter s2,
      ArnoldLightFilter.runCalls ext calls
          (ArnoldLightFilter.new address name inst nodeDeleter, s) =
        .returned (lightFilter, s2) →
      Stored lightFilter.m_transformMatrices lightFilter.m_transformTimes
        (mostRecentTransform calls none) ∧
      RootCarries ext s2.world.ai lightFilter.object.m_instance.node
        lightFilter.m_lightFilterShader
        (lightFilter.object.m_attributes.bind (fun a => a.m_lightFilterShader))
        ("lightFilter:" ++ name ++ ":") "geometry_matrix" (mostRecentTransform calls none)) ∧
    (∀ (lightFilter : ArnoldLightFilter) (u : AtUniverse),
      lightFilter.m_lightFilterShader = none ∨ lightFilter.m_transformMatrices = [] →
      lightFilter.applyLightFilterTransform ext u = .returned u) ∧
    ((∀ c ∈ calls,
        c.Converts ext (fun a => a.m_lightFilterShader) ("lightFilter:" ++ name ++ ":")) →
      (∀ c ∈ calls, c.LightsKnown s.connections.m_connections) →
      ∃ st, ArnoldLightFilter.runCalls ext calls
        (ArnoldLightFilter.new address name inst nodeDeleter, s) = .returned st) := by
  have hl : ArnoldLight.Invariant ext name none
      (ArnoldLight.new address name inst nodeDeleter, s) :=
    ⟨rfl, rfl, hinst, fun sh hsh => by cases hsh⟩
  have hf : ArnoldLightFilter.Invariant ext name none
      (ArnoldLightFilter.new address name inst nodeDeleter, s) :=
    ⟨rfl, rfl, hinst, fun sh hsh => by cases hsh⟩
  obtain ⟨l1, l2⟩ := ArnoldLight.light_runCalls ext name calls none _ hl hwf
  obtain ⟨f1, f2⟩ := ArnoldLightFilter.filter_runCalls ext name calls none _ hf hwf
  refine ⟨?_, ?_, ?_, ?_, ?_, ?_⟩
  · intro light s2 h
    obtain ⟨_, hst, _, hroot⟩ := l1 _ h
    exact ⟨hst, hroot⟩
  · intro light u h
    exact applyShaderTransform_guard ext _ _ _ _ u h
  · intro hconv
    exact l2 hconv (fun h => absurd rfl h)
  · intro lightFilter s2 h
    obtain ⟨_, hst, _, hroot⟩ := f1 _ h
    exact ⟨hst, hroot⟩
  · intro lightFilter u h
    exact applyShaderTransform_guard ext _ _ _ _ u h
  · intro hconv hknown
    exact f2 hconv hknown (fun h => absurd rfl h)


/-- C24 (witness): a light and a light filter named "key" on the proxy of the node at
address 1, given a transform, then the bundle with their shaders, then a time-sampled
transform: the calls are well formed and both runs return. -/
theorem c24_deferred_transform_witness :
    (∀ node, (Instance.nonInstanced (some 1)).node = some node →
      node < filterScene.world.ai.next) ∧
    (∀ c ∈ transformFirstCalls, c.WellFormed) ∧
    (∃ st, ArnoldLight.runCalls sampleExternal transformFirstCalls
      (ArnoldLight.new 1 "key" (Instance.nonInstanced (some 1)) .AiNodeDestroy, filterScene) =
        .returned st) ∧
    (∃ st, ArnoldLightFilter.runCalls sampleExternal transformFirstCalls
      (ArnoldLightFilter.new 1 "key" (Instance.nonInstanced (some 1)) .AiNodeDestroy,
        filterScene) = .returned st) :=
  have h1 : ∀ node, (Instance.nonInstanced (some 1)).node = some node →
      node < filterScene.world.ai.next := by
    intro node h
    simp only [Instance.nonInstanced, Instance.node, Option.some.injEq] at h
    subst h
    decide
  have h2 : ∀ c ∈ transformFirstCalls, c.WellFormed := by decide
  ⟨h1, h2,
    (c24_deferred_transform sampleExternal 1 "key" (Instance.nonInstanced (some 1))
      .AiNodeDestroy filterScene transformFirstCalls h1 h2).2.2.1
      (by
        intro c _
        cases c <;> simp [ObjectCall.Converts, sampleExternal]),
    (c24_deferred_transform sampleExternal 1 "key" (Instance.nonInstanced (some 1))
      .AiNodeDestroy filterScene transformFirstCalls h1 h2).2.2.2.2.2
      (by
        intro c _
        cases c <;> simp [ObjectCall.Converts, sampleExternal])
      (by
        intro c hc
        simp only [transformFirstCalls, List.mem_cons, List.mem_singleton,
          List.not_mem_nil, or_false] at hc
        rcases hc with rfl | rfl | rfl
        · trivial
        · intro d hd l hl
          simp only [lightAndFilterBundle, filterBundleP, Option.some.injEq] at hd
          subst hd
          simp only [List.mem_singleton] at hl
          subst hl
          decide
        · trivial)⟩

end GafferArnold
